import Mathlib

/-!
# PVT epoch processor (`rtklib_pvt_gs.cc`): shallow embedding and checked properties

Conventions of the embedding

* `double` values are exact rationals (`ℚ`); every finite `double` is a rational, and the
  arithmetic is carried out without rounding.
* `std::map<int, Gnss_Synchro>` is an association list whose keys are kept in strictly
  increasing order (`ObsMap.WF`), the iteration order of `std::map`.  The operations are
  total on arbitrary lists; the theorems that need the ordering assume `ObsMap.WF`.
* Operations with undefined behaviour or an escaping exception in C++ (dereferencing
  `cbegin()` of an empty map, `vector::at` out of range, integer `%` by zero, an
  out-of-range `double` to `uint32_t` conversion) return `none`.
* Constants and the enumeration `StringValue_` come from headers that are not part of the
  sources at hand; they are collected in `Consts` and every theorem quantifies over them.
* The position solver (`Rtklib_Solver`) is a collaborator whose code is elsewhere: its
  private state is a type parameter `σ` and its three methods used by `work` are the fields
  of `SolverOps σ`.  With the clock correction disabled `d_user_pvt_solver` and
  `d_internal_pvt_solver` are the same object (`user_solver`, `set_user_core`).
* One iteration of the loop of `work` is `work_epoch`: a function from the block state and
  the input items of the epoch to the state after it, the local flags and the list of
  outward effects (`Event`) in program order.  Calls into printers, file writers and the
  message-queue helpers are recorded as events where a property speaks of them and are
  taken to return normally; of the dispatch of the RINEX and RTCM writers in `work` only the
  assignment of `d_rinex_header_written` is modelled (see `call`).
* The function `msg_handler_telemetry` of the source is `msg_handler_telemetry` on the five
  kinds of ephemeris message and `msg_handler_telemetry_all` on every kind; the calls of `log_rinex_nav` are returned as a
  list of `Nav_log`.  The navigation records other than ephemerides are copied and never read
  by this file, so their content is an uninterpreted value (`Record_content`).  The member
  `d_rinex_header_written` is a parameter of the handler.
* The block as a whole is `Pvt_gs`: the members of `State` and `d_rinex_header_written`, which
  only the region "RINEX FILES" of `work` sets (`rinex_header_block`); the printer `d_rp` is
  fixed by the constructor (`d_rp`).  The member functions that change the block are the
  constructors of `Call`; `call` is one of them applied to the block and `run` a sequence.
-/

namespace rtklib_pvt_gs

/-! ## Declarations taken from headers -/

/-- Enumeration `StringValue_` used as the value type of `d_mapStringValues`; these are the
enumerators named in `rtklib_pvt_gs.cc`. -/
inductive StringValue_ where
  | evGPS_1C
  | evGPS_2S
  | evGPS_L5
  | evSBAS_1C
  | evGAL_1B
  | evGAL_5X
  | evGLO_1G
  | evGLO_2G
  | evBDS_B1
  | evBDS_B2
  | evBDS_B3
  deriving DecidableEq, Repr

/-- Constants of the GNSS headers (`SPEED_OF_LIGHT_M_S`, `TWO_PI`, carrier frequencies) and the
enumerator of `StringValue_` whose numeric value is 0, which is what
`std::map::operator[]` stores and returns for a key that is not yet in the map. -/
structure Consts where
  SPEED_OF_LIGHT_M_S : ℚ
  TWO_PI : ℚ
  FREQ1 : ℚ
  FREQ2 : ℚ
  FREQ5 : ℚ
  FREQ1_GLO : ℚ
  FREQ2_GLO : ℚ
  FREQ1_BDS : ℚ
  FREQ2_BDS : ℚ
  FREQ3_BDS : ℚ
  StringValue_zero : StringValue_

/-- A concrete instance used for evaluation: the usual GNSS values (frequencies in Hz, the
`double` nearest to 2π written as a decimal) with `evGPS_1C` as the first enumerator. -/
def gnssConsts : Consts where
  SPEED_OF_LIGHT_M_S := 299792458
  TWO_PI := 6.283185307179586
  FREQ1 := 1575420000
  FREQ2 := 1227600000
  FREQ5 := 1176450000
  FREQ1_GLO := 1602000000
  FREQ2_GLO := 1246000000
  FREQ1_BDS := 1561098000
  FREQ2_BDS := 1207140000
  FREQ3_BDS := 1268520000
  StringValue_zero := StringValue_.evGPS_1C

/-! ## Observables and observable maps -/

/-- The fields of `Gnss_Synchro` that `rtklib_pvt_gs.cc` reads or writes. -/
structure Gnss_Synchro where
  PRN : Nat
  Signal : String
  Channel_ID : Int
  RX_time : ℚ
  Pseudorange_m : ℚ
  Carrier_phase_rads : ℚ
  Carrier_Doppler_hz : ℚ
  Flag_valid_pseudorange : Bool
  deriving DecidableEq, Repr

/-- A valid observable with the given PRN, signal code, channel, receiver time, pseudorange
and carrier phase, and zero Doppler (sample data for evaluations). -/
def sample_obs (prn : Nat) (code : String) (ch : Int) (t p ph : ℚ) : Gnss_Synchro where
  PRN := prn
  Signal := code
  Channel_ID := ch
  RX_time := t
  Pseudorange_m := p
  Carrier_phase_rads := ph
  Carrier_Doppler_hz := 0
  Flag_valid_pseudorange := true

/-- Observable map `std::map<int, Gnss_Synchro>`, listed in key order. -/
abbrev ObsMap := List (Int × Gnss_Synchro)

namespace ObsMap

/-- Keys of the map in iteration order. -/
def keys (m : ObsMap) : List Int := m.map Prod.fst

/-- Invariant of `std::map`: the keys are strictly increasing (hence unique). -/
def WF (m : ObsMap) : Prop := (keys m).Pairwise (· < ·)

/-- Lookup `std::map::at`: `none` stands for `std::out_of_range`. -/
def «at» (m : ObsMap) (k : Int) : Option Gnss_Synchro :=
  match m with
  | [] => none
  | (k', v) :: rest => if k = k' then some v else «at» rest k

/-- Insertion `std::map::insert`: puts the pair at its place in key order; an existing key
is left untouched. -/
def insert (m : ObsMap) (k : Int) (v : Gnss_Synchro) : ObsMap :=
  match m with
  | [] => [(k, v)]
  | (k', v') :: rest =>
    if k < k' then (k, v) :: (k', v') :: rest
    else if k = k' then (k', v') :: rest
    else (k', v') :: insert rest k v

/-- Assignment through `m.at(k)`: rewrites the value stored under `k`. -/
def modify (m : ObsMap) (k : Int) (f : Gnss_Synchro → Gnss_Synchro) : ObsMap :=
  match m with
  | [] => []
  | (k', v) :: rest => if k = k' then (k', f v) :: rest else (k', v) :: modify rest k f

end ObsMap

/-! ## The signal-code table `d_mapStringValues` -/

/-- Contents of `d_mapStringValues` as registered by the constructor. -/
def d_mapStringValues_ctor : List (String × StringValue_) :=
  [("1C", StringValue_.evGPS_1C), ("2S", StringValue_.evGPS_2S), ("L5", StringValue_.evGPS_L5),
   ("1B", StringValue_.evGAL_1B), ("5X", StringValue_.evGAL_5X), ("1G", StringValue_.evGLO_1G),
   ("2G", StringValue_.evGLO_2G), ("B1", StringValue_.evBDS_B1), ("B2", StringValue_.evBDS_B2),
   ("B3", StringValue_.evBDS_B3)]

/-- Indexing `d_mapStringValues[code]` (`std::map::operator[]`): the stored enumerator, or, for
a code that is not in the table, the zero enumerator, which is then stored under that code.
Returns the enumerator and the table afterwards. -/
def mapStringValues_index (D : Consts) (tbl : List (String × StringValue_)) (code : String) :
    StringValue_ × List (String × StringValue_) :=
  match tbl.lookup code with
  | some v => (v, tbl)
  | none => (D.StringValue_zero, tbl ++ [(code, D.StringValue_zero)])

/-- Carrier frequency selected by the `switch` of `apply_rx_clock_offset` and
`initialize_and_apply_carrier_phase_offset`; every enumerator has a `case` label. -/
def switch_frequency (D : Consts) : StringValue_ → ℚ
  | .evGPS_1C => D.FREQ1
  | .evSBAS_1C => D.FREQ1
  | .evGAL_1B => D.FREQ1
  | .evGPS_L5 => D.FREQ5
  | .evGAL_5X => D.FREQ5
  | .evGPS_2S => D.FREQ2
  | .evBDS_B3 => D.FREQ3_BDS
  | .evGLO_1G => D.FREQ1_GLO
  | .evGLO_2G => D.FREQ2_GLO
  | .evBDS_B1 => D.FREQ1_BDS
  | .evBDS_B2 => D.FREQ2_BDS

/-! ## `apply_rx_clock_offset` -/

/-- Body of the loop of `apply_rx_clock_offset` for one observable. -/
def apply_rx_clock_offset_one (D : Consts) (rx_clock_offset_s : ℚ) (ev : StringValue_)
    (o : Gnss_Synchro) : Gnss_Synchro :=
  let o1 := { o with RX_time := o.RX_time - rx_clock_offset_s }
  let o2 := { o1 with Pseudorange_m := o1.Pseudorange_m - rx_clock_offset_s * D.SPEED_OF_LIGHT_M_S }
  match ev with
  | .evGPS_1C | .evSBAS_1C | .evGAL_1B =>
    { o2 with Carrier_phase_rads := o2.Carrier_phase_rads - rx_clock_offset_s * D.FREQ1 * D.TWO_PI }
  | .evGPS_L5 | .evGAL_5X =>
    { o2 with Carrier_phase_rads := o2.Carrier_phase_rads - rx_clock_offset_s * D.FREQ5 * D.TWO_PI }
  | .evGPS_2S =>
    { o2 with Carrier_phase_rads := o2.Carrier_phase_rads - rx_clock_offset_s * D.FREQ2 * D.TWO_PI }
  | .evBDS_B3 =>
    { o2 with Carrier_phase_rads := o2.Carrier_phase_rads - rx_clock_offset_s * D.FREQ3_BDS * D.TWO_PI }
  | .evGLO_1G =>
    { o2 with Carrier_phase_rads := o2.Carrier_phase_rads - rx_clock_offset_s * D.FREQ1_GLO * D.TWO_PI }
  | .evGLO_2G =>
    { o2 with Carrier_phase_rads := o2.Carrier_phase_rads - rx_clock_offset_s * D.FREQ2_GLO * D.TWO_PI }
  | .evBDS_B1 =>
    { o2 with Carrier_phase_rads := o2.Carrier_phase_rads - rx_clock_offset_s * D.FREQ1_BDS * D.TWO_PI }
  | .evBDS_B2 =>
    { o2 with Carrier_phase_rads := o2.Carrier_phase_rads - rx_clock_offset_s * D.FREQ2_BDS * D.TWO_PI }

/-- Function `apply_rx_clock_offset(observables_map, rx_clock_offset_s)`: walks the map in key
order; returns the corrected map and `d_mapStringValues` as left by the lookups. -/
def apply_rx_clock_offset (D : Consts) (tbl : List (String × StringValue_))
    (observables_map : ObsMap) (rx_clock_offset_s : ℚ) :
    ObsMap × List (String × StringValue_) :=
  match observables_map with
  | [] => ([], tbl)
  | (k, o) :: rest =>
    let (ev, tbl1) := mapStringValues_index D tbl o.Signal
    let (rest1, tbl2) := apply_rx_clock_offset D tbl1 rest rx_clock_offset_s
    ((k, apply_rx_clock_offset_one D rx_clock_offset_s ev o) :: rest1, tbl2)

/-- Enumerator that `d_mapStringValues[code]` evaluates to. -/
def signal_value (D : Consts) (tbl : List (String × StringValue_)) (code : String) :
    StringValue_ :=
  (tbl.lookup code).getD D.StringValue_zero

/-- Table of the specification (section 4.3): carrier frequency of a recognised signal code. -/
def spec_signal_frequency (D : Consts) (code : String) : Option ℚ :=
  if code = "1C" ∨ code = "1B" then some D.FREQ1
  else if code = "L5" ∨ code = "5X" then some D.FREQ5
  else if code = "2S" then some D.FREQ2
  else if code = "1G" then some D.FREQ1_GLO
  else if code = "2G" then some D.FREQ2_GLO
  else if code = "B1" then some D.FREQ1_BDS
  else if code = "B2" then some D.FREQ2_BDS
  else if code = "B3" then some D.FREQ3_BDS
  else none

/-! ## `interpolate_observables` -/

/-- Time factor of `interpolate_observables`, from the receiver times `T0`, `T1` of the first
entries of the two snapshots; the second branch is the one commented "TOW rollover
situation". -/
def time_factor (T0 T1 rx_time_s : ℚ) : ℚ :=
  if T1 - T0 > 0 then (rx_time_s - T0) / (T1 - T0)
  else (604800000 + rx_time_s - T0) / (604800000 + T1 - T0)

/-- Entry stored by `interpolate_observables` for a channel present in both snapshots with the
same PRN: the copy of the `t0` observable with the receiver time set to the interpolation
point and the three measurements moved towards `t1`. -/
def interpolate_entry (factor rx_time_s : ℚ) (o0 o1 : Gnss_Synchro) : Gnss_Synchro :=
  let a := { o0 with RX_time := rx_time_s }
  let b := { a with Pseudorange_m := a.Pseudorange_m + (o1.Pseudorange_m - o0.Pseudorange_m) * factor }
  let c := { b with Carrier_phase_rads :=
    b.Carrier_phase_rads + (o1.Carrier_phase_rads - o0.Carrier_phase_rads) * factor }
  { c with Carrier_Doppler_hz :=
    c.Carrier_Doppler_hz + (o1.Carrier_Doppler_hz - o0.Carrier_Doppler_hz) * factor }

/-- Body of the loop of `interpolate_observables` for the entry `(k, o0)` of `t0`; `acc` is
`interp_observables_map`.  A miss of `observables_map_t1.at(k)` is the caught
`std::out_of_range`. -/
def interpolate_step (t1 : ObsMap) (factor rx_time_s : ℚ) (acc : ObsMap)
    (e : Int × Gnss_Synchro) : ObsMap :=
  match ObsMap.at t1 e.1 with
  | none => acc
  | some o1 =>
    if o1.PRN = e.2.PRN then
      let acc1 := ObsMap.insert acc e.1 e.2
      let acc2 := ObsMap.modify acc1 e.1 (fun x => { x with RX_time := rx_time_s })
      let acc3 := ObsMap.modify acc2 e.1 (fun x => { x with Pseudorange_m :=
        x.Pseudorange_m + (o1.Pseudorange_m - e.2.Pseudorange_m) * factor })
      let acc4 := ObsMap.modify acc3 e.1 (fun x => { x with Carrier_phase_rads :=
        x.Carrier_phase_rads + (o1.Carrier_phase_rads - e.2.Carrier_phase_rads) * factor })
      ObsMap.modify acc4 e.1 (fun x => { x with Carrier_Doppler_hz :=
        x.Carrier_Doppler_hz + (o1.Carrier_Doppler_hz - e.2.Carrier_Doppler_hz) * factor })
    else acc

/-- Function `interpolate_observables(observables_map_t0, observables_map_t1, rx_time_s)`.
`none` when one of the snapshots is empty (`cbegin()` is then dereferenced past the end). -/
def interpolate_observables (observables_map_t0 observables_map_t1 : ObsMap) (rx_time_s : ℚ) :
    Option ObsMap :=
  match observables_map_t0, observables_map_t1 with
  | (_, f0) :: _, (_, f1) :: _ =>
    some (observables_map_t0.foldl
      (interpolate_step observables_map_t1 (time_factor f0.RX_time f1.RX_time rx_time_s) rx_time_s)
      [])
  | _, _ => none

/-- What the loop of `interpolate_observables` contributes for one entry of `t0`: the
interpolated entry under the same key when `t1` holds the key with the same PRN, nothing
otherwise. -/
def interpolate_filter (t1 : ObsMap) (factor rx_time_s : ℚ) (e : Int × Gnss_Synchro) :
    Option (Int × Gnss_Synchro) :=
  match ObsMap.at t1 e.1 with
  | none => none
  | some o1 => if o1.PRN = e.2.PRN then some (e.1, interpolate_entry factor rx_time_s e.2 o1) else none

/-! ## C arithmetic used by `work` and the carrier-phase tracker -/

/-- Conversion `static_cast<uint32_t>(x)` of a `double`: truncation towards zero; `none` when
the truncated value is not representable in 32 bits (undefined behaviour). -/
def static_cast_uint32 (x : ℚ) : Option Nat :=
  let t : Int := if 0 ≤ x then ⌊x⌋ else ⌈x⌉
  if 0 ≤ t ∧ t < 4294967296 then some t.toNat else none

/-- Remainder `a % b` on `uint32_t`; `none` for a zero divisor (undefined behaviour). -/
def uint32_mod (a b : Nat) : Option Nat :=
  if b = 0 then none else some (a % b)

/-- Conversion of a `uint32_t` PRN to the `int` key of an ephemeris map. -/
def to_int32 (n : Nat) : Int :=
  if n % 4294967296 < 2147483648 then ((n % 4294967296 : Nat) : Int)
  else ((n % 4294967296 : Nat) : Int) - 4294967296

/-- C library `round`: nearest integer, halfway cases away from zero. -/
def c_round (x : ℚ) : Int :=
  if 0 ≤ x then ⌊x + 1 / 2⌋ else ⌈x - 1 / 2⌉

/-- C library `fmod(x, y)` for `y ≠ 0`: `x - n * y` with `n` the quotient `x / y` truncated
towards zero, so the result has the sign of `x`. -/
def c_fmod (x y : ℚ) : ℚ :=
  let q := x / y
  let n : Int := if 0 ≤ q then ⌊q⌋ else ⌈q⌉
  x - n * y

/-- Access `v.at(i)` for reading, with `i` an `int` converted to `size_t`; `none` stands for
the `std::out_of_range` exception. -/
def vector_at {α : Type} (v : List α) (i : Int) : Option α :=
  if 0 ≤ i then v[i.toNat]? else none

/-- Assignment `v.at(i) = x`; `none` stands for the `std::out_of_range` exception. -/
def vector_set {α : Type} (v : List α) (i : Int) (x : α) : Option (List α) :=
  if 0 ≤ i ∧ i.toNat < v.length then some (v.set i.toNat x) else none

/-! ## `initialize_and_apply_carrier_phase_offset` -/

/-- Wavelength selected by the `switch` of `initialize_and_apply_carrier_phase_offset`. -/
def switch_wavelength (D : Consts) : StringValue_ → ℚ
  | .evGPS_1C | .evSBAS_1C | .evGAL_1B => D.SPEED_OF_LIGHT_M_S / D.FREQ1
  | .evGPS_L5 | .evGAL_5X => D.SPEED_OF_LIGHT_M_S / D.FREQ5
  | .evGPS_2S => D.SPEED_OF_LIGHT_M_S / D.FREQ2
  | .evBDS_B3 => D.SPEED_OF_LIGHT_M_S / D.FREQ3_BDS
  | .evGLO_1G => D.SPEED_OF_LIGHT_M_S / D.FREQ1_GLO
  | .evGLO_2G => D.SPEED_OF_LIGHT_M_S / D.FREQ2_GLO
  | .evBDS_B1 => D.SPEED_OF_LIGHT_M_S / D.FREQ1_BDS
  | .evBDS_B2 => D.SPEED_OF_LIGHT_M_S / D.FREQ2_BDS

/-- Members read and written by `initialize_and_apply_carrier_phase_offset` besides the
observable map. -/
structure PhaseState where
  d_channel_initialized : List Bool
  d_initial_carrier_phase_offset_estimation_rads : List ℚ
  d_mapStringValues : List (String × StringValue_)

/-- Body of `if (d_channel_initialized.at(Channel_ID) == false)`: the wavelength of the
signal code, the phase offset `2π·round(Pseudorange / wavelength) - CarrierPhase +
fmod(CarrierPhase, 2π)` stored for the channel, and the flag set to `true`. -/
def initialize_channel (D : Consts) (ps : PhaseState) (o : Gnss_Synchro) : Option PhaseState :=
  let ev_tbl := mapStringValues_index D ps.d_mapStringValues o.Signal
  let wavelength_m := switch_wavelength D ev_tbl.1
  let wrap_carrier_phase_rad := c_fmod o.Carrier_phase_rads D.TWO_PI
  match vector_set ps.d_initial_carrier_phase_offset_estimation_rads o.Channel_ID
      (D.TWO_PI * (c_round (o.Pseudorange_m / wavelength_m) : ℚ) - o.Carrier_phase_rads +
        wrap_carrier_phase_rad) with
  | none => none
  | some offs =>
    match vector_set ps.d_channel_initialized o.Channel_ID true with
    | none => none
    | some flags =>
      some { d_channel_initialized := flags,
             d_initial_carrier_phase_offset_estimation_rads := offs,
             d_mapStringValues := ev_tbl.2 }

/-- Body of the loop of `initialize_and_apply_carrier_phase_offset` for one observable: the
offset of its channel is estimated when the channel is not initialised, then added to the
carrier phase. -/
def initialize_and_apply_one (D : Consts) (ps : PhaseState) (o : Gnss_Synchro) :
    Option (Gnss_Synchro × PhaseState) :=
  match vector_at ps.d_channel_initialized o.Channel_ID with
  | none => none
  | some initialized =>
    match (if initialized = false then initialize_channel D ps o else some ps) with
    | none => none
    | some ps1 =>
      match vector_at ps1.d_initial_carrier_phase_offset_estimation_rads o.Channel_ID with
      | none => none
      | some off => some ({ o with Carrier_phase_rads := o.Carrier_phase_rads + off }, ps1)

/-- Function `initialize_and_apply_carrier_phase_offset()` on `d_gnss_observables_map`, in key
order. -/
def initialize_and_apply_carrier_phase_offset (D : Consts) (ps : PhaseState) (m : ObsMap) :
    Option (ObsMap × PhaseState) :=
  match m with
  | [] => some ([], ps)
  | (k, o) :: rest =>
    match initialize_and_apply_one D ps o with
    | none => none
    | some (o1, ps1) =>
      match initialize_and_apply_carrier_phase_offset D ps1 rest with
      | none => none
      | some (rest1, ps2) => some ((k, o1) :: rest1, ps2)

/-! ## Solvers, configuration and state of the block -/

/-- GPS legacy ephemeris: the fields used by `rtklib_pvt_gs.cc`. -/
structure Gps_Ephemeris where
  i_satellite_PRN : Nat
  d_Toe : ℚ
  deriving DecidableEq, Repr

/-- Galileo ephemeris: the fields used by `rtklib_pvt_gs.cc`. -/
structure Galileo_Ephemeris where
  i_satellite_PRN : Nat
  t0e_1 : ℚ
  deriving DecidableEq, Repr

/-- GPS CNAV ephemeris: the fields used by `rtklib_pvt_gs.cc`. -/
structure Gps_CNAV_Ephemeris where
  i_satellite_PRN : Nat
  d_Toe1 : ℚ
  deriving DecidableEq, Repr

/-- GLONASS GNAV ephemeris: the fields used by `rtklib_pvt_gs.cc`. -/
structure Glonass_Gnav_Ephemeris where
  i_satellite_PRN : Nat
  d_t_b : ℚ
  deriving DecidableEq, Repr

/-- BeiDou DNAV ephemeris: the fields used by `rtklib_pvt_gs.cc`. -/
structure Beidou_Dnav_Ephemeris where
  i_satellite_PRN : Nat
  d_Toc : ℚ
  deriving DecidableEq, Repr

/-- Content of a navigation record of which `rtklib_pvt_gs.cc` reads no field (ionosphere and
UTC models, the GLONASS almanac): the record is only copied, so its fields are kept as a list
of values. -/
structure Record_content where
  values : List ℚ
  deriving DecidableEq, Repr

/-- GPS almanac: the field used by `rtklib_pvt_gs.cc` and the rest of the record. -/
structure Gps_Almanac where
  i_satellite_PRN : Nat
  content : Record_content
  deriving DecidableEq, Repr

/-- Galileo almanac: the field used by `rtklib_pvt_gs.cc` and the rest of the record. -/
structure Galileo_Almanac where
  i_satellite_PRN : Nat
  content : Record_content
  deriving DecidableEq, Repr

/-- BeiDou DNAV almanac: the field used by `rtklib_pvt_gs.cc` and the rest of the record. -/
structure Beidou_Dnav_Almanac where
  i_satellite_PRN : Nat
  content : Record_content
  deriving DecidableEq, Repr

/-- A solver object (`Rtklib_Solver`): its public ephemeris maps, the other public navigation
records that `msg_handler_telemetry` and `clear_ephemeris` write (models, almanacs), and the
rest of its state, of an arbitrary type `σ`. -/
structure Rtklib_Solver (σ : Type) where
  gps_ephemeris_map : List (Int × Gps_Ephemeris)
  galileo_ephemeris_map : List (Int × Galileo_Ephemeris)
  gps_cnav_ephemeris_map : List (Int × Gps_CNAV_Ephemeris)
  glonass_gnav_ephemeris_map : List (Int × Glonass_Gnav_Ephemeris)
  beidou_dnav_ephemeris_map : List (Int × Beidou_Dnav_Ephemeris)
  gps_iono : Record_content
  gps_utc_model : Record_content
  gps_cnav_iono : Record_content
  gps_cnav_utc_model : Record_content
  gps_almanac_map : List (Int × Gps_Almanac)
  galileo_iono : Record_content
  galileo_utc_model : Record_content
  galileo_almanac_map : List (Int × Galileo_Almanac)
  glonass_gnav_utc_model : Record_content
  glonass_gnav_almanac : Record_content
  beidou_dnav_iono : Record_content
  beidou_dnav_utc_model : Record_content
  beidou_dnav_almanac_map : List (Int × Beidou_Dnav_Almanac)
  core : σ

/-- Member functions of the solver (an external collaborator) called by `work`: `get_PVT`
returns its result and the solver state afterwards; the other two are getters. -/
structure SolverOps (σ : Type) where
  get_PVT : Rtklib_Solver σ → ObsMap → Bool → Bool × σ
  get_time_offset_s : σ → ℚ
  is_valid_position : σ → Bool

/-- Members fixed by the constructor. Rates are the values as converted to `uint32_t` in the
expressions `current_RX_time_ms % rate`; `d_type_of_rx` and `d_rinex_version` are the `int32_t`
receiver type and RINEX version read by `msg_handler_telemetry`; `d_rinex_output_enabled`
decides whether the constructor creates the RINEX printer `d_rp`. -/
structure Config where
  d_nchannels : Nat
  d_max_obs_block_rx_clock_offset_ms : Int
  d_output_rate_ms : Nat
  d_display_rate_ms : Nat
  d_rtcm_MT1019_rate_ms : Nat
  d_rtcm_MT1020_rate_ms : Nat
  d_rtcm_MT1045_rate_ms : Nat
  d_rtcm_MSM_rate_ms : Nat
  d_rinexobs_rate_ms : Nat
  d_kml_rate_ms : Nat
  d_gpx_rate_ms : Nat
  d_geojson_rate_ms : Nat
  d_nmea_rate_ms : Nat
  d_kml_output_enabled : Bool
  d_gpx_output_enabled : Bool
  d_geojson_output_enabled : Bool
  d_nmea_output_file_enabled : Bool
  d_rtcm_enabled : Bool
  d_enable_rx_clock_correction : Bool
  d_flag_monitor_pvt_enabled : Bool
  d_PPS_correction : Bool
  d_PPS_estimator_selected : Bool
  d_PPS_Kp : ℚ
  d_PPS_Ki : ℚ
  d_type_of_rx : Int
  d_rinex_version : Int
  d_rinex_output_enabled : Bool

/-- Member `d_report_rate_ms`, set to 1000 by the constructor. -/
def d_report_rate_ms : Nat := 1000

/-- Members of the block that change while it runs. `d_user_pvt_solver` is the second solver
object, which exists only when `d_enable_rx_clock_correction` is set; otherwise the pointer
`d_user_pvt_solver` designates the object `d_internal_pvt_solver` (see `user_solver`). -/
structure State (σ : Type) where
  d_internal_pvt_solver : Rtklib_Solver σ
  d_user_pvt_solver : Rtklib_Solver σ
  d_mapStringValues : List (String × StringValue_)
  d_gnss_observables_map : ObsMap
  d_gnss_observables_map_t0 : ObsMap
  d_gnss_observables_map_t1 : ObsMap
  d_channel_initialized : List Bool
  d_initial_carrier_phase_offset_estimation_rads : List ℚ
  d_waiting_obs_block_rx_clock_offset_correction_msg : Bool
  d_rx_time : ℚ
  d_first_fix : Bool
  d_pps_init_offset : ℚ
  d_pps_prev_error : ℚ
  d_pps_offset : ℚ
  d_estimator : ℚ
  d_estimator_prev : ℚ
  d_FREQU_correction : ℚ
  d_LO_external_frequ : ℚ
  d_LO_external_frequ_init : ℚ

/-- The object behind the pointer `d_user_pvt_solver`. -/
def user_solver {σ : Type} (C : Config) (s : State σ) : Rtklib_Solver σ :=
  if C.d_enable_rx_clock_correction then s.d_user_pvt_solver else s.d_internal_pvt_solver

/-- Stores the solver state left by a call through the pointer `d_user_pvt_solver`. -/
def set_user_core {σ : Type} (C : Config) (s : State σ) (c : σ) : State σ :=
  if C.d_enable_rx_clock_correction then
    { s with d_user_pvt_solver := { s.d_user_pvt_solver with core := c } }
  else
    { s with d_internal_pvt_solver := { s.d_internal_pvt_solver with core := c } }

/-- Ephemeris families whose lock time the RTCM printer tracks. -/
inductive LockFamily where
  | gps
  | galileo
  | gps_cnav
  | glonass_gnav
  deriving DecidableEq, Repr

/-- Calls that leave the block during one epoch of `work`, in program order. -/
inductive Event where
  | rtcm_lock_time (family : LockFamily) (channel : Nat)
  | get_PVT_internal
  | pub_pvt_to_observables (rx_clock_offset_s : ℚ)
  | get_PVT_user
  | send_sys_v_ttff_msg
  | kml_print_position
  | gpx_print_position
  | geojson_print_position
  | Print_Nmea_Line
  | vxi11_send_FREQ (frequency : ℚ)
  | pub_status
  | write_monitor_pvt
  deriving DecidableEq, Repr

/-- Local variables of one iteration of the epoch loop of `work`. -/
structure Flags where
  flag_display_pvt : Bool
  flag_compute_pvt_output : Bool
  flag_write_RTCM_1019_output : Bool
  flag_write_RTCM_1020_output : Bool
  flag_write_RTCM_1045_output : Bool
  flag_write_RTCM_MSM_output : Bool
  flag_write_RINEX_obs_output : Bool
  flag_pvt_valid : Bool
  current_RX_time_ms : Nat
  deriving DecidableEq, Repr

/-- Values of the local variables at their declarations. -/
def Flags.init : Flags where
  flag_display_pvt := false
  flag_compute_pvt_output := false
  flag_write_RTCM_1019_output := false
  flag_write_RTCM_1020_output := false
  flag_write_RTCM_1045_output := false
  flag_write_RTCM_MSM_output := false
  flag_write_RINEX_obs_output := false
  flag_pvt_valid := false
  current_RX_time_ms := 0

/-- Running context of one epoch: members, locals and the calls issued so far. -/
structure Epoch (σ : Type) where
  st : State σ
  fl : Flags
  ev : List Event

/-! ## `work`: one iteration of the epoch loop -/

/-- Value of the local `store_valid_observable` for the valid input item `x`: the five
ephemeris maps of the internal solver are searched for the PRN, and each hit sets the flag when
the stored record has that PRN and the signal code belongs to the family. -/
def store_valid_observable {σ : Type} (sol : Rtklib_Solver σ) (x : Gnss_Synchro) : Bool :=
  let tmp_eph_iter_gps := sol.gps_ephemeris_map.lookup (to_int32 x.PRN)
  let tmp_eph_iter_gal := sol.galileo_ephemeris_map.lookup (to_int32 x.PRN)
  let tmp_eph_iter_cnav := sol.gps_cnav_ephemeris_map.lookup (to_int32 x.PRN)
  let tmp_eph_iter_glo_gnav := sol.glonass_gnav_ephemeris_map.lookup (to_int32 x.PRN)
  let tmp_eph_iter_bds_dnav := sol.beidou_dnav_ephemeris_map.lookup (to_int32 x.PRN)
  let store0 := false
  let store1 := match tmp_eph_iter_gps with
    | some eph => if eph.i_satellite_PRN = x.PRN ∧ x.Signal = "1C" then true else store0
    | none => store0
  let store2 := match tmp_eph_iter_gal with
    | some eph =>
      if eph.i_satellite_PRN = x.PRN ∧ (x.Signal = "1B" ∨ x.Signal = "5X") then true else store1
    | none => store1
  let store3 := match tmp_eph_iter_cnav with
    | some eph =>
      if eph.i_satellite_PRN = x.PRN ∧ (x.Signal = "2S" ∨ x.Signal = "L5") then true else store2
    | none => store2
  let store4 := match tmp_eph_iter_glo_gnav with
    | some eph =>
      if eph.i_satellite_PRN = x.PRN ∧ (x.Signal = "1G" ∨ x.Signal = "2G") then true else store3
    | none => store3
  match tmp_eph_iter_bds_dnav with
  | some eph =>
    if eph.i_satellite_PRN = x.PRN ∧ (x.Signal = "B1" ∨ x.Signal = "B3") then true else store4
  | none => store4

/-- Calls `d_rtcm_printer->lock_time(...)` issued for the valid input item `x` of channel `i`
when RTCM output is enabled: one per family (GPS, Galileo, GPS CNAV, GLONASS) whose map holds
the PRN. -/
def lock_time_calls {σ : Type} (C : Config) (sol : Rtklib_Solver σ) (x : Gnss_Synchro)
    (i : Nat) : List Event :=
  if C.d_rtcm_enabled then
    (if (sol.gps_ephemeris_map.lookup (to_int32 x.PRN)).isSome then
      [Event.rtcm_lock_time LockFamily.gps i] else []) ++
    (if (sol.galileo_ephemeris_map.lookup (to_int32 x.PRN)).isSome then
      [Event.rtcm_lock_time LockFamily.galileo i] else []) ++
    (if (sol.gps_cnav_ephemeris_map.lookup (to_int32 x.PRN)).isSome then
      [Event.rtcm_lock_time LockFamily.gps_cnav i] else []) ++
    (if (sol.glonass_gnav_ephemeris_map.lookup (to_int32 x.PRN)).isSome then
      [Event.rtcm_lock_time LockFamily.glonass_gnav i] else [])
  else []

/-- Section "1. READ PSEUDORANGES" for channel `i`, with `x = in[i][epoch]`. -/
def read_channel {σ : Type} (C : Config) (x : Gnss_Synchro) (e : Epoch σ) (i : Nat) :
    Option (Epoch σ) :=
  if x.Flag_valid_pseudorange then
    let st1 :=
      if store_valid_observable e.st.d_internal_pvt_solver x then
        { e.st with d_gnss_observables_map := ObsMap.insert e.st.d_gnss_observables_map i x }
      else e.st
    some { e with st := st1, ev := e.ev ++ lock_time_calls C e.st.d_internal_pvt_solver x i }
  else
    match vector_set e.st.d_channel_initialized i false with
    | some v => some { e with st := { e.st with d_channel_initialized := v } }
    | none => none

/-- Loop of section "1. READ PSEUDORANGES" over the channels listed in `chans`. -/
def read_channels {σ : Type} (C : Config) (inp : Nat → Gnss_Synchro) (chans : List Nat)
    (e : Epoch σ) : Option (Epoch σ) :=
  match chans with
  | [] => some e
  | i :: rest =>
    match read_channel C (inp i) e i with
    | some e1 => read_channels C inp rest e1
    | none => none

/-- Start of an iteration: locals at their initial values, `d_gnss_observables_map` cleared,
then section "1. READ PSEUDORANGES" for channels `0 .. d_nchannels - 1`. -/
def read_pseudoranges {σ : Type} (C : Config) (inp : Nat → Gnss_Synchro) (s : State σ) :
    Option (Epoch σ) :=
  read_channels C inp (List.range C.d_nchannels)
    { st := { s with d_gnss_observables_map := [] }, fl := Flags.init, ev := [] }

/-- Branch of `work` taken when the internal solve succeeded and the clock offset is within
tolerance (the `else` of the too-large test), for offset `Rx_clock_offset_s`. -/
def offset_accepted {σ : Type} (D : Consts) (C : Config) (Rx_clock_offset_s : ℚ)
    (e : Epoch σ) : Option (Epoch σ) :=
  if C.d_enable_rx_clock_correction = true then
    let s1 := { e.st with d_waiting_obs_block_rx_clock_offset_correction_msg := false }
    let s2 := { s1 with d_gnss_observables_map_t0 := s1.d_gnss_observables_map_t1 }
    let (m, tbl) := apply_rx_clock_offset D s2.d_mapStringValues s2.d_gnss_observables_map
      Rx_clock_offset_s
    let s3 := { s2 with d_gnss_observables_map := m, d_mapStringValues := tbl }
    let s4 := { s3 with d_gnss_observables_map_t1 := s3.d_gnss_observables_map }
    match s4.d_gnss_observables_map_t0 with
    | [] => some { e with st := s4 }
    | (_, first0) :: _ =>
      match static_cast_uint32 (first0.RX_time * 1000) with
      | none => none
      | some t0_int_ms =>
        let adjust_next_20ms := 20 - t0_int_ms % 20
        let current_RX_time_ms := (t0_int_ms + adjust_next_20ms) % 4294967296
        let fl1 := { e.fl with current_RX_time_ms := current_RX_time_ms }
        match uint32_mod current_RX_time_ms C.d_output_rate_ms with
        | none => none
        | some r =>
          if r = 0 then
            let s5 := { s4 with d_rx_time := (current_RX_time_ms : ℚ) / 1000 }
            match interpolate_observables s5.d_gnss_observables_map_t0
                s5.d_gnss_observables_map_t1 s5.d_rx_time with
            | none => none
            | some mi =>
              some { e with st := { s5 with d_gnss_observables_map := mi },
                            fl := { fl1 with flag_compute_pvt_output := true } }
          else some { e with st := s4, fl := fl1 }
  else
    match e.st.d_gnss_observables_map with
    | [] => none
    | (_, first) :: _ =>
      let s1 := { e.st with d_rx_time := first.RX_time }
      match static_cast_uint32 (s1.d_rx_time * 1000) with
      | none => none
      | some current_RX_time_ms =>
        let fl1 := { e.fl with current_RX_time_ms := current_RX_time_ms }
        match uint32_mod current_RX_time_ms C.d_output_rate_ms with
        | none => none
        | some r =>
          let fl2 := if r = 0 then { fl1 with flag_compute_pvt_output := true } else fl1
          some { e with st := s1, fl := { fl2 with flag_pvt_valid := true } }

/-- Call of the internal solver and the test of its clock offset against
`d_max_obs_block_rx_clock_offset_ms` (start of section "2 COMPUTE THE PVT"). -/
def internal_solve {σ : Type} (D : Consts) (C : Config) (ops : SolverOps σ) (e : Epoch σ) :
    Option (Epoch σ) :=
  let (ok, core) := ops.get_PVT e.st.d_internal_pvt_solver e.st.d_gnss_observables_map false
  let e1 : Epoch σ :=
    { e with st := { e.st with d_internal_pvt_solver := { e.st.d_internal_pvt_solver with core := core } },
             ev := e.ev ++ [Event.get_PVT_internal] }
  if ok then
    let Rx_clock_offset_s := ops.get_time_offset_s e1.st.d_internal_pvt_solver.core
    if |Rx_clock_offset_s| * 1000 > (C.d_max_obs_block_rx_clock_offset_ms : ℚ) then
      if !e1.st.d_waiting_obs_block_rx_clock_offset_correction_msg then
        some { e1 with
          st := { e1.st with d_waiting_obs_block_rx_clock_offset_correction_msg := true },
          ev := e1.ev ++ [Event.pub_pvt_to_observables Rx_clock_offset_s] }
      else some e1
    else offset_accepted D C Rx_clock_offset_s e1
  else some e1

/-- Statement "compute on the fly PVT solution": the call through `d_user_pvt_solver` when
`flag_compute_pvt_output` is set. -/
def user_solve {σ : Type} (C : Config) (ops : SolverOps σ) (e : Epoch σ) : Epoch σ :=
  if e.fl.flag_compute_pvt_output = true then
    let (ok, core) := ops.get_PVT (user_solver C e.st) e.st.d_gnss_observables_map false
    { e with st := set_user_core C e.st core,
             fl := { e.fl with flag_pvt_valid := ok },
             ev := e.ev ++ [Event.get_PVT_user] }
  else e

/-- The nested test `if (rate != 0) { if (current_RX_time_ms % rate == 0) ... }` that guards
each rate-gated flag. -/
def rate_gate (current_RX_time_ms rate : Nat) : Bool :=
  if rate ≠ 0 then (if current_RX_time_ms % rate = 0 then true else false) else false

/-- Rate-gated flags raised in the `else` branch of the residual-offset test: each flag is set
to `true` when its gate holds and is left as it was otherwise. -/
def rate_flags (C : Config) (fl : Flags) : Flags :=
  { fl with
    flag_display_pvt :=
      if rate_gate fl.current_RX_time_ms C.d_display_rate_ms then true else fl.flag_display_pvt,
    flag_write_RTCM_1019_output :=
      if rate_gate fl.current_RX_time_ms C.d_rtcm_MT1019_rate_ms then true
      else fl.flag_write_RTCM_1019_output,
    flag_write_RTCM_1020_output :=
      if rate_gate fl.current_RX_time_ms C.d_rtcm_MT1020_rate_ms then true
      else fl.flag_write_RTCM_1020_output,
    flag_write_RTCM_1045_output :=
      if rate_gate fl.current_RX_time_ms C.d_rtcm_MT1045_rate_ms then true
      else fl.flag_write_RTCM_1045_output,
    flag_write_RTCM_MSM_output :=
      if rate_gate fl.current_RX_time_ms C.d_rtcm_MSM_rate_ms then true
      else fl.flag_write_RTCM_MSM_output,
    flag_write_RINEX_obs_output :=
      if rate_gate fl.current_RX_time_ms C.d_rinexobs_rate_ms then true
      else fl.flag_write_RINEX_obs_output }

/-- Block `if (d_first_fix == true)`: baselines of the oscillator controller when
`d_PPS_correction` is set, the time-to-first-fix report, and the reset of `d_first_fix`. -/
def first_fix {σ : Type} (C : Config) (ops : SolverOps σ) (e : Epoch σ) : Epoch σ :=
  if e.st.d_first_fix = true then
    let s1 :=
      if C.d_PPS_correction then
        { e.st with
          d_pps_init_offset := ops.get_time_offset_s (user_solver C e.st).core,
          d_pps_prev_error := 0,
          d_estimator := 0,
          d_LO_external_frequ_init := e.st.d_LO_external_frequ }
      else e.st
    { e with st := { s1 with d_first_fix := false }, ev := e.ev ++ [Event.send_sys_v_ttff_msg] }
  else e

/-- One track-log statement `if (enabled) { if (current_RX_time_ms % rate == 0) print }`. -/
def track_log {σ : Type} (enabled : Bool) (rate : Nat) (call : Event) (e : Epoch σ) :
    Option (Epoch σ) :=
  if enabled then
    match uint32_mod e.fl.current_RX_time_ms rate with
    | none => none
    | some r => if r = 0 then some { e with ev := e.ev ++ [call] } else some e
  else some e

/-- Block `if (flag_pvt_valid == true)`: carrier-phase continuity, the residual-offset test,
and in its `else` branch the rate-gated flags, the first-fix block and the track logs.  The
writers of RINEX and RTCM files that follow in that branch are external; their one write to
a member, of `d_rinex_header_written`, is in `call`. -/
def pvt_valid_block {σ : Type} (D : Consts) (C : Config) (ops : SolverOps σ) (e : Epoch σ) :
    Option (Epoch σ) :=
  if e.fl.flag_pvt_valid = true then
    match initialize_and_apply_carrier_phase_offset D
        { d_channel_initialized := e.st.d_channel_initialized,
          d_initial_carrier_phase_offset_estimation_rads :=
            e.st.d_initial_carrier_phase_offset_estimation_rads,
          d_mapStringValues := e.st.d_mapStringValues }
        e.st.d_gnss_observables_map with
    | none => none
    | some (m, ps) =>
      let e1 : Epoch σ := { e with st := { e.st with
        d_gnss_observables_map := m,
        d_channel_initialized := ps.d_channel_initialized,
        d_initial_carrier_phase_offset_estimation_rads :=
          ps.d_initial_carrier_phase_offset_estimation_rads,
        d_mapStringValues := ps.d_mapStringValues } }
      let Rx_clock_offset_s := ops.get_time_offset_s (user_solver C e1.st).core
      if C.d_enable_rx_clock_correction = true ∧ |Rx_clock_offset_s| > 0.000001 then
        some e1
      else
        let e2 := { e1 with fl := rate_flags C e1.fl }
        let e3 := first_fix C ops e2
        (track_log C.d_kml_output_enabled C.d_kml_rate_ms Event.kml_print_position e3).bind
          fun e4 =>
        (track_log C.d_gpx_output_enabled C.d_gpx_rate_ms Event.gpx_print_position e4).bind
          fun e5 =>
        (track_log C.d_geojson_output_enabled C.d_geojson_rate_ms Event.geojson_print_position
          e5).bind fun e6 =>
        track_log C.d_nmea_output_file_enabled C.d_nmea_rate_ms Event.Print_Nmea_Line e6
  else some e

/-- Oscillator controller inside the console-display block (`if (d_PPS_correction)`): the
frequency correction, its clamp to ±0.074 Hz, the new set-point and the `FREQ` command. -/
def pps_controller {σ : Type} (C : Config) (ops : SolverOps σ) (e : Epoch σ) : Epoch σ :=
  let s := e.st
  let s1 : State σ :=
    if C.d_PPS_estimator_selected then
      let a := { s with d_estimator_prev := s.d_estimator }
      let b := { a with d_pps_offset := ops.get_time_offset_s a.d_internal_pvt_solver.core }
      let c := { b with d_estimator := b.d_estimator * 0.9 +
        5.5e-8 * (b.d_LO_external_frequ - b.d_LO_external_frequ_init) +
        0.1 * (b.d_pps_offset - b.d_pps_init_offset) }
      { c with d_FREQU_correction :=
        c.d_estimator * (C.d_PPS_Kp + C.d_PPS_Ki) - c.d_estimator_prev * C.d_PPS_Kp }
    else
      let a := { s with d_pps_prev_error := s.d_pps_offset - s.d_pps_init_offset }
      let b := { a with d_pps_offset := ops.get_time_offset_s a.d_internal_pvt_solver.core }
      { b with d_FREQU_correction :=
        (b.d_pps_offset - b.d_pps_init_offset) * (C.d_PPS_Kp + C.d_PPS_Ki) -
          b.d_pps_prev_error * C.d_PPS_Kp }
  let s2 : State σ := if s1.d_FREQU_correction > 0.074 then { s1 with d_FREQU_correction := 0.074 } else s1
  let s3 : State σ := if s2.d_FREQU_correction < -0.074 then { s2 with d_FREQU_correction := -0.074 } else s2
  let s4 : State σ := { s3 with d_LO_external_frequ := s3.d_LO_external_frequ - s3.d_FREQU_correction }
  { e with st := s4, ev := e.ev ++ [Event.vxi11_send_FREQ s4.d_LO_external_frequ] }

/-- Block "DEBUG MESSAGE: Display position in console output". -/
def display_block {σ : Type} (C : Config) (ops : SolverOps σ) (e : Epoch σ) : Epoch σ :=
  if ops.is_valid_position (user_solver C e.st).core = true ∧ e.fl.flag_display_pvt = true then
    if C.d_PPS_correction then pps_controller C ops e else e
  else e

/-- Block "PVT MONITOR": the `status` message and the UDP monitor. -/
def pvt_monitor {σ : Type} (C : Config) (ops : SolverOps σ) (e : Epoch σ) : Epoch σ :=
  if ops.is_valid_position (user_solver C e.st).core = true then
    let e1 := if e.fl.current_RX_time_ms % d_report_rate_ms = 0 then
      { e with ev := e.ev ++ [Event.pub_status] } else e
    if C.d_flag_monitor_pvt_enabled then { e1 with ev := e1.ev ++ [Event.write_monitor_pvt] }
    else e1
  else e

/-- Section "2 COMPUTE THE PVT" and the blocks after it, entered when
`d_gnss_observables_map` is not empty. -/
def compute_pvt {σ : Type} (D : Consts) (C : Config) (ops : SolverOps σ) (e : Epoch σ) :
    Option (Epoch σ) :=
  match internal_solve D C ops e with
  | none => none
  | some e1 =>
    match pvt_valid_block D C ops (user_solve C ops e1) with
    | none => none
    | some e2 => some (pvt_monitor C ops (display_block C ops e2))

/-- One iteration of the epoch loop of `work` on the input items `inp` (`inp i` is
`in[i][epoch]`): the members afterwards, the final values of the locals and the calls issued;
`none` when the iteration runs into undefined behaviour or an escaping exception. -/
def work_epoch {σ : Type} (D : Consts) (C : Config) (ops : SolverOps σ)
    (inp : Nat → Gnss_Synchro) (s : State σ) : Option (Epoch σ) :=
  match read_pseudoranges C inp s with
  | none => none
  | some e =>
    match e.st.d_gnss_observables_map with
    | [] => some e
    | _ :: _ => compute_pvt D C ops e

/-! ## Observers used to state properties of an epoch -/

/-- Values published on the port `pvt_to_observables`, in order. -/
def pub_values (evs : List Event) : List ℚ :=
  evs.filterMap (fun ev => match ev with
    | Event.pub_pvt_to_observables v => some v
    | _ => none)

/-- Number of messages published on the port `status`. -/
def status_count (evs : List Event) : Nat :=
  evs.count Event.pub_status

/-- Number of calls of `get_PVT`, through either solver pointer. -/
def get_PVT_count (evs : List Event) : Nat :=
  evs.count Event.get_PVT_internal + evs.count Event.get_PVT_user

/-- The Observable Set of the epoch: `d_gnss_observables_map` after section
"1. READ PSEUDORANGES" (empty when that section does not complete). -/
def observable_set {σ : Type} (C : Config) (inp : Nat → Gnss_Synchro) (s : State σ) : ObsMap :=
  match read_pseudoranges C inp s with
  | some e => e.st.d_gnss_observables_map
  | none => []

/-- Result of the internal solve of the epoch: the value returned by
`d_internal_pvt_solver->get_PVT(d_gnss_observables_map, false)`. -/
def internal_solved {σ : Type} (C : Config) (ops : SolverOps σ) (inp : Nat → Gnss_Synchro)
    (s : State σ) : Bool :=
  (ops.get_PVT s.d_internal_pvt_solver (observable_set C inp s) false).1

/-- Clock offset `d_internal_pvt_solver->get_time_offset_s()` read after the internal solve
of the epoch. -/
def internal_offset {σ : Type} (C : Config) (ops : SolverOps σ) (inp : Nat → Gnss_Synchro)
    (s : State σ) : ℚ :=
  ops.get_time_offset_s (ops.get_PVT s.d_internal_pvt_solver (observable_set C inp s) false).2

/-- The test `fabs(Rx_clock_offset_s) * 1000.0 > d_max_obs_block_rx_clock_offset_ms`. -/
def offset_too_large (C : Config) (Rx_clock_offset_s : ℚ) : Prop :=
  |Rx_clock_offset_s| * 1000 > (C.d_max_obs_block_rx_clock_offset_ms : ℚ)

instance (C : Config) (x : ℚ) : Decidable (offset_too_large C x) := by
  unfold offset_too_large; infer_instance

/-- Calls that only write logs or reports: the time-to-first-fix report, the track logs and
the NMEA line. -/
def Event.is_log (ev : Event) : Prop :=
  ev = Event.send_sys_v_ttff_msg ∨ ev = Event.kml_print_position ∨
  ev = Event.gpx_print_position ∨ ev = Event.geojson_print_position ∨
  ev = Event.Print_Nmea_Line

/-- What `d_user_pvt_solver->is_valid_position()` returns after the internal solve of the
epoch when no user solve follows: the validity of the second solver when receiver-clock
correction is enabled, that of the internal solver itself otherwise. -/
def user_valid_after_internal {σ : Type} (C : Config) (ops : SolverOps σ)
    (inp : Nat → Gnss_Synchro) (s : State σ) : Bool :=
  ops.is_valid_position
    (if C.d_enable_rx_clock_correction then s.d_user_pvt_solver.core
      else (ops.get_PVT s.d_internal_pvt_solver (observable_set C inp s) false).2)

/-! ## Sample data for evaluations: a scripted solver, a configuration, a state, an input -/

/-- State of a scripted solver: the results of its coming `get_PVT` calls (returned value,
clock offset, position validity) and the values of its getters. -/
structure ScriptedCore where
  script : List (Bool × ℚ × Bool)
  time_offset_s : ℚ
  valid_position : Bool
  deriving DecidableEq, Repr

/-- A scripted solver: each `get_PVT` call consumes the next scripted result; with the script
exhausted the call fails. -/
def scripted_ops : SolverOps ScriptedCore where
  get_PVT sol _ _ :=
    match sol.core.script with
    | [] => (false, { sol.core with valid_position := false })
    | (ok, off, valid) :: rest =>
      (ok, { script := rest, time_offset_s := off, valid_position := valid })
  get_time_offset_s c := c.time_offset_s
  is_valid_position c := c.valid_position

/-- A solver object holding GPS ephemerides for PRN 3, 7 and 12 and the given script. -/
def sample_solver (script : List (Bool × ℚ × Bool)) : Rtklib_Solver ScriptedCore where
  gps_ephemeris_map := [(3, ⟨3, 0⟩), (7, ⟨7, 0⟩), (12, ⟨12, 0⟩)]
  galileo_ephemeris_map := []
  gps_cnav_ephemeris_map := []
  glonass_gnav_ephemeris_map := []
  beidou_dnav_ephemeris_map := []
  gps_iono := ⟨[]⟩
  gps_utc_model := ⟨[]⟩
  gps_cnav_iono := ⟨[]⟩
  gps_cnav_utc_model := ⟨[]⟩
  gps_almanac_map := []
  galileo_iono := ⟨[]⟩
  galileo_utc_model := ⟨[]⟩
  galileo_almanac_map := []
  glonass_gnav_utc_model := ⟨[]⟩
  glonass_gnav_almanac := ⟨[]⟩
  beidou_dnav_iono := ⟨[]⟩
  beidou_dnav_utc_model := ⟨[]⟩
  beidou_dnav_almanac_map := []
  core := { script := script, time_offset_s := 0, valid_position := false }

/-- Three channels, threshold 15 ms, output every 1000 ms, display every 500 ms, no RTCM, no
track logs, no oscillator control, receiver type 1 (GPS L1 C/A only), RINEX version 3, no
RINEX output; receiver-clock correction as given. -/
def sample_config (enable_rx_clock_correction : Bool) : Config where
  d_nchannels := 3
  d_max_obs_block_rx_clock_offset_ms := 15
  d_output_rate_ms := 1000
  d_display_rate_ms := 500
  d_rtcm_MT1019_rate_ms := 0
  d_rtcm_MT1020_rate_ms := 0
  d_rtcm_MT1045_rate_ms := 0
  d_rtcm_MSM_rate_ms := 0
  d_rinexobs_rate_ms := 0
  d_kml_rate_ms := 0
  d_gpx_rate_ms := 0
  d_geojson_rate_ms := 0
  d_nmea_rate_ms := 0
  d_kml_output_enabled := false
  d_gpx_output_enabled := false
  d_geojson_output_enabled := false
  d_nmea_output_file_enabled := false
  d_rtcm_enabled := false
  d_enable_rx_clock_correction := enable_rx_clock_correction
  d_flag_monitor_pvt_enabled := false
  d_PPS_correction := false
  d_PPS_estimator_selected := false
  d_PPS_Kp := 0
  d_PPS_Ki := 0
  d_type_of_rx := 1
  d_rinex_version := 3
  d_rinex_output_enabled := false

/-- The state left by the constructor for three channels, with scripted solvers and the
too-large latch as given. -/
def sample_state (internal_script user_script : List (Bool × ℚ × Bool)) (latch : Bool) :
    State ScriptedCore where
  d_internal_pvt_solver := sample_solver internal_script
  d_user_pvt_solver := sample_solver user_script
  d_mapStringValues := d_mapStringValues_ctor
  d_gnss_observables_map := []
  d_gnss_observables_map_t0 := []
  d_gnss_observables_map_t1 := []
  d_channel_initialized := [false, false, false]
  d_initial_carrier_phase_offset_estimation_rads := [0, 0, 0]
  d_waiting_obs_block_rx_clock_offset_correction_msg := latch
  d_rx_time := 0
  d_first_fix := true
  d_pps_init_offset := 0
  d_pps_prev_error := 0
  d_pps_offset := 0
  d_estimator := 0
  d_estimator_prev := 0
  d_FREQU_correction := 0
  d_LO_external_frequ := 10000000
  d_LO_external_frequ_init := 0

/-- Input items of one epoch: valid GPS L1 C/A observables of PRN 3, 7 and 12 on channels 0,
1 and 2, all with receiver time `t`. -/
def sample_input (t : ℚ) (i : Nat) : Gnss_Synchro :=
  if i = 0 then sample_obs 3 "1C" 0 t 20000000 0
  else if i = 1 then sample_obs 7 "1C" 1 t 21000000 0
  else sample_obs 12 "1C" 2 t 22000000 0

/-- The four conditions of a correction request: the Observable Set is not empty, the internal
solve succeeds, `|offset| * 1000` exceeds the configured maximum, and the too-large latch is
not set at the start of the epoch. -/
def correction_request_due {σ : Type} (C : Config) (ops : SolverOps σ)
    (inp : Nat → Gnss_Synchro) (s : State σ) : Prop :=
  observable_set C inp s ≠ [] ∧ internal_solved C ops inp s = true ∧
  offset_too_large C (internal_offset C ops inp s) ∧
  s.d_waiting_obs_block_rx_clock_offset_correction_msg = false

instance {σ : Type} (C : Config) (ops : SolverOps σ) (inp : Nat → Gnss_Synchro)
    (s : State σ) : Decidable (correction_request_due C ops inp s) := by
  unfold correction_request_due; infer_instance

/-- Every observable of the map carries a channel id in `0 .. n - 1`. -/
def channels_in_range (n : Nat) (m : ObsMap) : Prop :=
  ∀ p ∈ m, 0 ≤ p.2.Channel_ID ∧ p.2.Channel_ID < (n : Int)

/-- Every enabled track log has a non-zero period. -/
def track_rates_ok (C : Config) : Prop :=
  (C.d_kml_output_enabled = true → C.d_kml_rate_ms ≠ 0) ∧
  (C.d_gpx_output_enabled = true → C.d_gpx_rate_ms ≠ 0) ∧
  (C.d_geojson_output_enabled = true → C.d_geojson_rate_ms ≠ 0) ∧
  (C.d_nmea_output_file_enabled = true → C.d_nmea_rate_ms ≠ 0)

/-- The Observable Set computed by section "1. READ PSEUDORANGES": channel by channel, a
valid input item is inserted under its channel index when `store_valid_observable` holds. -/
def ingest_map {σ : Type} (sol : Rtklib_Solver σ) (inp : Nat → Gnss_Synchro)
    (chans : List Nat) (m : ObsMap) : ObsMap :=
  chans.foldl (fun acc i =>
    if (inp i).Flag_valid_pseudorange = true ∧ store_valid_observable sol (inp i) = true then
      ObsMap.insert acc i (inp i)
    else acc) m

/-- Result of the call through `d_user_pvt_solver` when both pointers designate the one solver
(receiver-clock correction disabled): the solver, in the state left by the internal solve, is
called again on the same Observable Set. -/
def second_solve {σ : Type} (C : Config) (ops : SolverOps σ) (inp : Nat → Gnss_Synchro)
    (s : State σ) : Bool × σ :=
  ops.get_PVT
    { s.d_internal_pvt_solver with
      core := (ops.get_PVT s.d_internal_pvt_solver (observable_set C inp s) false).2 }
    (observable_set C inp s) false

/-- The epoch context right after the call
`d_internal_pvt_solver->get_PVT(d_gnss_observables_map, false)`: the internal solver holds
the state left by the call, and the call is recorded. -/
def after_internal_call {σ : Type} (ops : SolverOps σ) (e : Epoch σ) : Epoch σ :=
  { e with
    st := { e.st with d_internal_pvt_solver := { e.st.d_internal_pvt_solver with
      core := (ops.get_PVT e.st.d_internal_pvt_solver e.st.d_gnss_observables_map false).2 } },
    ev := e.ev ++ [Event.get_PVT_internal] }

/-! ## Observers of the output gating and of the oscillator controller -/

/-- The test `d_enable_rx_clock_correction == true and fabs(Rx_clock_offset_s) > 0.000001`
of the block `if (flag_pvt_valid == true)`, on the clock offset of the solver behind
`d_user_pvt_solver`. -/
def residual_exceeds {σ : Type} (C : Config) (ops : SolverOps σ) (st : State σ) : Prop :=
  C.d_enable_rx_clock_correction = true ∧
    |ops.get_time_offset_s (user_solver C st).core| > 0.000001

instance {σ : Type} (C : Config) (ops : SolverOps σ) (st : State σ) :
    Decidable (residual_exceeds C ops st) := by
  unfold residual_exceeds; infer_instance

/-- The six rate-gated locals, in the order of their declarations: display, RTCM 1019, 1020,
1045, MSM, RINEX observations. -/
def gating_flags (fl : Flags) : List Bool :=
  [fl.flag_display_pvt, fl.flag_write_RTCM_1019_output, fl.flag_write_RTCM_1020_output,
    fl.flag_write_RTCM_1045_output, fl.flag_write_RTCM_MSM_output,
    fl.flag_write_RINEX_obs_output]

/-- The value of each rate gate at the epoch time `ms`, in the order of `gating_flags`. -/
def gating_due (C : Config) (ms : Nat) : List Bool :=
  [rate_gate ms C.d_display_rate_ms, rate_gate ms C.d_rtcm_MT1019_rate_ms,
    rate_gate ms C.d_rtcm_MT1020_rate_ms, rate_gate ms C.d_rtcm_MT1045_rate_ms,
    rate_gate ms C.d_rtcm_MSM_rate_ms, rate_gate ms C.d_rinexobs_rate_ms]

/-- Members of the oscillator controller: baselines, errors, estimator, correction and
set-point. -/
def controller_state {σ : Type} (st : State σ) : List ℚ :=
  [st.d_pps_init_offset, st.d_pps_prev_error, st.d_pps_offset, st.d_estimator,
    st.d_estimator_prev, st.d_FREQU_correction, st.d_LO_external_frequ,
    st.d_LO_external_frequ_init]

/-- Blocks of an iteration of `work` that issue calls. -/
inductive Block where
  | ingest
  | solve
  | output
  | display
  | monitor
  deriving DecidableEq, Repr

/-- The block of `work` that issues a call: lock-time tracking belongs to section 1, the
solver calls and the correction request to section 2, the first-fix report and the track logs
to the output branch, the `FREQ` command to the console-display block, the `status` message
and the UDP monitor to the PVT monitor. -/
def Event.block : Event → Block
  | .rtcm_lock_time _ _ => .ingest
  | .get_PVT_internal => .solve
  | .pub_pvt_to_observables _ => .solve
  | .get_PVT_user => .solve
  | .send_sys_v_ttff_msg => .output
  | .kml_print_position => .output
  | .gpx_print_position => .output
  | .geojson_print_position => .output
  | .Print_Nmea_Line => .output
  | .vxi11_send_FREQ _ => .display
  | .pub_status => .monitor
  | .write_monitor_pvt => .monitor

/-- The calls of a list that the block `b` issues, in order. -/
def calls_of (b : Block) (evs : List Event) : List Event :=
  evs.filter (fun x => decide (x.block = b))

/-- The track-log calls of the output branch at the epoch time `ms`: each enabled log whose
period divides `ms`, in program order. -/
def track_logs (C : Config) (ms : Nat) : List Event :=
  (if C.d_kml_output_enabled = true ∧ ms % C.d_kml_rate_ms = 0 then
    [Event.kml_print_position] else []) ++
  (if C.d_gpx_output_enabled = true ∧ ms % C.d_gpx_rate_ms = 0 then
    [Event.gpx_print_position] else []) ++
  (if C.d_geojson_output_enabled = true ∧ ms % C.d_geojson_rate_ms = 0 then
    [Event.geojson_print_position] else []) ++
  (if C.d_nmea_output_file_enabled = true ∧ ms % C.d_nmea_rate_ms = 0 then
    [Event.Print_Nmea_Line] else [])

/-- What the blocks before and after the output branch leave alone: the rate-gated locals,
`d_first_fix` and the controller members. -/
def gating_view {σ : Type} (e : Epoch σ) : List Bool × Bool × List ℚ :=
  (gating_flags e.fl, e.st.d_first_fix, controller_state e.st)

/-- The epoch context `e`, entering the block `if (flag_pvt_valid == true)`, takes the
`else` branch of the residual-offset test (the output branch). -/
def output_branch {σ : Type} (C : Config) (ops : SolverOps σ) (e : Epoch σ) : Prop :=
  e.fl.flag_pvt_valid = true ∧ ¬ residual_exceeds C ops e.st

instance {σ : Type} (C : Config) (ops : SolverOps σ) (e : Epoch σ) :
    Decidable (output_branch C ops e) := by
  unfold output_branch; infer_instance

/-- Controller members after the first-fix block: with `d_PPS_correction` set and
`d_first_fix` still `true` the offset baseline is the clock offset of the user solution, the
previous error and the estimator are zero and the frequency baseline is the set-point. -/
def first_fix_controller {σ : Type} (C : Config) (ops : SolverOps σ) (st : State σ) : List ℚ :=
  if st.d_first_fix = true ∧ C.d_PPS_correction = true then
    [ops.get_time_offset_s (user_solver C st).core, 0, st.d_pps_offset, 0,
      st.d_estimator_prev, st.d_FREQU_correction, st.d_LO_external_frequ,
      st.d_LO_external_frequ]
  else controller_state st

/-- The oscillator controller runs in the epoch context `e` entering the console-display
block: `d_user_pvt_solver->is_valid_position() and flag_display_pvt`, then
`d_PPS_correction`. -/
def controller_runs {σ : Type} (C : Config) (ops : SolverOps σ) (e : Epoch σ) : Prop :=
  (ops.is_valid_position (user_solver C e.st).core = true ∧ e.fl.flag_display_pvt = true) ∧
    C.d_PPS_correction = true

instance {σ : Type} (C : Config) (ops : SolverOps σ) (e : Epoch σ) :
    Decidable (controller_runs C ops e) := by
  unfold controller_runs; infer_instance

/-! ## More sample data: a state with a previous snapshot, a configuration with oscillator control -/

/-- The sample state with the latch clear and the previous snapshot `t1`, as an earlier epoch
with an accepted offset leaves it. -/
def sample_state_t1 (internal_script user_script : List (Bool × ℚ × Bool)) (t1 : ObsMap) :
    State ScriptedCore :=
  { sample_state internal_script user_script false with d_gnss_observables_map_t1 := t1 }

/-- A previous snapshot: PRN 3 on channel 0 at receiver time 99.99 s. -/
def sample_t1 : ObsMap := [(0, sample_obs 3 "1C" 0 (9999 / 100) 20000000 0)]

/-- The sample configuration with receiver-clock correction enabled and the given display
period, oscillator-control switch and controller gains. -/
def sample_config_with (display_rate_ms : Nat) (PPS_correction : Bool) (Kp Ki : ℚ) : Config :=
  { sample_config true with
    d_display_rate_ms := display_rate_ms,
    d_PPS_correction := PPS_correction,
    d_PPS_Kp := Kp,
    d_PPS_Ki := Ki }

/-! ## Observers of the ingest step -/

/-- Invariant of an ephemeris map filled by `msg_handler_telemetry`, which stores each record
with `map[eph->i_satellite_PRN] = *eph`: the key of every entry is the satellite id of its
record, a `uint32_t`, converted to `int`. -/
def keyed_by_PRN {α : Type} (prn : α → Nat) (m : List (Int × α)) : Prop :=
  ∀ p ∈ m, prn p.2 < 4294967296 ∧ p.1 = to_int32 (prn p.2)

/-- The five ephemeris maps of a solver are keyed by satellite id. -/
def store_keyed {σ : Type} (sol : Rtklib_Solver σ) : Prop :=
  keyed_by_PRN Gps_Ephemeris.i_satellite_PRN sol.gps_ephemeris_map ∧
  keyed_by_PRN Galileo_Ephemeris.i_satellite_PRN sol.galileo_ephemeris_map ∧
  keyed_by_PRN Gps_CNAV_Ephemeris.i_satellite_PRN sol.gps_cnav_ephemeris_map ∧
  keyed_by_PRN Glonass_Gnav_Ephemeris.i_satellite_PRN sol.glonass_gnav_ephemeris_map ∧
  keyed_by_PRN Beidou_Dnav_Ephemeris.i_satellite_PRN sol.beidou_dnav_ephemeris_map

/-- Acceptance rule of the specification (section 4.1): some ephemeris family holds a record
for the satellite id of the observable and the signal code of the observable belongs to that
family; GPS legacy `1C`, GPS CNAV `2S` and `L5`, Galileo `1B` and `5X`, GLONASS `1G` and `2G`,
BeiDou `B1` and `B3`. -/
def family_match {σ : Type} (sol : Rtklib_Solver σ) (x : Gnss_Synchro) : Prop :=
  ((sol.gps_ephemeris_map.lookup (to_int32 x.PRN)).isSome = true ∧ x.Signal = "1C") ∨
  ((sol.gps_cnav_ephemeris_map.lookup (to_int32 x.PRN)).isSome = true ∧
    (x.Signal = "2S" ∨ x.Signal = "L5")) ∨
  ((sol.galileo_ephemeris_map.lookup (to_int32 x.PRN)).isSome = true ∧
    (x.Signal = "1B" ∨ x.Signal = "5X")) ∨
  ((sol.glonass_gnav_ephemeris_map.lookup (to_int32 x.PRN)).isSome = true ∧
    (x.Signal = "1G" ∨ x.Signal = "2G")) ∨
  ((sol.beidou_dnav_ephemeris_map.lookup (to_int32 x.PRN)).isSome = true ∧
    (x.Signal = "B1" ∨ x.Signal = "B3"))

instance {σ : Type} (sol : Rtklib_Solver σ) (x : Gnss_Synchro) :
    Decidable (family_match sol x) := by
  unfold family_match; infer_instance

/-! ## Observers of the carrier-phase continuity tracker -/

/-- The offset that `initialize_and_apply_carrier_phase_offset` stores for the channel of the
observable `o` when the channel is not initialised:
`TWO_PI * round(Pseudorange_m / wavelength_m) - Carrier_phase_rads + fmod(Carrier_phase_rads,
TWO_PI)`, with the wavelength selected by `d_mapStringValues[Signal]`. -/
def initial_phase_offset (D : Consts) (tbl : List (String × StringValue_)) (o : Gnss_Synchro) :
    ℚ :=
  D.TWO_PI * (c_round (o.Pseudorange_m / switch_wavelength D (signal_value D tbl o.Signal)) : ℚ)
    - o.Carrier_phase_rads + c_fmod o.Carrier_phase_rads D.TWO_PI

/-- Mathematical residue of `x` modulo `T`: `x - T * floor(x / T)`, in `[0, T)` for `T > 0`. -/
def residue_mod (x T : ℚ) : ℚ := x - T * (⌊x / T⌋ : ℚ)

/-- Sample members of the carrier-phase tracker: three channels, channel 1 initialised with
offset 5, the signal table of the constructor. -/
def sample_phase_state : PhaseState where
  d_channel_initialized := [false, true, false]
  d_initial_carrier_phase_offset_estimation_rads := [0, 5, 0]
  d_mapStringValues := d_mapStringValues_ctor

/-- A sample observable map: PRN 3 on channel 0 with raw phase 0 and PRN 7 on channel 1 with
raw phase 2. -/
def sample_phase_map : ObsMap :=
  [(0, sample_obs 3 "1C" 0 100 20000000 0), (1, sample_obs 7 "1C" 1 100 21000000 2)]

/-! ## `msg_handler_telemetry`: the ephemeris branches -/

/-- Assignment `m[k] = v` on a `std::map<int, T>` listed in key order: the value of an
existing key is replaced, a new key is put at its place. -/
def map_assign {α : Type} (m : List (Int × α)) (k : Int) (v : α) : List (Int × α) :=
  match m with
  | [] => [(k, v)]
  | (k', v') :: rest =>
    if k < k' then (k, v) :: (k', v') :: rest
    else if k = k' then (k, v) :: rest
    else (k', v') :: map_assign rest k v

/-- File streams of the RINEX printer `d_rp` that navigation records are written to. -/
inductive Nav_file where
  | navFile
  | navMixFile
  | navGalFile
  | navGloFile
  deriving DecidableEq, Repr

/-- An ephemeris map handed to `log_rinex_nav`. -/
inductive Nav_arg where
  | gps (m : List (Int × Gps_Ephemeris))
  | gal (m : List (Int × Galileo_Ephemeris))
  | cnav (m : List (Int × Gps_CNAV_Ephemeris))
  | glo (m : List (Int × Glonass_Gnav_Ephemeris))
  | bds (m : List (Int × Beidou_Dnav_Ephemeris))
  deriving DecidableEq, Repr

/-- One call `d_rp->log_rinex_nav(file, maps...)`: the stream and the maps, in argument
order. -/
structure Nav_log where
  file : Nav_file
  maps : List Nav_arg
  deriving DecidableEq, Repr

/-- The `switch (d_type_of_rx)` of the branch "GPS EPHEMERIS", entered for a new record:
the calls of `log_rinex_nav`, with `new_eph` holding the incoming record and the companion
maps empty. -/
def log_new_gps_ephemeris (C : Config) (gps_eph : Gps_Ephemeris) : List Nav_log :=
  let new_eph : List (Int × Gps_Ephemeris) :=
    map_assign [] (to_int32 gps_eph.i_satellite_PRN) gps_eph
  let new_gal_eph : List (Int × Galileo_Ephemeris) := []
  let new_glo_eph : List (Int × Glonass_Gnav_Ephemeris) := []
  if C.d_type_of_rx = 1 ∨ C.d_type_of_rx = 8 then
    [⟨Nav_file.navFile, [Nav_arg.gps new_eph]⟩]
  else if C.d_type_of_rx = 9 ∨ C.d_type_of_rx = 10 ∨ C.d_type_of_rx = 11 then
    [⟨Nav_file.navMixFile, [Nav_arg.gps new_eph, Nav_arg.gal new_gal_eph]⟩]
  else if C.d_type_of_rx = 26 then
    (if C.d_rinex_version = 3 then
      [⟨Nav_file.navMixFile, [Nav_arg.gps new_eph, Nav_arg.glo new_glo_eph]⟩] else []) ++
    (if C.d_rinex_version = 2 then
      [⟨Nav_file.navFile, [Nav_arg.glo new_glo_eph]⟩] else [])
  else if C.d_type_of_rx = 29 then
    (if C.d_rinex_version = 3 then
      [⟨Nav_file.navMixFile, [Nav_arg.gps new_eph, Nav_arg.glo new_glo_eph]⟩] else []) ++
    (if C.d_rinex_version = 2 then
      [⟨Nav_file.navFile, [Nav_arg.gps new_eph]⟩] else [])
  else if C.d_type_of_rx = 32 ∨ C.d_type_of_rx = 33 then
    [⟨Nav_file.navMixFile, [Nav_arg.gps new_eph, Nav_arg.gal new_gal_eph]⟩]
  else if C.d_type_of_rx = 1000 then
    [⟨Nav_file.navFile, [Nav_arg.gps new_eph]⟩]
  else if C.d_type_of_rx = 1001 then
    [⟨Nav_file.navMixFile, [Nav_arg.gps new_eph, Nav_arg.gal new_gal_eph]⟩]
  else []

/-- The `switch (d_type_of_rx)` of the branch "GPS CNAV message", entered for a new record. -/
def log_new_gps_cnav_ephemeris (C : Config) (gps_cnav_ephemeris : Gps_CNAV_Ephemeris) :
    List Nav_log :=
  let new_gal_eph : List (Int × Galileo_Ephemeris) := []
  let new_cnav_eph : List (Int × Gps_CNAV_Ephemeris) :=
    map_assign [] (to_int32 gps_cnav_ephemeris.i_satellite_PRN) gps_cnav_ephemeris
  let new_glo_eph : List (Int × Glonass_Gnav_Ephemeris) := []
  if C.d_type_of_rx = 2 ∨ C.d_type_of_rx = 3 ∨ C.d_type_of_rx = 7 then
    [⟨Nav_file.navFile, [Nav_arg.cnav new_cnav_eph]⟩]
  else if C.d_type_of_rx = 13 then
    [⟨Nav_file.navMixFile, [Nav_arg.cnav new_cnav_eph, Nav_arg.gal new_gal_eph]⟩]
  else if C.d_type_of_rx = 28 ∨ C.d_type_of_rx = 31 then
    [⟨Nav_file.navMixFile, [Nav_arg.cnav new_cnav_eph, Nav_arg.glo new_glo_eph]⟩]
  else []

/-- The `switch (d_type_of_rx)` of the branch "Galileo EPHEMERIS", entered for a new
record. -/
def log_new_galileo_ephemeris (C : Config) (galileo_eph : Galileo_Ephemeris) : List Nav_log :=
  let new_gal_eph : List (Int × Galileo_Ephemeris) :=
    map_assign [] (to_int32 galileo_eph.i_satellite_PRN) galileo_eph
  let new_cnav_eph : List (Int × Gps_CNAV_Ephemeris) := []
  let new_eph : List (Int × Gps_Ephemeris) := []
  let new_glo_eph : List (Int × Glonass_Gnav_Ephemeris) := []
  if C.d_type_of_rx = 4 ∨ C.d_type_of_rx = 5 ∨ C.d_type_of_rx = 6 then
    [⟨Nav_file.navGalFile, [Nav_arg.gal new_gal_eph]⟩]
  else if C.d_type_of_rx = 9 ∨ C.d_type_of_rx = 10 ∨ C.d_type_of_rx = 11 then
    [⟨Nav_file.navMixFile, [Nav_arg.gps new_eph, Nav_arg.gal new_gal_eph]⟩]
  else if C.d_type_of_rx = 13 then
    [⟨Nav_file.navMixFile, [Nav_arg.cnav new_cnav_eph, Nav_arg.gal new_gal_eph]⟩]
  else if C.d_type_of_rx = 15 then
    [⟨Nav_file.navGalFile, [Nav_arg.gal new_gal_eph]⟩]
  else if C.d_type_of_rx = 27 ∨ C.d_type_of_rx = 30 then
    [⟨Nav_file.navMixFile, [Nav_arg.gal new_gal_eph, Nav_arg.glo new_glo_eph]⟩]
  else if C.d_type_of_rx = 32 ∨ C.d_type_of_rx = 33 ∨ C.d_type_of_rx = 1001 then
    [⟨Nav_file.navMixFile, [Nav_arg.gps new_eph, Nav_arg.gal new_gal_eph]⟩]
  else []

/-- The `switch (d_type_of_rx)` of the branch "GLONASS GNAV EPHEMERIS", entered for a new
record. -/
def log_new_glonass_gnav_ephemeris (C : Config) (glonass_gnav_eph : Glonass_Gnav_Ephemeris) :
    List Nav_log :=
  let new_gal_eph : List (Int × Galileo_Ephemeris) := []
  let new_cnav_eph : List (Int × Gps_CNAV_Ephemeris) := []
  let new_eph : List (Int × Gps_Ephemeris) := []
  let new_glo_eph : List (Int × Glonass_Gnav_Ephemeris) :=
    map_assign [] (to_int32 glonass_gnav_eph.i_satellite_PRN) glonass_gnav_eph
  if C.d_type_of_rx = 23 ∨ C.d_type_of_rx = 24 ∨ C.d_type_of_rx = 25 then
    [⟨Nav_file.navGloFile, [Nav_arg.glo new_glo_eph]⟩]
  else if C.d_type_of_rx = 26 then
    (if C.d_rinex_version = 3 then
      [⟨Nav_file.navMixFile, [Nav_arg.gps new_eph, Nav_arg.glo new_glo_eph]⟩] else []) ++
    (if C.d_rinex_version = 2 then
      [⟨Nav_file.navGloFile, [Nav_arg.glo new_glo_eph]⟩] else [])
  else if C.d_type_of_rx = 27 then
    [⟨Nav_file.navMixFile, [Nav_arg.gal new_gal_eph, Nav_arg.glo new_glo_eph]⟩]
  else if C.d_type_of_rx = 28 then
    [⟨Nav_file.navMixFile, [Nav_arg.cnav new_cnav_eph, Nav_arg.glo new_glo_eph]⟩]
  else if C.d_type_of_rx = 29 then
    (if C.d_rinex_version = 3 then
      [⟨Nav_file.navMixFile, [Nav_arg.gps new_eph, Nav_arg.glo new_glo_eph]⟩] else []) ++
    (if C.d_rinex_version = 2 then
      [⟨Nav_file.navGloFile, [Nav_arg.glo new_glo_eph]⟩] else [])
  else if C.d_type_of_rx = 30 then
    [⟨Nav_file.navMixFile, [Nav_arg.gal new_gal_eph, Nav_arg.glo new_glo_eph]⟩]
  else if C.d_type_of_rx = 31 then
    [⟨Nav_file.navMixFile, [Nav_arg.cnav new_cnav_eph, Nav_arg.glo new_glo_eph]⟩]
  else []

/-- The `switch (d_type_of_rx)` of the branch "Beidou EPHEMERIS", entered for a new record. -/
def log_new_beidou_dnav_ephemeris (C : Config) (bds_dnav_eph : Beidou_Dnav_Ephemeris) :
    List Nav_log :=
  let new_bds_eph : List (Int × Beidou_Dnav_Ephemeris) :=
    map_assign [] (to_int32 bds_dnav_eph.i_satellite_PRN) bds_dnav_eph
  if C.d_type_of_rx = 500 ∨ C.d_type_of_rx = 600 then
    [⟨Nav_file.navFile, [Nav_arg.bds new_bds_eph]⟩]
  else []

/-- Branch "GPS EPHEMERIS" of `msg_handler_telemetry` for the record `gps_eph`, with
`d_rinex_header_written` as given: when the headers are written and the internal store has no
record for the satellite or one with a different `d_Toe`, the record is new and the
receiver-type switch is entered; then the record is assigned in the internal store and, when
the second solver exists, in it too.  Returns the members afterwards and the calls of
`log_rinex_nav`. -/
def msg_handler_gps_ephemeris {σ : Type} (C : Config) (d_rinex_header_written : Bool)
    (gps_eph : Gps_Ephemeris) (s : State σ) : State σ × List Nav_log :=
  let logs : List Nav_log :=
    if d_rinex_header_written = true then
      let new_annotation : Bool :=
        match s.d_internal_pvt_solver.gps_ephemeris_map.lookup (to_int32 gps_eph.i_satellite_PRN) with
        | none => true
        | some stored => if stored.d_Toe ≠ gps_eph.d_Toe then true else false
      if new_annotation = true then log_new_gps_ephemeris C gps_eph else []
    else []
  let s1 : State σ := { s with d_internal_pvt_solver := { s.d_internal_pvt_solver with
    gps_ephemeris_map := map_assign s.d_internal_pvt_solver.gps_ephemeris_map
      (to_int32 gps_eph.i_satellite_PRN) gps_eph } }
  let s2 : State σ :=
    if C.d_enable_rx_clock_correction = true then
      { s1 with d_user_pvt_solver := { s1.d_user_pvt_solver with
        gps_ephemeris_map := map_assign s1.d_user_pvt_solver.gps_ephemeris_map
          (to_int32 gps_eph.i_satellite_PRN) gps_eph } }
    else s1
  (s2, logs)

/-- Branch "GPS CNAV message" of `msg_handler_telemetry` for the record `gps_cnav_ephemeris`, with
`d_rinex_header_written` as given: when the headers are written and the internal store has no
record for the satellite or one with a different `d_Toe1`, the record is new and the
receiver-type switch is entered; then the record is assigned in the internal store and, when
the second solver exists, in it too.  Returns the members afterwards and the calls of
`log_rinex_nav`. -/
def msg_handler_gps_cnav_ephemeris {σ : Type} (C : Config) (d_rinex_header_written : Bool)
    (gps_cnav_ephemeris : Gps_CNAV_Ephemeris) (s : State σ) : State σ × List Nav_log :=
  let logs : List Nav_log :=
    if d_rinex_header_written = true then
      let new_annotation : Bool :=
        match s.d_internal_pvt_solver.gps_cnav_ephemeris_map.lookup (to_int32 gps_cnav_ephemeris.i_satellite_PRN) with
        | none => true
        | some stored => if stored.d_Toe1 ≠ gps_cnav_ephemeris.d_Toe1 then true else false
      if new_annotation = true then log_new_gps_cnav_ephemeris C gps_cnav_ephemeris else []
    else []
  let s1 : State σ := { s with d_internal_pvt_solver := { s.d_internal_pvt_solver with
    gps_cnav_ephemeris_map := map_assign s.d_internal_pvt_solver.gps_cnav_ephemeris_map
      (to_int32 gps_cnav_ephemeris.i_satellite_PRN) gps_cnav_ephemeris } }
  let s2 : State σ :=
    if C.d_enable_rx_clock_correction = true then
      { s1 with d_user_pvt_solver := { s1.d_user_pvt_solver with
        gps_cnav_ephemeris_map := map_assign s1.d_user_pvt_solver.gps_cnav_ephemeris_map
          (to_int32 gps_cnav_ephemeris.i_satellite_PRN) gps_cnav_ephemeris } }
    else s1
  (s2, logs)

/-- Branch "Galileo EPHEMERIS" of `msg_handler_telemetry` for the record `galileo_eph`, with
`d_rinex_header_written` as given: when the headers are written and the internal store has no
record for the satellite or one with a different `t0e_1`, the record is new and the
receiver-type switch is entered; then the record is assigned in the internal store and, when
the second solver exists, in it too.  Returns the members afterwards and the calls of
`log_rinex_nav`. -/
def msg_handler_galileo_ephemeris {σ : Type} (C : Config) (d_rinex_header_written : Bool)
    (galileo_eph : Galileo_Ephemeris) (s : State σ) : State σ × List Nav_log :=
  let logs : List Nav_log :=
    if d_rinex_header_written = true then
      let new_annotation : Bool :=
        match s.d_internal_pvt_solver.galileo_ephemeris_map.lookup (to_int32 galileo_eph.i_satellite_PRN) with
        | none => true
        | some stored => if stored.t0e_1 ≠ galileo_eph.t0e_1 then true else false
      if new_annotation = true then log_new_galileo_ephemeris C galileo_eph else []
    else []
  let s1 : State σ := { s with d_internal_pvt_solver := { s.d_internal_pvt_solver with
    galileo_ephemeris_map := map_assign s.d_internal_pvt_solver.galileo_ephemeris_map
      (to_int32 galileo_eph.i_satellite_PRN) galileo_eph } }
  let s2 : State σ :=
    if C.d_enable_rx_clock_correction = true then
      { s1 with d_user_pvt_solver := { s1.d_user_pvt_solver with
        galileo_ephemeris_map := map_assign s1.d_user_pvt_solver.galileo_ephemeris_map
          (to_int32 galileo_eph.i_satellite_PRN) galileo_eph } }
    else s1
  (s2, logs)

/-- Branch "GLONASS GNAV EPHEMERIS" of `msg_handler_telemetry` for the record `glonass_gnav_eph`, with
`d_rinex_header_written` as given: when the headers are written and the internal store has no
record for the satellite or one with a different `d_t_b`, the record is new and the
receiver-type switch is entered; then the record is assigned in the internal store and, when
the second solver exists, in it too.  Returns the members afterwards and the calls of
`log_rinex_nav`. -/
def msg_handler_glonass_gnav_ephemeris {σ : Type} (C : Config) (d_rinex_header_written : Bool)
    (glonass_gnav_eph : Glonass_Gnav_Ephemeris) (s : State σ) : State σ × List Nav_log :=
  let logs : List Nav_log :=
    if d_rinex_header_written = true then
      let new_annotation : Bool :=
        match s.d_internal_pvt_solver.glonass_gnav_ephemeris_map.lookup (to_int32 glonass_gnav_eph.i_satellite_PRN) with
        | none => true
        | some stored => if stored.d_t_b ≠ glonass_gnav_eph.d_t_b then true else false
      if new_annotation = true then log_new_glonass_gnav_ephemeris C glonass_gnav_eph else []
    else []
  let s1 : State σ := { s with d_internal_pvt_solver := { s.d_internal_pvt_solver with
    glonass_gnav_ephemeris_map := map_assign s.d_internal_pvt_solver.glonass_gnav_ephemeris_map
      (to_int32 glonass_gnav_eph.i_satellite_PRN) glonass_gnav_eph } }
  let s2 : State σ :=
    if C.d_enable_rx_clock_correction = true then
      { s1 with d_user_pvt_solver := { s1.d_user_pvt_solver with
        glonass_gnav_ephemeris_map := map_assign s1.d_user_pvt_solver.glonass_gnav_ephemeris_map
          (to_int32 glonass_gnav_eph.i_satellite_PRN) glonass_gnav_eph } }
    else s1
  (s2, logs)

/-- Branch "Beidou EPHEMERIS" of `msg_handler_telemetry` for the record `bds_dnav_eph`, with
`d_rinex_header_written` as given: when the headers are written and the internal store has no
record for the satellite or one with a different `d_Toc`, the record is new and the
receiver-type switch is entered; then the record is assigned in the internal store and, when
the second solver exists, in it too.  Returns the members afterwards and the calls of
`log_rinex_nav`. -/
def msg_handler_beidou_dnav_ephemeris {σ : Type} (C : Config) (d_rinex_header_written : Bool)
    (bds_dnav_eph : Beidou_Dnav_Ephemeris) (s : State σ) : State σ × List Nav_log :=
  let logs : List Nav_log :=
    if d_rinex_header_written = true then
      let new_annotation : Bool :=
        match s.d_internal_pvt_solver.beidou_dnav_ephemeris_map.lookup (to_int32 bds_dnav_eph.i_satellite_PRN) with
        | none => true
        | some stored => if stored.d_Toc ≠ bds_dnav_eph.d_Toc then true else false
      if new_annotation = true then log_new_beidou_dnav_ephemeris C bds_dnav_eph else []
    else []
  let s1 : State σ := { s with d_internal_pvt_solver := { s.d_internal_pvt_solver with
    beidou_dnav_ephemeris_map := map_assign s.d_internal_pvt_solver.beidou_dnav_ephemeris_map
      (to_int32 bds_dnav_eph.i_satellite_PRN) bds_dnav_eph } }
  let s2 : State σ :=
    if C.d_enable_rx_clock_correction = true then
      { s1 with d_user_pvt_solver := { s1.d_user_pvt_solver with
        beidou_dnav_ephemeris_map := map_assign s1.d_user_pvt_solver.beidou_dnav_ephemeris_map
          (to_int32 bds_dnav_eph.i_satellite_PRN) bds_dnav_eph } }
    else s1
  (s2, logs)

/-- The ephemeris messages that `msg_handler_telemetry` tells apart by the type of the object
they carry. -/
inductive Ephemeris_msg where
  | gps (gps_eph : Gps_Ephemeris)
  | gps_cnav (gps_cnav_ephemeris : Gps_CNAV_Ephemeris)
  | galileo (galileo_eph : Galileo_Ephemeris)
  | glonass_gnav (glonass_gnav_eph : Glonass_Gnav_Ephemeris)
  | beidou_dnav (bds_dnav_eph : Beidou_Dnav_Ephemeris)
  deriving DecidableEq, Repr

/-- Function `msg_handler_telemetry` on an ephemeris message: the branch of the type of the
object. -/
def msg_handler_telemetry {σ : Type} (C : Config) (d_rinex_header_written : Bool)
    (msg : Ephemeris_msg) (s : State σ) : State σ × List Nav_log :=
  match msg with
  | .gps e => msg_handler_gps_ephemeris C d_rinex_header_written e s
  | .gps_cnav e => msg_handler_gps_cnav_ephemeris C d_rinex_header_written e s
  | .galileo e => msg_handler_galileo_ephemeris C d_rinex_header_written e s
  | .glonass_gnav e => msg_handler_glonass_gnav_ephemeris C d_rinex_header_written e s
  | .beidou_dnav e => msg_handler_beidou_dnav_ephemeris C d_rinex_header_written e s

/-! ## Observers of the ephemeris store -/

/-- Satellite id of the record of an ephemeris message. -/
def Ephemeris_msg.PRN : Ephemeris_msg → Nat
  | .gps e => e.i_satellite_PRN
  | .gps_cnav e => e.i_satellite_PRN
  | .galileo e => e.i_satellite_PRN
  | .glonass_gnav e => e.i_satellite_PRN
  | .beidou_dnav e => e.i_satellite_PRN

/-- Epoch-reference field of the record of an ephemeris message: `d_Toe` (GPS), `d_Toe1` (GPS
CNAV), `t0e_1` (Galileo), `d_t_b` (GLONASS), `d_Toc` (BeiDou). -/
def Ephemeris_msg.reference : Ephemeris_msg → ℚ
  | .gps e => e.d_Toe
  | .gps_cnav e => e.d_Toe1
  | .galileo e => e.t0e_1
  | .glonass_gnav e => e.d_t_b
  | .beidou_dnav e => e.d_Toc

/-- The record that a solver's store of the family of `msg` holds for the satellite of `msg`,
as a message of that family; `none` when the store has no record for the satellite. -/
def stored_record {σ : Type} (sol : Rtklib_Solver σ) (msg : Ephemeris_msg) :
    Option Ephemeris_msg :=
  match msg with
  | .gps e => (sol.gps_ephemeris_map.lookup (to_int32 e.i_satellite_PRN)).map Ephemeris_msg.gps
  | .gps_cnav e =>
    (sol.gps_cnav_ephemeris_map.lookup (to_int32 e.i_satellite_PRN)).map Ephemeris_msg.gps_cnav
  | .galileo e =>
    (sol.galileo_ephemeris_map.lookup (to_int32 e.i_satellite_PRN)).map Ephemeris_msg.galileo
  | .glonass_gnav e =>
    (sol.glonass_gnav_ephemeris_map.lookup (to_int32 e.i_satellite_PRN)).map
      Ephemeris_msg.glonass_gnav
  | .beidou_dnav e =>
    (sol.beidou_dnav_ephemeris_map.lookup (to_int32 e.i_satellite_PRN)).map
      Ephemeris_msg.beidou_dnav

/-- The record is new for the store: the store has no record for the satellite, or one whose
epoch-reference field differs from that of the incoming record. -/
def new_for_store {σ : Type} (sol : Rtklib_Solver σ) (msg : Ephemeris_msg) : Prop :=
  stored_record sol msg = none ∨
    ∃ r, stored_record sol msg = some r ∧ r.reference ≠ msg.reference

/-- Receiver types for which the branch of the family of `msg` calls `log_rinex_nav`; for the
types 26 and 29 of the GPS and GLONASS branches the call is made for RINEX version 3 or 2. -/
def logs_family (C : Config) (msg : Ephemeris_msg) : Prop :=
  match msg with
  | .gps _ =>
    C.d_type_of_rx ∈ ([1, 8, 9, 10, 11, 32, 33, 1000, 1001] : List Int) ∨
      (C.d_type_of_rx ∈ ([26, 29] : List Int) ∧ (C.d_rinex_version = 3 ∨ C.d_rinex_version = 2))
  | .gps_cnav _ => C.d_type_of_rx ∈ ([2, 3, 7, 13, 28, 31] : List Int)
  | .galileo _ =>
    C.d_type_of_rx ∈ ([4, 5, 6, 9, 10, 11, 13, 15, 27, 30, 32, 33, 1001] : List Int)
  | .glonass_gnav _ =>
    C.d_type_of_rx ∈ ([23, 24, 25, 27, 28, 30, 31] : List Int) ∨
      (C.d_type_of_rx ∈ ([26, 29] : List Int) ∧ (C.d_rinex_version = 3 ∨ C.d_rinex_version = 2))
  | .beidou_dnav _ => C.d_type_of_rx ∈ ([500, 600] : List Int)

/-! ## `msg_handler_telemetry`: the other branches, and `clear_ephemeris` -/

/-- A write through the pointer `d_user_pvt_solver`: it reaches the second solver object when
that exists and the object `d_internal_pvt_solver` otherwise. -/
def update_user {σ : Type} (C : Config) (set : Rtklib_Solver σ → Rtklib_Solver σ)
    (s : State σ) : State σ :=
  if C.d_enable_rx_clock_correction then { s with d_user_pvt_solver := set s.d_user_pvt_solver }
  else { s with d_internal_pvt_solver := set s.d_internal_pvt_solver }

/-- The statements `d_internal_pvt_solver->X = x; if (d_enable_rx_clock_correction == true)
{ d_user_pvt_solver->X = x; }` for the member assignment `set`. -/
def assign_both {σ : Type} (C : Config) (set : Rtklib_Solver σ → Rtklib_Solver σ)
    (s : State σ) : State σ :=
  let s1 : State σ := { s with d_internal_pvt_solver := set s.d_internal_pvt_solver }
  if C.d_enable_rx_clock_correction = true then
    { s1 with d_user_pvt_solver := set s1.d_user_pvt_solver }
  else s1

/-- Assignment `gps_almanac_map[alm.i_satellite_PRN] = alm` on one solver object. -/
def assign_gps_almanac {σ : Type} (alm : Gps_Almanac) (sol : Rtklib_Solver σ) :
    Rtklib_Solver σ :=
  { sol with gps_almanac_map := map_assign sol.gps_almanac_map (to_int32 alm.i_satellite_PRN) alm }

/-- Assignment `beidou_dnav_almanac_map[alm.i_satellite_PRN] = alm` on one solver object. -/
def assign_beidou_dnav_almanac {σ : Type} (alm : Beidou_Dnav_Almanac) (sol : Rtklib_Solver σ) :
    Rtklib_Solver σ :=
  { sol with beidou_dnav_almanac_map :=
      map_assign sol.beidou_dnav_almanac_map (to_int32 alm.i_satellite_PRN) alm }

/-- Assignment `galileo_almanac_map[alm.i_satellite_PRN] = alm` on one solver object. -/
def assign_galileo_almanac {σ : Type} (alm : Galileo_Almanac) (sol : Rtklib_Solver σ) :
    Rtklib_Solver σ :=
  { sol with galileo_almanac_map :=
      map_assign sol.galileo_almanac_map (to_int32 alm.i_satellite_PRN) alm }

/-- The objects that `msg_handler_telemetry` tells apart by their type: the five ephemerides,
the ionosphere and UTC models, the almanacs, the Galileo almanac helper (given by the three
almanacs that `get_almanac(1)`, `get_almanac(2)` and `get_almanac(3)` return), and an object of
any other type. -/
inductive Telemetry_msg where
  | ephemeris (msg : Ephemeris_msg)
  | gps_iono (gps_iono : Record_content)
  | gps_utc_model (gps_utc_model : Record_content)
  | gps_cnav_iono (gps_cnav_iono : Record_content)
  | gps_cnav_utc_model (gps_cnav_utc_model : Record_content)
  | gps_almanac (gps_almanac : Gps_Almanac)
  | galileo_iono (galileo_iono : Record_content)
  | galileo_utc_model (galileo_utc_model : Record_content)
  | galileo_almanac_helper (sv1 sv2 sv3 : Galileo_Almanac)
  | galileo_almanac (galileo_alm : Galileo_Almanac)
  | glonass_gnav_utc_model (glonass_gnav_utc_model : Record_content)
  | glonass_gnav_almanac (glonass_gnav_almanac : Record_content)
  | beidou_dnav_iono (bds_dnav_iono : Record_content)
  | beidou_dnav_utc_model (bds_dnav_utc_model : Record_content)
  | beidou_dnav_almanac (bds_dnav_almanac : Beidou_Dnav_Almanac)
  | unknown
  deriving DecidableEq, Repr

/-- Function `msg_handler_telemetry` on any message: the ephemeris branches are those of
`msg_handler_telemetry`; every other branch assigns the record in the internal solver and,
inside `if (d_enable_rx_clock_correction == true)`, in the second solver, except the branch
"GPS CNAV UTC MODEL", whose write through `d_user_pvt_solver` stands in a bare block; an
object of another type is only reported.  Only the ephemeris branches call `log_rinex_nav`. -/
def msg_handler_telemetry_all {σ : Type} (C : Config) (d_rinex_header_written : Bool)
    (msg : Telemetry_msg) (s : State σ) : State σ × List Nav_log :=
  match msg with
  | .ephemeris m => msg_handler_telemetry C d_rinex_header_written m s
  | .gps_iono r => (assign_both C (fun sol => { sol with gps_iono := r }) s, [])
  | .gps_utc_model r => (assign_both C (fun sol => { sol with gps_utc_model := r }) s, [])
  | .gps_cnav_iono r => (assign_both C (fun sol => { sol with gps_cnav_iono := r }) s, [])
  | .gps_cnav_utc_model r =>
    (update_user C (fun sol => { sol with gps_cnav_utc_model := r })
      { s with d_internal_pvt_solver := { s.d_internal_pvt_solver with gps_cnav_utc_model := r } },
      [])
  | .gps_almanac a => (assign_both C (assign_gps_almanac a) s, [])
  | .galileo_iono r => (assign_both C (fun sol => { sol with galileo_iono := r }) s, [])
  | .galileo_utc_model r =>
    (assign_both C (fun sol => { sol with galileo_utc_model := r }) s, [])
  | .galileo_almanac_helper sv1 sv2 sv3 =>
    let s1 : State σ :=
      if sv1.i_satellite_PRN ≠ 0 then assign_both C (assign_galileo_almanac sv1) s else s
    let s2 : State σ :=
      if sv2.i_satellite_PRN ≠ 0 then assign_both C (assign_galileo_almanac sv2) s1 else s1
    let s3 : State σ :=
      if sv3.i_satellite_PRN ≠ 0 then assign_both C (assign_galileo_almanac sv3) s2 else s2
    (s3, [])
  | .galileo_almanac a => (assign_both C (assign_galileo_almanac a) s, [])
  | .glonass_gnav_utc_model r =>
    (assign_both C (fun sol => { sol with glonass_gnav_utc_model := r }) s, [])
  | .glonass_gnav_almanac r =>
    (assign_both C (fun sol => { sol with glonass_gnav_almanac := r }) s, [])
  | .beidou_dnav_iono r => (assign_both C (fun sol => { sol with beidou_dnav_iono := r }) s, [])
  | .beidou_dnav_utc_model r =>
    (assign_both C (fun sol => { sol with beidou_dnav_utc_model := r }) s, [])
  | .beidou_dnav_almanac a => (assign_both C (assign_beidou_dnav_almanac a) s, [])
  | .unknown => (s, [])

/-- The six `clear()` calls that `clear_ephemeris` makes on one solver object. -/
def clear_maps {σ : Type} (sol : Rtklib_Solver σ) : Rtklib_Solver σ :=
  { sol with
    gps_ephemeris_map := [],
    gps_almanac_map := [],
    galileo_ephemeris_map := [],
    galileo_almanac_map := [],
    beidou_dnav_ephemeris_map := [],
    beidou_dnav_almanac_map := [] }

/-- Function `clear_ephemeris`: the maps of the internal solver are cleared and, when the
second solver exists, its maps too. -/
def clear_ephemeris {σ : Type} (C : Config) (s : State σ) : State σ :=
  assign_both C clear_maps s

/-- The navigation records of a solver object: all its public members, without its private
state. -/
def store_records {σ : Type} (sol : Rtklib_Solver σ) : Rtklib_Solver Unit where
  gps_ephemeris_map := sol.gps_ephemeris_map
  galileo_ephemeris_map := sol.galileo_ephemeris_map
  gps_cnav_ephemeris_map := sol.gps_cnav_ephemeris_map
  glonass_gnav_ephemeris_map := sol.glonass_gnav_ephemeris_map
  beidou_dnav_ephemeris_map := sol.beidou_dnav_ephemeris_map
  gps_iono := sol.gps_iono
  gps_utc_model := sol.gps_utc_model
  gps_cnav_iono := sol.gps_cnav_iono
  gps_cnav_utc_model := sol.gps_cnav_utc_model
  gps_almanac_map := sol.gps_almanac_map
  galileo_iono := sol.galileo_iono
  galileo_utc_model := sol.galileo_utc_model
  galileo_almanac_map := sol.galileo_almanac_map
  glonass_gnav_utc_model := sol.glonass_gnav_utc_model
  glonass_gnav_almanac := sol.glonass_gnav_almanac
  beidou_dnav_iono := sol.beidou_dnav_iono
  beidou_dnav_utc_model := sol.beidou_dnav_utc_model
  beidou_dnav_almanac_map := sol.beidou_dnav_almanac_map
  core := ()

/-! ## The flag `d_rinex_header_written`, the printer `d_rp` and the entry points of the block -/

/-- The `switch (d_type_of_rx)` under `if (!d_rinex_header_written)` in `work`: whether the
RINEX headers are written, which each case decides by the ephemeris maps of
`d_user_pvt_solver` that must hold a record. -/
def rinex_header_due {σ : Type} (C : Config) (user : Rtklib_Solver σ) : Bool :=
  let gps : Bool := !user.gps_ephemeris_map.isEmpty
  let cnav : Bool := !user.gps_cnav_ephemeris_map.isEmpty
  let gal : Bool := !user.galileo_ephemeris_map.isEmpty
  let glo : Bool := !user.glonass_gnav_ephemeris_map.isEmpty
  let bds : Bool := !user.beidou_dnav_ephemeris_map.isEmpty
  let t := C.d_type_of_rx
  if t = 1 then gps
  else if t = 2 ∨ t = 3 then cnav
  else if t = 4 ∨ t = 5 ∨ t = 6 then gal
  else if t = 7 ∨ t = 8 then gps && cnav
  else if t = 9 ∨ t = 10 ∨ t = 11 then gal && gps
  else if t = 13 then gal && cnav
  else if t = 14 ∨ t = 15 then gal
  else if t = 23 ∨ t = 24 ∨ t = 25 then glo
  else if t = 26 then glo && gps
  else if t = 27 then glo && gal
  else if t = 28 then glo && cnav
  else if t = 29 then glo && gps
  else if t = 30 then glo && gal
  else if t = 31 then glo && cnav
  else if t = 32 then gps && cnav && gal
  else if t = 33 then gps && gal
  else if t = 500 then bds
  else if t = 501 then gps && bds
  else if t = 502 then gal && bds
  else if t = 503 ∨ t = 504 ∨ t = 505 ∨ t = 506 then bds
  else if t = 600 then bds
  else if t = 601 ∨ t = 602 ∨ t = 603 then bds
  else if t = 1000 then gps && cnav
  else if t = 1001 then gal && gps && cnav
  else false

/-- Region "RINEX FILES" of the output branch of `work`, as far as it writes
`d_rinex_header_written`: under `if (d_rinex_output_enabled)` and `if (!d_rinex_header_written)`
the flag is set when the headers are written, and nothing else assigns it. -/
def rinex_header_block {σ : Type} (C : Config) (user : Rtklib_Solver σ)
    (d_rinex_header_written : Bool) : Bool :=
  if C.d_rinex_output_enabled then
    if !d_rinex_header_written then
      (if rinex_header_due C user then true else d_rinex_header_written)
    else d_rinex_header_written
  else d_rinex_header_written

/-- The pointer `d_rp` as the constructor leaves it: a printer when `d_rinex_output_enabled`
is set, `nullptr` otherwise.  No other statement assigns it. -/
def d_rp (C : Config) : Option Unit :=
  if C.d_rinex_output_enabled then some () else none

/-- The block object: the members of `State` and the flag `d_rinex_header_written`. -/
structure Pvt_gs (σ : Type) where
  st : State σ
  d_rinex_header_written : Bool

/-- The member functions that change the block after its construction: one iteration of the
loop of `work` on the given input items, `msg_handler_telemetry` on a message,
`clear_ephemeris`, and `load_gnss_synchro_map_xml` (given by the map that it reads). -/
inductive Call where
  | work_epoch (inp : Nat → Gnss_Synchro)
  | msg_handler_telemetry (msg : Telemetry_msg)
  | clear_ephemeris
  | load_gnss_synchro_map_xml (loaded : ObsMap)

/-- What one call leaves: the block afterwards, the epoch context when the call is an
iteration of `work`, and the calls of `log_rinex_nav` made by `msg_handler_telemetry`. -/
structure Outcome (σ : Type) where
  after : Pvt_gs σ
  epoch : Option (Epoch σ)
  logs : List Nav_log

/-- One call on the block.  An iteration of `work` is `work_epoch` followed by the update of
`d_rinex_header_written`: the region "RINEX FILES" stands in the output branch after the track
logs and reads the ephemeris maps of `d_user_pvt_solver`, which nothing later in the iteration
writes, so it is applied to the completed iteration.  `msg_handler_telemetry` reads the flag;
its calls of `log_rinex_nav` go through `d_rp`, and with `d_rp == nullptr` such a call is
undefined (`none`). -/
def call {σ : Type} (D : Consts) (C : Config) (ops : SolverOps σ) (c : Call) (b : Pvt_gs σ) :
    Option (Outcome σ) :=
  match c with
  | .work_epoch inp =>
    match work_epoch D C ops inp b.st with
    | none => none
    | some e =>
      some { after := { st := e.st,
                        d_rinex_header_written :=
                          if output_branch C ops e then
                            rinex_header_block C (user_solver C e.st) b.d_rinex_header_written
                          else b.d_rinex_header_written },
             epoch := some e, logs := [] }
  | .msg_handler_telemetry msg =>
    let r := msg_handler_telemetry_all C b.d_rinex_header_written msg b.st
    match r.2, d_rp C with
    | [], _ => some { after := { b with st := r.1 }, epoch := none, logs := [] }
    | _ :: _, none => none
    | logs, some _ => some { after := { b with st := r.1 }, epoch := none, logs := logs }
  | .clear_ephemeris =>
    some { after := { b with st := clear_ephemeris C b.st }, epoch := none, logs := [] }
  | .load_gnss_synchro_map_xml loaded =>
    some { after := { b with st := { b.st with d_gnss_observables_map := loaded } },
           epoch := none, logs := [] }

/-- A sequence of calls on the block, each starting from the members left by the one before:
the outcomes in order, `none` when a call runs into undefined behaviour. -/
def run {σ : Type} (D : Consts) (C : Config) (ops : SolverOps σ) :
    List Call → Pvt_gs σ → Option (List (Outcome σ))
  | [], _ => some []
  | c :: cs, b =>
    match call D C ops c b with
    | none => none
    | some r =>
      match run D C ops cs r.after with
      | none => none
      | some rs => some (r :: rs)

/-- The call was an iteration of `work` that took the output branch. -/
def Outcome.output_branch {σ : Type} (C : Config) (ops : SolverOps σ) (r : Outcome σ) : Prop :=
  match r.epoch with
  | some e => rtklib_pvt_gs.output_branch C ops e
  | none => False

/-- The events issued by the call: those of the iteration of `work`, none for the other
member functions. -/
def Outcome.ev {σ : Type} (r : Outcome σ) : List Event :=
  match r.epoch with
  | some e => e.ev
  | none => []

/-- A member assignment acts on the navigation records only: solver objects with the same
records have the same records after it. -/
def acts_on_records {σ : Type} (set : Rtklib_Solver σ → Rtklib_Solver σ) : Prop :=
  ∀ a b : Rtklib_Solver σ, store_records a = store_records b →
    store_records (set a) = store_records (set b)

instance {σ : Type} (C : Config) (ops : SolverOps σ) (r : Outcome σ) :
    Decidable (r.output_branch C ops) := by
  unfold Outcome.output_branch
  split <;> infer_instance

/-- The sample configuration with correction disabled and RINEX output enabled. -/
def sample_config_rinex : Config :=
  { sample_config false with d_rinex_output_enabled := true }

/-- The block after the calls whose outcomes are `pre`, in order, starting from `b`. -/
def block_after {σ : Type} (b : Pvt_gs σ) (pre : List (Outcome σ)) : Pvt_gs σ :=
  pre.foldl (fun _ r => r.after) b

end rtklib_pvt_gs

/-! # Checked properties -/

namespace rtklib_pvt_gs

theorem mapStringValues_index_fst (D : Consts) (tbl : List (String × StringValue_))
    (code : String) :
    (mapStringValues_index D tbl code).1 = signal_value D tbl code := by
  unfold mapStringValues_index signal_value
  cases h : tbl.lookup code <;> simp

theorem signal_value_index_snd (D : Consts) (tbl : List (String × StringValue_))
    (code c : String) :
    signal_value D (mapStringValues_index D tbl code).2 c = signal_value D tbl c := by
  unfold mapStringValues_index signal_value
  cases h : tbl.lookup code with
  | some v => simp
  | none =>
    simp only [List.lookup_append]
    cases hc : tbl.lookup c with
    | some w => simp
    | none =>
      by_cases hcc : c = code
      · subst hcc; simp [List.lookup]
      · have : (c == code) = false := by simpa using hcc
        simp [List.lookup, this]

theorem apply_rx_clock_offset_fst (D : Consts) (d : ℚ) (m : ObsMap) :
    ∀ tbl : List (String × StringValue_),
      (apply_rx_clock_offset D tbl m d).1 =
        m.map (fun p => (p.1, apply_rx_clock_offset_one D d (signal_value D tbl p.2.Signal) p.2)) := by
  induction m with
  | nil => intro tbl; rfl
  | cons p rest ih =>
    intro tbl
    obtain ⟨k, o⟩ := p
    simp only [apply_rx_clock_offset, List.map_cons]
    rw [ih, mapStringValues_index_fst]
    congr 1
    apply List.map_congr_left
    intro q _
    rw [signal_value_index_snd]

theorem apply_rx_clock_offset_snd_indep (D : Consts) (d d' : ℚ) (m : ObsMap) :
    ∀ tbl : List (String × StringValue_),
      (apply_rx_clock_offset D tbl m d).2 = (apply_rx_clock_offset D tbl m d').2 := by
  induction m with
  | nil => intro tbl; rfl
  | cons p rest ih =>
    intro tbl
    obtain ⟨k, o⟩ := p
    simp only [apply_rx_clock_offset]
    exact ih _

theorem mapStringValues_index_snd_of_isSome (D : Consts) (tbl : List (String × StringValue_))
    (code : String) (h : (tbl.lookup code).isSome) :
    (mapStringValues_index D tbl code).2 = tbl := by
  unfold mapStringValues_index
  cases hl : tbl.lookup code with
  | some v => rfl
  | none => rw [hl] at h; cases h

theorem mapStringValues_index_snd_isSome (D : Consts) (tbl : List (String × StringValue_))
    (code c : String) (h : (tbl.lookup c).isSome ∨ c = code) :
    (((mapStringValues_index D tbl code).2).lookup c).isSome := by
  unfold mapStringValues_index
  cases hl : tbl.lookup code with
  | some v =>
    rcases h with h | h
    · exact h
    · subst h; simp [hl]
  | none =>
    simp only [List.lookup_append]
    rcases h with h | h
    · cases hc : tbl.lookup c with
      | some w => simp
      | none => rw [hc] at h; cases h
    · subst h; simp [hl, List.lookup]

theorem apply_rx_clock_offset_snd_isSome (D : Consts) (d : ℚ) (m : ObsMap) :
    ∀ (tbl : List (String × StringValue_)) (c : String),
      ((tbl.lookup c).isSome ∨ ∃ p ∈ m, p.2.Signal = c) →
      (((apply_rx_clock_offset D tbl m d).2).lookup c).isSome := by
  induction m with
  | nil =>
    intro tbl c h
    rcases h with h | ⟨p, hp, _⟩
    · exact h
    · cases hp
  | cons p rest ih =>
    intro tbl c h
    obtain ⟨k, o⟩ := p
    simp only [apply_rx_clock_offset]
    apply ih
    rcases h with h | ⟨q, hq, hqc⟩
    · exact Or.inl (mapStringValues_index_snd_isSome D tbl o.Signal c (Or.inl h))
    · rcases List.mem_cons.1 hq with hq | hq
      · subst hq
        exact Or.inl (mapStringValues_index_snd_isSome D tbl o.Signal c (Or.inr hqc.symm))
      · exact Or.inr ⟨q, hq, hqc⟩

theorem apply_rx_clock_offset_snd_of_isSome (D : Consts) (d : ℚ) (m : ObsMap) :
    ∀ (tbl : List (String × StringValue_)),
      (∀ p ∈ m, (tbl.lookup p.2.Signal).isSome) →
      (apply_rx_clock_offset D tbl m d).2 = tbl := by
  induction m with
  | nil => intro tbl _; rfl
  | cons p rest ih =>
    intro tbl h
    obtain ⟨k, o⟩ := p
    simp only [apply_rx_clock_offset]
    have h1 : (mapStringValues_index D tbl o.Signal).2 = tbl :=
      mapStringValues_index_snd_of_isSome D tbl o.Signal (h (k, o) (List.mem_cons_self _ _))
    rw [h1]
    exact ih tbl (fun q hq => h q (List.mem_cons_of_mem _ hq))

theorem apply_rx_clock_offset_one_Signal (D : Consts) (d : ℚ) (ev : StringValue_)
    (o : Gnss_Synchro) : (apply_rx_clock_offset_one D d ev o).Signal = o.Signal := by
  cases ev <;> rfl

theorem apply_rx_clock_offset_one_add (D : Consts) (d1 d2 : ℚ) (ev : StringValue_)
    (o : Gnss_Synchro) :
    apply_rx_clock_offset_one D d2 ev (apply_rx_clock_offset_one D d1 ev o) =
      apply_rx_clock_offset_one D (d1 + d2) ev o := by
  cases ev <;> simp only [apply_rx_clock_offset_one, Gnss_Synchro.mk.injEq] <;>
    refine ⟨trivial, trivial, trivial, ?_, ?_, ?_, trivial, trivial⟩ <;> ring

/-- Claim C1: applying `apply_rx_clock_offset` with offset `d1` and then with offset `d2` gives
the same observable map (and leaves the same signal-code table) as applying it once with
`d1 + d2`, for every map, every table and all offsets, in particular all non-zero ones. -/
theorem apply_rx_clock_offset_twice (D : Consts) (tbl : List (String × StringValue_))
    (m : ObsMap) (d1 d2 : ℚ) :
    apply_rx_clock_offset D (apply_rx_clock_offset D tbl m d1).2
        (apply_rx_clock_offset D tbl m d1).1 d2 =
      apply_rx_clock_offset D tbl m (d1 + d2) := by
  apply Prod.ext
  · rw [apply_rx_clock_offset_fst, apply_rx_clock_offset_fst, apply_rx_clock_offset_fst,
      List.map_map]
    apply List.map_congr_left
    intro p _
    simp only [Function.comp, apply_rx_clock_offset_one_Signal]
    have hsv : signal_value D (apply_rx_clock_offset D tbl m d1).2 p.2.Signal =
        signal_value D tbl p.2.Signal := by
      clear * -
      induction m generalizing tbl with
      | nil => rfl
      | cons q rest ih =>
        obtain ⟨k, o⟩ := q
        simp only [apply_rx_clock_offset]
        rw [ih, signal_value_index_snd]
    rw [hsv, apply_rx_clock_offset_one_add]
  · rw [apply_rx_clock_offset_snd_indep D (d1 + d2) d1 m tbl]
    apply apply_rx_clock_offset_snd_of_isSome
    intro p hp
    rw [apply_rx_clock_offset_fst] at hp
    obtain ⟨q, hq, rfl⟩ := List.mem_map.1 hp
    simp only [apply_rx_clock_offset_one_Signal]
    exact apply_rx_clock_offset_snd_isSome D d1 m tbl _ (Or.inr ⟨q, hq, rfl⟩)

theorem apply_rx_clock_offset_one_fields (D : Consts) (d : ℚ) (ev : StringValue_)
    (o : Gnss_Synchro) :
    (apply_rx_clock_offset_one D d ev o).RX_time = o.RX_time - d ∧
    (apply_rx_clock_offset_one D d ev o).Pseudorange_m =
      o.Pseudorange_m - d * D.SPEED_OF_LIGHT_M_S ∧
    (apply_rx_clock_offset_one D d ev o).Carrier_phase_rads =
      o.Carrier_phase_rads - d * switch_frequency D ev * D.TWO_PI ∧
    (apply_rx_clock_offset_one D d ev o).PRN = o.PRN ∧
    (apply_rx_clock_offset_one D d ev o).Signal = o.Signal ∧
    (apply_rx_clock_offset_one D d ev o).Carrier_Doppler_hz = o.Carrier_Doppler_hz ∧
    (apply_rx_clock_offset_one D d ev o).Channel_ID = o.Channel_ID ∧
    (apply_rx_clock_offset_one D d ev o).Flag_valid_pseudorange = o.Flag_valid_pseudorange := by
  cases ev <;> simp [apply_rx_clock_offset_one, switch_frequency]

theorem switch_frequency_of_spec (D : Consts) (code : String) (f : ℚ)
    (h : spec_signal_frequency D code = some f) :
    switch_frequency D (signal_value D d_mapStringValues_ctor code) = f := by
  unfold spec_signal_frequency at h
  split_ifs at h with h1 h2 h3 h4 h5 h6 h7 h8
  · rcases h1 with h1 | h1 <;> subst h1 <;> simpa [signal_value, d_mapStringValues_ctor,
      List.lookup, switch_frequency] using h
  · rcases h2 with h2 | h2 <;> subst h2 <;> simpa [signal_value, d_mapStringValues_ctor,
      List.lookup, switch_frequency] using h
  all_goals
    first
    | (subst h3; simpa [signal_value, d_mapStringValues_ctor, List.lookup, switch_frequency] using h)
    | (subst h4; simpa [signal_value, d_mapStringValues_ctor, List.lookup, switch_frequency] using h)
    | (subst h5; simpa [signal_value, d_mapStringValues_ctor, List.lookup, switch_frequency] using h)
    | (subst h6; simpa [signal_value, d_mapStringValues_ctor, List.lookup, switch_frequency] using h)
    | (subst h7; simpa [signal_value, d_mapStringValues_ctor, List.lookup, switch_frequency] using h)
    | (subst h8; simpa [signal_value, d_mapStringValues_ctor, List.lookup, switch_frequency] using h)

/-- Claim C2: `apply_rx_clock_offset` with offset `d`, started from the constructor's signal
table, returns a map with the same keys in the same order in which every observable has
`RX_time - d`, `Pseudorange_m - d * c` and, when its signal code is one of the recognised codes
with table frequency `f`, `Carrier_phase_rads - d * f * 2π`; PRN, signal code, Doppler, channel
id and validity flag are those of the input observable. -/
theorem apply_rx_clock_offset_spec (D : Consts) (m : ObsMap) (d : ℚ) :
    List.Forall₂
      (fun a b : Int × Gnss_Synchro =>
        b.1 = a.1 ∧
        b.2.RX_time = a.2.RX_time - d ∧
        b.2.Pseudorange_m = a.2.Pseudorange_m - d * D.SPEED_OF_LIGHT_M_S ∧
        (∀ f, spec_signal_frequency D a.2.Signal = some f →
          b.2.Carrier_phase_rads = a.2.Carrier_phase_rads - d * f * D.TWO_PI) ∧
        b.2.PRN = a.2.PRN ∧ b.2.Signal = a.2.Signal ∧
        b.2.Carrier_Doppler_hz = a.2.Carrier_Doppler_hz ∧
        b.2.Channel_ID = a.2.Channel_ID ∧
        b.2.Flag_valid_pseudorange = a.2.Flag_valid_pseudorange)
      m (apply_rx_clock_offset D d_mapStringValues_ctor m d).1 := by
  rw [apply_rx_clock_offset_fst, List.forall₂_map_right_iff]
  apply List.forall₂_same.2
  intro a _
  obtain ⟨h1, h2, h3, h4, h5, h6, h7, h8⟩ :=
    apply_rx_clock_offset_one_fields D d (signal_value D d_mapStringValues_ctor a.2.Signal) a.2
  refine ⟨rfl, h1, h2, ?_, h4, h5, h6, h7, h8⟩
  intro f hf
  rw [h3, switch_frequency_of_spec D _ f hf]

namespace ObsMap

theorem at_eq_none_of_not_mem (m : ObsMap) (k : Int) (h : k ∉ keys m) : «at» m k = none := by
  induction m with
  | nil => rfl
  | cons e rest ih =>
    obtain ⟨k', v⟩ := e
    simp only [keys, List.map_cons, List.mem_cons, not_or] at h
    simp only [«at», if_neg h.1]
    exact ih h.2

theorem mem_keys_iff_at (m : ObsMap) (k : Int) : k ∈ keys m ↔ ∃ v, «at» m k = some v := by
  induction m with
  | nil => simp [keys, «at»]
  | cons e rest ih =>
    obtain ⟨k', v⟩ := e
    by_cases hk : k = k'
    · subst hk; simp [keys, «at»]
    · simp only [keys, List.map_cons, List.mem_cons, hk, false_or, «at», if_false]
      exact ih

theorem insert_of_lt (m : ObsMap) (k : Int) (v : Gnss_Synchro) (h : ∀ j ∈ keys m, j < k) :
    insert m k v = m ++ [(k, v)] := by
  induction m with
  | nil => rfl
  | cons e rest ih =>
    obtain ⟨k', v'⟩ := e
    have hk' : k' < k := h k' (by simp [keys])
    have h1 : ¬ k < k' := not_lt.2 (le_of_lt hk')
    have h2 : ¬ k = k' := ne_of_gt hk'
    simp only [insert, if_neg h1, if_neg h2, List.cons_append]
    rw [ih (fun j hj => h j (by simp only [keys, List.map_cons, List.mem_cons]; exact Or.inr hj))]

theorem modify_append_of_lt (m : ObsMap) (k : Int) (v : Gnss_Synchro)
    (f : Gnss_Synchro → Gnss_Synchro) (h : ∀ j ∈ keys m, j < k) :
    modify (m ++ [(k, v)]) k f = m ++ [(k, f v)] := by
  induction m with
  | nil => simp [modify]
  | cons e rest ih =>
    obtain ⟨k', v'⟩ := e
    have hk' : k' < k := h k' (by simp [keys])
    have h2 : ¬ k = k' := ne_of_gt hk'
    simp only [List.cons_append, modify, if_neg h2, List.append_eq]
    rw [ih (fun j hj => h j (by simp only [keys, List.map_cons, List.mem_cons]; exact Or.inr hj))]

theorem at_filterMap (g : Int × Gnss_Synchro → Option (Int × Gnss_Synchro))
    (hg : ∀ e v, g e = some v → v.1 = e.1) (m : ObsMap) (hnd : (keys m).Nodup) (j : Int) :
    «at» (m.filterMap g) j = («at» m j).bind (fun o => (g (j, o)).map Prod.snd) := by
  induction m with
  | nil => rfl
  | cons e rest ih =>
    obtain ⟨k', v'⟩ := e
    simp only [keys, List.map_cons, List.nodup_cons] at hnd
    have ih' := ih hnd.2
    by_cases hj : j = k'
    · subst hj
      have hnone : «at» (rest.filterMap g) j = none := by
        rw [ih', at_eq_none_of_not_mem rest j hnd.1]; rfl
      cases hge : g (j, v') with
      | none => simp [List.filterMap_cons, hge, «at», hnone]
      | some w =>
        have hw : w.1 = j := hg _ _ hge
        obtain ⟨wk, wv⟩ := w
        simp only at hw
        subst hw
        simp [List.filterMap_cons, hge, «at»]
    · cases hge : g (k', v') with
      | none => simp [List.filterMap_cons, hge, «at», hj, ih']
      | some w =>
        have hw : w.1 = k' := hg _ _ hge
        obtain ⟨wk, wv⟩ := w
        simp only at hw
        subst hw
        simp [List.filterMap_cons, hge, «at», hj, ih']

theorem keys_filterMap_sublist (g : Int × Gnss_Synchro → Option (Int × Gnss_Synchro))
    (hg : ∀ e v, g e = some v → v.1 = e.1) (m : ObsMap) :
    List.Sublist (keys (m.filterMap g)) (keys m) := by
  induction m with
  | nil => simp [keys]
  | cons e rest ih =>
    cases hge : g e with
    | none =>
      simp only [List.filterMap_cons, hge, keys, List.map_cons]
      exact List.Sublist.cons _ ih
    | some w =>
      simp only [List.filterMap_cons, hge, keys, List.map_cons, hg e w hge]
      exact List.Sublist.cons₂ _ ih

theorem WF.nodup {m : ObsMap} (h : WF m) : (keys m).Nodup :=
  List.Pairwise.imp (fun hab => ne_of_lt hab) h

end ObsMap

/-! ## `interpolate_observables` -/

theorem interpolate_filter_key (t1 : ObsMap) (factor t : ℚ) (e v : Int × Gnss_Synchro)
    (h : interpolate_filter t1 factor t e = some v) : v.1 = e.1 := by
  unfold interpolate_filter at h
  split at h
  · cases h
  · split_ifs at h
    cases h
    rfl

theorem interpolate_step_append (t1 : ObsMap) (factor t : ℚ) (acc : ObsMap)
    (e : Int × Gnss_Synchro) (h : ∀ j ∈ ObsMap.keys acc, j < e.1) :
    interpolate_step t1 factor t acc e = acc ++ (interpolate_filter t1 factor t e).toList := by
  unfold interpolate_step interpolate_filter
  cases h1 : ObsMap.at t1 e.1 with
  | none => simp
  | some o1 =>
    by_cases hp : o1.PRN = e.2.PRN
    · simp only [if_pos hp, Option.toList]
      rw [ObsMap.insert_of_lt acc e.1 e.2 h, ObsMap.modify_append_of_lt acc e.1 _ _ h,
        ObsMap.modify_append_of_lt acc e.1 _ _ h, ObsMap.modify_append_of_lt acc e.1 _ _ h,
        ObsMap.modify_append_of_lt acc e.1 _ _ h]
      rfl
    · simp [if_neg hp]

theorem interpolate_foldl (t1 : ObsMap) (factor t : ℚ) (rest : ObsMap) :
    ∀ acc : ObsMap, ObsMap.WF rest → (∀ j ∈ ObsMap.keys acc, ∀ i ∈ ObsMap.keys rest, j < i) →
      rest.foldl (interpolate_step t1 factor t) acc =
        acc ++ rest.filterMap (interpolate_filter t1 factor t) := by
  induction rest with
  | nil => intro acc _ _; simp
  | cons e rest ih =>
    intro acc hwf hlt
    have hwf' : (e.1 :: ObsMap.keys rest).Pairwise (· < ·) := hwf
    rw [List.pairwise_cons] at hwf'
    simp only [List.foldl_cons]
    rw [interpolate_step_append t1 factor t acc e
      (fun j hj => hlt j hj e.1 (by simp [ObsMap.keys]))]
    rw [ih _ hwf'.2]
    · cases hf : interpolate_filter t1 factor t e with
      | none => simp [List.filterMap_cons, hf]
      | some v => simp [List.filterMap_cons, hf]
    · intro j hj i hi
      simp only [ObsMap.keys, List.map_append, List.mem_append] at hj
      rcases hj with hj | hj
      · exact hlt j hj i (by simp only [ObsMap.keys, List.map_cons, List.mem_cons]; exact Or.inr hi)
      · cases hf : interpolate_filter t1 factor t e with
        | none => rw [hf] at hj; simp at hj
        | some v =>
          rw [hf] at hj
          simp only [Option.toList, List.map_cons, List.map_nil, List.mem_singleton] at hj
          rw [hj, interpolate_filter_key t1 factor t e v hf]
          exact hwf'.1 i hi

theorem interpolate_observables_eq (k0 k1 : Int) (f0 f1 : Gnss_Synchro) (r0 r1 : ObsMap)
    (t : ℚ) (hwf : ObsMap.WF ((k0, f0) :: r0)) :
    interpolate_observables ((k0, f0) :: r0) ((k1, f1) :: r1) t =
      some (((k0, f0) :: r0).filterMap
        (interpolate_filter ((k1, f1) :: r1) (time_factor f0.RX_time f1.RX_time t) t)) := by
  simp only [interpolate_observables]
  rw [interpolate_foldl _ _ _ _ [] hwf (by intro j hj; simp [ObsMap.keys] at hj)]
  simp

theorem interpolate_observables_at (k0 k1 : Int) (f0 f1 : Gnss_Synchro) (r0 r1 : ObsMap)
    (t : ℚ) (hwf : ObsMap.WF ((k0, f0) :: r0)) (k : Int) :
    ∃ r, interpolate_observables ((k0, f0) :: r0) ((k1, f1) :: r1) t = some r ∧
      ObsMap.WF r ∧
      ObsMap.at r k = (ObsMap.at ((k0, f0) :: r0) k).bind (fun o0 =>
        (ObsMap.at ((k1, f1) :: r1) k).bind (fun o1 =>
          if o1.PRN = o0.PRN then
            some (interpolate_entry (time_factor f0.RX_time f1.RX_time t) t o0 o1)
          else none)) := by
  refine ⟨_, interpolate_observables_eq k0 k1 f0 f1 r0 r1 t hwf, ?_, ?_⟩
  · exact List.Pairwise.sublist
      (ObsMap.keys_filterMap_sublist _ (interpolate_filter_key _ _ _) _) hwf
  · rw [ObsMap.at_filterMap _ (interpolate_filter_key _ _ _) _ hwf.nodup]
    cases h0 : ObsMap.at ((k0, f0) :: r0) k with
    | none => rfl
    | some o0 =>
      simp only [Option.bind, interpolate_filter]
      cases h1 : ObsMap.at ((k1, f1) :: r1) k with
      | none => rfl
      | some o1 =>
        by_cases hp : o1.PRN = o0.PRN
        · simp [hp]
        · simp [hp]

/-- Claim C4: for non-empty snapshots `t0` (a well-formed map) and `t1` and every target time,
`interpolate_observables` returns a map whose keys are exactly the channels `k` of `t0` for
which `t1` also holds `k` with the same PRN (a channel missing from `t1` or carrying another
PRN is left out, without failure); every entry of the result has `RX_time` equal to the target
and the PRN, signal code and channel id of the `t0` entry. -/
theorem interpolate_observables_keys (t0 t1 : ObsMap) (target : ℚ) (h0 : t0 ≠ [])
    (h1 : t1 ≠ []) (hwf : ObsMap.WF t0) :
    ∃ r, interpolate_observables t0 t1 target = some r ∧ ObsMap.WF r ∧
      (∀ k, k ∈ ObsMap.keys r ↔
        ∃ o0 o1, ObsMap.at t0 k = some o0 ∧ ObsMap.at t1 k = some o1 ∧ o1.PRN = o0.PRN) ∧
      (∀ k o, ObsMap.at r k = some o →
        o.RX_time = target ∧
        ∃ o0, ObsMap.at t0 k = some o0 ∧ o.PRN = o0.PRN ∧ o.Signal = o0.Signal ∧
          o.Channel_ID = o0.Channel_ID) := by
  obtain ⟨⟨k0, f0⟩, r0, rfl⟩ := List.exists_cons_of_ne_nil h0
  obtain ⟨⟨k1, f1⟩, r1, rfl⟩ := List.exists_cons_of_ne_nil h1
  obtain ⟨r, hr, hrwf, _⟩ := interpolate_observables_at k0 k1 f0 f1 r0 r1 target hwf 0
  refine ⟨r, hr, hrwf, ?_, ?_⟩
  · intro k
    obtain ⟨r', hr', _, hat⟩ := interpolate_observables_at k0 k1 f0 f1 r0 r1 target hwf k
    rw [hr] at hr'
    cases hr'
    rw [ObsMap.mem_keys_iff_at, hat]
    constructor
    · rintro ⟨v, hv⟩
      cases ha : ObsMap.at ((k0, f0) :: r0) k with
      | none => rw [ha] at hv; cases hv
      | some o0 =>
        cases hb : ObsMap.at ((k1, f1) :: r1) k with
        | none => rw [ha, hb] at hv; cases hv
        | some o1 =>
          rw [ha, hb] at hv
          simp only [Option.bind] at hv
          by_cases hp : o1.PRN = o0.PRN
          · exact ⟨o0, o1, rfl, rfl, hp⟩
          · rw [if_neg hp] at hv; cases hv
    · rintro ⟨o0, o1, ha, hb, hp⟩
      rw [ha, hb]
      refine ⟨interpolate_entry (time_factor f0.RX_time f1.RX_time target) target o0 o1, ?_⟩
      simp only [Option.bind, if_pos hp]
  · intro k o hko
    obtain ⟨r', hr', _, hat⟩ := interpolate_observables_at k0 k1 f0 f1 r0 r1 target hwf k
    rw [hr] at hr'
    cases hr'
    rw [hat] at hko
    cases ha : ObsMap.at ((k0, f0) :: r0) k with
    | none => rw [ha] at hko; cases hko
    | some o0 =>
      cases hb : ObsMap.at ((k1, f1) :: r1) k with
      | none => rw [ha, hb] at hko; cases hko
      | some o1 =>
        rw [ha, hb] at hko
        simp only [Option.bind] at hko
        by_cases hp : o1.PRN = o0.PRN
        · rw [if_pos hp] at hko
          cases hko
          exact ⟨rfl, o0, rfl, rfl, rfl, rfl⟩
        · rw [if_neg hp] at hko; cases hko

/-- Evaluation of `interpolate_observables_keys`: `t0` has channels 0, 1, 2 (PRN 3, 7, 12),
`t1` has channels 0 and 1 (PRN 3 and 8). -/
theorem interpolate_observables_keys_witness :
    ([(0, sample_obs 3 "1C" 0 10 100 0), (1, sample_obs 7 "1C" 1 10 200 0),
      (2, sample_obs 12 "1C" 2 10 300 0)] : ObsMap) ≠ [] ∧
    ([(0, sample_obs 3 "1C" 0 11 110 0), (1, sample_obs 8 "1C" 1 11 210 0)] : ObsMap) ≠ [] ∧
    ObsMap.WF [(0, sample_obs 3 "1C" 0 10 100 0), (1, sample_obs 7 "1C" 1 10 200 0),
      (2, sample_obs 12 "1C" 2 10 300 0)] ∧
    ∃ r, interpolate_observables
        [(0, sample_obs 3 "1C" 0 10 100 0), (1, sample_obs 7 "1C" 1 10 200 0),
          (2, sample_obs 12 "1C" 2 10 300 0)]
        [(0, sample_obs 3 "1C" 0 11 110 0), (1, sample_obs 8 "1C" 1 11 210 0)]
        (21 / 2) = some r ∧ ObsMap.WF r ∧
      (∀ k, k ∈ ObsMap.keys r ↔
        ∃ o0 o1, ObsMap.at [(0, sample_obs 3 "1C" 0 10 100 0), (1, sample_obs 7 "1C" 1 10 200 0),
            (2, sample_obs 12 "1C" 2 10 300 0)] k = some o0 ∧
          ObsMap.at [(0, sample_obs 3 "1C" 0 11 110 0), (1, sample_obs 8 "1C" 1 11 210 0)] k =
            some o1 ∧ o1.PRN = o0.PRN) ∧
      (∀ k o, ObsMap.at r k = some o →
        o.RX_time = 21 / 2 ∧
        ∃ o0, ObsMap.at [(0, sample_obs 3 "1C" 0 10 100 0), (1, sample_obs 7 "1C" 1 10 200 0),
            (2, sample_obs 12 "1C" 2 10 300 0)] k = some o0 ∧
          o.PRN = o0.PRN ∧ o.Signal = o0.Signal ∧ o.Channel_ID = o0.Channel_ID) :=
  ⟨List.cons_ne_nil _ _, List.cons_ne_nil _ _, by simp [ObsMap.WF, ObsMap.keys],
    interpolate_observables_keys _ _ (21 / 2) (List.cons_ne_nil _ _) (List.cons_ne_nil _ _)
      (by simp [ObsMap.WF, ObsMap.keys])⟩

/-- Claim C5: when the first entries of `t0` and `t1` have receiver times `T0 < T1`, a channel
present in both snapshots with the same PRN gets Pseudorange, CarrierPhase and Doppler equal to
`y0 + (y1 - y0) * factor` with `factor = (target - T0) / (T1 - T0)`; in particular, for a target
midway between `T0` and `T1` and a `t1` pseudorange equal to the `t0` pseudorange plus `Dd`,
the interpolated pseudorange is the `t0` pseudorange plus `Dd / 2`. -/
theorem interpolate_observables_linear (t0 t1 : ObsMap) (target : ℚ) (hwf : ObsMap.WF t0)
    (k0 k1 : Int) (f0 f1 : Gnss_Synchro) (hh0 : t0.head? = some (k0, f0))
    (hh1 : t1.head? = some (k1, f1)) (hT : f0.RX_time < f1.RX_time)
    (k : Int) (o0 o1 : Gnss_Synchro) (hk0 : ObsMap.at t0 k = some o0)
    (hk1 : ObsMap.at t1 k = some o1) (hprn : o1.PRN = o0.PRN) :
    ∃ r o, interpolate_observables t0 t1 target = some r ∧ ObsMap.at r k = some o ∧
      o.Pseudorange_m = o0.Pseudorange_m + (o1.Pseudorange_m - o0.Pseudorange_m) *
        ((target - f0.RX_time) / (f1.RX_time - f0.RX_time)) ∧
      o.Carrier_phase_rads = o0.Carrier_phase_rads +
        (o1.Carrier_phase_rads - o0.Carrier_phase_rads) *
          ((target - f0.RX_time) / (f1.RX_time - f0.RX_time)) ∧
      o.Carrier_Doppler_hz = o0.Carrier_Doppler_hz +
        (o1.Carrier_Doppler_hz - o0.Carrier_Doppler_hz) *
          ((target - f0.RX_time) / (f1.RX_time - f0.RX_time)) ∧
      (target = (f0.RX_time + f1.RX_time) / 2 →
        ∀ Dd : ℚ, o1.Pseudorange_m = o0.Pseudorange_m + Dd →
          o.Pseudorange_m = o0.Pseudorange_m + Dd / 2) := by
  cases t0 with
  | nil => cases hh0
  | cons e0 r0 =>
    cases t1 with
    | nil => cases hh1
    | cons e1 r1 =>
      simp only [List.head?_cons, Option.some.injEq] at hh0 hh1
      subst hh0 hh1
      obtain ⟨r, hr, _, hat⟩ := interpolate_observables_at k0 k1 f0 f1 r0 r1 target hwf k
      rw [hk0, hk1] at hat
      simp only [Option.bind, if_pos hprn] at hat
      have hpos : f1.RX_time - f0.RX_time > 0 := sub_pos.2 hT
      have hfac : time_factor f0.RX_time f1.RX_time target =
          (target - f0.RX_time) / (f1.RX_time - f0.RX_time) := by
        simp only [time_factor, if_pos hpos]
      rw [hfac] at hat
      refine ⟨r, _, hr, hat, rfl, rfl, rfl, ?_⟩
      intro htar Dd hD
      simp only [interpolate_entry]
      have hne : f1.RX_time - f0.RX_time ≠ 0 := ne_of_gt hpos
      rw [htar, hD]
      field_simp
      ring

/-- Evaluation of `interpolate_observables_linear`: one channel, times 10 s and 11 s,
pseudoranges 100 m and 110 m, target 10.5 s. -/
theorem interpolate_observables_linear_witness :
    ObsMap.WF [(0, sample_obs 3 "1C" 0 10 100 0)] ∧
    ([(0, sample_obs 3 "1C" 0 10 100 0)] : ObsMap).head? = some (0, sample_obs 3 "1C" 0 10 100 0) ∧
    ([(0, sample_obs 3 "1C" 0 11 110 0)] : ObsMap).head? = some (0, sample_obs 3 "1C" 0 11 110 0) ∧
    (sample_obs 3 "1C" 0 10 100 0).RX_time < (sample_obs 3 "1C" 0 11 110 0).RX_time ∧
    ObsMap.at [(0, sample_obs 3 "1C" 0 10 100 0)] 0 = some (sample_obs 3 "1C" 0 10 100 0) ∧
    ObsMap.at [(0, sample_obs 3 "1C" 0 11 110 0)] 0 = some (sample_obs 3 "1C" 0 11 110 0) ∧
    (sample_obs 3 "1C" 0 11 110 0).PRN = (sample_obs 3 "1C" 0 10 100 0).PRN ∧
    ∃ r o, interpolate_observables [(0, sample_obs 3 "1C" 0 10 100 0)]
        [(0, sample_obs 3 "1C" 0 11 110 0)] (21 / 2) = some r ∧
      ObsMap.at r 0 = some o ∧
      o.Pseudorange_m = (sample_obs 3 "1C" 0 10 100 0).Pseudorange_m +
        ((sample_obs 3 "1C" 0 11 110 0).Pseudorange_m -
          (sample_obs 3 "1C" 0 10 100 0).Pseudorange_m) *
        ((21 / 2 - (sample_obs 3 "1C" 0 10 100 0).RX_time) /
          ((sample_obs 3 "1C" 0 11 110 0).RX_time - (sample_obs 3 "1C" 0 10 100 0).RX_time)) ∧
      o.Carrier_phase_rads = (sample_obs 3 "1C" 0 10 100 0).Carrier_phase_rads +
        ((sample_obs 3 "1C" 0 11 110 0).Carrier_phase_rads -
          (sample_obs 3 "1C" 0 10 100 0).Carrier_phase_rads) *
        ((21 / 2 - (sample_obs 3 "1C" 0 10 100 0).RX_time) /
          ((sample_obs 3 "1C" 0 11 110 0).RX_time - (sample_obs 3 "1C" 0 10 100 0).RX_time)) ∧
      o.Carrier_Doppler_hz = (sample_obs 3 "1C" 0 10 100 0).Carrier_Doppler_hz +
        ((sample_obs 3 "1C" 0 11 110 0).Carrier_Doppler_hz -
          (sample_obs 3 "1C" 0 10 100 0).Carrier_Doppler_hz) *
        ((21 / 2 - (sample_obs 3 "1C" 0 10 100 0).RX_time) /
          ((sample_obs 3 "1C" 0 11 110 0).RX_time - (sample_obs 3 "1C" 0 10 100 0).RX_time)) ∧
      ((21 / 2 : ℚ) = ((sample_obs 3 "1C" 0 10 100 0).RX_time +
          (sample_obs 3 "1C" 0 11 110 0).RX_time) / 2 →
        ∀ Dd : ℚ, (sample_obs 3 "1C" 0 11 110 0).Pseudorange_m =
            (sample_obs 3 "1C" 0 10 100 0).Pseudorange_m + Dd →
          o.Pseudorange_m = (sample_obs 3 "1C" 0 10 100 0).Pseudorange_m + Dd / 2) :=
  ⟨by simp [ObsMap.WF, ObsMap.keys], rfl, rfl, by norm_num [sample_obs], by simp [ObsMap.at],
    by simp [ObsMap.at], rfl,
    interpolate_observables_linear [(0, sample_obs 3 "1C" 0 10 100 0)]
      [(0, sample_obs 3 "1C" 0 11 110 0)] (21 / 2) (by simp [ObsMap.WF, ObsMap.keys]) 0 0
      (sample_obs 3 "1C" 0 10 100 0) (sample_obs 3 "1C" 0 11 110 0) rfl rfl
      (by norm_num [sample_obs]) 0 (sample_obs 3 "1C" 0 10 100 0) (sample_obs 3 "1C" 0 11 110 0)
      (by simp [ObsMap.at]) (by simp [ObsMap.at]) rfl⟩

/-- Claim C6 (behaviour of the code): with `t0` at 604799.999 s, `t1` at 0.001 s and the target
604800.000 s (one millisecond after `t0`), the rollover branch of `interpolate_observables`
uses the factor `604800000.001 / 604195200.002`, which is greater than 1; the interpolated
pseudorange of a channel going from 20000000 m to 20000100 m therefore exceeds the `t1`
value. -/
theorem interpolate_observables_rollover :
    time_factor (604799999 / 1000) (1 / 1000) 604800 = 604800000001 / 604195200002 ∧
    (1 : ℚ) < time_factor (604799999 / 1000) (1 / 1000) 604800 ∧
    ∃ r o, interpolate_observables
        [(0, sample_obs 3 "1C" 0 (604799999 / 1000) 20000000 0)]
        [(0, sample_obs 3 "1C" 0 (1 / 1000) 20000100 0)] 604800 = some r ∧
      ObsMap.at r 0 = some o ∧
      o.Pseudorange_m = 20000000 + 100 * time_factor (604799999 / 1000) (1 / 1000) 604800 ∧
      (20000100 : ℚ) < o.Pseudorange_m := by
  have hf : time_factor (604799999 / 1000) (1 / 1000) 604800 = 604800000001 / 604195200002 := by
    norm_num [time_factor]
  refine ⟨hf, by rw [hf]; norm_num, ?_⟩
  obtain ⟨r, hr, _, hat⟩ := interpolate_observables_at 0 0
    (sample_obs 3 "1C" 0 (604799999 / 1000) 20000000 0)
    (sample_obs 3 "1C" 0 (1 / 1000) 20000100 0) [] [] 604800
    (by simp [ObsMap.WF, ObsMap.keys]) 0
  refine ⟨r, interpolate_entry (time_factor (604799999 / 1000) (1 / 1000) 604800) 604800
    (sample_obs 3 "1C" 0 (604799999 / 1000) 20000000 0)
    (sample_obs 3 "1C" 0 (1 / 1000) 20000100 0), hr, ?_, ?_, ?_⟩
  · rw [hat]
    simp only [ObsMap.at, if_true, Option.bind, sample_obs]
  · simp only [interpolate_entry, sample_obs]
    norm_num
  · simp only [interpolate_entry, sample_obs]
    rw [hf]
    norm_num

/-! ## `work`: section "1. READ PSEUDORANGES" -/

theorem lock_event_mem (c : Bool) (f : LockFamily) (i : Nat) (ev : Event)
    (h : ev ∈ (if c = true then [Event.rtcm_lock_time f i] else [])) :
    ∃ f c, ev = Event.rtcm_lock_time f c := by
  split_ifs at h
  · exact ⟨f, i, List.mem_singleton.1 h⟩
  · cases h

/-- The ingest of one channel completes when the channel index is within
`d_channel_initialized`; it changes only `d_gnss_observables_map` and
`d_channel_initialized` and issues only lock-time calls. -/
theorem read_channel_some {σ : Type} (C : Config) (x : Gnss_Synchro) (e : Epoch σ) (i : Nat)
    (hi : i < e.st.d_channel_initialized.length) :
    ∃ m v evs, read_channel C x e i =
        some { st := { e.st with d_gnss_observables_map := m, d_channel_initialized := v },
               fl := e.fl, ev := e.ev ++ evs } ∧
      v.length = e.st.d_channel_initialized.length ∧
      ∀ ev ∈ evs, ∃ f c, ev = Event.rtcm_lock_time f c := by
  unfold read_channel
  cases hv : x.Flag_valid_pseudorange with
  | true =>
    simp only [if_true]
    refine ⟨if store_valid_observable e.st.d_internal_pvt_solver x = true then
        ObsMap.insert e.st.d_gnss_observables_map i x else e.st.d_gnss_observables_map,
      e.st.d_channel_initialized, lock_time_calls C e.st.d_internal_pvt_solver x i,
      ?_, rfl, ?_⟩
    rotate_left
    · intro ev hev
      unfold lock_time_calls at hev
      by_cases hr : C.d_rtcm_enabled = true
      · rw [if_pos hr] at hev
        simp only [List.mem_append] at hev
        rcases hev with ((hev | hev) | hev) | hev <;> exact lock_event_mem _ _ _ _ hev
      · rw [if_neg hr] at hev
        cases hev
    · split_ifs <;> rfl
  | false =>
    have hset : vector_set e.st.d_channel_initialized (i : Int) false =
        some (e.st.d_channel_initialized.set i false) := by
      simp [vector_set, hi]
    simp only [Bool.false_eq_true, if_false, hset]
    refine ⟨e.st.d_gnss_observables_map, e.st.d_channel_initialized.set i false, [], ?_, ?_, ?_⟩
    · simp
    · simp
    · intro ev hev; cases hev

theorem read_channels_some {σ : Type} (C : Config) (inp : Nat → Gnss_Synchro)
    (chans : List Nat) :
    ∀ e : Epoch σ, (∀ i ∈ chans, i < e.st.d_channel_initialized.length) →
      ∃ m v evs, read_channels C inp chans e =
          some { st := { e.st with d_gnss_observables_map := m, d_channel_initialized := v },
                 fl := e.fl, ev := e.ev ++ evs } ∧
        v.length = e.st.d_channel_initialized.length ∧
        ∀ ev ∈ evs, ∃ f c, ev = Event.rtcm_lock_time f c := by
  induction chans with
  | nil =>
    intro e _
    exact ⟨e.st.d_gnss_observables_map, e.st.d_channel_initialized, [], by simp [read_channels],
      rfl, by intro ev hev; cases hev⟩
  | cons i rest ih =>
    intro e h
    obtain ⟨m1, v1, evs1, h1, hl1, hev1⟩ :=
      read_channel_some C (inp i) e i (h i (List.mem_cons_self _ _))
    obtain ⟨m2, v2, evs2, h2, hl2, hev2⟩ := ih
      { st := { e.st with d_gnss_observables_map := m1, d_channel_initialized := v1 },
        fl := e.fl, ev := e.ev ++ evs1 }
      (fun j hj => by
        show j < v1.length
        rw [hl1]
        exact h j (List.mem_cons_of_mem _ hj))
    refine ⟨m2, v2, evs1 ++ evs2, ?_, ?_, ?_⟩
    · simp only [read_channels, h1, h2, List.append_assoc]
    · rw [hl2]; exact hl1
    · intro ev hev
      rcases List.mem_append.1 hev with hev | hev
      · exact hev1 ev hev
      · exact hev2 ev hev

/-- Section "1. READ PSEUDORANGES" completes in every state in which `d_channel_initialized`
has one flag per channel; it changes only `d_gnss_observables_map` and
`d_channel_initialized`, leaves the locals at their initial values and issues only lock-time
calls. -/
theorem read_pseudoranges_some {σ : Type} (C : Config) (inp : Nat → Gnss_Synchro)
    (s : State σ) (hlen : s.d_channel_initialized.length = C.d_nchannels) :
    ∃ m v evs, read_pseudoranges C inp s =
        some { st := { s with d_gnss_observables_map := m, d_channel_initialized := v },
               fl := Flags.init, ev := evs } ∧
      v.length = C.d_nchannels ∧
      ∀ ev ∈ evs, ∃ f c, ev = Event.rtcm_lock_time f c := by
  obtain ⟨m, v, evs, h, hl, hev⟩ := read_channels_some C inp (List.range C.d_nchannels)
    { st := { s with d_gnss_observables_map := [] }, fl := Flags.init, ev := [] }
    (fun i hi => by
      show i < s.d_channel_initialized.length
      rw [hlen]; exact List.mem_range.1 hi)
  refine ⟨m, v, evs, ?_, ?_, hev⟩
  · unfold read_pseudoranges
    rw [h]
    simp
  · rw [hl]; exact hlen

/-! ## `work`: the calls issued by the blocks of section "2 COMPUTE THE PVT" -/

theorem pub_values_append (a b : List Event) :
    pub_values (a ++ b) = pub_values a ++ pub_values b := by
  simp [pub_values, List.filterMap_append]

theorem status_count_append (a b : List Event) :
    status_count (a ++ b) = status_count a + status_count b := by
  simp [status_count, List.count_append]

theorem get_PVT_count_append (a b : List Event) :
    get_PVT_count (a ++ b) = get_PVT_count a + get_PVT_count b := by
  simp only [get_PVT_count, List.count_append]
  omega

theorem observers_of_lock (evs : List Event)
    (h : ∀ ev ∈ evs, ∃ f c, ev = Event.rtcm_lock_time f c) :
    pub_values evs = [] ∧ status_count evs = 0 ∧ get_PVT_count evs = 0 := by
  induction evs with
  | nil => simp [pub_values, status_count, get_PVT_count]
  | cons x rest ih =>
    obtain ⟨f, c, rfl⟩ := h x (List.mem_cons_self _ _)
    obtain ⟨h1, h2, h3⟩ := ih (fun ev hev => h ev (List.mem_cons_of_mem _ hev))
    simp only [pub_values, status_count, get_PVT_count] at h1 h2 h3 ⊢
    refine ⟨?_, ?_, ?_⟩
    · simpa [List.filterMap_cons] using h1
    · simpa [List.count_cons] using h2
    · simpa [List.count_cons] using h3

theorem observers_of_log (evs : List Event) (h : ∀ ev ∈ evs, Event.is_log ev) :
    pub_values evs = [] ∧ status_count evs = 0 ∧ get_PVT_count evs = 0 := by
  induction evs with
  | nil => simp [pub_values, status_count, get_PVT_count]
  | cons x rest ih =>
    have hx := h x (List.mem_cons_self _ _)
    obtain ⟨h1, h2, h3⟩ := ih (fun ev hev => h ev (List.mem_cons_of_mem _ hev))
    simp only [pub_values, status_count, get_PVT_count] at h1 h2 h3 ⊢
    rcases hx with rfl | rfl | rfl | rfl | rfl <;>
      exact ⟨by simpa [List.filterMap_cons] using h1,
        by simpa [List.count_cons] using h2, by simpa [List.count_cons] using h3⟩

theorem track_log_some {σ : Type} (enabled : Bool) (rate : Nat) (call : Event)
    (e e' : Epoch σ) (h : track_log enabled rate call e = some e') :
    e'.st = e.st ∧ e'.fl = e.fl ∧ (e'.ev = e.ev ∨ e'.ev = e.ev ++ [call]) := by
  unfold track_log at h
  split_ifs at h with h1
  · cases hm : uint32_mod e.fl.current_RX_time_ms rate with
    | none => rw [hm] at h; cases h
    | some r =>
      rw [hm] at h
      simp only at h
      split_ifs at h
      · cases h; exact ⟨rfl, rfl, Or.inr rfl⟩
      · cases h; exact ⟨rfl, rfl, Or.inl rfl⟩
  · cases h; exact ⟨rfl, rfl, Or.inl rfl⟩

theorem track_log_total {σ : Type} (enabled : Bool) (rate : Nat) (call : Event)
    (e : Epoch σ) (h : enabled = true → rate ≠ 0) :
    ∃ e', track_log enabled rate call e = some e' := by
  unfold track_log
  cases enabled with
  | false => exact ⟨e, by simp⟩
  | true =>
    have hr : rate ≠ 0 := h rfl
    simp only [if_true, uint32_mod, if_neg hr]
    split_ifs
    · exact ⟨_, rfl⟩
    · exact ⟨_, rfl⟩

theorem first_fix_frame {σ : Type} (C : Config) (ops : SolverOps σ) (e : Epoch σ) :
    (first_fix C ops e).st.d_waiting_obs_block_rx_clock_offset_correction_msg =
        e.st.d_waiting_obs_block_rx_clock_offset_correction_msg ∧
      (first_fix C ops e).fl = e.fl ∧
      ((first_fix C ops e).ev = e.ev ∨
        (first_fix C ops e).ev = e.ev ++ [Event.send_sys_v_ttff_msg]) := by
  unfold first_fix
  split_ifs
  · exact ⟨rfl, rfl, Or.inr rfl⟩
  · exact ⟨rfl, rfl, Or.inr rfl⟩
  · exact ⟨rfl, rfl, Or.inl rfl⟩

theorem is_log_of_step (a b : List Event) (call : Event) (hc : Event.is_log call)
    (h : b = a ∨ b = a ++ [call]) :
    ∃ extra, b = a ++ extra ∧ ∀ x ∈ extra, Event.is_log x := by
  rcases h with h | h
  · exact ⟨[], by simp [h], by intro x hx; cases hx⟩
  · exact ⟨[call], h, by intro x hx; rw [List.mem_singleton.1 hx]; exact hc⟩

/-- The block `if (flag_pvt_valid == true)` leaves the too-large latch alone and issues only
log and report calls. -/
theorem pvt_valid_block_frame {σ : Type} (D : Consts) (C : Config) (ops : SolverOps σ)
    (e e' : Epoch σ) (h : pvt_valid_block D C ops e = some e') :
    e'.st.d_waiting_obs_block_rx_clock_offset_correction_msg =
        e.st.d_waiting_obs_block_rx_clock_offset_correction_msg ∧
      ∃ extra, e'.ev = e.ev ++ extra ∧ ∀ x ∈ extra, Event.is_log x := by
  unfold pvt_valid_block at h
  by_cases hf : e.fl.flag_pvt_valid = true
  · rw [if_pos hf] at h
    split at h
    · cases h
    · rename_i m ps hinit
      simp only at h
      split_ifs at h with hres
      · cases h
        exact ⟨rfl, [], by simp, by intro x hx; cases hx⟩
      · obtain ⟨e4, h4, h⟩ := Option.bind_eq_some.1 h
        obtain ⟨e5, h5, h⟩ := Option.bind_eq_some.1 h
        obtain ⟨e6, h6, h7⟩ := Option.bind_eq_some.1 h
        obtain ⟨s4, _, v4⟩ := track_log_some _ _ _ _ _ h4
        obtain ⟨s5, _, v5⟩ := track_log_some _ _ _ _ _ h5
        obtain ⟨s6, _, v6⟩ := track_log_some _ _ _ _ _ h6
        obtain ⟨s7, _, v7⟩ := track_log_some _ _ _ _ _ h7
        obtain ⟨l3, _, v3⟩ := first_fix_frame C ops
          { st := { e.st with
              d_gnss_observables_map := m,
              d_channel_initialized := ps.d_channel_initialized,
              d_initial_carrier_phase_offset_estimation_rads :=
                ps.d_initial_carrier_phase_offset_estimation_rads,
              d_mapStringValues := ps.d_mapStringValues },
            fl := rate_flags C e.fl, ev := e.ev }
        refine ⟨?_, ?_⟩
        · rw [s7, s6, s5, s4, l3]
        · obtain ⟨x3, hx3, p3⟩ := is_log_of_step _ _ _ (Or.inl rfl) v3
          obtain ⟨x4, hx4, p4⟩ := is_log_of_step _ _ _ (Or.inr (Or.inl rfl)) v4
          obtain ⟨x5, hx5, p5⟩ := is_log_of_step _ _ _ (Or.inr (Or.inr (Or.inl rfl))) v5
          obtain ⟨x6, hx6, p6⟩ :=
            is_log_of_step _ _ _ (Or.inr (Or.inr (Or.inr (Or.inl rfl)))) v6
          obtain ⟨x7, hx7, p7⟩ :=
            is_log_of_step _ _ _ (Or.inr (Or.inr (Or.inr (Or.inr rfl)))) v7
          refine ⟨x3 ++ x4 ++ x5 ++ x6 ++ x7, ?_, ?_⟩
          · rw [hx7, hx6, hx5, hx4, hx3]
            simp [List.append_assoc]
          · intro x hx
            simp only [List.mem_append] at hx
            rcases hx with (((hx | hx) | hx) | hx) | hx
            · exact p3 x hx
            · exact p4 x hx
            · exact p5 x hx
            · exact p6 x hx
            · exact p7 x hx
  · rw [if_neg hf] at h
    cases h
    exact ⟨rfl, [], by simp, by intro x hx; cases hx⟩

theorem pps_controller_frame {σ : Type} (C : Config) (ops : SolverOps σ) (e : Epoch σ) :
    (pps_controller C ops e).st.d_waiting_obs_block_rx_clock_offset_correction_msg =
        e.st.d_waiting_obs_block_rx_clock_offset_correction_msg ∧
      (pps_controller C ops e).st.d_internal_pvt_solver = e.st.d_internal_pvt_solver ∧
      (pps_controller C ops e).st.d_user_pvt_solver = e.st.d_user_pvt_solver ∧
      (pps_controller C ops e).fl = e.fl ∧
      ∃ f, (pps_controller C ops e).ev = e.ev ++ [Event.vxi11_send_FREQ f] := by
  unfold pps_controller
  refine ⟨?_, ?_, ?_, rfl, _, rfl⟩
  all_goals (simp only; split_ifs <;> rfl)

/-- The console-display block leaves the latch, both solvers and the locals alone and issues
at most one `FREQ` command. -/
theorem display_block_frame {σ : Type} (C : Config) (ops : SolverOps σ) (e : Epoch σ) :
    (display_block C ops e).st.d_waiting_obs_block_rx_clock_offset_correction_msg =
        e.st.d_waiting_obs_block_rx_clock_offset_correction_msg ∧
      (display_block C ops e).st.d_internal_pvt_solver = e.st.d_internal_pvt_solver ∧
      (display_block C ops e).st.d_user_pvt_solver = e.st.d_user_pvt_solver ∧
      (display_block C ops e).fl = e.fl ∧
      ((display_block C ops e).ev = e.ev ∨
        ∃ f, (display_block C ops e).ev = e.ev ++ [Event.vxi11_send_FREQ f]) := by
  unfold display_block
  split_ifs
  · obtain ⟨h1, h2, h3, h4, f, h5⟩ := pps_controller_frame C ops e
    exact ⟨h1, h2, h3, h4, Or.inr ⟨f, h5⟩⟩
  · exact ⟨rfl, rfl, rfl, rfl, Or.inl rfl⟩
  · exact ⟨rfl, rfl, rfl, rfl, Or.inl rfl⟩

theorem display_block_observers {σ : Type} (C : Config) (ops : SolverOps σ) (e : Epoch σ) :
    pub_values (display_block C ops e).ev = pub_values e.ev ∧
      status_count (display_block C ops e).ev = status_count e.ev ∧
      get_PVT_count (display_block C ops e).ev = get_PVT_count e.ev := by
  obtain ⟨_, _, _, _, h | ⟨f, h⟩⟩ := display_block_frame C ops e
  · rw [h]; exact ⟨rfl, rfl, rfl⟩
  · rw [h, pub_values_append, status_count_append, get_PVT_count_append]
    simp [pub_values, status_count, get_PVT_count]

/-- The block "PVT MONITOR" changes no member and no local; it publishes one `status`
message exactly when the object behind `d_user_pvt_solver` reports a valid position and
`current_RX_time_ms` is a multiple of 1000. -/
theorem pvt_monitor_observers {σ : Type} (C : Config) (ops : SolverOps σ) (e : Epoch σ) :
    (pvt_monitor C ops e).st = e.st ∧ (pvt_monitor C ops e).fl = e.fl ∧
      pub_values (pvt_monitor C ops e).ev = pub_values e.ev ∧
      get_PVT_count (pvt_monitor C ops e).ev = get_PVT_count e.ev ∧
      status_count (pvt_monitor C ops e).ev = status_count e.ev +
        (if ops.is_valid_position (user_solver C e.st).core = true ∧
            e.fl.current_RX_time_ms % d_report_rate_ms = 0 then 1 else 0) := by
  unfold pvt_monitor
  by_cases hv : ops.is_valid_position (user_solver C e.st).core = true
  · by_cases hr : e.fl.current_RX_time_ms % d_report_rate_ms = 0
    · by_cases hm : C.d_flag_monitor_pvt_enabled = true
      · simp [hv, hr, hm, pub_values, status_count, get_PVT_count, List.filterMap_append,
          List.count_append]
      · simp [hv, hr, hm, pub_values, status_count, get_PVT_count, List.filterMap_append,
          List.count_append]
    · by_cases hm : C.d_flag_monitor_pvt_enabled = true
      · simp [hv, hr, hm, pub_values, status_count, get_PVT_count, List.filterMap_append,
          List.count_append]
      · simp [hv, hr, hm, pub_values, status_count, get_PVT_count, List.filterMap_append,
          List.count_append]
  · simp [hv]

theorem user_solve_frame {σ : Type} (C : Config) (ops : SolverOps σ) (e : Epoch σ) :
    (user_solve C ops e).st.d_waiting_obs_block_rx_clock_offset_correction_msg =
        e.st.d_waiting_obs_block_rx_clock_offset_correction_msg ∧
      pub_values (user_solve C ops e).ev = pub_values e.ev ∧
      status_count (user_solve C ops e).ev = status_count e.ev ∧
      get_PVT_count (user_solve C ops e).ev = get_PVT_count e.ev +
        (if e.fl.flag_compute_pvt_output = true then 1 else 0) := by
  unfold user_solve
  by_cases hc : e.fl.flag_compute_pvt_output = true
  · simp only [if_pos hc, pub_values_append, status_count_append, get_PVT_count_append]
    refine ⟨?_, ?_, ?_, ?_⟩
    · unfold set_user_core; split_ifs <;> rfl
    · simp [pub_values]
    · simp [status_count]
    · simp [get_PVT_count]
  · simp [if_neg hc]

theorem user_solve_of_not_compute {σ : Type} (C : Config) (ops : SolverOps σ) (e : Epoch σ)
    (h : e.fl.flag_compute_pvt_output = false) : user_solve C ops e = e := by
  simp [user_solve, h]

theorem pvt_valid_block_of_not_valid {σ : Type} (D : Consts) (C : Config) (ops : SolverOps σ)
    (e : Epoch σ) (h : e.fl.flag_pvt_valid = false) : pvt_valid_block D C ops e = some e := by
  simp [pvt_valid_block, h]

theorem display_block_of_not_display {σ : Type} (C : Config) (ops : SolverOps σ) (e : Epoch σ)
    (h : e.fl.flag_display_pvt = false) : display_block C ops e = e := by
  simp [display_block, h]

/-- The accepted-offset branch issues no call; with receiver-clock correction enabled it
clears the too-large latch, with correction disabled it leaves the latch as it was. -/
theorem offset_accepted_frame {σ : Type} (D : Consts) (C : Config) (off : ℚ) (e e' : Epoch σ)
    (h : offset_accepted D C off e = some e') :
    e'.ev = e.ev ∧
      e'.st.d_waiting_obs_block_rx_clock_offset_correction_msg =
        (if C.d_enable_rx_clock_correction = true then false
          else e.st.d_waiting_obs_block_rx_clock_offset_correction_msg) := by
  unfold offset_accepted at h
  by_cases hen : C.d_enable_rx_clock_correction = true
  · simp only [if_pos hen] at h ⊢
    split at h
    · cases h; exact ⟨rfl, rfl⟩
    · split at h
      · cases h
      · split at h
        · cases h
        · split_ifs at h
          · split at h
            · cases h
            · cases h; exact ⟨rfl, rfl⟩
          · cases h; exact ⟨rfl, rfl⟩
  · simp only [if_neg hen] at h ⊢
    split at h
    · cases h
    · split at h
      · cases h
      · split at h
        · cases h
        · cases h; exact ⟨rfl, rfl⟩

/-- Result of the internal-solve step when the solver reports failure. -/
theorem internal_solve_failed {σ : Type} (D : Consts) (C : Config) (ops : SolverOps σ)
    (e : Epoch σ)
    (hok : (ops.get_PVT e.st.d_internal_pvt_solver e.st.d_gnss_observables_map false).1 = false) :
    internal_solve D C ops e = some
      { e with
        st := { e.st with d_internal_pvt_solver := { e.st.d_internal_pvt_solver with
          core := (ops.get_PVT e.st.d_internal_pvt_solver e.st.d_gnss_observables_map false).2 } },
        ev := e.ev ++ [Event.get_PVT_internal] } := by
  unfold internal_solve
  simp [hok]

/-- Result of the internal-solve step when the solve succeeds with an excessive offset: the
latch is set, and the offset is published unless the latch was already set. -/
theorem internal_solve_too_large {σ : Type} (D : Consts) (C : Config) (ops : SolverOps σ)
    (e : Epoch σ)
    (hok : (ops.get_PVT e.st.d_internal_pvt_solver e.st.d_gnss_observables_map false).1 = true)
    (hlarge : offset_too_large C (ops.get_time_offset_s
      (ops.get_PVT e.st.d_internal_pvt_solver e.st.d_gnss_observables_map false).2)) :
    internal_solve D C ops e = some
      { e with
        st := { e.st with
          d_internal_pvt_solver := { e.st.d_internal_pvt_solver with
            core := (ops.get_PVT e.st.d_internal_pvt_solver e.st.d_gnss_observables_map false).2 },
          d_waiting_obs_block_rx_clock_offset_correction_msg := true },
        ev := e.ev ++ [Event.get_PVT_internal] ++
          (if e.st.d_waiting_obs_block_rx_clock_offset_correction_msg = true then []
            else [Event.pub_pvt_to_observables (ops.get_time_offset_s
              (ops.get_PVT e.st.d_internal_pvt_solver e.st.d_gnss_observables_map false).2)]) } := by
  unfold internal_solve
  unfold offset_too_large at hlarge
  cases hl : e.st.d_waiting_obs_block_rx_clock_offset_correction_msg with
  | true =>
    simp only [hok, if_true, hlarge, hl, Bool.not_true, Bool.false_eq_true, if_false,
      List.append_nil]
  | false =>
    simp [hok, hlarge, hl]

/-- Result of the internal-solve step when the solve succeeds with an offset within
tolerance: the accepted-offset branch runs after the solver call. -/
theorem internal_solve_accepted {σ : Type} (D : Consts) (C : Config) (ops : SolverOps σ)
    (e : Epoch σ)
    (hok : (ops.get_PVT e.st.d_internal_pvt_solver e.st.d_gnss_observables_map false).1 = true)
    (hsmall : ¬ offset_too_large C (ops.get_time_offset_s
      (ops.get_PVT e.st.d_internal_pvt_solver e.st.d_gnss_observables_map false).2)) :
    internal_solve D C ops e = offset_accepted D C
      (ops.get_time_offset_s
        (ops.get_PVT e.st.d_internal_pvt_solver e.st.d_gnss_observables_map false).2)
      { e with
        st := { e.st with d_internal_pvt_solver := { e.st.d_internal_pvt_solver with
          core := (ops.get_PVT e.st.d_internal_pvt_solver e.st.d_gnss_observables_map false).2 } },
        ev := e.ev ++ [Event.get_PVT_internal] } := by
  unfold internal_solve
  unfold offset_too_large at hsmall
  simp [hok, hsmall]

/-! ## `work`: section "2 COMPUTE THE PVT" as a whole -/

/-- After a successful internal solve with an excessive offset only the block "PVT MONITOR"
still acts: the epoch ends with the latch set, the locals untouched and the offset published
unless the latch was already set. -/
theorem compute_pvt_too_large {σ : Type} (D : Consts) (C : Config) (ops : SolverOps σ)
    (e : Epoch σ) (hfl : e.fl = Flags.init)
    (hok : (ops.get_PVT e.st.d_internal_pvt_solver e.st.d_gnss_observables_map false).1 = true)
    (hlarge : offset_too_large C (ops.get_time_offset_s
      (ops.get_PVT e.st.d_internal_pvt_solver e.st.d_gnss_observables_map false).2)) :
    compute_pvt D C ops e = some (pvt_monitor C ops
      { e with
        st := { e.st with
          d_internal_pvt_solver := { e.st.d_internal_pvt_solver with
            core := (ops.get_PVT e.st.d_internal_pvt_solver e.st.d_gnss_observables_map false).2 },
          d_waiting_obs_block_rx_clock_offset_correction_msg := true },
        ev := e.ev ++ [Event.get_PVT_internal] ++
          (if e.st.d_waiting_obs_block_rx_clock_offset_correction_msg = true then []
            else [Event.pub_pvt_to_observables (ops.get_time_offset_s
              (ops.get_PVT e.st.d_internal_pvt_solver e.st.d_gnss_observables_map false).2)]) }) := by
  unfold compute_pvt
  rw [internal_solve_too_large D C ops e hok hlarge]
  simp only
  rw [user_solve_of_not_compute _ _ _ (by simp [hfl, Flags.init]),
    pvt_valid_block_of_not_valid _ _ _ _ (by simp [hfl, Flags.init])]
  simp only
  rw [display_block_of_not_display _ _ _ (by simp [hfl, Flags.init])]

/-- Values published on `pvt_to_observables` by section "2 COMPUTE THE PVT": the clock offset,
once, exactly when the internal solve succeeds, the offset is excessive and the latch is not
set; nothing otherwise. -/
theorem compute_pvt_pub_values {σ : Type} (D : Consts) (C : Config) (ops : SolverOps σ)
    (e e' : Epoch σ) (h : compute_pvt D C ops e = some e') :
    pub_values e'.ev = pub_values e.ev ++
      (if (ops.get_PVT e.st.d_internal_pvt_solver e.st.d_gnss_observables_map false).1 = true ∧
          offset_too_large C (ops.get_time_offset_s
            (ops.get_PVT e.st.d_internal_pvt_solver e.st.d_gnss_observables_map false).2) ∧
          e.st.d_waiting_obs_block_rx_clock_offset_correction_msg = false
        then [ops.get_time_offset_s
          (ops.get_PVT e.st.d_internal_pvt_solver e.st.d_gnss_observables_map false).2]
        else []) := by
  unfold compute_pvt at h
  cases hint : internal_solve D C ops e with
  | none => rw [hint] at h; cases h
  | some e1 =>
    rw [hint] at h
    simp only at h
    cases hpv : pvt_valid_block D C ops (user_solve C ops e1) with
    | none => rw [hpv] at h; cases h
    | some e2 =>
      rw [hpv] at h
      simp only [Option.some.injEq] at h
      subst h
      obtain ⟨_, extra, hextra, hlog⟩ := pvt_valid_block_frame D C ops _ _ hpv
      rw [(pvt_monitor_observers C ops _).2.2.1, (display_block_observers C ops _).1, hextra,
        pub_values_append, (observers_of_log extra hlog).1, List.append_nil,
        (user_solve_frame C ops e1).2.1]
      by_cases hok :
          (ops.get_PVT e.st.d_internal_pvt_solver e.st.d_gnss_observables_map false).1 = true
      · by_cases hlarge : offset_too_large C (ops.get_time_offset_s
            (ops.get_PVT e.st.d_internal_pvt_solver e.st.d_gnss_observables_map false).2)
        · rw [internal_solve_too_large D C ops e hok hlarge] at hint
          simp only [Option.some.injEq] at hint
          subst hint
          cases hl : e.st.d_waiting_obs_block_rx_clock_offset_correction_msg with
          | true => simp [hok, hlarge, pub_values, List.filterMap_append]
          | false => simp [hok, hlarge, pub_values, List.filterMap_append]
        · rw [internal_solve_accepted D C ops e hok hlarge] at hint
          obtain ⟨hev, _⟩ := offset_accepted_frame D C _ _ _ hint
          rw [hev]
          simp [hlarge, pub_values, List.filterMap_append]
      · have hok' : (ops.get_PVT e.st.d_internal_pvt_solver e.st.d_gnss_observables_map
            false).1 = false := by simpa using hok
        rw [internal_solve_failed D C ops e hok'] at hint
        simp only [Option.some.injEq] at hint
        subst hint
        simp [hok', pub_values, List.filterMap_append]

/-- Shape of `work_epoch` once section "1. READ PSEUDORANGES" has completed. -/
theorem work_epoch_of_read {σ : Type} (D : Consts) (C : Config) (ops : SolverOps σ)
    (inp : Nat → Gnss_Synchro) (s : State σ) (e0 : Epoch σ)
    (h : read_pseudoranges C inp s = some e0) :
    observable_set C inp s = e0.st.d_gnss_observables_map ∧
      work_epoch D C ops inp s =
        (if e0.st.d_gnss_observables_map = [] then some e0 else compute_pvt D C ops e0) := by
  unfold observable_set work_epoch
  rw [h]
  simp only
  refine ⟨trivial, ?_⟩
  cases hm : e0.st.d_gnss_observables_map with
  | nil => simp
  | cons a b => simp

/-- Section "1. READ PSEUDORANGES", seen from the later sections: it completes, leaves the
solvers, the latch and the snapshots alone, keeps one flag per channel, leaves the locals at
their initial values and issues only lock-time calls. -/
theorem read_pseudoranges_frame {σ : Type} (C : Config) (inp : Nat → Gnss_Synchro)
    (s : State σ) (hlen : s.d_channel_initialized.length = C.d_nchannels) :
    ∃ e0, read_pseudoranges C inp s = some e0 ∧
      e0.fl = Flags.init ∧
      e0.st.d_internal_pvt_solver = s.d_internal_pvt_solver ∧
      e0.st.d_user_pvt_solver = s.d_user_pvt_solver ∧
      e0.st.d_waiting_obs_block_rx_clock_offset_correction_msg =
        s.d_waiting_obs_block_rx_clock_offset_correction_msg ∧
      e0.st.d_gnss_observables_map_t0 = s.d_gnss_observables_map_t0 ∧
      e0.st.d_gnss_observables_map_t1 = s.d_gnss_observables_map_t1 ∧
      e0.st.d_channel_initialized.length = C.d_nchannels ∧
      pub_values e0.ev = [] ∧ status_count e0.ev = 0 ∧ get_PVT_count e0.ev = 0 := by
  obtain ⟨m, v, evs, hread, hv, hlock⟩ := read_pseudoranges_some C inp s hlen
  obtain ⟨h1, h2, h3⟩ := observers_of_lock evs hlock
  exact ⟨_, hread, rfl, rfl, rfl, rfl, rfl, rfl, hv, h1, h2, h3⟩

/-- An epoch with a non-empty Observable Set in which the internal solve succeeds with an
excessive offset completes: the latch is set, the locals keep their initial values, the
solver was called once, the offset is published unless the latch was already set, and one
`status` message is published exactly when `d_user_pvt_solver` reports a valid position. -/
theorem work_epoch_too_large {σ : Type} (D : Consts) (C : Config) (ops : SolverOps σ)
    (inp : Nat → Gnss_Synchro) (s : State σ)
    (hlen : s.d_channel_initialized.length = C.d_nchannels)
    (hne : observable_set C inp s ≠ [])
    (hok : internal_solved C ops inp s = true)
    (hlarge : offset_too_large C (internal_offset C ops inp s)) :
    ∃ e, work_epoch D C ops inp s = some e ∧
      e.st.d_waiting_obs_block_rx_clock_offset_correction_msg = true ∧
      e.st.d_channel_initialized.length = C.d_nchannels ∧
      e.fl = Flags.init ∧
      pub_values e.ev =
        (if s.d_waiting_obs_block_rx_clock_offset_correction_msg = true then []
          else [internal_offset C ops inp s]) ∧
      status_count e.ev = (if user_valid_after_internal C ops inp s = true then 1 else 0) ∧
      get_PVT_count e.ev = 1 := by
  obtain ⟨e0, hread, hfl, hint, husr, hlatch, _, _, hv, hp, hs, hg⟩ :=
    read_pseudoranges_frame C inp s hlen
  obtain ⟨hset, hwork⟩ := work_epoch_of_read D C ops inp s e0 hread
  unfold internal_solved at hok
  unfold internal_offset at hlarge ⊢
  unfold user_valid_after_internal
  rw [hset, ← hint] at hok hlarge ⊢
  rw [hset] at hne
  rw [if_neg hne, compute_pvt_too_large D C ops e0 hfl hok hlarge] at hwork
  refine ⟨_, hwork, ?_, ?_, ?_, ?_, ?_, ?_⟩
  · rw [(pvt_monitor_observers C ops _).1]
  · rw [(pvt_monitor_observers C ops _).1]; exact hv
  · rw [(pvt_monitor_observers C ops _).2.1]; exact hfl
  · rw [(pvt_monitor_observers C ops _).2.2.1]
    simp only [pub_values_append, hp, hlatch]
    cases hl : s.d_waiting_obs_block_rx_clock_offset_correction_msg <;>
      simp [pub_values]
  · rw [(pvt_monitor_observers C ops _).2.2.2.2]
    simp only [status_count_append, hs, hlatch]
    have hz : status_count [Event.get_PVT_internal] = 0 := by simp [status_count]
    have hz2 : status_count
        (if s.d_waiting_obs_block_rx_clock_offset_correction_msg = true then []
          else [Event.pub_pvt_to_observables (ops.get_time_offset_s
            (ops.get_PVT e0.st.d_internal_pvt_solver e0.st.d_gnss_observables_map false).2)]) =
        0 := by
      split_ifs <;> simp [status_count]
    rw [hz, hz2]
    simp only [user_solver, hfl, Flags.init, d_report_rate_ms, Nat.zero_mod, and_true,
      zero_add, husr]
    cases hen : C.d_enable_rx_clock_correction <;> simp
  · rw [(pvt_monitor_observers C ops _).2.2.2.1]
    simp only [get_PVT_count_append, hg, hlatch]
    have hz2 : get_PVT_count
        (if s.d_waiting_obs_block_rx_clock_offset_correction_msg = true then []
          else [Event.pub_pvt_to_observables (ops.get_time_offset_s
            (ops.get_PVT e0.st.d_internal_pvt_solver e0.st.d_gnss_observables_map false).2)]) =
        0 := by
      split_ifs <;> simp [get_PVT_count]
    rw [hz2]
    simp [get_PVT_count]

/-! ## Claims on the clock-offset feedback -/

/-- Claim C7 (as amended): in an epoch with a non-empty Observable Set where the internal solve
succeeds but `|offset| * 1000` exceeds the configured maximum, the epoch completes and no
message is published on the `status` port, provided the solver behind `d_user_pvt_solver`
does not report a valid position. -/
theorem work_epoch_too_large_no_status {σ : Type} (D : Consts) (C : Config)
    (ops : SolverOps σ) (inp : Nat → Gnss_Synchro) (s : State σ)
    (hlen : s.d_channel_initialized.length = C.d_nchannels)
    (hne : observable_set C inp s ≠ [])
    (hok : internal_solved C ops inp s = true)
    (hlarge : offset_too_large C (internal_offset C ops inp s))
    (hinvalid : user_valid_after_internal C ops inp s = false) :
    ∃ e, work_epoch D C ops inp s = some e ∧ status_count e.ev = 0 := by
  obtain ⟨e, he, _, _, _, _, hs, _⟩ := work_epoch_too_large D C ops inp s hlen hne hok hlarge
  refine ⟨e, he, ?_⟩
  rw [hs, hinvalid]
  simp

theorem sample_offset_too_large (en : Bool) (script : List (Bool × ℚ × Bool))
    (us : List (Bool × ℚ × Bool)) (latch ok valid : Bool) (t : ℚ) :
    offset_too_large (sample_config en) (internal_offset (sample_config en) scripted_ops
      (sample_input t) (sample_state ((ok, 1 / 2, valid) :: script) us latch)) := by
  have h : internal_offset (sample_config en) scripted_ops (sample_input t)
      (sample_state ((ok, 1 / 2, valid) :: script) us latch) = 1 / 2 := rfl
  rw [h]
  unfold offset_too_large
  norm_num [sample_config, abs_of_pos]

/-- Evaluation of `work_epoch_too_large_no_status`: receiver-clock correction enabled, three
valid GPS observables, internal solve successful with offset 0.5 s against a 15 ms threshold,
second solver without a valid position. -/
theorem work_epoch_too_large_no_status_witness :
    (sample_state [(true, 1 / 2, true)] [] false).d_channel_initialized.length =
      (sample_config true).d_nchannels ∧
    observable_set (sample_config true) (sample_input 100)
      (sample_state [(true, 1 / 2, true)] [] false) ≠ [] ∧
    internal_solved (sample_config true) scripted_ops (sample_input 100)
      (sample_state [(true, 1 / 2, true)] [] false) = true ∧
    offset_too_large (sample_config true) (internal_offset (sample_config true) scripted_ops
      (sample_input 100) (sample_state [(true, 1 / 2, true)] [] false)) ∧
    user_valid_after_internal (sample_config true) scripted_ops (sample_input 100)
      (sample_state [(true, 1 / 2, true)] [] false) = false ∧
    ∃ e, work_epoch gnssConsts (sample_config true) scripted_ops (sample_input 100)
        (sample_state [(true, 1 / 2, true)] [] false) = some e ∧ status_count e.ev = 0 :=
  ⟨rfl, by decide, by decide, sample_offset_too_large _ _ _ _ _ _ _, by decide,
    work_epoch_too_large_no_status gnssConsts (sample_config true) scripted_ops
      (sample_input 100) (sample_state [(true, 1 / 2, true)] [] false) rfl (by decide)
      (by decide) (sample_offset_too_large _ _ _ _ _ _ _) (by decide)⟩

/-- Claim C7 as stated fails: with receiver-clock correction disabled (one shared solver),
three valid GPS observables and an internal solve that succeeds with offset 0.5 s against a
15 ms threshold, the solver reports a valid position and one `status` message is published in
that epoch (`current_RX_time_ms` is still 0, a multiple of 1000). -/
theorem work_epoch_too_large_status_published :
    observable_set (sample_config false) (sample_input 100)
      (sample_state [(true, 1 / 2, true)] [] false) ≠ [] ∧
    internal_solved (sample_config false) scripted_ops (sample_input 100)
      (sample_state [(true, 1 / 2, true)] [] false) = true ∧
    offset_too_large (sample_config false) (internal_offset (sample_config false) scripted_ops
      (sample_input 100) (sample_state [(true, 1 / 2, true)] [] false)) ∧
    (work_epoch gnssConsts (sample_config false) scripted_ops (sample_input 100)
      (sample_state [(true, 1 / 2, true)] [] false)).map (fun e => status_count e.ev) =
        some 1 := by
  refine ⟨by decide, by decide, sample_offset_too_large _ _ _ _ _ _ _, ?_⟩
  obtain ⟨e, he, _, _, _, _, hs, _⟩ := work_epoch_too_large gnssConsts (sample_config false)
    scripted_ops (sample_input 100) (sample_state [(true, 1 / 2, true)] [] false) rfl
    (by decide) (by decide) (sample_offset_too_large _ _ _ _ _ _ _)
  rw [he, Option.map_some', hs]
  have hv : user_valid_after_internal (sample_config false) scripted_ops (sample_input 100)
      (sample_state [(true, 1 / 2, true)] [] false) = true := by decide
  rw [hv]
  rfl

/-- Values published on `pvt_to_observables` by a completed epoch: the clock offset, once,
when the four conditions of a correction request hold; nothing otherwise. -/
theorem work_epoch_pub_values {σ : Type} (D : Consts) (C : Config) (ops : SolverOps σ)
    (inp : Nat → Gnss_Synchro) (s : State σ)
    (hlen : s.d_channel_initialized.length = C.d_nchannels) (e : Epoch σ)
    (he : work_epoch D C ops inp s = some e) :
    pub_values e.ev =
      (if correction_request_due C ops inp s then [internal_offset C ops inp s] else []) := by
  obtain ⟨e0, hread, hfl, hint, husr, hlatch, _, _, hv, hp, hs, hg⟩ :=
    read_pseudoranges_frame C inp s hlen
  obtain ⟨hset, hwork⟩ := work_epoch_of_read D C ops inp s e0 hread
  rw [hwork] at he
  have hcond : correction_request_due C ops inp s ↔
      (e0.st.d_gnss_observables_map ≠ [] ∧
        (ops.get_PVT e0.st.d_internal_pvt_solver e0.st.d_gnss_observables_map false).1 = true ∧
        offset_too_large C (ops.get_time_offset_s
          (ops.get_PVT e0.st.d_internal_pvt_solver e0.st.d_gnss_observables_map false).2) ∧
        e0.st.d_waiting_obs_block_rx_clock_offset_correction_msg = false) := by
    unfold correction_request_due internal_solved internal_offset
    rw [hset, hint, hlatch]
  have hoff : internal_offset C ops inp s = ops.get_time_offset_s
      (ops.get_PVT e0.st.d_internal_pvt_solver e0.st.d_gnss_observables_map false).2 := by
    unfold internal_offset
    rw [hset, hint]
  rw [hoff]
  by_cases hne : e0.st.d_gnss_observables_map = []
  · rw [if_pos hne] at he
    cases he
    have hnot : ¬ correction_request_due C ops inp s := by
      rw [hcond]; exact fun h => h.1 hne
    rw [if_neg hnot, hp]
  · rw [if_neg hne] at he
    rw [compute_pvt_pub_values D C ops e0 e he, hp, List.nil_append]
    by_cases hc : correction_request_due C ops inp s
    · rw [if_pos hc, if_pos (hcond.1 hc).2]
    · rw [if_neg hc, if_neg (fun h => hc (hcond.2 ⟨hne, h⟩))]

/-- Claim C8: a completed epoch publishes a clock-offset correction request if and only if the
Observable Set is not empty, the internal solve succeeds, `|offset| * 1000` is strictly greater
than the configured maximum and the too-large latch is not already set; the published value is
the offset, it is published once, and such an epoch always completes with the latch set.
Hence an offset of 2e-7 s with a threshold of 15 ms publishes nothing, and of two consecutive
epochs with offset 0.5 s the first publishes 0.5 and the second publishes nothing. -/
theorem work_epoch_correction_request {σ : Type} (D : Consts) (C : Config) (ops : SolverOps σ)
    (inp : Nat → Gnss_Synchro) (s : State σ)
    (hlen : s.d_channel_initialized.length = C.d_nchannels) :
    (∀ e, work_epoch D C ops inp s = some e →
      ((pub_values e.ev ≠ [] ↔ correction_request_due C ops inp s) ∧
        (pub_values e.ev = [] ∨ pub_values e.ev = [internal_offset C ops inp s]))) ∧
    (correction_request_due C ops inp s →
      ∃ e, work_epoch D C ops inp s = some e ∧
        pub_values e.ev = [internal_offset C ops inp s] ∧
        e.st.d_waiting_obs_block_rx_clock_offset_correction_msg = true) ∧
    (∀ e, work_epoch D C ops inp s = some e →
      C.d_max_obs_block_rx_clock_offset_ms = 15 → internal_offset C ops inp s = 2e-7 →
      pub_values e.ev = []) ∧
    (∀ inp2 e1, C.d_max_obs_block_rx_clock_offset_ms = 15 →
      s.d_waiting_obs_block_rx_clock_offset_correction_msg = false →
      observable_set C inp s ≠ [] → internal_solved C ops inp s = true →
      internal_offset C ops inp s = 1 / 2 →
      work_epoch D C ops inp s = some e1 →
      observable_set C inp2 e1.st ≠ [] → internal_solved C ops inp2 e1.st = true →
      internal_offset C ops inp2 e1.st = 1 / 2 →
      pub_values e1.ev = [1 / 2] ∧
        ∃ e2, work_epoch D C ops inp2 e1.st = some e2 ∧ pub_values e2.ev = []) := by
  refine ⟨?_, ?_, ?_, ?_⟩
  · intro e he
    rw [work_epoch_pub_values D C ops inp s hlen e he]
    by_cases hc : correction_request_due C ops inp s
    · simp [hc]
    · simp [hc]
  · rintro ⟨hne, hok, hlarge, hlatch⟩
    obtain ⟨e, he, h1, _, _, h4, _, _⟩ :=
      work_epoch_too_large D C ops inp s hlen hne hok hlarge
    refine ⟨e, he, ?_, h1⟩
    rw [h4, hlatch]
    simp
  · intro e he hmax hoff
    rw [work_epoch_pub_values D C ops inp s hlen e he]
    have hnot : ¬ correction_request_due C ops inp s := by
      rintro ⟨_, _, hlarge, _⟩
      unfold offset_too_large at hlarge
      rw [hoff, hmax] at hlarge
      norm_num [abs_of_pos] at hlarge
    rw [if_neg hnot]
  · intro inp2 e1 hmax hlatch hne hok hoff he1 hne2 hok2 hoff2
    have hlarge : offset_too_large C (internal_offset C ops inp s) := by
      unfold offset_too_large
      rw [hoff, hmax]
      norm_num [abs_of_pos]
    have hlarge2 : offset_too_large C (internal_offset C ops inp2 e1.st) := by
      unfold offset_too_large
      rw [hoff2, hmax]
      norm_num [abs_of_pos]
    obtain ⟨e, he, h1, h2, _, h4, _, _⟩ :=
      work_epoch_too_large D C ops inp s hlen hne hok hlarge
    rw [he1] at he
    cases he
    refine ⟨?_, ?_⟩
    · rw [h4, hlatch, hoff]
      simp
    · obtain ⟨e2, he2, _, _, _, h4', _, _⟩ :=
        work_epoch_too_large D C ops inp2 e1.st h2 hne2 hok2 hlarge2
      refine ⟨e2, he2, ?_⟩
      rw [h4', h1]
      simp

/-- Evaluation of `work_epoch_correction_request`: correction disabled, three valid GPS
observables, a solver that succeeds twice with offset 0.5 s against a 15 ms threshold; the first
epoch publishes 0.5 and sets the latch, the second epoch publishes nothing. -/
theorem work_epoch_correction_request_witness :
    (sample_state [(true, 1 / 2, true), (true, 1 / 2, true)] [] false).d_channel_initialized.length =
      (sample_config false).d_nchannels ∧
    correction_request_due (sample_config false) scripted_ops (sample_input 100)
      (sample_state [(true, 1 / 2, true), (true, 1 / 2, true)] [] false) ∧
    ∃ e1 e2,
      work_epoch gnssConsts (sample_config false) scripted_ops (sample_input 100)
        (sample_state [(true, 1 / 2, true), (true, 1 / 2, true)] [] false) = some e1 ∧
      e1.st.d_waiting_obs_block_rx_clock_offset_correction_msg = true ∧
      pub_values e1.ev = [1 / 2] ∧
      work_epoch gnssConsts (sample_config false) scripted_ops (sample_input (5001 / 50)) e1.st =
        some e2 ∧
      pub_values e2.ev = [] := by
  have hdue : correction_request_due (sample_config false) scripted_ops (sample_input 100)
      (sample_state [(true, 1 / 2, true), (true, 1 / 2, true)] [] false) :=
    ⟨by decide, by decide, sample_offset_too_large _ _ _ _ _ _ _, rfl⟩
  have hthm := work_epoch_correction_request gnssConsts (sample_config false) scripted_ops
    (sample_input 100) (sample_state [(true, 1 / 2, true), (true, 1 / 2, true)] [] false) rfl
  obtain ⟨e1, he1, _, hl1⟩ := hthm.2.1 hdue
  have he1' := he1
  simp [work_epoch, read_pseudoranges, read_channels, read_channel, List.range,
    List.range.loop, sample_input, sample_obs, sample_state, sample_config, sample_solver,
    store_valid_observable, to_int32, List.lookup, lock_time_calls, ObsMap.insert,
    compute_pvt, internal_solve, scripted_ops, Flags.init, user_solve, pvt_valid_block,
    display_block, pvt_monitor, user_solver, d_report_rate_ms] at he1'
  norm_num [abs_of_pos] at he1'
  subst he1'
  obtain ⟨hp1, e2, he2, hp2⟩ := hthm.2.2.2 (sample_input (5001 / 50)) _ rfl rfl hdue.1 hdue.2.1
    rfl he1 (by decide) (by decide) rfl
  exact ⟨rfl, hdue, _, e2, he1, hl1, hp1, he2, hp2⟩

/-! ## Completion of the carrier-phase block -/

theorem vector_set_some {α : Type} (v : List α) (i : Int) (x : α) (h0 : 0 ≤ i)
    (h1 : i < (v.length : Int)) : vector_set v i x = some (v.set i.toNat x) := by
  unfold vector_set
  have : i.toNat < v.length := by omega
  rw [if_pos ⟨h0, this⟩]

theorem vector_at_some {α : Type} (v : List α) (i : Int) (h0 : 0 ≤ i)
    (h1 : i < (v.length : Int)) : ∃ x, vector_at v i = some x := by
  unfold vector_at
  have : i.toNat < v.length := by omega
  rw [if_pos h0]
  exact ⟨v[i.toNat], List.getElem?_eq_getElem this⟩

theorem vector_set_length {α : Type} (v v' : List α) (i : Int) (x : α)
    (h : vector_set v i x = some v') : v'.length = v.length := by
  unfold vector_set at h
  split_ifs at h
  cases h
  simp

theorem initialize_channel_length (D : Consts) (ps ps' : PhaseState) (o : Gnss_Synchro)
    (h : initialize_channel D ps o = some ps') :
    ps'.d_channel_initialized.length = ps.d_channel_initialized.length ∧
      ps'.d_initial_carrier_phase_offset_estimation_rads.length =
        ps.d_initial_carrier_phase_offset_estimation_rads.length := by
  unfold initialize_channel at h
  simp only at h
  split at h
  · cases h
  · rename_i offs hoffs
    split at h
    · cases h
    · rename_i flags hflags
      cases h
      exact ⟨vector_set_length _ _ _ _ hflags, vector_set_length _ _ _ _ hoffs⟩

theorem initialize_channel_total (D : Consts) (ps : PhaseState) (o : Gnss_Synchro)
    (h0 : 0 ≤ o.Channel_ID) (h1 : o.Channel_ID < (ps.d_channel_initialized.length : Int))
    (h2 : o.Channel_ID < (ps.d_initial_carrier_phase_offset_estimation_rads.length : Int)) :
    ∃ ps', initialize_channel D ps o = some ps' := by
  unfold initialize_channel
  simp only
  rw [vector_set_some _ _ _ h0 h2, vector_set_some _ _ _ h0 h1]
  exact ⟨_, rfl⟩

theorem initialize_and_apply_one_length (D : Consts) (ps ps' : PhaseState)
    (o o' : Gnss_Synchro) (h : initialize_and_apply_one D ps o = some (o', ps')) :
    ps'.d_channel_initialized.length = ps.d_channel_initialized.length ∧
      ps'.d_initial_carrier_phase_offset_estimation_rads.length =
        ps.d_initial_carrier_phase_offset_estimation_rads.length := by
  unfold initialize_and_apply_one at h
  split at h
  · cases h
  · rename_i ini _
    split at h
    · cases h
    · rename_i ps1 hps1
      split at h
      · cases h
      · simp only [Option.some.injEq, Prod.mk.injEq] at h
        obtain ⟨_, hp⟩ := h
        subst hp
        split_ifs at hps1
        · exact initialize_channel_length D ps ps1 o hps1
        · cases hps1; exact ⟨rfl, rfl⟩

theorem initialize_and_apply_one_total (D : Consts) (ps : PhaseState) (o : Gnss_Synchro)
    (h0 : 0 ≤ o.Channel_ID) (h1 : o.Channel_ID < (ps.d_channel_initialized.length : Int))
    (h2 : o.Channel_ID < (ps.d_initial_carrier_phase_offset_estimation_rads.length : Int)) :
    ∃ r, initialize_and_apply_one D ps o = some r := by
  unfold initialize_and_apply_one
  obtain ⟨ini, hini⟩ := vector_at_some ps.d_channel_initialized o.Channel_ID h0 h1
  rw [hini]
  simp only
  have hps1 : ∃ ps1, (if ini = false then initialize_channel D ps o else some ps) = some ps1 ∧
      ps1.d_initial_carrier_phase_offset_estimation_rads.length =
        ps.d_initial_carrier_phase_offset_estimation_rads.length := by
    split_ifs
    · obtain ⟨ps', hps'⟩ := initialize_channel_total D ps o h0 h1 h2
      exact ⟨ps', hps', (initialize_channel_length D ps ps' o hps').2⟩
    · exact ⟨ps, rfl, rfl⟩
  obtain ⟨ps1, hps1, hlen1⟩ := hps1
  rw [hps1]
  simp only
  obtain ⟨off, hoff⟩ := vector_at_some ps1.d_initial_carrier_phase_offset_estimation_rads
    o.Channel_ID h0 (by rw [hlen1]; exact h2)
  rw [hoff]
  exact ⟨_, rfl⟩

/-- The carrier-phase function completes when every observable of the map carries a channel
id within the two per-channel vectors. -/
theorem initialize_and_apply_total (D : Consts) (n : Nat) (m : ObsMap) :
    ∀ ps : PhaseState, channels_in_range n m → ps.d_channel_initialized.length = n →
      ps.d_initial_carrier_phase_offset_estimation_rads.length = n →
      ∃ r, initialize_and_apply_carrier_phase_offset D ps m = some r := by
  induction m with
  | nil => intro ps _ _ _; exact ⟨_, rfl⟩
  | cons p rest ih =>
    intro ps hch hl1 hl2
    obtain ⟨k, o⟩ := p
    have ho := hch (k, o) (List.mem_cons_self _ _)
    obtain ⟨⟨o1, ps1⟩, h1⟩ := initialize_and_apply_one_total D ps o ho.1
      (by rw [hl1]; exact ho.2) (by rw [hl2]; exact ho.2)
    obtain ⟨hla, hlb⟩ := initialize_and_apply_one_length D ps ps1 o o1 h1
    obtain ⟨⟨rest1, ps2⟩, h2⟩ := ih ps1 (fun q hq => hch q (List.mem_cons_of_mem _ hq))
      (by rw [hla]; exact hl1) (by rw [hlb]; exact hl2)
    refine ⟨((k, o1) :: rest1, ps2), ?_⟩
    simp only [initialize_and_apply_carrier_phase_offset, h1, h2]

/-- The carrier-phase function keeps the lengths of the two per-channel vectors. -/
theorem initialize_and_apply_length (D : Consts) (m : ObsMap) :
    ∀ (ps ps' : PhaseState) (m' : ObsMap),
      initialize_and_apply_carrier_phase_offset D ps m = some (m', ps') →
      ps'.d_channel_initialized.length = ps.d_channel_initialized.length ∧
        ps'.d_initial_carrier_phase_offset_estimation_rads.length =
          ps.d_initial_carrier_phase_offset_estimation_rads.length := by
  induction m with
  | nil =>
    intro ps ps' m' h
    simp only [initialize_and_apply_carrier_phase_offset, Option.some.injEq, Prod.mk.injEq] at h
    obtain ⟨_, hp⟩ := h
    rw [← hp]
    exact ⟨rfl, rfl⟩
  | cons p rest ih =>
    intro ps ps' m' h
    obtain ⟨k, o⟩ := p
    simp only [initialize_and_apply_carrier_phase_offset] at h
    split at h
    · cases h
    · rename_i o1 ps1 h1
      split at h
      · cases h
      · rename_i rest1 ps2 h2
        simp only [Option.some.injEq, Prod.mk.injEq] at h
        obtain ⟨_, hp⟩ := h
        rw [← hp]
        obtain ⟨ha, hb⟩ := initialize_and_apply_one_length D ps ps1 o o1 h1
        obtain ⟨hc, hd⟩ := ih ps1 ps2 rest1 h2
        exact ⟨hc.trans ha, hd.trans hb⟩

theorem rate_flags_frame (C : Config) (fl : Flags) :
    (rate_flags C fl).flag_pvt_valid = fl.flag_pvt_valid ∧
      (rate_flags C fl).flag_compute_pvt_output = fl.flag_compute_pvt_output ∧
      (rate_flags C fl).current_RX_time_ms = fl.current_RX_time_ms :=
  ⟨rfl, rfl, rfl⟩

theorem first_fix_solvers {σ : Type} (C : Config) (ops : SolverOps σ) (e : Epoch σ) :
    (first_fix C ops e).st.d_internal_pvt_solver = e.st.d_internal_pvt_solver ∧
      (first_fix C ops e).st.d_user_pvt_solver = e.st.d_user_pvt_solver ∧
      (first_fix C ops e).st.d_channel_initialized = e.st.d_channel_initialized := by
  unfold first_fix
  split_ifs <;> exact ⟨rfl, rfl, rfl⟩

/-- The block `if (flag_pvt_valid == true)` keeps one flag per channel, leaves both solvers
alone and does not change `flag_pvt_valid`, `flag_compute_pvt_output` or
`current_RX_time_ms`. -/
theorem pvt_valid_block_locals {σ : Type} (D : Consts) (C : Config) (ops : SolverOps σ)
    (e e' : Epoch σ) (h : pvt_valid_block D C ops e = some e') :
    e'.st.d_channel_initialized.length = e.st.d_channel_initialized.length ∧
      e'.st.d_internal_pvt_solver = e.st.d_internal_pvt_solver ∧
      e'.st.d_user_pvt_solver = e.st.d_user_pvt_solver ∧
      e'.fl.flag_pvt_valid = e.fl.flag_pvt_valid ∧
      e'.fl.flag_compute_pvt_output = e.fl.flag_compute_pvt_output ∧
      e'.fl.current_RX_time_ms = e.fl.current_RX_time_ms := by
  unfold pvt_valid_block at h
  by_cases hf : e.fl.flag_pvt_valid = true
  · rw [if_pos hf] at h
    split at h
    · cases h
    · rename_i m ps hinit
      have hlen := (initialize_and_apply_length D _ _ _ _ hinit).1
      simp only at h hlen
      split_ifs at h with hres
      · cases h
        exact ⟨hlen, rfl, rfl, rfl, rfl, rfl⟩
      · obtain ⟨e4, h4, h⟩ := Option.bind_eq_some.1 h
        obtain ⟨e5, h5, h⟩ := Option.bind_eq_some.1 h
        obtain ⟨e6, h6, h7⟩ := Option.bind_eq_some.1 h
        obtain ⟨s4, f4, _⟩ := track_log_some _ _ _ _ _ h4
        obtain ⟨s5, f5, _⟩ := track_log_some _ _ _ _ _ h5
        obtain ⟨s6, f6, _⟩ := track_log_some _ _ _ _ _ h6
        obtain ⟨s7, f7, _⟩ := track_log_some _ _ _ _ _ h7
        obtain ⟨_, l3, _⟩ := first_fix_frame C ops
          { st := { e.st with
              d_gnss_observables_map := m,
              d_channel_initialized := ps.d_channel_initialized,
              d_initial_carrier_phase_offset_estimation_rads :=
                ps.d_initial_carrier_phase_offset_estimation_rads,
              d_mapStringValues := ps.d_mapStringValues },
            fl := rate_flags C e.fl, ev := e.ev }
        obtain ⟨a3, b3, c3⟩ := first_fix_solvers C ops
          { st := { e.st with
              d_gnss_observables_map := m,
              d_channel_initialized := ps.d_channel_initialized,
              d_initial_carrier_phase_offset_estimation_rads :=
                ps.d_initial_carrier_phase_offset_estimation_rads,
              d_mapStringValues := ps.d_mapStringValues },
            fl := rate_flags C e.fl, ev := e.ev }
        obtain ⟨r1, r2, r3⟩ := rate_flags_frame C e.fl
        rw [s7, s6, s5, s4, f7, f6, f5, f4, l3, a3, b3, c3]
        exact ⟨hlen, rfl, rfl, r1, r2, r3⟩
  · rw [if_neg hf] at h
    cases h
    exact ⟨rfl, rfl, rfl, rfl, rfl, rfl⟩

/-- The block `if (flag_pvt_valid == true)` completes when every observable of
`d_gnss_observables_map` carries a channel id within the two per-channel vectors and every
enabled track log has a non-zero period. -/
theorem pvt_valid_block_total {σ : Type} (D : Consts) (C : Config) (ops : SolverOps σ)
    (e : Epoch σ) (n : Nat) (hch : channels_in_range n e.st.d_gnss_observables_map)
    (hl1 : e.st.d_channel_initialized.length = n)
    (hl2 : e.st.d_initial_carrier_phase_offset_estimation_rads.length = n)
    (hr : track_rates_ok C) :
    ∃ e', pvt_valid_block D C ops e = some e' := by
  unfold pvt_valid_block
  by_cases hf : e.fl.flag_pvt_valid = true
  · rw [if_pos hf]
    obtain ⟨⟨m, ps⟩, hinit⟩ := initialize_and_apply_total D n e.st.d_gnss_observables_map
      { d_channel_initialized := e.st.d_channel_initialized,
        d_initial_carrier_phase_offset_estimation_rads :=
          e.st.d_initial_carrier_phase_offset_estimation_rads,
        d_mapStringValues := e.st.d_mapStringValues } hch hl1 hl2
    rw [hinit]
    simp only
    split_ifs
    · exact ⟨_, rfl⟩
    · obtain ⟨e4, h4⟩ := track_log_total C.d_kml_output_enabled C.d_kml_rate_ms
        Event.kml_print_position (first_fix C ops
          { st := { e.st with
              d_gnss_observables_map := m,
              d_channel_initialized := ps.d_channel_initialized,
              d_initial_carrier_phase_offset_estimation_rads :=
                ps.d_initial_carrier_phase_offset_estimation_rads,
              d_mapStringValues := ps.d_mapStringValues },
            fl := rate_flags C e.fl, ev := e.ev }) hr.1
      obtain ⟨e5, h5⟩ := track_log_total C.d_gpx_output_enabled C.d_gpx_rate_ms
        Event.gpx_print_position e4 hr.2.1
      obtain ⟨e6, h6⟩ := track_log_total C.d_geojson_output_enabled C.d_geojson_rate_ms
        Event.geojson_print_position e5 hr.2.2.1
      obtain ⟨e7, h7⟩ := track_log_total C.d_nmea_output_file_enabled C.d_nmea_rate_ms
        Event.Print_Nmea_Line e6 hr.2.2.2
      exact ⟨e7, by simp only [h4, h5, h6, h7, Option.some_bind]⟩
  · rw [if_neg hf]
    exact ⟨_, rfl⟩

/-! ## The Observable Set as a function of the input items -/

theorem ObsMap.mem_insert (m : ObsMap) (k : Int) (v : Gnss_Synchro) (p : Int × Gnss_Synchro)
    (h : p ∈ ObsMap.insert m k v) : p ∈ m ∨ p = (k, v) := by
  induction m with
  | nil =>
    simp only [ObsMap.insert, List.mem_singleton] at h
    exact Or.inr h
  | cons e rest ih =>
    obtain ⟨k', v'⟩ := e
    simp only [ObsMap.insert] at h
    split_ifs at h
    · rcases List.mem_cons.1 h with h | h
      · exact Or.inr h
      · exact Or.inl h
    · exact Or.inl h
    · rcases List.mem_cons.1 h with h | h
      · exact Or.inl (by rw [h]; exact List.mem_cons_self _ _)
      · rcases ih h with h | h
        · exact Or.inl (List.mem_cons_of_mem _ h)
        · exact Or.inr h

theorem read_channel_map {σ : Type} (C : Config) (x : Gnss_Synchro) (e e' : Epoch σ) (i : Nat)
    (h : read_channel C x e i = some e') :
    e'.st.d_internal_pvt_solver = e.st.d_internal_pvt_solver ∧
      e'.st.d_initial_carrier_phase_offset_estimation_rads =
        e.st.d_initial_carrier_phase_offset_estimation_rads ∧
      e'.st.d_gnss_observables_map =
        (if x.Flag_valid_pseudorange = true ∧
            store_valid_observable e.st.d_internal_pvt_solver x = true then
          ObsMap.insert e.st.d_gnss_observables_map i x
        else e.st.d_gnss_observables_map) := by
  unfold read_channel at h
  cases hv : x.Flag_valid_pseudorange with
  | true =>
    rw [hv] at h
    simp only [if_true, Option.some.injEq] at h
    subst h
    by_cases hs : store_valid_observable e.st.d_internal_pvt_solver x = true
    · simp [hs]
    · simp [hs]
  | false =>
    rw [hv] at h
    simp only [Bool.false_eq_true, if_false] at h
    split at h
    · cases h
      simp
    · cases h

theorem read_channels_map {σ : Type} (C : Config) (inp : Nat → Gnss_Synchro)
    (chans : List Nat) :
    ∀ e e' : Epoch σ, read_channels C inp chans e = some e' →
      e'.st.d_internal_pvt_solver = e.st.d_internal_pvt_solver ∧
        e'.st.d_initial_carrier_phase_offset_estimation_rads =
          e.st.d_initial_carrier_phase_offset_estimation_rads ∧
        e'.st.d_gnss_observables_map =
          ingest_map e.st.d_internal_pvt_solver inp chans e.st.d_gnss_observables_map := by
  induction chans with
  | nil =>
    intro e e' h
    simp only [read_channels, Option.some.injEq] at h
    subst h
    exact ⟨rfl, rfl, rfl⟩
  | cons i rest ih =>
    intro e e' h
    simp only [read_channels] at h
    split at h
    · rename_i e1 h1
      obtain ⟨a1, b1, c1⟩ := read_channel_map C (inp i) e e1 i h1
      obtain ⟨a2, b2, c2⟩ := ih e1 e' h
      refine ⟨a2.trans a1, b2.trans b1, ?_⟩
      rw [c2, a1, c1]
      simp only [ingest_map, List.foldl_cons]
    · cases h

/-- The Observable Set of an epoch is `ingest_map` of the internal solver's ephemeris maps
and the input items of channels `0 .. d_nchannels - 1`. -/
theorem observable_set_eq {σ : Type} (C : Config) (inp : Nat → Gnss_Synchro) (s : State σ)
    (hlen : s.d_channel_initialized.length = C.d_nchannels) :
    observable_set C inp s =
      ingest_map s.d_internal_pvt_solver inp (List.range C.d_nchannels) [] := by
  obtain ⟨m, v, evs, hread, _, _⟩ := read_pseudoranges_some C inp s hlen
  unfold observable_set
  rw [hread]
  unfold read_pseudoranges at hread
  exact (read_channels_map C inp _ _ _ hread).2.2

theorem ingest_map_mem {σ : Type} (sol : Rtklib_Solver σ) (inp : Nat → Gnss_Synchro)
    (chans : List Nat) :
    ∀ (m : ObsMap) (p : Int × Gnss_Synchro), p ∈ ingest_map sol inp chans m →
      p ∈ m ∨ ∃ i ∈ chans, p = ((i : Int), inp i) := by
  induction chans with
  | nil => intro m p h; exact Or.inl h
  | cons i rest ih =>
    intro m p h
    simp only [ingest_map, List.foldl_cons] at h
    rcases ih _ p h with h | ⟨j, hj, hp⟩
    · split_ifs at h
      · rcases ObsMap.mem_insert _ _ _ _ h with h | h
        · exact Or.inl h
        · exact Or.inr ⟨i, List.mem_cons_self _ _, h⟩
      · exact Or.inl h
    · exact Or.inr ⟨j, List.mem_cons_of_mem _ hj, hp⟩

/-- When every input item carries a channel id in `0 .. d_nchannels - 1`, so does every
observable of the Observable Set. -/
theorem observable_set_channels {σ : Type} (C : Config) (inp : Nat → Gnss_Synchro)
    (s : State σ) (hlen : s.d_channel_initialized.length = C.d_nchannels)
    (hin : ∀ i, i < C.d_nchannels →
      0 ≤ (inp i).Channel_ID ∧ (inp i).Channel_ID < (C.d_nchannels : Int)) :
    channels_in_range C.d_nchannels (observable_set C inp s) := by
  rw [observable_set_eq C inp s hlen]
  intro p hp
  rcases ingest_map_mem _ _ _ _ _ hp with hp | ⟨i, hi, hp⟩
  · cases hp
  · rw [hp]
    exact hin i (List.mem_range.1 hi)

/-! ## Epochs with an accepted offset, receiver-clock correction disabled -/

/-- The accepted-offset branch with receiver-clock correction disabled: `d_rx_time` is the
receiver time of the first observable, `current_RX_time_ms` its value in milliseconds,
`flag_compute_pvt_output` is raised when that value is a multiple of the output period, and
`flag_pvt_valid` is set. -/
theorem offset_accepted_disabled {σ : Type} (D : Consts) (C : Config) (off : ℚ) (e : Epoch σ)
    (hdis : C.d_enable_rx_clock_correction = false) (k : Int) (first : Gnss_Synchro)
    (rest : ObsMap) (hhead : e.st.d_gnss_observables_map = (k, first) :: rest) (ms : Nat)
    (hms : static_cast_uint32 (first.RX_time * 1000) = some ms)
    (hrate : C.d_output_rate_ms ≠ 0) :
    offset_accepted D C off e = some
      { e with
        st := { e.st with d_rx_time := first.RX_time },
        fl := { e.fl with
          current_RX_time_ms := ms,
          flag_compute_pvt_output :=
            if ms % C.d_output_rate_ms = 0 then true else e.fl.flag_compute_pvt_output,
          flag_pvt_valid := true } } := by
  unfold offset_accepted
  simp only [hdis, Bool.false_eq_true, if_false, hhead, hms, uint32_mod, if_neg hrate]
  by_cases hm : ms % C.d_output_rate_ms = 0
  · simp [hm]
  · simp [hm]

theorem read_pseudoranges_offsets {σ : Type} (C : Config) (inp : Nat → Gnss_Synchro)
    (s : State σ) (e0 : Epoch σ) (h : read_pseudoranges C inp s = some e0) :
    e0.st.d_initial_carrier_phase_offset_estimation_rads =
      s.d_initial_carrier_phase_offset_estimation_rads := by
  unfold read_pseudoranges at h
  exact (read_channels_map C inp _ _ _ h).2.1

theorem internal_solve_accepted_call {σ : Type} (D : Consts) (C : Config) (ops : SolverOps σ)
    (e : Epoch σ)
    (hok : (ops.get_PVT e.st.d_internal_pvt_solver e.st.d_gnss_observables_map false).1 = true)
    (hsmall : ¬ offset_too_large C (ops.get_time_offset_s
      (ops.get_PVT e.st.d_internal_pvt_solver e.st.d_gnss_observables_map false).2)) :
    internal_solve D C ops e = offset_accepted D C
      (ops.get_time_offset_s
        (ops.get_PVT e.st.d_internal_pvt_solver e.st.d_gnss_observables_map false).2)
      (after_internal_call ops e) :=
  internal_solve_accepted D C ops e hok hsmall

/-- What the call of the internal solver changes: the state of that solver and the list of
calls. -/
theorem after_internal_call_facts {σ : Type} (ops : SolverOps σ) (e : Epoch σ) :
    (after_internal_call ops e).fl = e.fl ∧
      (after_internal_call ops e).ev = e.ev ++ [Event.get_PVT_internal] ∧
      (after_internal_call ops e).st.d_internal_pvt_solver =
        { e.st.d_internal_pvt_solver with
          core := (ops.get_PVT e.st.d_internal_pvt_solver e.st.d_gnss_observables_map false).2 } ∧
      (after_internal_call ops e).st.d_user_pvt_solver = e.st.d_user_pvt_solver ∧
      (after_internal_call ops e).st.d_gnss_observables_map = e.st.d_gnss_observables_map ∧
      (after_internal_call ops e).st.d_gnss_observables_map_t0 =
        e.st.d_gnss_observables_map_t0 ∧
      (after_internal_call ops e).st.d_gnss_observables_map_t1 =
        e.st.d_gnss_observables_map_t1 ∧
      (after_internal_call ops e).st.d_channel_initialized = e.st.d_channel_initialized ∧
      (after_internal_call ops e).st.d_initial_carrier_phase_offset_estimation_rads =
        e.st.d_initial_carrier_phase_offset_estimation_rads ∧
      (after_internal_call ops e).st.d_waiting_obs_block_rx_clock_offset_correction_msg =
        e.st.d_waiting_obs_block_rx_clock_offset_correction_msg :=
  ⟨rfl, rfl, rfl, rfl, rfl, rfl, rfl, rfl, rfl, rfl⟩

/-- The accepted-offset branch with correction disabled, field by field. -/
theorem offset_accepted_disabled_facts {σ : Type} (D : Consts) (C : Config) (off : ℚ)
    (e : Epoch σ) (hdis : C.d_enable_rx_clock_correction = false) (k : Int)
    (first : Gnss_Synchro) (rest : ObsMap)
    (hhead : e.st.d_gnss_observables_map = (k, first) :: rest) (ms : Nat)
    (hms : static_cast_uint32 (first.RX_time * 1000) = some ms)
    (hrate : C.d_output_rate_ms ≠ 0) :
    ∃ e1, offset_accepted D C off e = some e1 ∧
      e1.ev = e.ev ∧
      e1.st.d_waiting_obs_block_rx_clock_offset_correction_msg =
        e.st.d_waiting_obs_block_rx_clock_offset_correction_msg ∧
      e1.st.d_gnss_observables_map = e.st.d_gnss_observables_map ∧
      e1.st.d_channel_initialized = e.st.d_channel_initialized ∧
      e1.st.d_initial_carrier_phase_offset_estimation_rads =
        e.st.d_initial_carrier_phase_offset_estimation_rads ∧
      e1.st.d_internal_pvt_solver = e.st.d_internal_pvt_solver ∧
      e1.fl.current_RX_time_ms = ms ∧
      e1.fl.flag_compute_pvt_output =
        (if ms % C.d_output_rate_ms = 0 then true else e.fl.flag_compute_pvt_output) ∧
      e1.fl.flag_pvt_valid = true :=
  ⟨_, offset_accepted_disabled D C off e hdis k first rest hhead ms hms hrate,
    rfl, rfl, rfl, rfl, rfl, rfl, rfl, rfl, rfl⟩

/-- The user-solve statement with correction disabled, field by field: when
`flag_compute_pvt_output` is set the one solver is called again and `flag_pvt_valid` takes the
result; otherwise nothing changes. -/
theorem user_solve_disabled_facts {σ : Type} (C : Config) (ops : SolverOps σ) (e : Epoch σ)
    (hdis : C.d_enable_rx_clock_correction = false) :
    (user_solve C ops e).st.d_gnss_observables_map = e.st.d_gnss_observables_map ∧
      (user_solve C ops e).st.d_channel_initialized = e.st.d_channel_initialized ∧
      (user_solve C ops e).st.d_initial_carrier_phase_offset_estimation_rads =
        e.st.d_initial_carrier_phase_offset_estimation_rads ∧
      (user_solve C ops e).fl.current_RX_time_ms = e.fl.current_RX_time_ms ∧
      (user_solve C ops e).fl.flag_compute_pvt_output = e.fl.flag_compute_pvt_output ∧
      (user_solve C ops e).fl.flag_pvt_valid =
        (if e.fl.flag_compute_pvt_output = true then
          (ops.get_PVT e.st.d_internal_pvt_solver e.st.d_gnss_observables_map false).1
          else e.fl.flag_pvt_valid) ∧
      (user_solve C ops e).st.d_internal_pvt_solver =
        (if e.fl.flag_compute_pvt_output = true then
          { e.st.d_internal_pvt_solver with
            core := (ops.get_PVT e.st.d_internal_pvt_solver e.st.d_gnss_observables_map false).2 }
          else e.st.d_internal_pvt_solver) := by
  unfold user_solve
  by_cases hc : e.fl.flag_compute_pvt_output = true
  · simp [hc, user_solver, set_user_core, hdis]
  · simp [hc]

theorem display_block_vectors {σ : Type} (C : Config) (ops : SolverOps σ) (e : Epoch σ) :
    (display_block C ops e).st.d_channel_initialized = e.st.d_channel_initialized := by
  unfold display_block
  split_ifs
  · unfold pps_controller
    simp only
    split_ifs <;> rfl
  · rfl
  · rfl

/-- Section "2 COMPUTE THE PVT" in terms of its blocks. -/
theorem compute_pvt_of {σ : Type} (D : Consts) (C : Config) (ops : SolverOps σ)
    (e e1 e3 : Epoch σ) (h1 : internal_solve D C ops e = some e1)
    (h3 : pvt_valid_block D C ops (user_solve C ops e1) = some e3) :
    compute_pvt D C ops e = some (pvt_monitor C ops (display_block C ops e3)) := by
  unfold compute_pvt
  rw [h1]
  simp only
  rw [h3]

/-- An epoch with receiver-clock correction disabled, a non-empty Observable Set and an
internal solve that succeeds with an offset within tolerance completes (given one flag and
one phase offset per channel, channel ids in range, non-zero periods and a receiver time that
fits `uint32_t` milliseconds).  The latch is left as it was and nothing is published on
`pvt_to_observables`.  When the epoch time in milliseconds is not a multiple of the output
period the solver is called once and `flag_pvt_valid` is `true`; when it is a multiple the
same solver is called a second time and `flag_pvt_valid` is the result of that call. -/
theorem work_epoch_accepted_disabled {σ : Type} (D : Consts) (C : Config) (ops : SolverOps σ)
    (inp : Nat → Gnss_Synchro) (s : State σ)
    (hlen : s.d_channel_initialized.length = C.d_nchannels)
    (hlen2 : s.d_initial_carrier_phase_offset_estimation_rads.length = C.d_nchannels)
    (hdis : C.d_enable_rx_clock_correction = false)
    (hok : internal_solved C ops inp s = true)
    (hsmall : ¬ offset_too_large C (internal_offset C ops inp s))
    (hrate : C.d_output_rate_ms ≠ 0) (htr : track_rates_ok C)
    (hin : ∀ i, i < C.d_nchannels →
      0 ≤ (inp i).Channel_ID ∧ (inp i).Channel_ID < (C.d_nchannels : Int))
    (k : Int) (first : Gnss_Synchro) (rest : ObsMap)
    (hhead : observable_set C inp s = (k, first) :: rest) (ms : Nat)
    (hms : static_cast_uint32 (first.RX_time * 1000) = some ms) :
    ∃ e, work_epoch D C ops inp s = some e ∧
      e.st.d_waiting_obs_block_rx_clock_offset_correction_msg =
        s.d_waiting_obs_block_rx_clock_offset_correction_msg ∧
      e.st.d_channel_initialized.length = C.d_nchannels ∧
      pub_values e.ev = [] ∧
      e.fl.current_RX_time_ms = ms ∧
      e.fl.flag_compute_pvt_output = (if ms % C.d_output_rate_ms = 0 then true else false) ∧
      get_PVT_count e.ev = (if ms % C.d_output_rate_ms = 0 then 2 else 1) ∧
      e.fl.flag_pvt_valid =
        (if ms % C.d_output_rate_ms = 0 then (second_solve C ops inp s).1 else true) ∧
      e.st.d_internal_pvt_solver =
        (if ms % C.d_output_rate_ms = 0 then
          { s.d_internal_pvt_solver with core := (second_solve C ops inp s).2 }
        else
          { s.d_internal_pvt_solver with
            core := (ops.get_PVT s.d_internal_pvt_solver (observable_set C inp s) false).2 }) := by
  obtain ⟨e0, hread, hfl, hint, husr, hlatch, _, _, hv, hp, hs, hg⟩ :=
    read_pseudoranges_frame C inp s hlen
  have hoffs := read_pseudoranges_offsets C inp s e0 hread
  have hchan := observable_set_channels C inp s hlen hin
  obtain ⟨hset, hwork⟩ := work_epoch_of_read D C ops inp s e0 hread
  unfold internal_solved at hok
  unfold internal_offset at hsmall
  unfold second_solve
  rw [hset] at hhead hchan
  rw [hset, ← hint] at hok hsmall ⊢
  have hne : e0.st.d_gnss_observables_map ≠ [] := by rw [hhead]; exact List.cons_ne_nil _ _
  rw [if_neg hne] at hwork
  -- the internal solve and the accepted-offset branch
  obtain ⟨c1, c2, c3, c4, c5, c6, c7, c8, c9, c10⟩ := after_internal_call_facts ops e0
  obtain ⟨e1, he1, a1, a2, a3, a4, a5, a6, a7, a8, a9⟩ :=
    offset_accepted_disabled_facts D C
      (ops.get_time_offset_s
        (ops.get_PVT e0.st.d_internal_pvt_solver e0.st.d_gnss_observables_map false).2)
      (after_internal_call ops e0) hdis k first rest (c5.trans hhead) ms hms hrate
  have hint1 : internal_solve D C ops e0 = some e1 :=
    (internal_solve_accepted_call D C ops e0 hok hsmall).trans he1
  -- the user solve and the block of the valid fix
  obtain ⟨u1, u2, u3, u4, u5, u6, u7⟩ := user_solve_disabled_facts C ops e1 hdis
  obtain ⟨ul, up, _, ug⟩ := user_solve_frame C ops e1
  obtain ⟨e3, he3⟩ := pvt_valid_block_total D C ops (user_solve C ops e1) C.d_nchannels
    (by rw [u1, a3, c5]; exact hchan) (by rw [u2, a4, c8]; exact hv)
    (by rw [u3, a5, c9, hoffs]; exact hlen2) htr
  obtain ⟨v1, extra, hextra, hlog⟩ := pvt_valid_block_frame D C ops _ _ he3
  obtain ⟨w1, w2, _, w4, w5, w6⟩ := pvt_valid_block_locals D C ops _ _ he3
  obtain ⟨x1, x2, x3⟩ := observers_of_log extra hlog
  obtain ⟨d1, d2, _, d4, _⟩ := display_block_frame C ops e3
  obtain ⟨o1, _, o3⟩ := display_block_observers C ops e3
  obtain ⟨m1, m2, m3, m4, _⟩ := pvt_monitor_observers C ops (display_block C ops e3)
  have hcomp : e1.fl.flag_compute_pvt_output =
      (if ms % C.d_output_rate_ms = 0 then true else false) := by
    rw [a8, c1, hfl]
    rfl
  refine ⟨_, hwork.trans (compute_pvt_of D C ops e0 e1 e3 hint1 he3), ?_, ?_, ?_, ?_, ?_, ?_,
    ?_, ?_⟩
  · rw [m1, d1, v1, ul, a2, c10, hlatch]
  · rw [m1, display_block_vectors, w1, u2, a4, c8, hv]
  · rw [m3, o1, hextra, pub_values_append, x1, List.append_nil, up, a1, c2, pub_values_append,
      hp]
    simp [pub_values]
  · rw [m2, d4, w6, u4, a7]
  · rw [m2, d4, w5, u5, hcomp]
  · rw [m4, o3, hextra, get_PVT_count_append, x3, ug, a1, c2, get_PVT_count_append, hg, hcomp]
    by_cases hm : ms % C.d_output_rate_ms = 0
    · simp [hm, get_PVT_count]
    · simp [hm, get_PVT_count]
  · rw [m2, d4, w4, u6, hcomp, a9, a6, a3, c3, c5]
    by_cases hm : ms % C.d_output_rate_ms = 0
    · simp [hm]
    · simp [hm]
  · rw [m1, d2, w2, u7, hcomp, a6, a3, c3, c5]
    by_cases hm : ms % C.d_output_rate_ms = 0
    · simp [hm]
    · simp [hm]

/-! ## Claim on the single solver with correction disabled -/

theorem sample_offset_small (en : Bool) (script : List (Bool × ℚ × Bool))
    (us : List (Bool × ℚ × Bool)) (latch ok valid : Bool) (t : ℚ) :
    ¬ offset_too_large (sample_config en) (internal_offset (sample_config en) scripted_ops
      (sample_input t) (sample_state ((ok, 1 / 5000000, valid) :: script) us latch)) := by
  have h : internal_offset (sample_config en) scripted_ops (sample_input t)
      (sample_state ((ok, 1 / 5000000, valid) :: script) us latch) = 1 / 5000000 := rfl
  rw [h]
  unfold offset_too_large
  norm_num [sample_config, abs_of_pos]

theorem sample_input_channels (en : Bool) (t : ℚ) :
    ∀ i, i < (sample_config en).d_nchannels →
      0 ≤ (sample_input t i).Channel_ID ∧
        (sample_input t i).Channel_ID < ((sample_config en).d_nchannels : Int) := by
  intro i hi
  have hi' : i < 3 := hi
  interval_cases i <;> simp [sample_input, sample_obs, sample_config]

theorem sample_track_rates_ok (en : Bool) : track_rates_ok (sample_config en) := by
  simp [track_rates_ok, sample_config]

theorem sample_observable_set (en : Bool) (t : ℚ) (script us : List (Bool × ℚ × Bool))
    (latch : Bool) :
    observable_set (sample_config en) (sample_input t) (sample_state script us latch) =
      (0, sample_input t 0) :: [(1, sample_input t 1), (2, sample_input t 2)] := by
  rw [observable_set_eq _ _ _ rfl]
  simp [ingest_map, sample_config, List.range, List.range.loop, sample_input, sample_obs,
    store_valid_observable, sample_state, sample_solver, to_int32, List.lookup, ObsMap.insert]

theorem static_cast_uint32_natCast (n : Nat) (h : n < 4294967296) :
    static_cast_uint32 (n : ℚ) = some n := by
  unfold static_cast_uint32
  have h0 : (0 : ℚ) ≤ (n : ℚ) := Nat.cast_nonneg n
  simp only [if_pos h0, Int.floor_natCast]
  have : (0 : Int) ≤ (n : Int) ∧ (n : Int) < 4294967296 := ⟨Int.natCast_nonneg n, by omega⟩
  rw [if_pos this]
  simp

/-- Claim C10 (as amended): with receiver-clock correction disabled, an epoch whose offset is
accepted completes; when its time in milliseconds is not a multiple of the output-rate period
it is considered solved (`flag_pvt_valid` is `true`) with the single shared solver called
exactly once; when its time is a multiple of the period the same solver is called a second
time through `d_user_pvt_solver` and `flag_pvt_valid` is the result of that second call. -/
theorem work_epoch_disabled_solver_calls {σ : Type} (D : Consts) (C : Config)
    (ops : SolverOps σ) (inp : Nat → Gnss_Synchro) (s : State σ)
    (hlen : s.d_channel_initialized.length = C.d_nchannels)
    (hlen2 : s.d_initial_carrier_phase_offset_estimation_rads.length = C.d_nchannels)
    (hdis : C.d_enable_rx_clock_correction = false)
    (hok : internal_solved C ops inp s = true)
    (hsmall : ¬ offset_too_large C (internal_offset C ops inp s))
    (hrate : C.d_output_rate_ms ≠ 0) (htr : track_rates_ok C)
    (hin : ∀ i, i < C.d_nchannels →
      0 ≤ (inp i).Channel_ID ∧ (inp i).Channel_ID < (C.d_nchannels : Int))
    (k : Int) (first : Gnss_Synchro) (rest : ObsMap)
    (hhead : observable_set C inp s = (k, first) :: rest) (ms : Nat)
    (hms : static_cast_uint32 (first.RX_time * 1000) = some ms) :
    ∃ e, work_epoch D C ops inp s = some e ∧
      e.fl.current_RX_time_ms = ms ∧
      (ms % C.d_output_rate_ms ≠ 0 →
        get_PVT_count e.ev = 1 ∧ e.fl.flag_pvt_valid = true ∧
          e.fl.flag_compute_pvt_output = false) ∧
      (ms % C.d_output_rate_ms = 0 →
        get_PVT_count e.ev = 2 ∧ e.fl.flag_pvt_valid = (second_solve C ops inp s).1 ∧
          e.fl.flag_compute_pvt_output = true) := by
  obtain ⟨e, he, _, _, _, h4, h5, h6, h7, _⟩ := work_epoch_accepted_disabled D C ops inp s hlen
    hlen2 hdis hok hsmall hrate htr hin k first rest hhead ms hms
  refine ⟨e, he, h4, ?_, ?_⟩
  · intro hm
    rw [h5, h6, h7, if_neg hm, if_neg hm, if_neg hm]
    exact ⟨rfl, rfl, rfl⟩
  · intro hm
    rw [h5, h6, h7, if_pos hm, if_pos hm, if_pos hm]
    exact ⟨rfl, rfl, rfl⟩

/-- Evaluation of `work_epoch_disabled_solver_calls`: correction disabled, three valid GPS
observables at 100.02 s (100020 ms, not a multiple of the 1000 ms output period), internal
solve successful with offset 2e-7 s against a 15 ms threshold: one solver call, epoch
solved. -/
theorem work_epoch_disabled_solver_calls_witness :
    (sample_state [(true, 1 / 5000000, true)] [] false).d_channel_initialized.length =
      (sample_config false).d_nchannels ∧
    (sample_state [(true, 1 / 5000000, true)] []
      false).d_initial_carrier_phase_offset_estimation_rads.length =
      (sample_config false).d_nchannels ∧
    (sample_config false).d_enable_rx_clock_correction = false ∧
    internal_solved (sample_config false) scripted_ops (sample_input (5001 / 50))
      (sample_state [(true, 1 / 5000000, true)] [] false) = true ∧
    ¬ offset_too_large (sample_config false) (internal_offset (sample_config false)
      scripted_ops (sample_input (5001 / 50))
      (sample_state [(true, 1 / 5000000, true)] [] false)) ∧
    (sample_config false).d_output_rate_ms ≠ 0 ∧ track_rates_ok (sample_config false) ∧
    static_cast_uint32 ((sample_input (5001 / 50) 0).RX_time * 1000) = some 100020 ∧
    ∃ e, work_epoch gnssConsts (sample_config false) scripted_ops (sample_input (5001 / 50))
        (sample_state [(true, 1 / 5000000, true)] [] false) = some e ∧
      e.fl.current_RX_time_ms = 100020 ∧
      (100020 % (sample_config false).d_output_rate_ms ≠ 0 →
        get_PVT_count e.ev = 1 ∧ e.fl.flag_pvt_valid = true ∧
          e.fl.flag_compute_pvt_output = false) ∧
      (100020 % (sample_config false).d_output_rate_ms = 0 →
        get_PVT_count e.ev = 2 ∧
          e.fl.flag_pvt_valid = (second_solve (sample_config false) scripted_ops
            (sample_input (5001 / 50))
            (sample_state [(true, 1 / 5000000, true)] [] false)).1 ∧
          e.fl.flag_compute_pvt_output = true) := by
  have hms : static_cast_uint32 ((sample_input (5001 / 50) 0).RX_time * 1000) =
      some 100020 := by
    have h : (sample_input (5001 / 50) 0).RX_time * 1000 = ((100020 : Nat) : ℚ) := by
      norm_num [sample_input, sample_obs]
    rw [h]
    exact static_cast_uint32_natCast 100020 (by norm_num)
  exact ⟨rfl, rfl, rfl, by decide, sample_offset_small _ _ _ _ _ _ _, by decide,
    sample_track_rates_ok _, hms,
    work_epoch_disabled_solver_calls gnssConsts (sample_config false) scripted_ops
      (sample_input (5001 / 50)) (sample_state [(true, 1 / 5000000, true)] [] false) rfl rfl
      rfl (by decide) (sample_offset_small _ _ _ _ _ _ _) (by decide) (sample_track_rates_ok _)
      (sample_input_channels _ _) 0 (sample_input (5001 / 50) 0) _
      (sample_observable_set _ _ _ _ _) 100020 hms⟩

/-- Claim C10 as stated fails: with correction disabled, three valid GPS observables at
100 s (100000 ms, a multiple of the 1000 ms output period) and an internal solve that succeeds
with offset 2e-7 s against a 15 ms threshold, `get_PVT` is called twice in the epoch. -/
theorem work_epoch_disabled_second_solve :
    (sample_config false).d_enable_rx_clock_correction = false ∧
    internal_solved (sample_config false) scripted_ops (sample_input 100)
      (sample_state [(true, 1 / 5000000, true), (true, 1 / 5000000, true)] [] false) = true ∧
    ¬ offset_too_large (sample_config false) (internal_offset (sample_config false)
      scripted_ops (sample_input 100)
      (sample_state [(true, 1 / 5000000, true), (true, 1 / 5000000, true)] [] false)) ∧
    (work_epoch gnssConsts (sample_config false) scripted_ops (sample_input 100)
      (sample_state [(true, 1 / 5000000, true), (true, 1 / 5000000, true)] []
        false)).map (fun e => (e.fl.current_RX_time_ms, get_PVT_count e.ev)) =
      some (100000, 2) := by
  have hms : static_cast_uint32 ((sample_input 100 0).RX_time * 1000) = some 100000 := by
    have h : (sample_input 100 0).RX_time * 1000 = ((100000 : Nat) : ℚ) := by
      norm_num [sample_input, sample_obs]
    rw [h]
    exact static_cast_uint32_natCast 100000 (by norm_num)
  refine ⟨rfl, by decide, sample_offset_small _ _ _ _ _ _ _, ?_⟩
  obtain ⟨e, he, _, _, _, h4, _, h6, _, _⟩ := work_epoch_accepted_disabled gnssConsts
    (sample_config false) scripted_ops (sample_input 100)
    (sample_state [(true, 1 / 5000000, true), (true, 1 / 5000000, true)] [] false) rfl rfl
    rfl (by decide) (sample_offset_small _ _ _ _ _ _ _) (by decide) (sample_track_rates_ok _)
    (sample_input_channels _ _) 0 (sample_input 100 0) _
    (sample_observable_set _ _ _ _ _) 100000 hms
  rw [he, Option.map_some', h4, h6]
  rfl

/-! ## Epochs with an accepted offset: the latch -/

theorem offset_accepted_vectors {σ : Type} (D : Consts) (C : Config) (off : ℚ)
    (e e' : Epoch σ) (h : offset_accepted D C off e = some e') :
    e'.st.d_channel_initialized = e.st.d_channel_initialized ∧
      e'.st.d_initial_carrier_phase_offset_estimation_rads =
        e.st.d_initial_carrier_phase_offset_estimation_rads := by
  unfold offset_accepted at h
  by_cases hen : C.d_enable_rx_clock_correction = true
  · simp only [if_pos hen] at h
    split at h
    · cases h; exact ⟨rfl, rfl⟩
    · split at h
      · cases h
      · split at h
        · cases h
        · split_ifs at h
          · split at h
            · cases h
            · cases h; exact ⟨rfl, rfl⟩
          · cases h; exact ⟨rfl, rfl⟩
  · simp only [if_neg hen] at h
    split at h
    · cases h
    · split at h
      · cases h
      · split at h
        · cases h
        · cases h; exact ⟨rfl, rfl⟩

theorem user_solve_vectors {σ : Type} (C : Config) (ops : SolverOps σ) (e : Epoch σ) :
    (user_solve C ops e).st.d_channel_initialized = e.st.d_channel_initialized ∧
      (user_solve C ops e).st.d_initial_carrier_phase_offset_estimation_rads =
        e.st.d_initial_carrier_phase_offset_estimation_rads ∧
      (user_solve C ops e).st.d_gnss_observables_map = e.st.d_gnss_observables_map := by
  unfold user_solve set_user_core
  split_ifs <;> exact ⟨rfl, rfl, rfl⟩

/-- A completed epoch with a non-empty Observable Set and an internal solve that succeeds
with an offset within tolerance ends with the latch cleared when receiver-clock correction is
enabled and with the latch as it was when correction is disabled; it keeps one flag per
channel and publishes nothing on `pvt_to_observables`. -/
theorem work_epoch_accepted_latch {σ : Type} (D : Consts) (C : Config) (ops : SolverOps σ)
    (inp : Nat → Gnss_Synchro) (s : State σ)
    (hlen : s.d_channel_initialized.length = C.d_nchannels)
    (hne : observable_set C inp s ≠ [])
    (hok : internal_solved C ops inp s = true)
    (hsmall : ¬ offset_too_large C (internal_offset C ops inp s))
    (e : Epoch σ) (he : work_epoch D C ops inp s = some e) :
    e.st.d_waiting_obs_block_rx_clock_offset_correction_msg =
        (if C.d_enable_rx_clock_correction = true then false
          else s.d_waiting_obs_block_rx_clock_offset_correction_msg) ∧
      e.st.d_channel_initialized.length = C.d_nchannels := by
  obtain ⟨e0, hread, hfl, hint, husr, hlatch, _, _, hv, hp, hs, hg⟩ :=
    read_pseudoranges_frame C inp s hlen
  obtain ⟨hset, hwork⟩ := work_epoch_of_read D C ops inp s e0 hread
  unfold internal_solved at hok
  unfold internal_offset at hsmall
  rw [hset, ← hint] at hok hsmall
  rw [hset] at hne
  rw [if_neg hne] at hwork
  rw [hwork] at he
  unfold compute_pvt at he
  cases hint1 : internal_solve D C ops e0 with
  | none => rw [hint1] at he; cases he
  | some e1 =>
    rw [hint1] at he
    simp only at he
    cases hpv : pvt_valid_block D C ops (user_solve C ops e1) with
    | none => rw [hpv] at he; cases he
    | some e3 =>
      rw [hpv] at he
      simp only [Option.some.injEq] at he
      subst he
      rw [internal_solve_accepted_call D C ops e0 hok hsmall] at hint1
      obtain ⟨_, a2⟩ := offset_accepted_frame D C _ _ _ hint1
      obtain ⟨b1, _⟩ := offset_accepted_vectors D C _ _ _ hint1
      obtain ⟨_, _, _, _, _, _, _, c8, _, c10⟩ := after_internal_call_facts ops e0
      obtain ⟨ul, _, _, _⟩ := user_solve_frame C ops e1
      obtain ⟨uv, _, _⟩ := user_solve_vectors C ops e1
      obtain ⟨v1, _⟩ := pvt_valid_block_frame D C ops _ _ hpv
      obtain ⟨w1, _⟩ := pvt_valid_block_locals D C ops _ _ hpv
      obtain ⟨d1, _⟩ := display_block_frame C ops e3
      obtain ⟨m1, _⟩ := pvt_monitor_observers C ops (display_block C ops e3)
      refine ⟨?_, ?_⟩
      · rw [m1, d1, v1, ul, a2, c10, hlatch]
      · rw [m1, display_block_vectors, w1, uv, b1, c8, hv]

/-! ## Epochs with an accepted offset, receiver-clock correction enabled: completion -/

theorem apply_rx_clock_offset_channels (D : Consts) (tbl : List (String × StringValue_))
    (n : Nat) (m : ObsMap) (d : ℚ) (h : channels_in_range n m) :
    channels_in_range n (apply_rx_clock_offset D tbl m d).1 := by
  rw [apply_rx_clock_offset_fst]
  intro p hp
  obtain ⟨q, hq, rfl⟩ := List.mem_map.1 hp
  simp only
  rw [(apply_rx_clock_offset_one_fields D d _ q.2).2.2.2.2.2.2.1]
  exact h q hq

theorem apply_rx_clock_offset_ne_nil (D : Consts) (tbl : List (String × StringValue_))
    (m : ObsMap) (d : ℚ) (h : m ≠ []) : (apply_rx_clock_offset D tbl m d).1 ≠ [] := by
  rw [apply_rx_clock_offset_fst]
  simpa using h

theorem ObsMap.insert_channels (n : Nat) (m : ObsMap) (k : Int) (v : Gnss_Synchro)
    (hm : channels_in_range n m) (hv : 0 ≤ v.Channel_ID ∧ v.Channel_ID < (n : Int)) :
    channels_in_range n (ObsMap.insert m k v) := by
  intro p hp
  rcases ObsMap.mem_insert m k v p hp with hp | hp
  · exact hm p hp
  · rw [hp]; exact hv

theorem ObsMap.modify_channels (n : Nat) (m : ObsMap) (k : Int)
    (f : Gnss_Synchro → Gnss_Synchro) (hf : ∀ x, (f x).Channel_ID = x.Channel_ID)
    (hm : channels_in_range n m) : channels_in_range n (ObsMap.modify m k f) := by
  induction m with
  | nil => intro p hp; cases hp
  | cons e rest ih =>
    obtain ⟨k', v⟩ := e
    have hrest : channels_in_range n rest := fun q hq => hm q (List.mem_cons_of_mem _ hq)
    have hv := hm (k', v) (List.mem_cons_self _ _)
    intro p hp
    simp only [ObsMap.modify] at hp
    split_ifs at hp
    · rcases List.mem_cons.1 hp with hp | hp
      · rw [hp]
        simp only [hf]
        exact hv
      · exact hrest p hp
    · rcases List.mem_cons.1 hp with hp | hp
      · rw [hp]; exact hv
      · exact ih hrest p hp

theorem interpolate_step_channels (n : Nat) (t1 : ObsMap) (factor t : ℚ) (acc : ObsMap)
    (e : Int × Gnss_Synchro) (hacc : channels_in_range n acc)
    (he : 0 ≤ e.2.Channel_ID ∧ e.2.Channel_ID < (n : Int)) :
    channels_in_range n (interpolate_step t1 factor t acc e) := by
  unfold interpolate_step
  split
  · exact hacc
  · split_ifs
    · simp only
      refine ObsMap.modify_channels n _ _ _ ?_ ?_
      · intro x; rfl
      refine ObsMap.modify_channels n _ _ _ ?_ ?_
      · intro x; rfl
      refine ObsMap.modify_channels n _ _ _ ?_ ?_
      · intro x; rfl
      refine ObsMap.modify_channels n _ _ _ ?_ ?_
      · intro x; rfl
      exact ObsMap.insert_channels n acc e.1 e.2 hacc he
    · exact hacc

theorem interpolate_foldl_channels (n : Nat) (t1 : ObsMap) (factor t : ℚ) (t0 : ObsMap) :
    ∀ acc : ObsMap, channels_in_range n acc → channels_in_range n t0 →
      channels_in_range n (t0.foldl (interpolate_step t1 factor t) acc) := by
  induction t0 with
  | nil => intro acc hacc _; exact hacc
  | cons e rest ih =>
    intro acc hacc h0
    simp only [List.foldl_cons]
    exact ih _ (interpolate_step_channels n t1 factor t acc e hacc
      (h0 e (List.mem_cons_self _ _))) (fun q hq => h0 q (List.mem_cons_of_mem _ hq))

/-- The interpolator returns a map for non-empty snapshots, and its observables carry channel
ids of `t0`. -/
theorem interpolate_observables_total (n : Nat) (t0 t1 : ObsMap) (t : ℚ) (h0 : t0 ≠ [])
    (h1 : t1 ≠ []) (hch : channels_in_range n t0) :
    ∃ r, interpolate_observables t0 t1 t = some r ∧ channels_in_range n r := by
  obtain ⟨⟨k0, f0⟩, r0, rfl⟩ := List.exists_cons_of_ne_nil h0
  obtain ⟨⟨k1, f1⟩, r1, rfl⟩ := List.exists_cons_of_ne_nil h1
  refine ⟨_, rfl, ?_⟩
  exact interpolate_foldl_channels n _ _ _ _ [] (by intro p hp; cases hp) hch

/-- The accepted-offset branch with correction enabled completes when the output period is
not zero and the receiver time of the previous snapshot fits `uint32_t` milliseconds; the
observables it leaves in `d_gnss_observables_map` carry channel ids in range when those of the
Observable Set and of the previous snapshot do. -/
theorem offset_accepted_enabled_total {σ : Type} (D : Consts) (C : Config) (off : ℚ)
    (e : Epoch σ) (n : Nat) (hen : C.d_enable_rx_clock_correction = true)
    (hrate : C.d_output_rate_ms ≠ 0) (hne : e.st.d_gnss_observables_map ≠ [])
    (hobs : channels_in_range n e.st.d_gnss_observables_map)
    (ht1 : channels_in_range n e.st.d_gnss_observables_map_t1)
    (htime : ∀ k f rest, e.st.d_gnss_observables_map_t1 = (k, f) :: rest →
      ∃ ms, static_cast_uint32 (f.RX_time * 1000) = some ms) :
    ∃ e1, offset_accepted D C off e = some e1 ∧
      channels_in_range n e1.st.d_gnss_observables_map := by
  unfold offset_accepted
  simp only [if_pos hen]
  have happ := apply_rx_clock_offset_channels D e.st.d_mapStringValues n
    e.st.d_gnss_observables_map off hobs
  have hnn := apply_rx_clock_offset_ne_nil D e.st.d_mapStringValues
    e.st.d_gnss_observables_map off hne
  cases h1 : e.st.d_gnss_observables_map_t1 with
  | nil => exact ⟨_, rfl, happ⟩
  | cons p rest =>
    obtain ⟨k, f⟩ := p
    obtain ⟨ms, hms⟩ := htime k f rest h1
    simp only [hms, uint32_mod, if_neg hrate]
    rw [h1] at ht1
    split_ifs
    · obtain ⟨r, hr, hrch⟩ := interpolate_observables_total n ((k, f) :: rest)
        (apply_rx_clock_offset D e.st.d_mapStringValues e.st.d_gnss_observables_map off).1
        ((((ms + (20 - ms % 20)) % 4294967296 : Nat) : ℚ) / 1000)
        (List.cons_ne_nil _ _) hnn ht1
      rw [hr]
      exact ⟨_, rfl, hrch⟩
    · exact ⟨_, rfl, happ⟩

/-- An epoch with receiver-clock correction enabled, a non-empty Observable Set and an
internal solve that succeeds with an offset within tolerance completes, given one flag and
one phase offset per channel, channel ids in range in the input and in the previous snapshot,
non-zero periods and a previous snapshot time that fits `uint32_t` milliseconds. -/
theorem work_epoch_accepted_enabled_total {σ : Type} (D : Consts) (C : Config)
    (ops : SolverOps σ) (inp : Nat → Gnss_Synchro) (s : State σ)
    (hlen : s.d_channel_initialized.length = C.d_nchannels)
    (hlen2 : s.d_initial_carrier_phase_offset_estimation_rads.length = C.d_nchannels)
    (hen : C.d_enable_rx_clock_correction = true)
    (hne : observable_set C inp s ≠ [])
    (hok : internal_solved C ops inp s = true)
    (hsmall : ¬ offset_too_large C (internal_offset C ops inp s))
    (hrate : C.d_output_rate_ms ≠ 0) (htr : track_rates_ok C)
    (hin : ∀ i, i < C.d_nchannels →
      0 ≤ (inp i).Channel_ID ∧ (inp i).Channel_ID < (C.d_nchannels : Int))
    (ht1 : channels_in_range C.d_nchannels s.d_gnss_observables_map_t1)
    (htime : ∀ k f rest, s.d_gnss_observables_map_t1 = (k, f) :: rest →
      ∃ ms, static_cast_uint32 (f.RX_time * 1000) = some ms) :
    ∃ e, work_epoch D C ops inp s = some e := by
  obtain ⟨e0, hread, hfl, hint, husr, hlatch, _, ht1eq, hv, hp, hs, hg⟩ :=
    read_pseudoranges_frame C inp s hlen
  have hoffs := read_pseudoranges_offsets C inp s e0 hread
  have hchan := observable_set_channels C inp s hlen hin
  obtain ⟨hset, hwork⟩ := work_epoch_of_read D C ops inp s e0 hread
  unfold internal_solved at hok
  unfold internal_offset at hsmall
  rw [hset] at hne hchan
  rw [hset, ← hint] at hok hsmall
  rw [if_neg hne] at hwork
  obtain ⟨c1, c2, c3, c4, c5, c6, c7, c8, c9, c10⟩ := after_internal_call_facts ops e0
  obtain ⟨e1, he1, hch1⟩ := offset_accepted_enabled_total D C
    (ops.get_time_offset_s
      (ops.get_PVT e0.st.d_internal_pvt_solver e0.st.d_gnss_observables_map false).2)
    (after_internal_call ops e0) C.d_nchannels hen hrate (by rw [c5]; exact hne)
    (by rw [c5]; exact hchan) (by rw [c7, ht1eq]; exact ht1)
    (by rw [c7, ht1eq]; exact htime)
  have hint1 : internal_solve D C ops e0 = some e1 :=
    (internal_solve_accepted_call D C ops e0 hok hsmall).trans he1
  obtain ⟨b1, b2⟩ := offset_accepted_vectors D C _ _ _ he1
  obtain ⟨u1, u2, u3⟩ := user_solve_vectors C ops e1
  obtain ⟨e3, he3⟩ := pvt_valid_block_total D C ops (user_solve C ops e1) C.d_nchannels
    (by rw [u3]; exact hch1) (by rw [u1, b1, c8]; exact hv)
    (by rw [u2, b2, c9, hoffs]; exact hlen2) htr
  exact ⟨_, hwork.trans (compute_pvt_of D C ops e0 e1 e3 hint1 he3)⟩

/-! ## Claim on the reset of the too-large latch -/

/-- Claim C9 (as amended): an epoch with a non-empty Observable Set whose internal solve
succeeds with an offset within tolerance clears the too-large latch when receiver-clock
correction is enabled, so that the next epoch with an excessive offset publishes a correction
request again; when correction is disabled such an epoch leaves the latch as it was.  With
correction enabled the epoch completes under the stated conditions on the state, the input
and the periods. -/
theorem work_epoch_accepted_latch_reset {σ : Type} (D : Consts) (C : Config)
    (ops : SolverOps σ) (inp : Nat → Gnss_Synchro) (s : State σ)
    (hlen : s.d_channel_initialized.length = C.d_nchannels)
    (hne : observable_set C inp s ≠ [])
    (hok : internal_solved C ops inp s = true)
    (hsmall : ¬ offset_too_large C (internal_offset C ops inp s)) :
    (∀ e, work_epoch D C ops inp s = some e →
      (C.d_enable_rx_clock_correction = true →
        e.st.d_waiting_obs_block_rx_clock_offset_correction_msg = false ∧
        ∀ inp2, observable_set C inp2 e.st ≠ [] → internal_solved C ops inp2 e.st = true →
          offset_too_large C (internal_offset C ops inp2 e.st) →
          ∃ e2, work_epoch D C ops inp2 e.st = some e2 ∧
            pub_values e2.ev = [internal_offset C ops inp2 e.st]) ∧
      (C.d_enable_rx_clock_correction = false →
        e.st.d_waiting_obs_block_rx_clock_offset_correction_msg =
          s.d_waiting_obs_block_rx_clock_offset_correction_msg)) ∧
    (C.d_enable_rx_clock_correction = true →
      s.d_initial_carrier_phase_offset_estimation_rads.length = C.d_nchannels →
      C.d_output_rate_ms ≠ 0 → track_rates_ok C →
      (∀ i, i < C.d_nchannels →
        0 ≤ (inp i).Channel_ID ∧ (inp i).Channel_ID < (C.d_nchannels : Int)) →
      channels_in_range C.d_nchannels s.d_gnss_observables_map_t1 →
      (∀ k f rest, s.d_gnss_observables_map_t1 = (k, f) :: rest →
        ∃ ms, static_cast_uint32 (f.RX_time * 1000) = some ms) →
      ∃ e, work_epoch D C ops inp s = some e) := by
  refine ⟨?_, ?_⟩
  · intro e he
    obtain ⟨hl, hv⟩ := work_epoch_accepted_latch D C ops inp s hlen hne hok hsmall e he
    refine ⟨?_, ?_⟩
    · intro hen
      rw [if_pos hen] at hl
      refine ⟨hl, ?_⟩
      intro inp2 hne2 hok2 hlarge2
      obtain ⟨e2, he2, _, _, _, h4, _, _⟩ :=
        work_epoch_too_large D C ops inp2 e.st hv hne2 hok2 hlarge2
      refine ⟨e2, he2, ?_⟩
      rw [h4, hl]
      simp
    · intro hdis
      rw [hdis] at hl
      simpa using hl
  · intro hen hlen2 hrate htr hin ht1 htime
    exact work_epoch_accepted_enabled_total D C ops inp s hlen hlen2 hen hne hok hsmall hrate
      htr hin ht1 htime

theorem offset_accepted_solvers {σ : Type} (D : Consts) (C : Config) (off : ℚ)
    (e e' : Epoch σ) (h : offset_accepted D C off e = some e') :
    e'.st.d_internal_pvt_solver = e.st.d_internal_pvt_solver ∧
      e'.st.d_user_pvt_solver = e.st.d_user_pvt_solver := by
  unfold offset_accepted at h
  by_cases hen : C.d_enable_rx_clock_correction = true
  · simp only [if_pos hen] at h
    split at h
    · cases h; exact ⟨rfl, rfl⟩
    · split at h
      · cases h
      · split at h
        · cases h
        · split_ifs at h
          · split at h
            · cases h
            · cases h; exact ⟨rfl, rfl⟩
          · cases h; exact ⟨rfl, rfl⟩
  · simp only [if_neg hen] at h
    split at h
    · cases h
    · split at h
      · cases h
      · split at h
        · cases h
        · cases h; exact ⟨rfl, rfl⟩

theorem user_solve_enabled_internal {σ : Type} (C : Config) (ops : SolverOps σ) (e : Epoch σ)
    (hen : C.d_enable_rx_clock_correction = true) :
    (user_solve C ops e).st.d_internal_pvt_solver = e.st.d_internal_pvt_solver := by
  unfold user_solve set_user_core
  split_ifs <;> rfl

/-- With receiver-clock correction enabled, a completed epoch with an accepted offset leaves
the internal solver in the state produced by its one call. -/
theorem work_epoch_accepted_enabled_solver {σ : Type} (D : Consts) (C : Config)
    (ops : SolverOps σ) (inp : Nat → Gnss_Synchro) (s : State σ)
    (hlen : s.d_channel_initialized.length = C.d_nchannels)
    (hen : C.d_enable_rx_clock_correction = true)
    (hne : observable_set C inp s ≠ [])
    (hok : internal_solved C ops inp s = true)
    (hsmall : ¬ offset_too_large C (internal_offset C ops inp s))
    (e : Epoch σ) (he : work_epoch D C ops inp s = some e) :
    e.st.d_internal_pvt_solver =
      { s.d_internal_pvt_solver with
        core := (ops.get_PVT s.d_internal_pvt_solver (observable_set C inp s) false).2 } := by
  obtain ⟨e0, hread, hfl, hint, husr, hlatch, _, _, hv, hp, hs, hg⟩ :=
    read_pseudoranges_frame C inp s hlen
  obtain ⟨hset, hwork⟩ := work_epoch_of_read D C ops inp s e0 hread
  unfold internal_solved at hok
  unfold internal_offset at hsmall
  rw [hset, ← hint] at hok hsmall ⊢
  rw [hset] at hne
  rw [if_neg hne] at hwork
  rw [hwork] at he
  unfold compute_pvt at he
  cases hint1 : internal_solve D C ops e0 with
  | none => rw [hint1] at he; cases he
  | some e1 =>
    rw [hint1] at he
    simp only at he
    cases hpv : pvt_valid_block D C ops (user_solve C ops e1) with
    | none => rw [hpv] at he; cases he
    | some e3 =>
      rw [hpv] at he
      simp only [Option.some.injEq] at he
      subst he
      rw [internal_solve_accepted_call D C ops e0 hok hsmall] at hint1
      obtain ⟨b1, _⟩ := offset_accepted_solvers D C _ _ _ hint1
      obtain ⟨_, _, c3, _⟩ := after_internal_call_facts ops e0
      obtain ⟨_, w2, _⟩ := pvt_valid_block_locals D C ops _ _ hpv
      obtain ⟨_, d2, _⟩ := display_block_frame C ops e3
      obtain ⟨m1, _⟩ := pvt_monitor_observers C ops (display_block C ops e3)
      rw [m1, d2, w2, user_solve_enabled_internal C ops e1 hen, b1, c3]

theorem sample_ingest_map (t : ℚ) (script : List (Bool × ℚ × Bool)) (c : ScriptedCore) :
    ingest_map { sample_solver script with core := c } (sample_input t) (List.range 3) [] =
      (0, sample_input t 0) :: [(1, sample_input t 1), (2, sample_input t 2)] := by
  simp [ingest_map, List.range, List.range.loop, sample_input, sample_obs,
    store_valid_observable, sample_solver, to_int32, List.lookup, ObsMap.insert]

/-- Evaluation of `work_epoch_accepted_latch_reset`: correction enabled, latch set, a first
epoch with offset 2e-7 s against a 15 ms threshold clears the latch, and the next epoch, with
offset 0.5 s, publishes 0.5. -/
theorem work_epoch_accepted_latch_reset_witness :
    (sample_state [(true, 1 / 5000000, true), (true, 1 / 2, true)] []
      true).d_channel_initialized.length = (sample_config true).d_nchannels ∧
    observable_set (sample_config true) (sample_input 100)
      (sample_state [(true, 1 / 5000000, true), (true, 1 / 2, true)] [] true) ≠ [] ∧
    internal_solved (sample_config true) scripted_ops (sample_input 100)
      (sample_state [(true, 1 / 5000000, true), (true, 1 / 2, true)] [] true) = true ∧
    ¬ offset_too_large (sample_config true) (internal_offset (sample_config true)
      scripted_ops (sample_input 100)
      (sample_state [(true, 1 / 5000000, true), (true, 1 / 2, true)] [] true)) ∧
    ∃ e1 e2,
      work_epoch gnssConsts (sample_config true) scripted_ops (sample_input 100)
        (sample_state [(true, 1 / 5000000, true), (true, 1 / 2, true)] [] true) = some e1 ∧
      e1.st.d_waiting_obs_block_rx_clock_offset_correction_msg = false ∧
      offset_too_large (sample_config true) (internal_offset (sample_config true)
        scripted_ops (sample_input (5001 / 50)) e1.st) ∧
      work_epoch gnssConsts (sample_config true) scripted_ops (sample_input (5001 / 50))
        e1.st = some e2 ∧
      pub_values e2.ev = [1 / 2] := by
  have hne : observable_set (sample_config true) (sample_input 100)
      (sample_state [(true, 1 / 5000000, true), (true, 1 / 2, true)] [] true) ≠ [] := by
    decide
  have hok : internal_solved (sample_config true) scripted_ops (sample_input 100)
      (sample_state [(true, 1 / 5000000, true), (true, 1 / 2, true)] [] true) = true := by
    decide
  have hsmall := sample_offset_small true [(true, 1 / 2, true)] [] true true true 100
  have hthm := work_epoch_accepted_latch_reset gnssConsts (sample_config true) scripted_ops
    (sample_input 100)
    (sample_state [(true, 1 / 5000000, true), (true, 1 / 2, true)] [] true) rfl hne hok hsmall
  obtain ⟨e1, he1⟩ := hthm.2 rfl rfl (by decide) (sample_track_rates_ok _)
    (sample_input_channels _ _) (by intro p hp; cases hp) (by intro k f rest h; cases h)
  obtain ⟨hl, hnext⟩ := (hthm.1 e1 he1).1 rfl
  have hsol := work_epoch_accepted_enabled_solver gnssConsts (sample_config true) scripted_ops
    (sample_input 100)
    (sample_state [(true, 1 / 5000000, true), (true, 1 / 2, true)] [] true) rfl rfl hne hok
    hsmall e1 he1
  have hv := (work_epoch_accepted_latch gnssConsts (sample_config true) scripted_ops
    (sample_input 100)
    (sample_state [(true, 1 / 5000000, true), (true, 1 / 2, true)] [] true) rfl hne hok
    hsmall e1 he1).2
  have hset2 : observable_set (sample_config true) (sample_input (5001 / 50)) e1.st =
      (0, sample_input (5001 / 50) 0) ::
        [(1, sample_input (5001 / 50) 1), (2, sample_input (5001 / 50) 2)] := by
    rw [observable_set_eq _ _ _ hv, hsol]
    exact sample_ingest_map _ _ _
  have hne2 : observable_set (sample_config true) (sample_input (5001 / 50)) e1.st ≠ [] := by
    rw [hset2]; exact List.cons_ne_nil _ _
  have hok2 : internal_solved (sample_config true) scripted_ops (sample_input (5001 / 50))
      e1.st = true := by
    unfold internal_solved
    rw [hsol]
    rfl
  have hoff2 : internal_offset (sample_config true) scripted_ops (sample_input (5001 / 50))
      e1.st = 1 / 2 := by
    unfold internal_offset
    rw [hsol]
    rfl
  have hlarge2 : offset_too_large (sample_config true) (internal_offset (sample_config true)
      scripted_ops (sample_input (5001 / 50)) e1.st) := by
    rw [hoff2]
    unfold offset_too_large
    norm_num [sample_config, abs_of_pos]
  obtain ⟨e2, he2, hp2⟩ := hnext (sample_input (5001 / 50)) hne2 hok2 hlarge2
  rw [hoff2] at hp2
  exact ⟨rfl, hne, hok, hsmall, e1, e2, he1, hl, hlarge2, he2, hp2⟩

/-- Claim C9 as stated fails for a configuration with receiver-clock correction disabled:
with the latch set, an epoch whose offset (2e-7 s) is within the 15 ms tolerance leaves the
latch set, and the next epoch, whose offset is 0.5 s, publishes no correction request. -/
theorem work_epoch_latch_kept_disabled :
    (sample_config false).d_enable_rx_clock_correction = false ∧
    internal_solved (sample_config false) scripted_ops (sample_input (5001 / 50))
      (sample_state [(true, 1 / 5000000, true), (true, 1 / 2, true)] [] true) = true ∧
    ¬ offset_too_large (sample_config false) (internal_offset (sample_config false)
      scripted_ops (sample_input (5001 / 50))
      (sample_state [(true, 1 / 5000000, true), (true, 1 / 2, true)] [] true)) ∧
    (work_epoch gnssConsts (sample_config false) scripted_ops (sample_input (5001 / 50))
      (sample_state [(true, 1 / 5000000, true), (true, 1 / 2, true)] [] true)).bind
      (fun e1 =>
        (work_epoch gnssConsts (sample_config false) scripted_ops (sample_input (2501 / 25))
          e1.st).map
          (fun e2 => (e1.st.d_waiting_obs_block_rx_clock_offset_correction_msg,
            internal_solved (sample_config false) scripted_ops (sample_input (2501 / 25))
              e1.st,
            internal_offset (sample_config false) scripted_ops (sample_input (2501 / 25))
              e1.st,
            pub_values e2.ev))) = some (true, true, 1 / 2, []) := by
  have hok : internal_solved (sample_config false) scripted_ops (sample_input (5001 / 50))
      (sample_state [(true, 1 / 5000000, true), (true, 1 / 2, true)] [] true) = true := by
    decide
  have hsmall := sample_offset_small false [(true, 1 / 2, true)] [] true true true (5001 / 50)
  have hms : static_cast_uint32 ((sample_input (5001 / 50) 0).RX_time * 1000) =
      some 100020 := by
    have h : (sample_input (5001 / 50) 0).RX_time * 1000 = ((100020 : Nat) : ℚ) := by
      norm_num [sample_input, sample_obs]
    rw [h]
    exact static_cast_uint32_natCast 100020 (by norm_num)
  refine ⟨rfl, hok, hsmall, ?_⟩
  obtain ⟨e1, he1, hl, hv, _, _, _, _, _, hsol⟩ := work_epoch_accepted_disabled gnssConsts
    (sample_config false) scripted_ops (sample_input (5001 / 50))
    (sample_state [(true, 1 / 5000000, true), (true, 1 / 2, true)] [] true) rfl rfl
    rfl hok hsmall (by decide) (sample_track_rates_ok _)
    (sample_input_channels _ _) 0 (sample_input (5001 / 50) 0) _
    (sample_observable_set _ _ _ _ _) 100020 hms
  have hsol' : e1.st.d_internal_pvt_solver =
      { sample_solver [(true, 1 / 5000000, true), (true, 1 / 2, true)] with
        core := { script := [(true, 1 / 2, true)], time_offset_s := 1 / 5000000,
                  valid_position := true } } := by
    rw [hsol]
    rfl
  have hset2 : observable_set (sample_config false) (sample_input (2501 / 25)) e1.st =
      (0, sample_input (2501 / 25) 0) ::
        [(1, sample_input (2501 / 25) 1), (2, sample_input (2501 / 25) 2)] := by
    rw [observable_set_eq _ _ _ hv, hsol']
    exact sample_ingest_map _ _ _
  have hne2 : observable_set (sample_config false) (sample_input (2501 / 25)) e1.st ≠ [] := by
    rw [hset2]; exact List.cons_ne_nil _ _
  have hok2 : internal_solved (sample_config false) scripted_ops (sample_input (2501 / 25))
      e1.st = true := by
    unfold internal_solved
    rw [hsol']
    rfl
  have hoff2 : internal_offset (sample_config false) scripted_ops (sample_input (2501 / 25))
      e1.st = 1 / 2 := by
    unfold internal_offset
    rw [hsol']
    rfl
  have hlarge2 : offset_too_large (sample_config false) (internal_offset (sample_config false)
      scripted_ops (sample_input (2501 / 25)) e1.st) := by
    rw [hoff2]
    unfold offset_too_large
    norm_num [sample_config, abs_of_pos]
  obtain ⟨e2, he2, _, _, _, h4, _, _⟩ := work_epoch_too_large gnssConsts (sample_config false)
    scripted_ops (sample_input (2501 / 25)) e1.st hv hne2 hok2 hlarge2
  rw [he1, Option.some_bind, he2, Option.map_some', hok2, hoff2, h4, hl]
  rfl

/-! ## The output branch and the console-display block of a completed iteration -/

theorem calls_of_append (b : Block) (x y : List Event) :
    calls_of b (x ++ y) = calls_of b x ++ calls_of b y := by
  simp [calls_of]

theorem calls_of_other (b c : Block) (xs : List Event) (h : ∀ x ∈ xs, x.block = c)
    (hne : c ≠ b) : calls_of b xs = [] := by
  simp only [calls_of, List.filter_eq_nil_iff, decide_eq_true_eq]
  intro x hx hb
  exact hne ((h x hx).symm.trans hb)

theorem calls_of_same (b : Block) (xs : List Event) (h : ∀ x ∈ xs, x.block = b) :
    calls_of b xs = xs := by
  simp only [calls_of, List.filter_eq_self, decide_eq_true_eq]
  exact h

theorem read_channel_view {σ : Type} (C : Config) (x : Gnss_Synchro) (e e' : Epoch σ) (i : Nat)
    (h : read_channel C x e i = some e') :
    gating_view e' = gating_view e ∧ e'.fl = e.fl ∧
      e'.st.d_user_pvt_solver = e.st.d_user_pvt_solver ∧
      e'.st.d_gnss_observables_map_t0 = e.st.d_gnss_observables_map_t0 ∧
      e'.st.d_gnss_observables_map_t1 = e.st.d_gnss_observables_map_t1 ∧
      e'.st.d_waiting_obs_block_rx_clock_offset_correction_msg =
        e.st.d_waiting_obs_block_rx_clock_offset_correction_msg ∧
      ∃ extra, e'.ev = e.ev ++ extra ∧ ∀ y ∈ extra, y.block = Block.ingest := by
  unfold read_channel at h
  cases hv : x.Flag_valid_pseudorange with
  | true =>
    rw [hv] at h
    simp only [if_true, Option.some.injEq] at h
    subst h
    refine ⟨?_, rfl, ?_, ?_, ?_, ?_, _, rfl, ?_⟩
    · split_ifs <;> rfl
    · split_ifs <;> rfl
    · split_ifs <;> rfl
    · split_ifs <;> rfl
    · split_ifs <;> rfl
    · intro y hy
      unfold lock_time_calls at hy
      split_ifs at hy <;> simp at hy <;> (try rcases hy with hy | hy | hy | hy) <;>
        (try subst hy) <;> (try rfl)
  | false =>
    rw [hv] at h
    simp only [Bool.false_eq_true, if_false] at h
    split at h
    · cases h
      exact ⟨rfl, rfl, rfl, rfl, rfl, rfl, [], (List.append_nil _).symm, by simp⟩
    · cases h

theorem read_channels_view {σ : Type} (C : Config) (inp : Nat → Gnss_Synchro)
    (chans : List Nat) :
    ∀ e e' : Epoch σ, read_channels C inp chans e = some e' →
      gating_view e' = gating_view e ∧ e'.fl = e.fl ∧
        e'.st.d_user_pvt_solver = e.st.d_user_pvt_solver ∧
        e'.st.d_gnss_observables_map_t0 = e.st.d_gnss_observables_map_t0 ∧
        e'.st.d_gnss_observables_map_t1 = e.st.d_gnss_observables_map_t1 ∧
        e'.st.d_waiting_obs_block_rx_clock_offset_correction_msg =
          e.st.d_waiting_obs_block_rx_clock_offset_correction_msg ∧
        ∃ extra, e'.ev = e.ev ++ extra ∧ ∀ y ∈ extra, y.block = Block.ingest := by
  induction chans with
  | nil =>
    intro e e' h
    simp only [read_channels, Option.some.injEq] at h
    subst h
    exact ⟨rfl, rfl, rfl, rfl, rfl, rfl, [], (List.append_nil _).symm, by simp⟩
  | cons i rest ih =>
    intro e e' h
    simp only [read_channels] at h
    split at h
    · rename_i e1 h1
      obtain ⟨a1, b1, c1, d1, f1, g1, x1, hx1, hb1⟩ := read_channel_view C (inp i) e e1 i h1
      obtain ⟨a2, b2, c2, d2, f2, g2, x2, hx2, hb2⟩ := ih e1 e' h
      refine ⟨a2.trans a1, b2.trans b1, c2.trans c1, d2.trans d1, f2.trans f1, g2.trans g1,
        x1 ++ x2, ?_, ?_⟩
      · rw [hx2, hx1, List.append_assoc]
      · intro y hy
        rcases List.mem_append.1 hy with hy | hy
        · exact hb1 y hy
        · exact hb2 y hy
    · cases h

/-- Section "1. READ PSEUDORANGES" starts from the initial locals, issues lock-time calls only
and leaves the solvers, the snapshots, the latch, `d_first_fix` and the controller members as
they were. -/
theorem read_pseudoranges_view {σ : Type} (C : Config) (inp : Nat → Gnss_Synchro)
    (s : State σ) (e0 : Epoch σ) (h : read_pseudoranges C inp s = some e0) :
    e0.fl = Flags.init ∧ e0.st.d_first_fix = s.d_first_fix ∧
      controller_state e0.st = controller_state s ∧
      e0.st.d_internal_pvt_solver = s.d_internal_pvt_solver ∧
      e0.st.d_user_pvt_solver = s.d_user_pvt_solver ∧
      e0.st.d_gnss_observables_map_t0 = s.d_gnss_observables_map_t0 ∧
      e0.st.d_gnss_observables_map_t1 = s.d_gnss_observables_map_t1 ∧
      e0.st.d_waiting_obs_block_rx_clock_offset_correction_msg =
        s.d_waiting_obs_block_rx_clock_offset_correction_msg ∧
      ∀ y ∈ e0.ev, y.block = Block.ingest := by
  unfold read_pseudoranges at h
  obtain ⟨a, b, c, d, f, g, x, hx, hb⟩ := read_channels_view C inp _ _ _ h
  obtain ⟨i1, _, _⟩ := read_channels_map C inp _ _ _ h
  simp only [gating_view, Prod.mk.injEq] at a
  refine ⟨b, a.2.1, a.2.2, i1, c, d, f, g, ?_⟩
  rw [hx]
  simpa using hb

theorem offset_accepted_view {σ : Type} (D : Consts) (C : Config) (off : ℚ)
    (e e' : Epoch σ) (h : offset_accepted D C off e = some e') :
    gating_view e' = gating_view e := by
  unfold offset_accepted at h
  by_cases hen : C.d_enable_rx_clock_correction = true
  · simp only [if_pos hen] at h
    split at h
    · cases h; rfl
    · split at h
      · cases h
      · split at h
        · cases h
        · split_ifs at h
          · split at h
            · cases h
            · cases h; rfl
          · cases h; rfl
  · simp only [if_neg hen] at h
    split at h
    · cases h
    · split at h
      · cases h
      · split at h
        · cases h
        · cases h
          split_ifs <;> rfl

/-- The internal solve and the offset test leave the rate-gated locals, `d_first_fix`, the
controller members and the second solver alone and issue calls of section 2 only. -/
theorem internal_solve_view {σ : Type} (D : Consts) (C : Config) (ops : SolverOps σ)
    (e e' : Epoch σ) (h : internal_solve D C ops e = some e') :
    gating_view e' = gating_view e ∧
      e'.st.d_user_pvt_solver = e.st.d_user_pvt_solver ∧
      ∃ extra, e'.ev = e.ev ++ extra ∧ ∀ y ∈ extra, y.block = Block.solve := by
  unfold internal_solve at h
  simp only at h
  split_ifs at h with hok hlarge hw
  · cases h
    exact ⟨rfl, rfl, _, List.append_assoc _ _ _, by
      intro y hy
      simp at hy
      rcases hy with hy | hy <;> subst hy <;> rfl⟩
  · cases h
    exact ⟨rfl, rfl, _, rfl, by intro y hy; simp at hy; subst hy; rfl⟩
  · have hev := (offset_accepted_frame D C _ _ _ h).1
    have hu := (offset_accepted_solvers D C _ _ _ h).2
    have hv := offset_accepted_view D C _ _ _ h
    exact ⟨hv, hu, _, hev, by intro y hy; simp at hy; subst hy; rfl⟩
  · cases h
    exact ⟨rfl, rfl, _, rfl, by intro y hy; simp at hy; subst hy; rfl⟩

theorem user_solve_view {σ : Type} (C : Config) (ops : SolverOps σ) (e : Epoch σ) :
    gating_view (user_solve C ops e) = gating_view e ∧
      ∃ extra, (user_solve C ops e).ev = e.ev ++ extra ∧ ∀ y ∈ extra, y.block = Block.solve := by
  unfold user_solve set_user_core
  split_ifs
  · exact ⟨rfl, _, rfl, by intro y hy; simp at hy; subst hy; rfl⟩
  · exact ⟨rfl, _, rfl, by intro y hy; simp at hy; subst hy; rfl⟩
  · exact ⟨rfl, [], (List.append_nil _).symm, by simp⟩

theorem track_log_eq {σ : Type} (enabled : Bool) (rate : Nat) (call : Event)
    (e e' : Epoch σ) (h : track_log enabled rate call e = some e') :
    e'.st = e.st ∧ e'.fl = e.fl ∧
      e'.ev = e.ev ++ (if enabled = true ∧ e.fl.current_RX_time_ms % rate = 0 then [call]
        else []) := by
  unfold track_log at h
  split_ifs at h with h1
  · cases hm : uint32_mod e.fl.current_RX_time_ms rate with
    | none => rw [hm] at h; cases h
    | some r =>
      rw [hm] at h
      simp only at h
      unfold uint32_mod at hm
      split_ifs at hm with h0
      simp only [Option.some.injEq] at hm
      subst hm
      split_ifs at h with hr
      · cases h; exact ⟨rfl, rfl, by simp [h1, hr]⟩
      · cases h; exact ⟨rfl, rfl, by simp [hr]⟩
  · cases h; exact ⟨rfl, rfl, by simp [h1]⟩

theorem first_fix_eq {σ : Type} (C : Config) (ops : SolverOps σ) (e : Epoch σ) :
    (first_fix C ops e).fl = e.fl ∧ (first_fix C ops e).st.d_first_fix = false ∧
      (first_fix C ops e).ev =
        e.ev ++ (if e.st.d_first_fix = true then [Event.send_sys_v_ttff_msg] else []) ∧
      controller_state (first_fix C ops e).st = first_fix_controller C ops e.st := by
  unfold first_fix first_fix_controller
  cases hf : e.st.d_first_fix with
  | true =>
    cases hp : C.d_PPS_correction with
    | true => simp [controller_state]
    | false => simp [controller_state]
  | false => simp [hf]

/-- The block `if (flag_pvt_valid == true)`: in the output branch the rate-gated locals are
those of `rate_flags`, `d_first_fix` ends `false`, and the calls are the first-fix report (when
`d_first_fix` was set) followed by the track logs that are due; outside it the block changes
none of the rate-gated locals, `d_first_fix` or the controller members, and issues no call. -/
theorem pvt_valid_block_gating {σ : Type} (D : Consts) (C : Config) (ops : SolverOps σ)
    (e e' : Epoch σ) (h : pvt_valid_block D C ops e = some e') :
    (output_branch C ops e →
      gating_flags e'.fl = gating_flags (rate_flags C e.fl) ∧
      e'.st.d_first_fix = false ∧
      e'.ev = e.ev ++
        ((if e.st.d_first_fix = true then [Event.send_sys_v_ttff_msg] else []) ++
          track_logs C e.fl.current_RX_time_ms) ∧
      controller_state e'.st = first_fix_controller C ops e.st) ∧
    (¬ output_branch C ops e → gating_view e' = gating_view e ∧ e'.ev = e.ev) := by
  unfold pvt_valid_block at h
  by_cases hf : e.fl.flag_pvt_valid = true
  · rw [if_pos hf] at h
    split at h
    · cases h
    · rename_i m ps hinit
      simp only at h
      by_cases hres : residual_exceeds C ops e.st
      · have hres2 := hres
        unfold residual_exceeds user_solver at hres2
        unfold user_solver at h
        rw [if_pos hres2] at h
        cases h
        refine ⟨fun hb => absurd hres hb.2, fun _ => ⟨rfl, rfl⟩⟩
      · have hres2 := hres
        unfold residual_exceeds user_solver at hres2
        unfold user_solver at h
        rw [if_neg hres2] at h
        obtain ⟨e4, h4, h⟩ := Option.bind_eq_some.1 h
        obtain ⟨e5, h5, h⟩ := Option.bind_eq_some.1 h
        obtain ⟨e6, h6, h7⟩ := Option.bind_eq_some.1 h
        obtain ⟨s4, f4, v4⟩ := track_log_eq _ _ _ _ _ h4
        obtain ⟨s5, f5, v5⟩ := track_log_eq _ _ _ _ _ h5
        obtain ⟨s6, f6, v6⟩ := track_log_eq _ _ _ _ _ h6
        obtain ⟨s7, f7, v7⟩ := track_log_eq _ _ _ _ _ h7
        obtain ⟨l1, l2, l3, l4⟩ := first_fix_eq C ops
          { st := { e.st with
              d_gnss_observables_map := m,
              d_channel_initialized := ps.d_channel_initialized,
              d_initial_carrier_phase_offset_estimation_rads :=
                ps.d_initial_carrier_phase_offset_estimation_rads,
              d_mapStringValues := ps.d_mapStringValues },
            fl := rate_flags C e.fl, ev := e.ev }
        refine ⟨fun _ => ⟨?_, ?_, ?_, ?_⟩, fun hb => absurd ⟨hf, hres⟩ hb⟩
        · rw [f7, f6, f5, f4, l1]
        · rw [s7, s6, s5, s4, l2]
        · rw [v7, v6, v5, v4, f6, f5, f4, l1, l3]
          simp only [track_logs, List.append_assoc]
          rfl
        · rw [s7, s6, s5, s4, l4]
          rfl
  · rw [if_neg hf] at h
    cases h
    exact ⟨fun hb => absurd hb.1 hf, fun _ => ⟨rfl, rfl⟩⟩

/-- The console-display block changes no local, no solver and not `d_first_fix`; it issues one
`FREQ` command, carrying the new set-point, when the controller runs and no call otherwise,
and then it leaves the controller members alone. -/
theorem display_block_calls {σ : Type} (C : Config) (ops : SolverOps σ) (e : Epoch σ) :
    (display_block C ops e).fl = e.fl ∧
      (display_block C ops e).st.d_first_fix = e.st.d_first_fix ∧
      (display_block C ops e).st.d_internal_pvt_solver = e.st.d_internal_pvt_solver ∧
      (display_block C ops e).st.d_user_pvt_solver = e.st.d_user_pvt_solver ∧
      (display_block C ops e).ev = e.ev ++
        (if controller_runs C ops e then
          [Event.vxi11_send_FREQ (display_block C ops e).st.d_LO_external_frequ] else []) ∧
      (¬ controller_runs C ops e → display_block C ops e = e) := by
  unfold display_block controller_runs
  by_cases h1 : ops.is_valid_position (user_solver C e.st).core = true ∧
      e.fl.flag_display_pvt = true
  · by_cases hp : C.d_PPS_correction = true
    · simp only [if_pos h1, if_pos hp]
      refine ⟨?_, ?_, ?_, ?_, ?_, ?_⟩
      · rfl
      · unfold pps_controller; simp only; split_ifs <;> rfl
      · unfold pps_controller; simp only; split_ifs <;> rfl
      · unfold pps_controller; simp only; split_ifs <;> rfl
      · simp [h1, hp, pps_controller]
      · intro hn; exact absurd ⟨h1, hp⟩ hn
    · simp [h1, hp]
  · simp [h1]

theorem pvt_monitor_calls {σ : Type} (C : Config) (ops : SolverOps σ) (e : Epoch σ) :
    (pvt_monitor C ops e).st = e.st ∧ (pvt_monitor C ops e).fl = e.fl ∧
      ∃ extra, (pvt_monitor C ops e).ev = e.ev ++ extra ∧
        ∀ y ∈ extra, y.block = Block.monitor := by
  unfold pvt_monitor
  split_ifs
  · exact ⟨rfl, rfl, _, List.append_assoc _ _ _, by
      intro y hy; simp at hy; rcases hy with hy | hy <;> subst hy <;> rfl⟩
  · exact ⟨rfl, rfl, _, rfl, by intro y hy; simp at hy; subst hy; rfl⟩
  · exact ⟨rfl, rfl, _, rfl, by intro y hy; simp at hy; subst hy; rfl⟩
  · exact ⟨rfl, rfl, [], (List.append_nil _).symm, by simp⟩
  · exact ⟨rfl, rfl, [], (List.append_nil _).symm, by simp⟩

/-- The two ways an iteration completes: with an empty Observable Set it ends after section 1;
otherwise it runs the internal solve, the user solve, the block `if (flag_pvt_valid == true)`,
the console-display block and the PVT monitor. -/
theorem work_epoch_cases {σ : Type} (D : Consts) (C : Config) (ops : SolverOps σ)
    (inp : Nat → Gnss_Synchro) (s : State σ) (e : Epoch σ)
    (h : work_epoch D C ops inp s = some e) :
    ∃ e0, read_pseudoranges C inp s = some e0 ∧
      ((e0.st.d_gnss_observables_map = [] ∧ e = e0) ∨
        (e0.st.d_gnss_observables_map ≠ [] ∧ ∃ e1 e2, internal_solve D C ops e0 = some e1 ∧
          pvt_valid_block D C ops (user_solve C ops e1) = some e2 ∧
          e = pvt_monitor C ops (display_block C ops e2))) := by
  unfold work_epoch at h
  split at h
  · cases h
  · rename_i e0 hread
    refine ⟨e0, hread, ?_⟩
    split at h
    · rename_i hm
      cases h
      exact Or.inl ⟨hm, rfl⟩
    · rename_i a b hm
      refine Or.inr ⟨by rw [hm]; exact List.cons_ne_nil _ _, ?_⟩
      unfold compute_pvt at h
      split at h
      · cases h
      · rename_i e1 h1
        split at h
        · cases h
        · rename_i e2 h2
          cases h
          exact ⟨e1, e2, h1, h2, rfl⟩

theorem user_solver_congr {σ : Type} (C : Config) (s1 s2 : State σ)
    (hi : s1.d_internal_pvt_solver = s2.d_internal_pvt_solver)
    (hu : s1.d_user_pvt_solver = s2.d_user_pvt_solver) :
    user_solver C s1 = user_solver C s2 := by
  unfold user_solver
  rw [hi, hu]

theorem track_logs_block (C : Config) (ms : Nat) :
    ∀ y ∈ track_logs C ms, y.block = Block.output := by
  intro y hy
  unfold track_logs at hy
  simp only [List.mem_append] at hy
  rcases hy with ((hy | hy) | hy) | hy <;> split_ifs at hy <;> simp at hy <;> subst hy <;> rfl

theorem gating_flags_rate_flags (C : Config) (fl : Flags)
    (h : gating_flags fl = [false, false, false, false, false, false]) :
    gating_flags (rate_flags C fl) = gating_due C fl.current_RX_time_ms := by
  simp only [gating_flags, List.cons.injEq, and_true] at h
  obtain ⟨h1, h2, h3, h4, h5, h6⟩ := h
  simp only [gating_flags, gating_due, rate_flags, h1, h2, h3, h4, h5, h6]
  simp

/-- A completed iteration, seen from its final context `e`.  The output branch was taken
exactly when `flag_pvt_valid` ends `true` and the residual-offset test fails.  In that case the
rate-gated locals are the rate gates at the epoch time, `d_first_fix` ends `false` and the
output calls are the first-fix report (when `d_first_fix` was set) and the track logs that are
due; otherwise the rate-gated locals are all `false`, `d_first_fix` is as before and there is
no output call.  The `FREQ` command is issued exactly when the controller runs, and with no
output branch and no controller run the controller members are as before. -/
theorem work_epoch_gating {σ : Type} (D : Consts) (C : Config) (ops : SolverOps σ)
    (inp : Nat → Gnss_Synchro) (s : State σ) (e : Epoch σ)
    (h : work_epoch D C ops inp s = some e) :
    gating_flags e.fl =
        (if output_branch C ops e then gating_due C e.fl.current_RX_time_ms
          else [false, false, false, false, false, false]) ∧
      e.st.d_first_fix = (if output_branch C ops e then false else s.d_first_fix) ∧
      calls_of Block.output e.ev =
        (if output_branch C ops e then
          (if s.d_first_fix = true then [Event.send_sys_v_ttff_msg] else []) ++
            track_logs C e.fl.current_RX_time_ms
          else []) ∧
      calls_of Block.display e.ev =
        (if controller_runs C ops e then [Event.vxi11_send_FREQ e.st.d_LO_external_frequ]
          else []) ∧
      (¬ output_branch C ops e → ¬ controller_runs C ops e →
        controller_state e.st = controller_state s) ∧
      (¬ controller_runs C ops e → e.st.d_LO_external_frequ = s.d_LO_external_frequ) := by
  obtain ⟨e0, hread, hcase⟩ := work_epoch_cases D C ops inp s e h
  obtain ⟨r1, r2, r3, _, _, _, _, _, r9⟩ := read_pseudoranges_view C inp s e0 hread
  rcases hcase with ⟨_, he⟩ | ⟨_, e1, e2, h1, h2, he⟩
  · subst he
    have hnb : ¬ output_branch C ops e := by
      intro hb
      have := hb.1
      rw [r1] at this
      cases this
    have hnc : ¬ controller_runs C ops e := by
      intro hc
      have := hc.1.2
      rw [r1] at this
      cases this
    rw [if_neg hnb, if_neg hnb, if_neg hnb, if_neg hnc]
    refine ⟨by rw [r1]; rfl, r2, ?_, ?_, fun _ _ => r3, fun _ => ?_⟩
    · exact calls_of_other _ _ _ r9 (by decide)
    · exact calls_of_other _ _ _ r9 (by decide)
    · have := congrArg (fun l => l[6]?) r3
      simpa [controller_state] using this
  · obtain ⟨v1, _, x1, hx1, hb1⟩ := internal_solve_view D C ops e0 e1 h1
    obtain ⟨vu, xu, hxu, hbu⟩ := user_solve_view C ops e1
    obtain ⟨_, p2, p3, p4, _, p6⟩ := pvt_valid_block_locals D C ops _ _ h2
    obtain ⟨gy, gn⟩ := pvt_valid_block_gating D C ops _ _ h2
    obtain ⟨d1, d2, d3, d4, d5, d6⟩ := display_block_calls C ops e2
    obtain ⟨m1, m2, xm, hxm, hbm⟩ := pvt_monitor_calls C ops (display_block C ops e2)
    have hview : gating_view (user_solve C ops e1) = gating_view e0 := vu.trans v1
    simp only [gating_view, Prod.mk.injEq] at hview
    obtain ⟨w1, w2, w3⟩ := hview
    rw [r1] at w1
    rw [r2] at w2
    rw [r3] at w3
    have hfl : e.fl = e2.fl := by rw [he, m2, d1]
    have husr : user_solver C e.st = user_solver C (user_solve C ops e1).st := by
      rw [he, m1]
      exact user_solver_congr C _ _ (d3.trans p2) (d4.trans p3)
    have hbranch : output_branch C ops e ↔ output_branch C ops (user_solve C ops e1) := by
      unfold output_branch residual_exceeds
      rw [husr, hfl, p4]
    have hrun : controller_runs C ops e ↔ controller_runs C ops e2 := by
      unfold controller_runs
      rw [hfl, husr]
      rw [user_solver_congr C e2.st (user_solve C ops e1).st p2 p3]
    have hev : e.ev = e0.ev ++ x1 ++ xu ++
        (if output_branch C ops e then
          (if s.d_first_fix = true then [Event.send_sys_v_ttff_msg] else []) ++
            track_logs C e.fl.current_RX_time_ms else []) ++
        (if controller_runs C ops e then
          [Event.vxi11_send_FREQ e.st.d_LO_external_frequ] else []) ++ xm := by
      have hlo : e.st.d_LO_external_frequ = (display_block C ops e2).st.d_LO_external_frequ := by
        rw [he, m1]
      rw [he, hxm, d5, ← he, hlo]
      simp only [hrun]
      congr 2
      by_cases hb : output_branch C ops (user_solve C ops e1)
      · rw [if_pos (hbranch.2 hb), (gy hb).2.2.1, hxu, hx1, w2, hfl, p6]
      · rw [if_neg (fun h => hb (hbranch.1 h)), (gn hb).2, hxu, hx1, List.append_nil]
    have hout : ∀ y ∈ (if output_branch C ops e then
          (if s.d_first_fix = true then [Event.send_sys_v_ttff_msg] else []) ++
            track_logs C e.fl.current_RX_time_ms else []), y.block = Block.output := by
      intro y hy
      split_ifs at hy
      · rcases List.mem_append.1 hy with hy | hy
        · simp at hy; subst hy; rfl
        · exact track_logs_block _ _ y hy
      · rcases List.mem_append.1 hy with hy | hy
        · cases hy
        · exact track_logs_block _ _ y hy
      · cases hy
    have hdisp : ∀ y ∈ (if controller_runs C ops e then
          [Event.vxi11_send_FREQ e.st.d_LO_external_frequ] else []),
        y.block = Block.display := by
      intro y hy
      split_ifs at hy
      · simp at hy; subst hy; rfl
      · cases hy
    refine ⟨?_, ?_, ?_, ?_, ?_, ?_⟩
    · by_cases hb : output_branch C ops (user_solve C ops e1)
      · rw [if_pos (hbranch.2 hb), hfl, (gy hb).1, gating_flags_rate_flags C _ w1, p6]
      · rw [if_neg (fun h => hb (hbranch.1 h)), hfl]
        have := (gn hb).1
        simp only [gating_view, Prod.mk.injEq] at this
        rw [this.1, w1]
        rfl
    · have hff : e.st.d_first_fix = e2.st.d_first_fix := by rw [he, m1, d2]
      by_cases hb : output_branch C ops (user_solve C ops e1)
      · rw [if_pos (hbranch.2 hb), hff, (gy hb).2.1]
      · rw [if_neg (fun h => hb (hbranch.1 h)), hff]
        have := (gn hb).1
        simp only [gating_view, Prod.mk.injEq] at this
        rw [this.2.1, w2]
    · rw [hev]
      simp only [calls_of_append]
      rw [calls_of_other _ _ _ r9 (by decide), calls_of_other _ _ _ hb1 (by decide),
        calls_of_other _ _ _ hbu (by decide), calls_of_same _ _ hout,
        calls_of_other _ _ _ hdisp (by decide), calls_of_other _ _ _ hbm (by decide)]
      simp
    · rw [hev]
      simp only [calls_of_append]
      rw [calls_of_other _ _ _ r9 (by decide), calls_of_other _ _ _ hb1 (by decide),
        calls_of_other _ _ _ hbu (by decide), calls_of_other _ _ _ hout (by decide),
        calls_of_same _ _ hdisp, calls_of_other _ _ _ hbm (by decide)]
      simp
    · intro hnb hnc
      have hb : ¬ output_branch C ops (user_solve C ops e1) := fun h => hnb (hbranch.2 h)
      have hc : ¬ controller_runs C ops e2 := fun h => hnc (hrun.2 h)
      have := (gn hb).1
      simp only [gating_view, Prod.mk.injEq] at this
      rw [he, m1, d6 hc, this.2.2, w3]
    · intro hnc
      have hc : ¬ controller_runs C ops e2 := fun h => hnc (hrun.2 h)
      have hs := congrArg (fun l => l[6]?) w3
      simp only [controller_state, List.getElem?_cons_succ, List.getElem?_cons_zero,
        Option.some.injEq] at hs
      rw [he, m1, d6 hc, ← hs]
      by_cases hb : output_branch C ops (user_solve C ops e1)
      · have := congrArg (fun l => l[6]?) (gy hb).2.2.2
        unfold first_fix_controller at this
        split_ifs at this <;>
          simpa [controller_state] using this
      · have := (gn hb).1
        simp only [gating_view, Prod.mk.injEq] at this
        have := congrArg (fun l => l[6]?) this.2.2
        simpa [controller_state] using this

/-! ## Epochs with an accepted offset, receiver-clock correction enabled: the user solve -/

/-- The accepted-offset branch with correction enabled, when the previous snapshot is not
empty and the aligned time is a multiple of the output period: `current_RX_time_ms` is the
next 20 ms boundary after the snapshot time and `flag_compute_pvt_output` is raised. -/
theorem offset_accepted_enabled_facts {σ : Type} (D : Consts) (C : Config) (off : ℚ)
    (e e1 : Epoch σ) (hen : C.d_enable_rx_clock_correction = true)
    (k : Int) (f : Gnss_Synchro) (rest : ObsMap)
    (ht1 : e.st.d_gnss_observables_map_t1 = (k, f) :: rest) (ms : Nat)
    (hms : static_cast_uint32 (f.RX_time * 1000) = some ms)
    (hrate : C.d_output_rate_ms ≠ 0)
    (hdue : ((ms + (20 - ms % 20)) % 4294967296) % C.d_output_rate_ms = 0)
    (h : offset_accepted D C off e = some e1) :
    e1.fl.current_RX_time_ms = (ms + (20 - ms % 20)) % 4294967296 ∧
      e1.fl.flag_compute_pvt_output = true ∧
      e1.fl.flag_pvt_valid = e.fl.flag_pvt_valid := by
  unfold offset_accepted at h
  simp only [if_pos hen, ht1, hms, uint32_mod, if_neg hrate, hdue, if_true] at h
  split at h
  · cases h
  · cases h
    exact ⟨rfl, rfl, rfl⟩

theorem user_solve_enabled_facts {σ : Type} (C : Config) (ops : SolverOps σ) (e : Epoch σ)
    (hen : C.d_enable_rx_clock_correction = true)
    (hc : e.fl.flag_compute_pvt_output = true) :
    (user_solve C ops e).fl.flag_compute_pvt_output = true ∧
      (user_solve C ops e).fl.current_RX_time_ms = e.fl.current_RX_time_ms ∧
      (user_solve C ops e).fl.flag_pvt_valid =
        (ops.get_PVT e.st.d_user_pvt_solver e.st.d_gnss_observables_map false).1 ∧
      (user_solve C ops e).st.d_user_pvt_solver =
        { e.st.d_user_pvt_solver with
          core := (ops.get_PVT e.st.d_user_pvt_solver e.st.d_gnss_observables_map false).2 } := by
  unfold user_solve
  simp [hc, user_solver, set_user_core, hen]

/-- With receiver-clock correction enabled, a completed epoch whose offset is accepted, whose
previous snapshot is not empty and whose aligned time is a multiple of the output period runs
the user solve: `flag_compute_pvt_output` is raised, `flag_pvt_valid` is the result of the call
through `d_user_pvt_solver` on the interpolated observables, and the second solver is left in
the state produced by that call. -/
theorem work_epoch_enabled_user_solve {σ : Type} (D : Consts) (C : Config)
    (ops : SolverOps σ) (inp : Nat → Gnss_Synchro) (s : State σ)
    (hen : C.d_enable_rx_clock_correction = true)
    (hne : observable_set C inp s ≠ [])
    (hok : internal_solved C ops inp s = true)
    (hsmall : ¬ offset_too_large C (internal_offset C ops inp s))
    (hrate : C.d_output_rate_ms ≠ 0)
    (k : Int) (f : Gnss_Synchro) (rest : ObsMap)
    (ht1 : s.d_gnss_observables_map_t1 = (k, f) :: rest) (ms : Nat)
    (hms : static_cast_uint32 (f.RX_time * 1000) = some ms)
    (hdue : ((ms + (20 - ms % 20)) % 4294967296) % C.d_output_rate_ms = 0)
    (e : Epoch σ) (h : work_epoch D C ops inp s = some e) :
    e.fl.flag_compute_pvt_output = true ∧
      e.fl.current_RX_time_ms = (ms + (20 - ms % 20)) % 4294967296 ∧
      ∃ mi, e.fl.flag_pvt_valid = (ops.get_PVT s.d_user_pvt_solver mi false).1 ∧
        e.st.d_user_pvt_solver =
          { s.d_user_pvt_solver with core := (ops.get_PVT s.d_user_pvt_solver mi false).2 } := by
  obtain ⟨e0, hread, hcase⟩ := work_epoch_cases D C ops inp s e h
  obtain ⟨_, _, _, r4, r5, _, r7, _, _⟩ := read_pseudoranges_view C inp s e0 hread
  have hset : observable_set C inp s = e0.st.d_gnss_observables_map := by
    unfold observable_set
    rw [hread]
  unfold internal_solved at hok
  unfold internal_offset at hsmall
  rw [hset, ← r4] at hok hsmall
  rcases hcase with ⟨hemp, _⟩ | ⟨_, e1, e2, h1, h2, he⟩
  · rw [hset] at hne
    exact absurd hemp hne
  · rw [internal_solve_accepted_call D C ops e0 hok hsmall] at h1
    obtain ⟨c1, c2, c3, c4, c5, c6, c7, c8, c9, c10⟩ := after_internal_call_facts ops e0
    obtain ⟨a1, a2, _⟩ := offset_accepted_enabled_facts D C _ _ e1 hen k f rest
      (by rw [c7, r7]; exact ht1) ms hms hrate hdue h1
    obtain ⟨_, b2⟩ := offset_accepted_solvers D C _ _ _ h1
    obtain ⟨u1, u2, u3, u4⟩ := user_solve_enabled_facts C ops e1 hen a2
    obtain ⟨_, _, p3, p4, p5, p6⟩ := pvt_valid_block_locals D C ops _ _ h2
    obtain ⟨d1, _, _, d4, _, _⟩ := display_block_calls C ops e2
    obtain ⟨m1, m2, _⟩ := pvt_monitor_calls C ops (display_block C ops e2)
    have hfl : e.fl = e2.fl := by rw [he, m2, d1]
    have hus : e.st.d_user_pvt_solver = e2.st.d_user_pvt_solver := by rw [he, m1, d4]
    have hu1 : e1.st.d_user_pvt_solver = s.d_user_pvt_solver := by rw [b2, c4, r5]
    refine ⟨by rw [hfl, p5, u1], by rw [hfl, p6, u2, a1], e1.st.d_gnss_observables_map, ?_, ?_⟩
    · rw [hfl, p4, u3, hu1]
    · rw [hus, p3, u4, hu1]

/-- A sample epoch with receiver-clock correction enabled: the previous snapshot is at
99.99 s, the input items are at 100.01 s, the internal solve gives an offset of 2e-7 s, and the
user solve succeeds with clock offset `res` and a valid position.  The epoch completes at the
aligned time 100000 ms with `flag_compute_pvt_output` and `flag_pvt_valid` set, and the second
solver holds the offset `res`. -/
theorem sample_enabled_epoch_with (d : Nat) (p : Bool) (kp ki res : ℚ) :
    ∃ e, work_epoch gnssConsts (sample_config_with d p kp ki) scripted_ops
        (sample_input (10001 / 100))
        (sample_state_t1 [(true, 1 / 5000000, true)] [(true, res, true)] sample_t1) = some e ∧
      e.fl.flag_compute_pvt_output = true ∧ e.fl.flag_pvt_valid = true ∧
      e.fl.current_RX_time_ms = 100000 ∧
      scripted_ops.get_time_offset_s (user_solver (sample_config_with d p kp ki) e.st).core =
        res ∧
      scripted_ops.is_valid_position (user_solver (sample_config_with d p kp ki) e.st).core =
        true := by
  have hset : observable_set (sample_config_with d p kp ki) (sample_input (10001 / 100))
      (sample_state_t1 [(true, 1 / 5000000, true)] [(true, res, true)] sample_t1) =
      (0, sample_input (10001 / 100) 0) ::
        [(1, sample_input (10001 / 100) 1), (2, sample_input (10001 / 100) 2)] := by
    rw [observable_set_eq _ _ _ rfl]
    exact sample_ingest_map _ [(true, 1 / 5000000, true)]
      (sample_solver [(true, 1 / 5000000, true)]).core
  have hne : observable_set (sample_config_with d p kp ki) (sample_input (10001 / 100))
      (sample_state_t1 [(true, 1 / 5000000, true)] [(true, res, true)] sample_t1) ≠ [] := by
    rw [hset]; exact List.cons_ne_nil _ _
  have hok : internal_solved (sample_config_with d p kp ki) scripted_ops
      (sample_input (10001 / 100))
      (sample_state_t1 [(true, 1 / 5000000, true)] [(true, res, true)] sample_t1) = true := rfl
  have hoff : internal_offset (sample_config_with d p kp ki) scripted_ops
      (sample_input (10001 / 100))
      (sample_state_t1 [(true, 1 / 5000000, true)] [(true, res, true)] sample_t1) =
      1 / 5000000 := rfl
  have hsmall : ¬ offset_too_large (sample_config_with d p kp ki)
      (internal_offset (sample_config_with d p kp ki) scripted_ops (sample_input (10001 / 100))
      (sample_state_t1 [(true, 1 / 5000000, true)] [(true, res, true)] sample_t1)) := by
    rw [hoff]
    unfold offset_too_large
    norm_num [sample_config_with, sample_config, abs_of_pos]
  have hms : static_cast_uint32 ((sample_obs 3 "1C" 0 (9999 / 100) 20000000 0).RX_time * 1000) =
      some 99990 := by
    have h : (sample_obs 3 "1C" 0 (9999 / 100) 20000000 0).RX_time * 1000 =
        ((99990 : Nat) : ℚ) := by
      norm_num [sample_obs]
    rw [h]
    exact static_cast_uint32_natCast 99990 (by norm_num)
  have hrate : (sample_config_with d p kp ki).d_output_rate_ms ≠ 0 := by
    show (1000 : Nat) ≠ 0
    norm_num
  obtain ⟨e, he⟩ := work_epoch_accepted_enabled_total gnssConsts (sample_config_with d p kp ki)
    scripted_ops (sample_input (10001 / 100))
    (sample_state_t1 [(true, 1 / 5000000, true)] [(true, res, true)] sample_t1)
    rfl rfl rfl hne hok hsmall hrate
    (by simp [track_rates_ok, sample_config_with, sample_config])
    (sample_input_channels true _)
    (by
      intro p hp
      simp only [sample_state_t1, sample_t1, List.mem_singleton] at hp
      subst hp
      simp [sample_obs, sample_config_with, sample_config])
    (by
      intro k f rest h
      simp only [sample_state_t1, sample_t1, List.cons.injEq, Prod.mk.injEq] at h
      obtain ⟨⟨_, hf⟩, _⟩ := h
      subst hf
      exact ⟨_, hms⟩)
  obtain ⟨h1, h2, mi, h3, h4⟩ := work_epoch_enabled_user_solve gnssConsts
    (sample_config_with d p kp ki)
    scripted_ops (sample_input (10001 / 100))
    (sample_state_t1 [(true, 1 / 5000000, true)] [(true, res, true)] sample_t1)
    rfl hne hok hsmall hrate 0 (sample_obs 3 "1C" 0 (9999 / 100) 20000000 0) [] rfl
    99990 hms (by show (99990 + (20 - 99990 % 20)) % 4294967296 % 1000 = 0; norm_num) e he
  have hu : user_solver (sample_config_with d p kp ki) e.st = e.st.d_user_pvt_solver := rfl
  refine ⟨e, he, h1, ?_, ?_, ?_, ?_⟩
  · rw [h3]; rfl
  · rw [h2]
  · rw [hu, h4]; rfl
  · rw [hu, h4]; rfl

theorem sample_enabled_epoch (res : ℚ) :
    ∃ e, work_epoch gnssConsts (sample_config true) scripted_ops (sample_input (10001 / 100))
        (sample_state_t1 [(true, 1 / 5000000, true)] [(true, res, true)] sample_t1) = some e ∧
      e.fl.flag_compute_pvt_output = true ∧ e.fl.flag_pvt_valid = true ∧
      e.fl.current_RX_time_ms = 100000 ∧
      scripted_ops.get_time_offset_s (user_solver (sample_config true) e.st).core = res ∧
      scripted_ops.is_valid_position (user_solver (sample_config true) e.st).core = true :=
  sample_enabled_epoch_with 500 false 0 0 res

/-! ## Claim on the residual clock offset of the user solution -/

/-- Claim C11 (as amended): a completed epoch whose `flag_pvt_valid` ends `true`, in
particular one whose user solve succeeded, proceeds to output gating unless receiver-clock
correction is enabled and the clock offset re-derived from the user solution exceeds
1 microsecond in magnitude.  When it proceeds, the six rate-gated flags are the rate gates at
the epoch time, the first-fix report is sent if `d_first_fix` was set, `d_first_fix` ends
`false`, and the track logs that are due are written.  With correction enabled and a residual
above 1 microsecond the epoch skips output gating: the six flags stay `false`, `d_first_fix`
is as before and neither the first-fix report nor a track log is issued. -/
theorem work_epoch_output_gating {σ : Type} (D : Consts) (C : Config) (ops : SolverOps σ)
    (inp : Nat → Gnss_Synchro) (s : State σ) (e : Epoch σ)
    (h : work_epoch D C ops inp s = some e) (hvalid : e.fl.flag_pvt_valid = true) :
    (¬ (C.d_enable_rx_clock_correction = true ∧
        |ops.get_time_offset_s (user_solver C e.st).core| > 0.000001) →
      gating_flags e.fl = gating_due C e.fl.current_RX_time_ms ∧
      e.st.d_first_fix = false ∧
      calls_of Block.output e.ev =
        (if s.d_first_fix = true then [Event.send_sys_v_ttff_msg] else []) ++
          track_logs C e.fl.current_RX_time_ms) ∧
    (C.d_enable_rx_clock_correction = true ∧
        |ops.get_time_offset_s (user_solver C e.st).core| > 0.000001 →
      gating_flags e.fl = [false, false, false, false, false, false] ∧
      e.st.d_first_fix = s.d_first_fix ∧
      calls_of Block.output e.ev = []) := by
  obtain ⟨g1, g2, g3, _, _, _⟩ := work_epoch_gating D C ops inp s e h
  refine ⟨fun hres => ?_, fun hres => ?_⟩
  · have hb : output_branch C ops e := ⟨hvalid, hres⟩
    rw [if_pos hb] at g1 g2 g3
    exact ⟨g1, g2, g3⟩
  · have hb : ¬ output_branch C ops e := fun hb => hb.2 hres
    rw [if_neg hb] at g1 g2 g3
    exact ⟨g1, g2, g3⟩

/-- Evaluation of `work_epoch_output_gating`: with correction enabled and a user solution
whose clock offset is 2e-7 s, the epoch at 100000 ms raises the display flag (period 500 ms),
sends the first-fix report and clears `d_first_fix`. -/
theorem work_epoch_output_gating_witness :
    ∃ e, work_epoch gnssConsts (sample_config true) scripted_ops (sample_input (10001 / 100))
        (sample_state_t1 [(true, 1 / 5000000, true)] [(true, 1 / 5000000, true)] sample_t1) =
          some e ∧
      e.fl.flag_pvt_valid = true ∧
      gating_flags e.fl = [true, false, false, false, false, false] ∧
      e.st.d_first_fix = false ∧
      calls_of Block.output e.ev = [Event.send_sys_v_ttff_msg] := by
  obtain ⟨e, he, _, hv, hms, hoff, _⟩ := sample_enabled_epoch (1 / 5000000)
  have hres : ¬ ((sample_config true).d_enable_rx_clock_correction = true ∧
      |scripted_ops.get_time_offset_s (user_solver (sample_config true) e.st).core| >
        0.000001) := by
    rw [hoff]
    norm_num [abs_of_pos]
  obtain ⟨g1, g2, g3⟩ := (work_epoch_output_gating gnssConsts (sample_config true) scripted_ops
    (sample_input (10001 / 100))
    (sample_state_t1 [(true, 1 / 5000000, true)] [(true, 1 / 5000000, true)] sample_t1)
    e he hv).1 hres
  rw [hms] at g1 g3
  exact ⟨e, he, hv, g1, g2, g3⟩

/-- Claim C11 as stated fails: with receiver-clock correction enabled, an epoch at 100000 ms
whose user solve succeeds with a clock offset of 1 ms does not proceed to output gating.  The
display flag stays `false` although its period, 500 ms, divides the epoch time, `d_first_fix`
stays `true`, and neither the first-fix report nor a track log is issued. -/
theorem work_epoch_residual_skips_gating :
    ∃ e, work_epoch gnssConsts (sample_config true) scripted_ops (sample_input (10001 / 100))
        (sample_state_t1 [(true, 1 / 5000000, true)] [(true, 1 / 1000, true)] sample_t1) =
          some e ∧
      e.fl.flag_compute_pvt_output = true ∧ e.fl.flag_pvt_valid = true ∧
      scripted_ops.get_time_offset_s (user_solver (sample_config true) e.st).core = 1 / 1000 ∧
      rate_gate e.fl.current_RX_time_ms (sample_config true).d_display_rate_ms = true ∧
      e.fl.flag_display_pvt = false ∧
      (sample_state_t1 [(true, 1 / 5000000, true)] [(true, 1 / 1000, true)]
        sample_t1).d_first_fix = true ∧
      e.st.d_first_fix = true ∧
      calls_of Block.output e.ev = [] := by
  obtain ⟨e, he, hc, hv, hms, hoff, _⟩ := sample_enabled_epoch (1 / 1000)
  obtain ⟨g1, g2, g3, _, _, _⟩ := work_epoch_gating gnssConsts (sample_config true)
    scripted_ops (sample_input (10001 / 100))
    (sample_state_t1 [(true, 1 / 5000000, true)] [(true, 1 / 1000, true)] sample_t1) e he
  have hb : ¬ output_branch (sample_config true) scripted_ops e := by
    intro hb
    apply hb.2
    refine ⟨rfl, ?_⟩
    rw [hoff]
    norm_num [abs_of_pos]
  rw [if_neg hb] at g1 g2 g3
  simp only [gating_flags, List.cons.injEq, and_true] at g1
  refine ⟨e, he, hc, hv, hoff, ?_, g1.1, rfl, g2, g3⟩
  rw [hms]
  decide

/-! ## Claim on the epochs in which the oscillator controller runs -/

/-- Claim C12 (as amended): the oscillator controller sits inside the console-display block,
so it depends on the display rate.  In a completed epoch it runs, issuing one `FREQ` command
with the new set-point, exactly when `d_PPS_correction` is set, the user solver holds a valid
position and the display flag was raised, that is when the epoch reached output gating
(`flag_pvt_valid` set and no residual above 1 microsecond with correction enabled) at an epoch
time that is a multiple of a non-zero display period.  In every other epoch no `FREQ` command
is issued and the set-point is left as it was; with display period 0 the controller never
runs. -/
theorem work_epoch_controller_runs {σ : Type} (D : Consts) (C : Config) (ops : SolverOps σ)
    (inp : Nat → Gnss_Synchro) (s : State σ) (e : Epoch σ)
    (h : work_epoch D C ops inp s = some e) :
    (calls_of Block.display e.ev ≠ [] ↔
      C.d_PPS_correction = true ∧
      ops.is_valid_position (user_solver C e.st).core = true ∧
      e.fl.flag_pvt_valid = true ∧
      ¬ (C.d_enable_rx_clock_correction = true ∧
        |ops.get_time_offset_s (user_solver C e.st).core| > 0.000001) ∧
      C.d_display_rate_ms ≠ 0 ∧ e.fl.current_RX_time_ms % C.d_display_rate_ms = 0) ∧
    (calls_of Block.display e.ev ≠ [] →
      calls_of Block.display e.ev = [Event.vxi11_send_FREQ e.st.d_LO_external_frequ]) ∧
    (calls_of Block.display e.ev = [] → e.st.d_LO_external_frequ = s.d_LO_external_frequ) ∧
    (C.d_display_rate_ms = 0 → calls_of Block.display e.ev = []) := by
  obtain ⟨g1, _, _, g4, _, g6⟩ := work_epoch_gating D C ops inp s e h
  have hdisp : e.fl.flag_display_pvt = true ↔
      output_branch C ops e ∧ C.d_display_rate_ms ≠ 0 ∧
        e.fl.current_RX_time_ms % C.d_display_rate_ms = 0 := by
    by_cases hb : output_branch C ops e
    · rw [if_pos hb] at g1
      simp only [gating_flags, gating_due, List.cons.injEq, and_true] at g1
      rw [g1.1]
      unfold rate_gate
      by_cases h0 : C.d_display_rate_ms = 0
      · simp [h0]
      · by_cases hm : e.fl.current_RX_time_ms % C.d_display_rate_ms = 0
        · simp [h0, hm, hb]
        · simp [h0, hm]
    · rw [if_neg hb] at g1
      simp only [gating_flags, List.cons.injEq, and_true] at g1
      rw [g1.1]
      simp [hb]
  have hrun : calls_of Block.display e.ev ≠ [] ↔ controller_runs C ops e := by
    rw [g4]
    by_cases hc : controller_runs C ops e
    · simp [hc]
    · simp [hc]
  have hiff : calls_of Block.display e.ev ≠ [] ↔
      C.d_PPS_correction = true ∧
      ops.is_valid_position (user_solver C e.st).core = true ∧
      e.fl.flag_pvt_valid = true ∧
      ¬ (C.d_enable_rx_clock_correction = true ∧
        |ops.get_time_offset_s (user_solver C e.st).core| > 0.000001) ∧
      C.d_display_rate_ms ≠ 0 ∧ e.fl.current_RX_time_ms % C.d_display_rate_ms = 0 := by
    rw [hrun]
    unfold controller_runs
    rw [hdisp]
    unfold output_branch residual_exceeds
    tauto
  refine ⟨hiff, ?_, ?_, ?_⟩
  · intro hne
    rw [g4, if_pos (hrun.1 hne)]
  · intro hnil
    exact g6 (fun hc => (hrun.2 hc) hnil)
  · intro h0
    by_contra hne
    exact (hiff.1 hne).2.2.2.2.1 h0

/-- Evaluation of `work_epoch_controller_runs`: with oscillator control on and display period
500 ms, the sample epoch at 100000 ms runs the controller and issues one `FREQ` command
carrying the set-point the epoch leaves. -/
theorem work_epoch_controller_runs_witness :
    ∃ e, work_epoch gnssConsts (sample_config_with 500 true 1 0) scripted_ops
        (sample_input (10001 / 100))
        (sample_state_t1 [(true, 1 / 5000000, true)] [(true, 1 / 5000000, true)] sample_t1) =
          some e ∧
      calls_of Block.display e.ev = [Event.vxi11_send_FREQ e.st.d_LO_external_frequ] := by
  obtain ⟨e, he, _, hv, hms, hoff, hpos⟩ :=
    sample_enabled_epoch_with 500 true 1 0 (1 / 5000000)
  obtain ⟨t1, t2, _, _⟩ := work_epoch_controller_runs gnssConsts
    (sample_config_with 500 true 1 0) scripted_ops (sample_input (10001 / 100))
    (sample_state_t1 [(true, 1 / 5000000, true)] [(true, 1 / 5000000, true)] sample_t1) e he
  refine ⟨e, he, t2 (t1.2 ⟨rfl, hpos, hv, ?_, ?_, ?_⟩)⟩
  · rw [hoff]
    norm_num [abs_of_pos]
  · show (500 : Nat) ≠ 0
    norm_num
  · rw [hms]
    rfl

/-- Claim C12 as stated fails for display period 0: with oscillator control on, the sample
epoch at 100000 ms computes an output with a valid position and reaches output gating (the
residual offset is 2e-7 s), yet no `FREQ` command is issued and the set-point is unchanged. -/
theorem work_epoch_no_controller_without_display :
    ∃ e, work_epoch gnssConsts (sample_config_with 0 true 1 0) scripted_ops
        (sample_input (10001 / 100))
        (sample_state_t1 [(true, 1 / 5000000, true)] [(true, 1 / 5000000, true)] sample_t1) =
          some e ∧
      (sample_config_with 0 true 1 0).d_PPS_correction = true ∧
      e.fl.flag_compute_pvt_output = true ∧ e.fl.flag_pvt_valid = true ∧
      scripted_ops.is_valid_position
        (user_solver (sample_config_with 0 true 1 0) e.st).core = true ∧
      scripted_ops.get_time_offset_s
        (user_solver (sample_config_with 0 true 1 0) e.st).core = 1 / 5000000 ∧
      calls_of Block.display e.ev = [] ∧
      e.st.d_LO_external_frequ =
        (sample_state_t1 [(true, 1 / 5000000, true)] [(true, 1 / 5000000, true)]
          sample_t1).d_LO_external_frequ := by
  obtain ⟨e, he, hc, hv, hms, hoff, hpos⟩ :=
    sample_enabled_epoch_with 0 true 1 0 (1 / 5000000)
  obtain ⟨_, _, _, g4, _, g6⟩ := work_epoch_gating gnssConsts (sample_config_with 0 true 1 0)
    scripted_ops (sample_input (10001 / 100))
    (sample_state_t1 [(true, 1 / 5000000, true)] [(true, 1 / 5000000, true)] sample_t1) e he
  obtain ⟨g1, _⟩ := work_epoch_gating gnssConsts (sample_config_with 0 true 1 0)
    scripted_ops (sample_input (10001 / 100))
    (sample_state_t1 [(true, 1 / 5000000, true)] [(true, 1 / 5000000, true)] sample_t1) e he
  have hd : e.fl.flag_display_pvt = false := by
    split_ifs at g1 <;>
      simp only [gating_flags, gating_due, List.cons.injEq, and_true] at g1 <;>
      rw [g1.1]
    rfl
  have hnc : ¬ controller_runs (sample_config_with 0 true 1 0) scripted_ops e := by
    intro hc
    have := hc.1.2
    rw [hd] at this
    cases this
  rw [if_neg hnc] at g4
  exact ⟨e, he, rfl, hc, hv, hpos, hoff, g4, g6 hnc⟩

/-! ## Claim on an epoch with an empty Observable Set -/

/-- Claim C15: an epoch whose Observable Set is empty completes without attempting a fix.
Neither solver is called, nothing is published on `pvt_to_observables` or `status`, the only
calls are lock-time calls of section 1, every local keeps its initial value (no output flag is
raised), and the two solvers, the snapshots, the too-large latch, `d_first_fix` and the
controller members are left as they were. -/
theorem work_epoch_empty_set {σ : Type} (D : Consts) (C : Config) (ops : SolverOps σ)
    (inp : Nat → Gnss_Synchro) (s : State σ)
    (hlen : s.d_channel_initialized.length = C.d_nchannels)
    (hemp : observable_set C inp s = []) :
    ∃ e, work_epoch D C ops inp s = some e ∧
      get_PVT_count e.ev = 0 ∧ pub_values e.ev = [] ∧ status_count e.ev = 0 ∧
      (∀ y ∈ e.ev, y.block = Block.ingest) ∧
      e.fl = Flags.init ∧
      e.st.d_internal_pvt_solver = s.d_internal_pvt_solver ∧
      e.st.d_user_pvt_solver = s.d_user_pvt_solver ∧
      e.st.d_gnss_observables_map_t0 = s.d_gnss_observables_map_t0 ∧
      e.st.d_gnss_observables_map_t1 = s.d_gnss_observables_map_t1 ∧
      e.st.d_waiting_obs_block_rx_clock_offset_correction_msg =
        s.d_waiting_obs_block_rx_clock_offset_correction_msg ∧
      e.st.d_first_fix = s.d_first_fix ∧
      controller_state e.st = controller_state s := by
  obtain ⟨e0, hread, _, _, _, _, _, _, _, hp, hs, hg⟩ := read_pseudoranges_frame C inp s hlen
  obtain ⟨r1, r2, r3, r4, r5, r6, r7, r8, r9⟩ := read_pseudoranges_view C inp s e0 hread
  obtain ⟨hset, hwork⟩ := work_epoch_of_read D C ops inp s e0 hread
  rw [hset] at hemp
  rw [if_pos hemp] at hwork
  exact ⟨e0, hwork, hg, hp, hs, r9, r1, r4, r5, r6, r7, r8, r2, r3⟩

/-- Evaluation of `work_epoch_empty_set`: three valid observables of PRN 20, for which the
sample solver holds no ephemeris. -/
theorem work_epoch_empty_set_witness :
    (sample_state [(true, 0, true)] [] false).d_channel_initialized.length =
      (sample_config false).d_nchannels ∧
    observable_set (sample_config false) (fun i => sample_obs 20 "1C" i 100 20000000 0)
      (sample_state [(true, 0, true)] [] false) = [] ∧
    ∃ e, work_epoch gnssConsts (sample_config false) scripted_ops
        (fun i => sample_obs 20 "1C" i 100 20000000 0)
        (sample_state [(true, 0, true)] [] false) = some e ∧
      get_PVT_count e.ev = 0 ∧ pub_values e.ev = [] ∧ status_count e.ev = 0 ∧
      e.fl = Flags.init ∧ e.st.d_first_fix = true := by
  have hemp : observable_set (sample_config false)
      (fun i => sample_obs 20 "1C" i 100 20000000 0)
      (sample_state [(true, 0, true)] [] false) = [] := by
    rw [observable_set_eq _ _ _ rfl]
    simp [ingest_map, sample_config, List.range, List.range.loop, sample_obs,
      store_valid_observable, sample_state, sample_solver, to_int32, List.lookup]
  obtain ⟨e, he, h1, h2, h3, _, h5, _, _, _, _, _, h11, _⟩ := work_epoch_empty_set gnssConsts
    (sample_config false) scripted_ops (fun i => sample_obs 20 "1C" i 100 20000000 0)
    (sample_state [(true, 0, true)] [] false) rfl hemp
  exact ⟨rfl, hemp, e, he, h1, h2, h3, h5, h11⟩

/-! ## Claim on the rate gates -/

theorem rate_gate_iff (ms P : Nat) : rate_gate ms P = true ↔ P ≠ 0 ∧ ms % P = 0 := by
  unfold rate_gate
  by_cases h0 : P = 0
  · simp [h0]
  · by_cases hm : ms % P = 0
    · simp [h0, hm]
    · simp [h0, hm]

/-- Claim C16: in a completed epoch that reaches output gating (`flag_pvt_valid` set, and no
residual above 1 microsecond with correction enabled), each rate-gated flag (display, RTCM
1019, 1020, 1045, MSM, RINEX observations) ends raised exactly when its period is non-zero
and divides the epoch time `current_RX_time_ms`.  For the period 5000 and the epoch times 0,
1000, ..., 10000 the gate holds exactly at 0, 5000 and 10000, and for the period 0 it never
holds. -/
theorem work_epoch_rate_gates {σ : Type} (D : Consts) (C : Config) (ops : SolverOps σ)
    (inp : Nat → Gnss_Synchro) (s : State σ) (e : Epoch σ)
    (h : work_epoch D C ops inp s = some e) (hvalid : e.fl.flag_pvt_valid = true)
    (hres : ¬ (C.d_enable_rx_clock_correction = true ∧
      |ops.get_time_offset_s (user_solver C e.st).core| > 0.000001)) :
    (e.fl.flag_display_pvt = true ↔
      C.d_display_rate_ms ≠ 0 ∧ e.fl.current_RX_time_ms % C.d_display_rate_ms = 0) ∧
    (e.fl.flag_write_RTCM_1019_output = true ↔
      C.d_rtcm_MT1019_rate_ms ≠ 0 ∧ e.fl.current_RX_time_ms % C.d_rtcm_MT1019_rate_ms = 0) ∧
    (e.fl.flag_write_RTCM_1020_output = true ↔
      C.d_rtcm_MT1020_rate_ms ≠ 0 ∧ e.fl.current_RX_time_ms % C.d_rtcm_MT1020_rate_ms = 0) ∧
    (e.fl.flag_write_RTCM_1045_output = true ↔
      C.d_rtcm_MT1045_rate_ms ≠ 0 ∧ e.fl.current_RX_time_ms % C.d_rtcm_MT1045_rate_ms = 0) ∧
    (e.fl.flag_write_RTCM_MSM_output = true ↔
      C.d_rtcm_MSM_rate_ms ≠ 0 ∧ e.fl.current_RX_time_ms % C.d_rtcm_MSM_rate_ms = 0) ∧
    (e.fl.flag_write_RINEX_obs_output = true ↔
      C.d_rinexobs_rate_ms ≠ 0 ∧ e.fl.current_RX_time_ms % C.d_rinexobs_rate_ms = 0) ∧
    (∀ t ∈ [0, 1000, 2000, 3000, 4000, 5000, 6000, 7000, 8000, 9000, 10000],
      (rate_gate t 5000 = true ↔ t ∈ [0, 5000, 10000])) ∧
    (∀ t, rate_gate t 0 = false) := by
  obtain ⟨g1, _⟩ := work_epoch_gating D C ops inp s e h
  have hb : output_branch C ops e := ⟨hvalid, hres⟩
  rw [if_pos hb] at g1
  simp only [gating_flags, gating_due, List.cons.injEq, and_true] at g1
  obtain ⟨a1, a2, a3, a4, a5, a6⟩ := g1
  refine ⟨?_, ?_, ?_, ?_, ?_, ?_, by decide, fun t => rfl⟩
  · rw [a1]; exact rate_gate_iff _ _
  · rw [a2]; exact rate_gate_iff _ _
  · rw [a3]; exact rate_gate_iff _ _
  · rw [a4]; exact rate_gate_iff _ _
  · rw [a5]; exact rate_gate_iff _ _
  · rw [a6]; exact rate_gate_iff _ _

/-- Evaluation of `work_epoch_rate_gates` on the sample epoch at 100000 ms with display period
500 ms and the other periods 0: the display flag is raised and the RINEX flag is not. -/
theorem work_epoch_rate_gates_witness :
    ∃ e, work_epoch gnssConsts (sample_config true) scripted_ops (sample_input (10001 / 100))
        (sample_state_t1 [(true, 1 / 5000000, true)] [(true, 1 / 5000000, true)] sample_t1) =
          some e ∧
      e.fl.flag_pvt_valid = true ∧
      ¬ ((sample_config true).d_enable_rx_clock_correction = true ∧
        |scripted_ops.get_time_offset_s (user_solver (sample_config true) e.st).core| >
          0.000001) ∧
      e.fl.current_RX_time_ms = 100000 ∧
      e.fl.flag_display_pvt = true ∧ e.fl.flag_write_RINEX_obs_output = false := by
  obtain ⟨e, he, _, hv, hms, hoff, _⟩ := sample_enabled_epoch (1 / 5000000)
  have hres : ¬ ((sample_config true).d_enable_rx_clock_correction = true ∧
      |scripted_ops.get_time_offset_s (user_solver (sample_config true) e.st).core| >
        0.000001) := by
    rw [hoff]
    norm_num [abs_of_pos]
  obtain ⟨g1, _, _, _, _, g6, _, _⟩ := work_epoch_rate_gates gnssConsts (sample_config true)
    scripted_ops (sample_input (10001 / 100))
    (sample_state_t1 [(true, 1 / 5000000, true)] [(true, 1 / 5000000, true)] sample_t1)
    e he hv hres
  refine ⟨e, he, hv, hres, hms, g1.2 ⟨by decide, by rw [hms]; rfl⟩, ?_⟩
  cases hx : e.fl.flag_write_RINEX_obs_output with
  | false => rfl
  | true => exact absurd rfl (g6.1 hx).1

/-! ## The acceptance rule of section "1. READ PSEUDORANGES" -/

theorem to_int32_injective (a b : Nat) (ha : a < 4294967296) (hb : b < 4294967296)
    (h : to_int32 a = to_int32 b) : a = b := by
  unfold to_int32 at h
  rw [Nat.mod_eq_of_lt ha, Nat.mod_eq_of_lt hb] at h
  split_ifs at h <;> omega

theorem lookup_mem {α : Type} (m : List (Int × α)) (k : Int) (v : α)
    (h : m.lookup k = some v) : (k, v) ∈ m := by
  induction m with
  | nil => simp [List.lookup] at h
  | cons p rest ih =>
    obtain ⟨k', v'⟩ := p
    by_cases hk : k = k'
    · subst hk
      simp [List.lookup] at h
      subst h
      exact List.mem_cons_self _ _
    · have hb : (k == k') = false := by simpa using hk
      simp only [List.lookup, hb] at h
      exact List.mem_cons_of_mem _ (ih h)

theorem keyed_lookup {α : Type} (prn : α → Nat) (m : List (Int × α)) (hk : keyed_by_PRN prn m)
    (n : Nat) (hn : n < 4294967296) (v : α) (h : m.lookup (to_int32 n) = some v) :
    prn v = n := by
  obtain ⟨h1, h2⟩ := hk _ (lookup_mem m _ v h)
  exact (to_int32_injective _ _ hn h1 h2).symm

/-- On a store keyed by satellite id, the local `store_valid_observable` is set exactly when
the acceptance rule of the specification holds. -/
theorem store_valid_observable_iff {σ : Type} (sol : Rtklib_Solver σ) (x : Gnss_Synchro)
    (hk : store_keyed sol) (hprn : x.PRN < 4294967296) :
    store_valid_observable sol x = true ↔ family_match sol x := by
  obtain ⟨k1, k2, k3, k4, k5⟩ := hk
  have s1 : ∀ prev : Bool,
      (match sol.gps_ephemeris_map.lookup (to_int32 x.PRN) with
        | some eph => if eph.i_satellite_PRN = x.PRN ∧ x.Signal = "1C" then true else prev
        | none => prev) = true ↔
      ((sol.gps_ephemeris_map.lookup (to_int32 x.PRN)).isSome = true ∧ x.Signal = "1C") ∨
        prev = true := by
    intro prev
    cases h : sol.gps_ephemeris_map.lookup (to_int32 x.PRN) with
    | none => simp
    | some eph =>
      have hp := keyed_lookup _ _ k1 _ hprn eph h
      by_cases hs : x.Signal = "1C"
      · simp [hp, hs]
      · simp [hs]
  have s2 : ∀ prev : Bool,
      (match sol.galileo_ephemeris_map.lookup (to_int32 x.PRN) with
        | some eph =>
          if eph.i_satellite_PRN = x.PRN ∧ (x.Signal = "1B" ∨ x.Signal = "5X") then true
          else prev
        | none => prev) = true ↔
      ((sol.galileo_ephemeris_map.lookup (to_int32 x.PRN)).isSome = true ∧
        (x.Signal = "1B" ∨ x.Signal = "5X")) ∨ prev = true := by
    intro prev
    cases h : sol.galileo_ephemeris_map.lookup (to_int32 x.PRN) with
    | none => simp
    | some eph =>
      have hp := keyed_lookup _ _ k2 _ hprn eph h
      by_cases hs : (x.Signal = "1B" ∨ x.Signal = "5X")
      · simp [hp, hs]
      · simp [hs]
  have s3 : ∀ prev : Bool,
      (match sol.gps_cnav_ephemeris_map.lookup (to_int32 x.PRN) with
        | some eph =>
          if eph.i_satellite_PRN = x.PRN ∧ (x.Signal = "2S" ∨ x.Signal = "L5") then true
          else prev
        | none => prev) = true ↔
      ((sol.gps_cnav_ephemeris_map.lookup (to_int32 x.PRN)).isSome = true ∧
        (x.Signal = "2S" ∨ x.Signal = "L5")) ∨ prev = true := by
    intro prev
    cases h : sol.gps_cnav_ephemeris_map.lookup (to_int32 x.PRN) with
    | none => simp
    | some eph =>
      have hp := keyed_lookup _ _ k3 _ hprn eph h
      by_cases hs : (x.Signal = "2S" ∨ x.Signal = "L5")
      · simp [hp, hs]
      · simp [hs]
  have s4 : ∀ prev : Bool,
      (match sol.glonass_gnav_ephemeris_map.lookup (to_int32 x.PRN) with
        | some eph =>
          if eph.i_satellite_PRN = x.PRN ∧ (x.Signal = "1G" ∨ x.Signal = "2G") then true
          else prev
        | none => prev) = true ↔
      ((sol.glonass_gnav_ephemeris_map.lookup (to_int32 x.PRN)).isSome = true ∧
        (x.Signal = "1G" ∨ x.Signal = "2G")) ∨ prev = true := by
    intro prev
    cases h : sol.glonass_gnav_ephemeris_map.lookup (to_int32 x.PRN) with
    | none => simp
    | some eph =>
      have hp := keyed_lookup _ _ k4 _ hprn eph h
      by_cases hs : (x.Signal = "1G" ∨ x.Signal = "2G")
      · simp [hp, hs]
      · simp [hs]
  have s5 : ∀ prev : Bool,
      (match sol.beidou_dnav_ephemeris_map.lookup (to_int32 x.PRN) with
        | some eph =>
          if eph.i_satellite_PRN = x.PRN ∧ (x.Signal = "B1" ∨ x.Signal = "B3") then true
          else prev
        | none => prev) = true ↔
      ((sol.beidou_dnav_ephemeris_map.lookup (to_int32 x.PRN)).isSome = true ∧
        (x.Signal = "B1" ∨ x.Signal = "B3")) ∨ prev = true := by
    intro prev
    cases h : sol.beidou_dnav_ephemeris_map.lookup (to_int32 x.PRN) with
    | none => simp
    | some eph =>
      have hp := keyed_lookup _ _ k5 _ hprn eph h
      by_cases hs : (x.Signal = "B1" ∨ x.Signal = "B3")
      · simp [hp, hs]
      · simp [hs]
  unfold store_valid_observable family_match
  simp only []
  refine (s5 _).trans ?_
  apply Iff.trans (or_congr_right (s4 _))
  apply Iff.trans (or_congr_right (or_congr_right (s3 _)))
  apply Iff.trans (or_congr_right (or_congr_right (or_congr_right (s2 _))))
  apply Iff.trans (or_congr_right (or_congr_right (or_congr_right (or_congr_right (s1 _)))))
  simp only [Bool.false_eq_true, or_false]
  constructor
  · rintro (h | h | h | h | h)
    · exact Or.inr (Or.inr (Or.inr (Or.inr h)))
    · exact Or.inr (Or.inr (Or.inr (Or.inl h)))
    · exact Or.inr (Or.inl h)
    · exact Or.inr (Or.inr (Or.inl h))
    · exact Or.inl h
  · rintro (h | h | h | h | h)
    · exact Or.inr (Or.inr (Or.inr (Or.inr h)))
    · exact Or.inr (Or.inr (Or.inl h))
    · exact Or.inr (Or.inr (Or.inr (Or.inl h)))
    · exact Or.inr (Or.inl h)
    · exact Or.inl h

theorem ObsMap.at_append_single (m : ObsMap) (k : Int) (v : Gnss_Synchro)
    (h : ∀ j ∈ ObsMap.keys m, j < k) (j : Int) :
    ObsMap.at (m ++ [(k, v)]) j = if j = k then some v else ObsMap.at m j := by
  induction m with
  | nil => simp [ObsMap.at]
  | cons e rest ih =>
    obtain ⟨k', v'⟩ := e
    have hk' : k' < k := h k' (by simp [ObsMap.keys])
    have ih' := ih (fun j hj => h j (by
      simp only [ObsMap.keys, List.map_cons, List.mem_cons]; exact Or.inr hj))
    simp only [List.cons_append, ObsMap.at, ih']
    by_cases hj : j = k'
    · have hjk : j ≠ k := by rw [hj]; exact ne_of_lt hk'
      simp [hj, ne_of_lt hk']
    · simp only [if_neg hj]
      exact ih'

/-- The map built by section "1. READ PSEUDORANGES" for channels `0 .. n - 1`: its keys are
below `n` and strictly increasing, and channel `i` holds its input item exactly when the item
is valid and `store_valid_observable` is set for it. -/
theorem ingest_map_range {σ : Type} (sol : Rtklib_Solver σ) (inp : Nat → Gnss_Synchro)
    (n : Nat) :
    (∀ j ∈ ObsMap.keys (ingest_map sol inp (List.range n) []), j < (n : Int)) ∧
      ObsMap.WF (ingest_map sol inp (List.range n) []) ∧
      ∀ i : Nat, ObsMap.at (ingest_map sol inp (List.range n) []) (i : Int) =
        if i < n ∧ (inp i).Flag_valid_pseudorange = true ∧
            store_valid_observable sol (inp i) = true then some (inp i) else none := by
  induction n with
  | zero =>
    refine ⟨by simp [ingest_map, ObsMap.keys], by simp [ingest_map, ObsMap.WF, ObsMap.keys], ?_⟩
    intro i
    simp [ingest_map, ObsMap.at]
  | succ n ih =>
    obtain ⟨hlt, hwf, hat⟩ := ih
    have hstep : ingest_map sol inp (List.range (n + 1)) [] =
        (if (inp n).Flag_valid_pseudorange = true ∧
            store_valid_observable sol (inp n) = true then
          ingest_map sol inp (List.range n) [] ++ [((n : Int), inp n)]
        else ingest_map sol inp (List.range n) []) := by
      simp only [ingest_map, List.range_succ, List.foldl_append, List.foldl_cons, List.foldl_nil]
      split_ifs
      · exact ObsMap.insert_of_lt _ _ _ hlt
      · rfl
    rw [hstep]
    by_cases hc : (inp n).Flag_valid_pseudorange = true ∧
        store_valid_observable sol (inp n) = true
    · rw [if_pos hc]
      refine ⟨?_, ?_, ?_⟩
      · intro j hj
        simp only [ObsMap.keys, List.map_append, List.map_cons, List.map_nil, List.mem_append,
          List.mem_singleton] at hj
        rcases hj with hj | hj
        · have := hlt j hj
          push_cast
          omega
        · rw [hj]
          push_cast
          omega
      · unfold ObsMap.WF at hwf ⊢
        simp only [ObsMap.keys, List.map_append, List.map_cons, List.map_nil]
        rw [List.pairwise_append]
        refine ⟨hwf, List.pairwise_singleton _ _, ?_⟩
        intro a ha b hb
        rw [List.mem_singleton.1 hb]
        exact hlt a ha
      · intro i
        rw [ObsMap.at_append_single _ _ _ hlt, hat i]
        by_cases hin : i = n
        · subst hin
          simp [hc]
        · have h1 : ¬ ((i : Int) = (n : Int)) := by
            intro h
            exact hin (by exact_mod_cast h)
          rw [if_neg h1]
          have h2 : i < n + 1 ↔ i < n := by omega
          simp only [h2]
    · rw [if_neg hc]
      refine ⟨?_, hwf, ?_⟩
      · intro j hj
        have := hlt j hj
        push_cast
        omega
      · intro i
        rw [hat i]
        by_cases hin : i = n
        · subst hin
          have h1 : ¬ (i < i) := lt_irrefl _
          simp only [h1, false_and, if_false]
          rw [if_neg]
          intro h
          exact hc h.2
        · have h2 : i < n + 1 ↔ i < n := by omega
          simp only [h2]

/-! ## Claim on the acceptance of a valid observable -/

/-- Claim C13: with the ephemeris maps keyed by satellite id (as `msg_handler_telemetry`
fills them), section "1. READ PSEUDORANGES" completes, its map is the Observable Set, and a
valid input item of channel `i` is stored in it under the key `i` if and only if some
ephemeris family holds a record for the satellite id of the item and the signal code of the
item belongs to that family; otherwise the Observable Set has no entry for the channel. -/
theorem observable_set_acceptance {σ : Type} (C : Config) (inp : Nat → Gnss_Synchro)
    (s : State σ) (hlen : s.d_channel_initialized.length = C.d_nchannels)
    (hk : store_keyed s.d_internal_pvt_solver) (i : Nat) (hi : i < C.d_nchannels)
    (hv : (inp i).Flag_valid_pseudorange = true) (hprn : (inp i).PRN < 4294967296) :
    (∃ e0, read_pseudoranges C inp s = some e0 ∧
      e0.st.d_gnss_observables_map = observable_set C inp s) ∧
    ObsMap.WF (observable_set C inp s) ∧
    (ObsMap.at (observable_set C inp s) (i : Int) = some (inp i) ↔
      family_match s.d_internal_pvt_solver (inp i)) ∧
    (¬ family_match s.d_internal_pvt_solver (inp i) →
      ObsMap.at (observable_set C inp s) (i : Int) = none) := by
  obtain ⟨e0, hread, _⟩ := read_pseudoranges_frame C inp s hlen
  have hset : e0.st.d_gnss_observables_map = observable_set C inp s := by
    unfold observable_set
    rw [hread]
  obtain ⟨_, hwf, hat⟩ := ingest_map_range s.d_internal_pvt_solver inp C.d_nchannels
  have hiff := store_valid_observable_iff s.d_internal_pvt_solver (inp i) hk hprn
  rw [observable_set_eq C inp s hlen] at hset ⊢
  refine ⟨⟨e0, hread, hset⟩, hwf, ?_, ?_⟩
  · rw [hat i]
    by_cases hf : family_match s.d_internal_pvt_solver (inp i)
    · simp [hi, hv, hiff.2 hf, hf]
    · have hns : ¬ store_valid_observable s.d_internal_pvt_solver (inp i) = true :=
        fun h => hf (hiff.1 h)
      simp [hns, hf]
  · intro hf
    have hns : ¬ store_valid_observable s.d_internal_pvt_solver (inp i) = true :=
      fun h => hf (hiff.1 h)
    rw [hat i]
    simp [hns]

theorem sample_store_keyed (script : List (Bool × ℚ × Bool)) :
    store_keyed (sample_solver script) := by
  simp [store_keyed, keyed_by_PRN, sample_solver, to_int32]

/-- Evaluation of `observable_set_acceptance` on the sample state, whose solver holds GPS
ephemerides for PRN 3, 7 and 12: the valid GPS L1 C/A observable of PRN 3 on channel 0 is
accepted. -/
theorem observable_set_acceptance_witness :
    (sample_state [] [] false).d_channel_initialized.length = (sample_config false).d_nchannels ∧
    store_keyed (sample_state [] [] false).d_internal_pvt_solver ∧
    0 < (sample_config false).d_nchannels ∧
    (sample_input 100 0).Flag_valid_pseudorange = true ∧
    (sample_input 100 0).PRN < 4294967296 ∧
    family_match (sample_state [] [] false).d_internal_pvt_solver (sample_input 100 0) ∧
    ObsMap.at (observable_set (sample_config false) (sample_input 100)
      (sample_state [] [] false)) ((0 : Nat) : Int) = some (sample_input 100 0) := by
  have hf : family_match (sample_state [] [] false).d_internal_pvt_solver
      (sample_input 100 0) := by
    simp [family_match, sample_state, sample_solver, sample_input, sample_obs, to_int32,
      List.lookup]
  have h := observable_set_acceptance (sample_config false) (sample_input 100)
    (sample_state [] [] false) rfl (sample_store_keyed []) 0 (by decide) rfl (by decide)
  exact ⟨rfl, sample_store_keyed [], by decide, rfl, by decide, hf, h.2.2.1.2 hf⟩

/-! ## Claim on channels without a valid observable -/

theorem read_channel_flags {σ : Type} (C : Config) (x : Gnss_Synchro) (e e' : Epoch σ) (i : Nat)
    (h : read_channel C x e i = some e') :
    e'.st.d_channel_initialized =
        (if x.Flag_valid_pseudorange = true then e.st.d_channel_initialized
          else e.st.d_channel_initialized.set i false) ∧
      (x.Flag_valid_pseudorange = false → i < e.st.d_channel_initialized.length) := by
  unfold read_channel at h
  cases hv : x.Flag_valid_pseudorange with
  | true =>
    rw [hv] at h
    simp only [if_true, Option.some.injEq] at h
    subst h
    refine ⟨?_, fun h => by cases h⟩
    rw [if_pos rfl]
    split_ifs <;> rfl
  | false =>
    rw [hv] at h
    simp only [Bool.false_eq_true, if_false] at h
    unfold vector_set at h
    split_ifs at h with hb
    simp only [Option.some.injEq] at h
    subst h
    refine ⟨by simp, fun _ => ?_⟩
    have := hb.2
    simpa using this

theorem read_channels_flags {σ : Type} (C : Config) (inp : Nat → Gnss_Synchro)
    (chans : List Nat) :
    ∀ e e' : Epoch σ, read_channels C inp chans e = some e' →
      e'.st.d_channel_initialized.length = e.st.d_channel_initialized.length ∧
      ∀ j : Nat, j < e.st.d_channel_initialized.length →
        e'.st.d_channel_initialized[j]? =
          if j ∈ chans ∧ (inp j).Flag_valid_pseudorange = false then some false
          else e.st.d_channel_initialized[j]? := by
  induction chans with
  | nil =>
    intro e e' h
    simp only [read_channels, Option.some.injEq] at h
    subst h
    exact ⟨rfl, fun j _ => by simp⟩
  | cons i rest ih =>
    intro e e' h
    simp only [read_channels] at h
    split at h
    · rename_i e1 h1
      obtain ⟨f1, b1⟩ := read_channel_flags C (inp i) e e1 i h1
      obtain ⟨l2, f2⟩ := ih e1 e' h
      have l1 : e1.st.d_channel_initialized.length = e.st.d_channel_initialized.length := by
        rw [f1]
        split_ifs
        · rfl
        · simp
      refine ⟨l2.trans l1, ?_⟩
      intro j hj
      rw [f2 j (by rw [l1]; exact hj), f1]
      by_cases hjr : j ∈ rest ∧ (inp j).Flag_valid_pseudorange = false
      · have : j ∈ i :: rest ∧ (inp j).Flag_valid_pseudorange = false :=
          ⟨List.mem_cons_of_mem _ hjr.1, hjr.2⟩
        rw [if_pos hjr, if_pos this]
      · rw [if_neg hjr]
        cases hv : (inp i).Flag_valid_pseudorange with
        | true =>
          simp only [if_true]
          have : ¬ (j ∈ i :: rest ∧ (inp j).Flag_valid_pseudorange = false) := by
            rintro ⟨hm, hf⟩
            rcases List.mem_cons.1 hm with hm | hm
            · rw [hm, hv] at hf
              cases hf
            · exact hjr ⟨hm, hf⟩
          rw [if_neg this]
        | false =>
          simp only [Bool.false_eq_true, if_false]
          by_cases hji : j = i
          · subst hji
            have : j ∈ j :: rest ∧ (inp j).Flag_valid_pseudorange = false :=
              ⟨List.mem_cons_self _ _, hv⟩
            rw [if_pos this]
            simp [hj]
          · have : ¬ (j ∈ i :: rest ∧ (inp j).Flag_valid_pseudorange = false) := by
              rintro ⟨hm, hf⟩
              rcases List.mem_cons.1 hm with hm | hm
              · exact hji hm
              · exact hjr ⟨hm, hf⟩
            rw [if_neg this]
            simp [List.getElem?_set, Ne.symm hji]
    · cases h

/-- Claim C14: section "1. READ PSEUDORANGES" completes, and for every channel whose input
item is not valid it sets the continuity flag of the channel to `false` and stores no entry
for the channel in the Observable Set; the flag of a channel with a valid input item is left
as it was. -/
theorem read_pseudoranges_invalid_channels {σ : Type} (C : Config)
    (inp : Nat → Gnss_Synchro) (s : State σ)
    (hlen : s.d_channel_initialized.length = C.d_nchannels) :
    ∃ e0, read_pseudoranges C inp s = some e0 ∧
      e0.st.d_gnss_observables_map = observable_set C inp s ∧
      e0.st.d_channel_initialized.length = C.d_nchannels ∧
      ∀ i : Nat, i < C.d_nchannels →
        ((inp i).Flag_valid_pseudorange = false →
          e0.st.d_channel_initialized[i]? = some false ∧
          ObsMap.at (observable_set C inp s) (i : Int) = none) ∧
        ((inp i).Flag_valid_pseudorange = true →
          e0.st.d_channel_initialized[i]? = s.d_channel_initialized[i]?) := by
  obtain ⟨e0, hread, _⟩ := read_pseudoranges_frame C inp s hlen
  have hset : e0.st.d_gnss_observables_map = observable_set C inp s := by
    unfold observable_set
    rw [hread]
  have hread' := hread
  unfold read_pseudoranges at hread'
  obtain ⟨hl, hf⟩ := read_channels_flags C inp _ _ _ hread'
  obtain ⟨_, _, hat⟩ := ingest_map_range s.d_internal_pvt_solver inp C.d_nchannels
  refine ⟨e0, hread, hset, hl.trans hlen, ?_⟩
  intro i hi
  have hfi := hf i (by show i < s.d_channel_initialized.length; rw [hlen]; exact hi)
  refine ⟨fun hinv => ⟨?_, ?_⟩, fun hval => ?_⟩
  · rw [hfi, if_pos ⟨List.mem_range.2 hi, hinv⟩]
  · rw [observable_set_eq C inp s hlen, hat i]
    simp [hinv]
  · rw [hfi, if_neg (by rintro ⟨_, h⟩; rw [hval] at h; cases h)]

/-- Evaluation of `read_pseudoranges_invalid_channels`: three channels whose flags are set,
with an invalid item on channel 1. -/
theorem read_pseudoranges_invalid_channels_witness :
    ({ sample_state [] [] false with d_channel_initialized := [true, true, true] } :
      State ScriptedCore).d_channel_initialized.length = (sample_config false).d_nchannels ∧
    ∃ e0, read_pseudoranges (sample_config false)
        (fun i => if i = 1 then { sample_input 100 1 with Flag_valid_pseudorange := false }
          else sample_input 100 i)
        { sample_state [] [] false with d_channel_initialized := [true, true, true] } =
          some e0 ∧
      e0.st.d_channel_initialized = [true, false, true] ∧
      ObsMap.keys e0.st.d_gnss_observables_map = [0, 2] := by
  obtain ⟨e0, he0, hset, hl, hall⟩ := read_pseudoranges_invalid_channels (sample_config false)
    (fun i => if i = 1 then { sample_input 100 1 with Flag_valid_pseudorange := false }
      else sample_input 100 i)
    ({ sample_state [] [] false with d_channel_initialized := [true, true, true] } :
      State ScriptedCore) rfl
  refine ⟨rfl, e0, he0, ?_, ?_⟩
  · have h0 := (hall 0 (by decide)).2 rfl
    have h1 := ((hall 1 (by decide)).1 rfl).1
    have h2 := (hall 2 (by decide)).2 rfl
    have hl3 : e0.st.d_channel_initialized.length = 3 := hl
    match hv : e0.st.d_channel_initialized, hl3 with
    | [a, b, c], _ =>
      rw [hv] at h0 h1 h2
      simp at h0 h1 h2
      rw [h0, h1, h2]
  · rw [hset, observable_set_eq _ _ _ rfl]
    simp [ingest_map, sample_config, List.range, List.range.loop, sample_input, sample_obs,
      store_valid_observable, sample_state, sample_solver, to_int32, List.lookup,
      ObsMap.insert, ObsMap.keys]

/-! ## The carrier-phase continuity tracker, observable by observable -/

theorem vector_at_eq {α : Type} (v : List α) (i : Int) (x : α) (h : vector_at v i = some x) :
    0 ≤ i ∧ i.toNat < v.length ∧ v[i.toNat]? = some x := by
  unfold vector_at at h
  split_ifs at h with h0
  refine ⟨h0, ?_, h⟩
  by_contra hlt
  rw [List.getElem?_eq_none (by omega)] at h
  cases h

theorem vector_set_eq {α : Type} (v v' : List α) (i : Int) (x : α)
    (h : vector_set v i x = some v') :
    v'[i.toNat]? = some x ∧ ∀ c : Nat, c ≠ i.toNat → v'[c]? = v[c]? := by
  unfold vector_set at h
  split_ifs at h with hb
  cases h
  refine ⟨by simp [hb.2], fun c hc => ?_⟩
  simp [List.getElem?_set, Ne.symm hc]

/-- One pass of the loop body of `initialize_and_apply_carrier_phase_offset` on the observable
`o`: only the flag and the offset of the channel of `o` can change; the flag of that channel
ends `true`; with the flag already `true` nothing is stored and the reported phase is the raw
phase plus the stored offset; with the flag `false` the stored offset is
`initial_phase_offset` and the reported phase is the raw phase plus that offset. -/
theorem initialize_and_apply_one_spec (D : Consts) (ps ps' : PhaseState) (o o' : Gnss_Synchro)
    (h : initialize_and_apply_one D ps o = some (o', ps')) :
    (∀ c : Nat, c ≠ o.Channel_ID.toNat →
      ps'.d_channel_initialized[c]? = ps.d_channel_initialized[c]? ∧
      ps'.d_initial_carrier_phase_offset_estimation_rads[c]? =
        ps.d_initial_carrier_phase_offset_estimation_rads[c]?) ∧
    ps'.d_channel_initialized[o.Channel_ID.toNat]? = some true ∧
    (∀ c, signal_value D ps'.d_mapStringValues c = signal_value D ps.d_mapStringValues c) ∧
    (ps.d_channel_initialized[o.Channel_ID.toNat]? = some true →
      ps'.d_initial_carrier_phase_offset_estimation_rads =
        ps.d_initial_carrier_phase_offset_estimation_rads ∧
      ∃ off, ps.d_initial_carrier_phase_offset_estimation_rads[o.Channel_ID.toNat]? = some off ∧
        o' = { o with Carrier_phase_rads := o.Carrier_phase_rads + off }) ∧
    (ps.d_channel_initialized[o.Channel_ID.toNat]? = some false →
      ps'.d_initial_carrier_phase_offset_estimation_rads[o.Channel_ID.toNat]? =
        some (initial_phase_offset D ps.d_mapStringValues o) ∧
      o' = { o with Carrier_phase_rads :=
        o.Carrier_phase_rads + initial_phase_offset D ps.d_mapStringValues o }) := by
  unfold initialize_and_apply_one at h
  split at h
  · cases h
  · rename_i ini hini
    obtain ⟨h0, hlt, hget⟩ := vector_at_eq _ _ _ hini
    split at h
    · cases h
    · rename_i ps1 hps1
      split at h
      · cases h
      · rename_i off hoff
        simp only [Option.some.injEq, Prod.mk.injEq] at h
        obtain ⟨ho, hp⟩ := h
        subst hp
        obtain ⟨_, _, hoffget⟩ := vector_at_eq _ _ _ hoff
        cases ini with
        | false =>
          simp only [if_true] at hps1
          unfold initialize_channel at hps1
          simp only at hps1
          split at hps1
          · cases hps1
          · rename_i offs hoffs
            split at hps1
            · cases hps1
            · rename_i flags hflags
              cases hps1
              obtain ⟨f1, f2⟩ := vector_set_eq _ _ _ _ hflags
              obtain ⟨g1, g2⟩ := vector_set_eq _ _ _ _ hoffs
              simp only at hoffget
              rw [g1] at hoffget
              simp only [Option.some.injEq] at hoffget
              rw [mapStringValues_index_fst] at g1 hoffget
              refine ⟨fun c hc => ⟨f2 c hc, g2 c hc⟩, f1,
                fun c => signal_value_index_snd D _ _ c, ?_, ?_⟩
              · intro ht
                rw [hget] at ht
                cases ht
              · intro _
                refine ⟨g1, ?_⟩
                rw [← ho, ← hoffget]
                rfl
        | true =>
          simp only [Bool.true_eq_false, if_false, Option.some.injEq] at hps1
          subst hps1
          refine ⟨fun c _ => ⟨rfl, rfl⟩, hget, fun c => rfl, ?_, ?_⟩
          · intro _
            exact ⟨rfl, off, hoffget, ho.symm⟩
          · intro hf
            rw [hget] at hf
            cases hf

theorem initial_phase_offset_congr (D : Consts) (tbl tbl' : List (String × StringValue_))
    (o : Gnss_Synchro) (h : ∀ c, signal_value D tbl' c = signal_value D tbl c) :
    initial_phase_offset D tbl' o = initial_phase_offset D tbl o := by
  unfold initial_phase_offset
  rw [h]

/-- The carrier-phase function on a whole map.  Channels that no observable of the map names
keep their flag and offset; a channel whose flag is `true` keeps the flag and the offset; an
offset changes only for a channel whose flag was `false`; the signal table answers as before;
the keys of the map are kept, and an observable whose channel has its flag `true` is reported
with its raw phase plus the stored offset. -/
theorem initialize_and_apply_initialized (D : Consts) (m : ObsMap) :
    ∀ (ps ps' : PhaseState) (m' : ObsMap),
      initialize_and_apply_carrier_phase_offset D ps m = some (m', ps') →
      (∀ c : Nat, (∀ p ∈ m, p.2.Channel_ID.toNat ≠ c) →
        ps'.d_channel_initialized[c]? = ps.d_channel_initialized[c]? ∧
        ps'.d_initial_carrier_phase_offset_estimation_rads[c]? =
          ps.d_initial_carrier_phase_offset_estimation_rads[c]?) ∧
      (∀ c : Nat, ps.d_channel_initialized[c]? = some true →
        ps'.d_channel_initialized[c]? = some true ∧
        ps'.d_initial_carrier_phase_offset_estimation_rads[c]? =
          ps.d_initial_carrier_phase_offset_estimation_rads[c]?) ∧
      (∀ c : Nat, ps'.d_initial_carrier_phase_offset_estimation_rads[c]? ≠
          ps.d_initial_carrier_phase_offset_estimation_rads[c]? →
        ps.d_channel_initialized[c]? = some false) ∧
      (∀ c, signal_value D ps'.d_mapStringValues c = signal_value D ps.d_mapStringValues c) ∧
      List.Forall₂ (fun p q : Int × Gnss_Synchro => q.1 = p.1 ∧
        (ps.d_channel_initialized[p.2.Channel_ID.toNat]? = some true →
          ∃ off, ps.d_initial_carrier_phase_offset_estimation_rads[p.2.Channel_ID.toNat]? =
              some off ∧
            q.2 = { p.2 with Carrier_phase_rads := p.2.Carrier_phase_rads + off })) m m' := by
  induction m with
  | nil =>
    intro ps ps' m' h
    simp only [initialize_and_apply_carrier_phase_offset, Option.some.injEq, Prod.mk.injEq] at h
    obtain ⟨hm, hp⟩ := h
    subst hm
    subst hp
    exact ⟨fun c _ => ⟨rfl, rfl⟩, fun c hc => ⟨hc, rfl⟩, fun c hc => absurd rfl hc,
      fun c => rfl, List.Forall₂.nil⟩
  | cons p rest ih =>
    intro ps ps' m' h
    obtain ⟨k, o⟩ := p
    simp only [initialize_and_apply_carrier_phase_offset] at h
    split at h
    · cases h
    · rename_i o1 ps1 h1
      split at h
      · cases h
      · rename_i rest1 ps2 h2
        simp only [Option.some.injEq, Prod.mk.injEq] at h
        obtain ⟨hm, hp⟩ := h
        subst hm
        subst hp
        obtain ⟨a1, a2, a3, a4, a5⟩ := initialize_and_apply_one_spec D ps ps1 o o1 h1
        obtain ⟨b1, b2, b3, b4, b5⟩ := ih ps1 ps2 rest1 h2
        refine ⟨?_, ?_, ?_, ?_, ?_⟩
        · intro c hc
          have hco : c ≠ o.Channel_ID.toNat := fun h => hc (k, o) (List.mem_cons_self _ _) h.symm
          obtain ⟨x1, x2⟩ := a1 c hco
          obtain ⟨y1, y2⟩ := b1 c (fun p hp => hc p (List.mem_cons_of_mem _ hp))
          exact ⟨y1.trans x1, y2.trans x2⟩
        · intro c hc
          have hc1 : ps1.d_channel_initialized[c]? = some true ∧
              ps1.d_initial_carrier_phase_offset_estimation_rads[c]? =
                ps.d_initial_carrier_phase_offset_estimation_rads[c]? := by
            by_cases hco : c = o.Channel_ID.toNat
            · subst hco
              exact ⟨a2, by rw [(a4 hc).1]⟩
            · exact ⟨(a1 c hco).1.trans hc, (a1 c hco).2⟩
          obtain ⟨y1, y2⟩ := b2 c hc1.1
          exact ⟨y1, y2.trans hc1.2⟩
        · intro c hne
          by_cases h1c : ps1.d_initial_carrier_phase_offset_estimation_rads[c]? =
              ps.d_initial_carrier_phase_offset_estimation_rads[c]?
          · have hne1 : ps2.d_initial_carrier_phase_offset_estimation_rads[c]? ≠
                ps1.d_initial_carrier_phase_offset_estimation_rads[c]? := by
              rw [h1c]; exact hne
            have hf1 := b3 c hne1
            have hco : c ≠ o.Channel_ID.toNat := by
              intro h
              subst h
              rw [a2] at hf1
              cases hf1
            rw [← (a1 c hco).1]
            exact hf1
          · have hco : c = o.Channel_ID.toNat := by
              by_contra hco
              exact h1c (a1 c hco).2
            subst hco
            have hsome : ∃ b, ps.d_channel_initialized[o.Channel_ID.toNat]? = some b := by
              unfold initialize_and_apply_one at h1
              split at h1
              · cases h1
              · rename_i ini hini
                exact ⟨ini, (vector_at_eq _ _ _ hini).2.2⟩
            obtain ⟨b, hb⟩ := hsome
            cases b with
            | false => exact hb
            | true => exact absurd (by rw [(a4 hb).1]) h1c
        · intro c
          rw [b4 c, a3 c]
        · refine List.Forall₂.cons ⟨rfl, a4 |> fun f ht => (f ht).2⟩ ?_
          refine List.Forall₂.imp ?_ b5
          intro p q hpq
          refine ⟨hpq.1, fun ht => ?_⟩
          have hc1 : ps1.d_channel_initialized[p.2.Channel_ID.toNat]? = some true ∧
              ps1.d_initial_carrier_phase_offset_estimation_rads[p.2.Channel_ID.toNat]? =
                ps.d_initial_carrier_phase_offset_estimation_rads[p.2.Channel_ID.toNat]? := by
            by_cases hco : p.2.Channel_ID.toNat = o.Channel_ID.toNat
            · rw [hco] at ht ⊢
              exact ⟨a2, by rw [(a4 ht).1]⟩
            · exact ⟨(a1 _ hco).1.trans ht, (a1 _ hco).2⟩
          obtain ⟨off, hoff, hq⟩ := hpq.2 hc1.1
          exact ⟨off, hc1.2 ▸ hoff, hq⟩

theorem forall₂_imp_mem {α β : Type} {R S : α → β → Prop} {l : List α} {l' : List β}
    (h : List.Forall₂ R l l') (himp : ∀ p q, p ∈ l → R p q → S p q) : List.Forall₂ S l l' := by
  induction h with
  | nil => exact List.Forall₂.nil
  | cons hab _ ih =>
    exact List.Forall₂.cons (himp _ _ (List.mem_cons_self _ _) hab)
      (ih (fun p q hp hr => himp p q (List.mem_cons_of_mem _ hp) hr))

theorem forall₂_mem {α β : Type} {R : α → β → Prop} {l : List α} {l' : List β}
    (h : List.Forall₂ R l l') (p : α) (hp : p ∈ l) : ∃ q ∈ l', R p q := by
  induction h with
  | nil => cases hp
  | cons hab _ ih =>
    rcases List.mem_cons.1 hp with hp | hp
    · subst hp
      exact ⟨_, List.mem_cons_self _ _, hab⟩
    · obtain ⟨q, hq, hr⟩ := ih hp
      exact ⟨q, List.mem_cons_of_mem _ hq, hr⟩

/-- The carrier-phase function on a map whose observables name pairwise distinct channels: an
observable whose channel has its flag `false` leaves the flag `true` and the offset
`initial_phase_offset`, and is reported with its raw phase plus that offset. -/
theorem initialize_and_apply_uninitialized (D : Consts) (m : ObsMap) :
    ∀ (ps ps' : PhaseState) (m' : ObsMap),
      (m.map (fun p => p.2.Channel_ID.toNat)).Nodup →
      initialize_and_apply_carrier_phase_offset D ps m = some (m', ps') →
      List.Forall₂ (fun p q : Int × Gnss_Synchro => q.1 = p.1 ∧
        (ps.d_channel_initialized[p.2.Channel_ID.toNat]? = some false →
          ps'.d_channel_initialized[p.2.Channel_ID.toNat]? = some true ∧
          ps'.d_initial_carrier_phase_offset_estimation_rads[p.2.Channel_ID.toNat]? =
            some (initial_phase_offset D ps.d_mapStringValues p.2) ∧
          q.2 = { p.2 with Carrier_phase_rads :=
            p.2.Carrier_phase_rads + initial_phase_offset D ps.d_mapStringValues p.2 })) m m' := by
  induction m with
  | nil =>
    intro ps ps' m' _ h
    simp only [initialize_and_apply_carrier_phase_offset, Option.some.injEq, Prod.mk.injEq] at h
    obtain ⟨hm, _⟩ := h
    subst hm
    exact List.Forall₂.nil
  | cons p rest ih =>
    intro ps ps' m' hnd h
    obtain ⟨k, o⟩ := p
    simp only [List.map_cons, List.nodup_cons] at hnd
    simp only [initialize_and_apply_carrier_phase_offset] at h
    split at h
    · cases h
    · rename_i o1 ps1 h1
      split at h
      · cases h
      · rename_i rest1 ps2 h2
        simp only [Option.some.injEq, Prod.mk.injEq] at h
        obtain ⟨hm, hp⟩ := h
        subst hm
        subst hp
        obtain ⟨a1, a2, a3, a4, a5⟩ := initialize_and_apply_one_spec D ps ps1 o o1 h1
        obtain ⟨b1, b2, _, _, _⟩ := initialize_and_apply_initialized D rest ps1 ps2 rest1 h2
        have hrest : ∀ p ∈ rest, p.2.Channel_ID.toNat ≠ o.Channel_ID.toNat := by
          intro p hp heq
          exact hnd.1 (List.mem_map.2 ⟨p, hp, heq⟩)
        refine List.Forall₂.cons ⟨rfl, fun hf => ?_⟩ ?_
        · obtain ⟨x1, x2⟩ := a5 hf
          obtain ⟨y1, y2⟩ := b1 _ hrest
          exact ⟨(b2 _ a2).1, y2.trans x1, x2⟩
        · refine forall₂_imp_mem (ih ps1 ps2 rest1 hnd.2 h2) ?_
          intro p q hmem hpq
          refine ⟨hpq.1, fun hf => ?_⟩
          have hco := hrest p hmem
          have hf1 : ps1.d_channel_initialized[p.2.Channel_ID.toNat]? = some false :=
            (a1 _ hco).1.trans hf
          have := hpq.2 hf1
          rw [initial_phase_offset_congr D _ _ p.2 a3] at this
          exact this

theorem channels_toNat_nodup (n : Nat) (m : ObsMap) (hch : channels_in_range n m)
    (hnd : (m.map (fun p => p.2.Channel_ID)).Nodup) :
    (m.map (fun p => p.2.Channel_ID.toNat)).Nodup := by
  have h : m.map (fun p => p.2.Channel_ID.toNat) =
      (m.map (fun p => p.2.Channel_ID)).map Int.toNat := by
    rw [List.map_map]
    rfl
  rw [h]
  refine List.Nodup.map_on ?_ hnd
  intro x hx y hy hxy
  obtain ⟨p, hp, rfl⟩ := List.mem_map.1 hx
  obtain ⟨q, hq, rfl⟩ := List.mem_map.1 hy
  have h1 := (hch p hp).1
  have h2 := (hch q hq).1
  simp only at hxy ⊢
  omega

theorem c_fmod_zero (T : ℚ) : c_fmod 0 T = 0 := by
  simp [c_fmod]

theorem c_fmod_eq (x T : ℚ) : ∃ z : Int, c_fmod x T = x - (z : ℚ) * T := by
  unfold c_fmod
  exact ⟨_, rfl⟩

theorem residue_mod_add_int (x T : ℚ) (z : Int) :
    residue_mod (x + (z : ℚ) * T) T = residue_mod x T := by
  unfold residue_mod
  by_cases hT : T = 0
  · subst hT
    simp
  · have h : (x + (z : ℚ) * T) / T = x / T + (z : ℚ) := by
      field_simp
    rw [h, Int.floor_add_int]
    push_cast
    ring

/-! ## Claims on the carrier-phase continuity tracker -/

/-- Claim C17: let the observables of the map name pairwise distinct channels within the two
per-channel vectors, and let `o` be one of them, stored under `k`, whose channel has its
continuity flag `false`, with `L > 0` the wavelength of its signal code.  Then
`initialize_and_apply_carrier_phase_offset` completes, stores for that channel the offset
`TWO_PI * round(P / L) - phi + fmod(phi, TWO_PI)`, sets the flag `true`, and reports under `k`
the phase `TWO_PI * round(P / L) + fmod(phi, TWO_PI)`, which is `TWO_PI * round(P / L)` when
`phi = 0`. -/
theorem carrier_phase_initialization (D : Consts) (n : Nat) (ps : PhaseState) (m : ObsMap)
    (hch : channels_in_range n m) (hl1 : ps.d_channel_initialized.length = n)
    (hl2 : ps.d_initial_carrier_phase_offset_estimation_rads.length = n)
    (hnd : (m.map (fun p => p.2.Channel_ID)).Nodup)
    (k : Int) (o : Gnss_Synchro) (hmem : (k, o) ∈ m)
    (hflag : ps.d_channel_initialized[o.Channel_ID.toNat]? = some false)
    (_hL : 0 < switch_wavelength D (signal_value D ps.d_mapStringValues o.Signal)) :
    ∃ m' ps' o', initialize_and_apply_carrier_phase_offset D ps m = some (m', ps') ∧
      (k, o') ∈ m' ∧
      ps'.d_initial_carrier_phase_offset_estimation_rads[o.Channel_ID.toNat]? =
        some (D.TWO_PI * (c_round (o.Pseudorange_m /
          switch_wavelength D (signal_value D ps.d_mapStringValues o.Signal)) : ℚ) -
          o.Carrier_phase_rads + c_fmod o.Carrier_phase_rads D.TWO_PI) ∧
      ps'.d_channel_initialized[o.Channel_ID.toNat]? = some true ∧
      o'.Carrier_phase_rads =
        D.TWO_PI * (c_round (o.Pseudorange_m /
          switch_wavelength D (signal_value D ps.d_mapStringValues o.Signal)) : ℚ) +
          c_fmod o.Carrier_phase_rads D.TWO_PI ∧
      (o.Carrier_phase_rads = 0 →
        o'.Carrier_phase_rads = D.TWO_PI * (c_round (o.Pseudorange_m /
          switch_wavelength D (signal_value D ps.d_mapStringValues o.Signal)) : ℚ)) := by
  obtain ⟨⟨m', ps'⟩, hrun⟩ := initialize_and_apply_total D n m ps hch hl1 hl2
  have hall := initialize_and_apply_uninitialized D m ps ps' m'
    (channels_toNat_nodup n m hch hnd) hrun
  obtain ⟨⟨k', o'⟩, hq, hk, hspec⟩ := forall₂_mem hall (k, o) hmem
  simp only at hk hspec
  subst hk
  obtain ⟨h1, h2, h3⟩ := hspec hflag
  have hphase : o'.Carrier_phase_rads =
      D.TWO_PI * (c_round (o.Pseudorange_m /
        switch_wavelength D (signal_value D ps.d_mapStringValues o.Signal)) : ℚ) +
        c_fmod o.Carrier_phase_rads D.TWO_PI := by
    rw [h3]
    simp only [initial_phase_offset]
    ring
  refine ⟨m', ps', o', hrun, hq, h2, h1, hphase, ?_⟩
  intro h0
  rw [hphase, h0, c_fmod_zero, add_zero]

/-- Claim C18: under the conditions of the initialisation of a channel (flag `false`, distinct
channels within the vectors, positive wavelength), for every raw phase `phi`, positive, zero
or negative, the phase reported after initialisation differs from `phi` by a whole number of
turns: it is `phi + z * TWO_PI` for an integer `z`, and so it has the residue of `phi` modulo
`TWO_PI`. -/
theorem carrier_phase_initialization_residue (D : Consts) (n : Nat) (ps : PhaseState)
    (m : ObsMap) (hch : channels_in_range n m) (hl1 : ps.d_channel_initialized.length = n)
    (hl2 : ps.d_initial_carrier_phase_offset_estimation_rads.length = n)
    (hnd : (m.map (fun p => p.2.Channel_ID)).Nodup)
    (k : Int) (o : Gnss_Synchro) (hmem : (k, o) ∈ m)
    (hflag : ps.d_channel_initialized[o.Channel_ID.toNat]? = some false)
    (_hL : 0 < switch_wavelength D (signal_value D ps.d_mapStringValues o.Signal)) :
    ∃ m' ps' o', initialize_and_apply_carrier_phase_offset D ps m = some (m', ps') ∧
      (k, o') ∈ m' ∧
      ps'.d_channel_initialized[o.Channel_ID.toNat]? = some true ∧
      (∃ z : Int, o'.Carrier_phase_rads = o.Carrier_phase_rads + (z : ℚ) * D.TWO_PI) ∧
      residue_mod o'.Carrier_phase_rads D.TWO_PI =
        residue_mod o.Carrier_phase_rads D.TWO_PI := by
  obtain ⟨⟨m', ps'⟩, hrun⟩ := initialize_and_apply_total D n m ps hch hl1 hl2
  have hall := initialize_and_apply_uninitialized D m ps ps' m'
    (channels_toNat_nodup n m hch hnd) hrun
  obtain ⟨⟨k', o'⟩, hq, hk, hspec⟩ := forall₂_mem hall (k, o) hmem
  simp only at hk hspec
  subst hk
  obtain ⟨h1, _, h3⟩ := hspec hflag
  obtain ⟨w, hw⟩ := c_fmod_eq o.Carrier_phase_rads D.TWO_PI
  have hz : o'.Carrier_phase_rads = o.Carrier_phase_rads +
      ((c_round (o.Pseudorange_m /
        switch_wavelength D (signal_value D ps.d_mapStringValues o.Signal)) - w : Int) : ℚ) *
        D.TWO_PI := by
    rw [h3]
    simp only [initial_phase_offset, hw]
    push_cast
    ring
  refine ⟨m', ps', o', hrun, hq, h1, ⟨_, hz⟩, ?_⟩
  rw [hz, residue_mod_add_int]

/-- Claim C19: when every observable of the map names a channel within the two per-channel
vectors, `initialize_and_apply_carrier_phase_offset` completes and keeps the keys; for every
observable whose channel has its continuity flag already `true` the flag and the stored offset
of that channel are unchanged and the reported phase is the raw phase plus the stored offset;
the stored offset of a channel changes only if its flag was `false` when the call started; and
the flag and the offset of a channel that no observable of the map names are untouched. -/
theorem carrier_phase_continuity (D : Consts) (n : Nat) (ps : PhaseState) (m : ObsMap)
    (hch : channels_in_range n m) (hl1 : ps.d_channel_initialized.length = n)
    (hl2 : ps.d_initial_carrier_phase_offset_estimation_rads.length = n) :
    ∃ m' ps', initialize_and_apply_carrier_phase_offset D ps m = some (m', ps') ∧
      List.Forall₂ (fun p q : Int × Gnss_Synchro => q.1 = p.1 ∧
        (ps.d_channel_initialized[p.2.Channel_ID.toNat]? = some true →
          ps'.d_channel_initialized[p.2.Channel_ID.toNat]? = some true ∧
          ps'.d_initial_carrier_phase_offset_estimation_rads[p.2.Channel_ID.toNat]? =
            ps.d_initial_carrier_phase_offset_estimation_rads[p.2.Channel_ID.toNat]? ∧
          ∃ off, ps.d_initial_carrier_phase_offset_estimation_rads[p.2.Channel_ID.toNat]? =
              some off ∧
            q.2 = { p.2 with Carrier_phase_rads := p.2.Carrier_phase_rads + off })) m m' ∧
      (∀ c : Nat, ps'.d_initial_carrier_phase_offset_estimation_rads[c]? ≠
          ps.d_initial_carrier_phase_offset_estimation_rads[c]? →
        ps.d_channel_initialized[c]? = some false) ∧
      (∀ c : Nat, (∀ p ∈ m, p.2.Channel_ID.toNat ≠ c) →
        ps'.d_channel_initialized[c]? = ps.d_channel_initialized[c]? ∧
        ps'.d_initial_carrier_phase_offset_estimation_rads[c]? =
          ps.d_initial_carrier_phase_offset_estimation_rads[c]?) := by
  obtain ⟨⟨m', ps'⟩, hrun⟩ := initialize_and_apply_total D n m ps hch hl1 hl2
  obtain ⟨b1, b2, b3, _, b5⟩ := initialize_and_apply_initialized D m ps ps' m' hrun
  refine ⟨m', ps', hrun, ?_, b3, b1⟩
  refine List.Forall₂.imp ?_ b5
  intro p q hpq
  refine ⟨hpq.1, fun ht => ?_⟩
  obtain ⟨x1, x2⟩ := b2 _ ht
  exact ⟨x1, x2, hpq.2 ht⟩

/-- Remark on residues: `residue_mod` is the mathematical residue.  The C library `fmod`, which takes the sign of its first argument, does not give equal
remainders for a negative raw phase: with `T > 1`, raw phase `-1` and one whole turn from the
pseudorange, the reported phase is `T - 1`, whose `fmod` remainder is `T - 1`, while that of
the raw phase is `-1`. -/
theorem c_fmod_negative_phase (T : ℚ) (hT : 1 < T) :
    c_fmod (-1) T = -1 ∧ c_fmod (T * 1 + c_fmod (-1) T) T = T - 1 ∧
      residue_mod (T * 1 + c_fmod (-1) T) T = residue_mod (-1) T := by
  have hpos : 0 < T := by linarith
  have h1 : c_fmod (-1) T = -1 := by
    unfold c_fmod
    have hq : ¬ (0 : ℚ) ≤ -1 / T := by
      rw [not_le]
      exact div_neg_of_neg_of_pos (by norm_num) hpos
    have hc : ⌈(-1 : ℚ) / T⌉ = 0 := by
      rw [Int.ceil_eq_iff]
      constructor
      · rw [lt_div_iff₀ hpos]
        push_cast
        linarith
      · push_cast
        exact le_of_lt (div_neg_of_neg_of_pos (by norm_num) hpos)
    simp only [if_neg hq, hc]
    simp
  have h2 : c_fmod (T * 1 + -1) T = T - 1 := by
    unfold c_fmod
    have hq : (0 : ℚ) ≤ (T * 1 + -1) / T := div_nonneg (by linarith) (le_of_lt hpos)
    have hf : ⌊(T * 1 + -1) / T⌋ = 0 := by
      rw [Int.floor_eq_iff]
      constructor
      · push_cast
        exact hq
      · rw [div_lt_iff₀ hpos]
        push_cast
        linarith
    simp only [if_pos hq, hf]
    simp
    ring
  refine ⟨h1, by rw [h1]; exact h2, ?_⟩
  rw [h1]
  have := residue_mod_add_int (-1) T 1
  rw [← this]
  congr 1
  push_cast
  ring

theorem sample_phase_map_channels : channels_in_range 3 sample_phase_map := by
  intro p hp
  simp only [sample_phase_map, List.mem_cons, List.mem_singleton, List.not_mem_nil,
    or_false] at hp
  rcases hp with hp | hp <;> subst hp <;> simp [sample_obs]

theorem sample_wavelength_pos :
    0 < switch_wavelength gnssConsts (signal_value gnssConsts d_mapStringValues_ctor "1C") := by
  have h : signal_value gnssConsts d_mapStringValues_ctor "1C" = StringValue_.evGPS_1C := by
    decide
  rw [h]
  norm_num [switch_wavelength, gnssConsts]

/-- Evaluation of `carrier_phase_initialization` on the sample map: channel 0, flag `false`,
raw phase 0. -/
theorem carrier_phase_initialization_witness :
    channels_in_range 3 sample_phase_map ∧
    (sample_phase_map.map (fun p => p.2.Channel_ID)).Nodup ∧
    sample_phase_state.d_channel_initialized[(0 : Int).toNat]? = some false ∧
    ∃ m' ps' o', initialize_and_apply_carrier_phase_offset gnssConsts sample_phase_state
        sample_phase_map = some (m', ps') ∧
      (0, o') ∈ m' ∧
      ps'.d_channel_initialized[(0 : Int).toNat]? = some true ∧
      o'.Carrier_phase_rads = gnssConsts.TWO_PI * (c_round (20000000 /
        switch_wavelength gnssConsts
          (signal_value gnssConsts d_mapStringValues_ctor "1C")) : ℚ) := by
  have hnd : (sample_phase_map.map (fun p => p.2.Channel_ID)).Nodup := by
    simp [sample_phase_map, sample_obs]
  obtain ⟨m', ps', o', h1, h2, _, h4, _, h6⟩ := carrier_phase_initialization gnssConsts 3
    sample_phase_state sample_phase_map sample_phase_map_channels rfl rfl hnd
    0 (sample_obs 3 "1C" 0 100 20000000 0) (List.mem_cons_self _ _) rfl sample_wavelength_pos
  exact ⟨sample_phase_map_channels, hnd, rfl, m', ps', o', h1, h2, h4, h6 rfl⟩

/-- Evaluation of `carrier_phase_initialization_residue` on the sample map with the flag of
channel 1 cleared: the observable of channel 1, raw phase 2. -/
theorem carrier_phase_initialization_residue_witness :
    channels_in_range 3 sample_phase_map ∧
    (sample_phase_map.map (fun p => p.2.Channel_ID)).Nodup ∧
    ∃ m' ps' o', initialize_and_apply_carrier_phase_offset gnssConsts
        { sample_phase_state with d_channel_initialized := [false, false, false] }
        sample_phase_map = some (m', ps') ∧
      (1, o') ∈ m' ∧
      (∃ z : Int, o'.Carrier_phase_rads = 2 + (z : ℚ) * gnssConsts.TWO_PI) ∧
      residue_mod o'.Carrier_phase_rads gnssConsts.TWO_PI =
        residue_mod 2 gnssConsts.TWO_PI := by
  have hnd : (sample_phase_map.map (fun p => p.2.Channel_ID)).Nodup := by
    simp [sample_phase_map, sample_obs]
  obtain ⟨m', ps', o', h1, h2, _, h4, h5⟩ := carrier_phase_initialization_residue gnssConsts 3
    { sample_phase_state with d_channel_initialized := [false, false, false] }
    sample_phase_map sample_phase_map_channels rfl rfl hnd
    1 (sample_obs 7 "1C" 1 100 21000000 2)
    (List.mem_cons_of_mem _ (List.mem_cons_self _ _)) rfl sample_wavelength_pos
  exact ⟨sample_phase_map_channels, hnd, m', ps', o', h1, h2, h4, h5⟩

/-- Evaluation of `carrier_phase_continuity` on the sample map: channel 1 is initialised with
offset 5 and its observable, raw phase 2, is reported with phase 7; channel 2, which no
observable names, keeps its flag and offset. -/
theorem carrier_phase_continuity_witness :
    channels_in_range 3 sample_phase_map ∧
    ∃ m' ps', initialize_and_apply_carrier_phase_offset gnssConsts sample_phase_state
        sample_phase_map = some (m', ps') ∧
      (∃ o', (1, o') ∈ m' ∧ o'.Carrier_phase_rads = 7) ∧
      ps'.d_channel_initialized[1]? = some true ∧
      ps'.d_initial_carrier_phase_offset_estimation_rads[1]? = some 5 ∧
      ps'.d_channel_initialized[2]? = some false ∧
      ps'.d_initial_carrier_phase_offset_estimation_rads[2]? = some 0 := by
  obtain ⟨m', ps', h1, h2, _, h4⟩ := carrier_phase_continuity gnssConsts 3 sample_phase_state
    sample_phase_map sample_phase_map_channels rfl rfl
  obtain ⟨⟨k, o'⟩, hq, hk, hspec⟩ := forall₂_mem h2 (1, sample_obs 7 "1C" 1 100 21000000 2)
    (List.mem_cons_of_mem _ (List.mem_cons_self _ _))
  simp only at hk hspec
  subst hk
  obtain ⟨x1, x2, off, hoff, ho⟩ := hspec rfl
  have hoff5 : off = 5 := by
    have : sample_phase_state.d_initial_carrier_phase_offset_estimation_rads[
        (sample_obs 7 "1C" 1 100 21000000 2).Channel_ID.toNat]? = some 5 := rfl
    rw [this] at hoff
    exact (Option.some.inj hoff).symm
  obtain ⟨y1, y2⟩ := h4 2 (by
    intro p hp
    simp only [sample_phase_map, List.mem_cons, List.mem_singleton, List.not_mem_nil,
      or_false] at hp
    rcases hp with hp | hp <;> subst hp <;> simp [sample_obs])
  refine ⟨sample_phase_map_channels, m', ps', h1, ⟨o', hq, ?_⟩, x1, x2, y1, y2⟩
  rw [ho, hoff5]
  norm_num [sample_obs]

/-! ## The ephemeris branches of `msg_handler_telemetry` -/

theorem lookup_map_assign {α : Type} (m : List (Int × α)) (k : Int) (v : α) :
    (map_assign m k v).lookup k = some v := by
  induction m with
  | nil => simp [map_assign, List.lookup]
  | cons p rest ih =>
    obtain ⟨k', v'⟩ := p
    unfold map_assign
    split_ifs with h1 h2
    · simp [List.lookup]
    · simp [List.lookup]
    · have hb : (k == k') = false := by simpa using h2
      simp only [List.lookup, hb]
      exact ih

theorem mem_map_assign {α : Type} (m : List (Int × α)) (k : Int) (v : α) (p : Int × α)
    (h : p ∈ map_assign m k v) : p ∈ m ∨ p = (k, v) := by
  induction m with
  | nil =>
    simp only [map_assign, List.mem_singleton] at h
    exact Or.inr h
  | cons q rest ih =>
    obtain ⟨k', v'⟩ := q
    unfold map_assign at h
    split_ifs at h with h1 h2
    · rcases List.mem_cons.1 h with h | h
      · exact Or.inr h
      · exact Or.inl h
    · rcases List.mem_cons.1 h with h | h
      · exact Or.inr h
      · exact Or.inl (List.mem_cons_of_mem _ h)
    · rcases List.mem_cons.1 h with h | h
      · exact Or.inl (h ▸ List.mem_cons_self _ _)
      · rcases ih h with h | h
        · exact Or.inl (List.mem_cons_of_mem _ h)
        · exact Or.inr h

theorem keyed_map_assign {α : Type} (prn : α → Nat) (m : List (Int × α))
    (hk : keyed_by_PRN prn m) (v : α) (hv : prn v < 4294967296) :
    keyed_by_PRN prn (map_assign m (to_int32 (prn v)) v) := by
  intro p hp
  rcases mem_map_assign _ _ _ _ hp with hp | hp
  · exact hk p hp
  · subst hp
    exact ⟨hv, rfl⟩

theorem log_new_gps_ephemeris_ne_nil (C : Config) (e : Gps_Ephemeris) :
    log_new_gps_ephemeris C e ≠ [] ↔ logs_family C (Ephemeris_msg.gps e) := by
  unfold log_new_gps_ephemeris logs_family
  simp only [List.mem_cons, List.mem_singleton, List.not_mem_nil, or_false]
  split_ifs <;> simp_all <;> (try omega)

theorem log_new_gps_cnav_ephemeris_ne_nil (C : Config) (e : Gps_CNAV_Ephemeris) :
    log_new_gps_cnav_ephemeris C e ≠ [] ↔ logs_family C (Ephemeris_msg.gps_cnav e) := by
  unfold log_new_gps_cnav_ephemeris logs_family
  simp only [List.mem_cons, List.mem_singleton, List.not_mem_nil, or_false]
  split_ifs <;> simp_all
  omega

theorem log_new_galileo_ephemeris_ne_nil (C : Config) (e : Galileo_Ephemeris) :
    log_new_galileo_ephemeris C e ≠ [] ↔ logs_family C (Ephemeris_msg.galileo e) := by
  unfold log_new_galileo_ephemeris logs_family
  simp only [List.mem_cons, List.mem_singleton, List.not_mem_nil, or_false]
  split_ifs <;> simp_all <;> (try omega)

theorem log_new_glonass_gnav_ephemeris_ne_nil (C : Config) (e : Glonass_Gnav_Ephemeris) :
    log_new_glonass_gnav_ephemeris C e ≠ [] ↔ logs_family C (Ephemeris_msg.glonass_gnav e) := by
  unfold log_new_glonass_gnav_ephemeris logs_family
  simp only [List.mem_cons, List.mem_singleton, List.not_mem_nil, or_false]
  split_ifs <;> simp_all
  omega

theorem log_new_beidou_dnav_ephemeris_ne_nil (C : Config) (e : Beidou_Dnav_Ephemeris) :
    log_new_beidou_dnav_ephemeris C e ≠ [] ↔ logs_family C (Ephemeris_msg.beidou_dnav e) := by
  unfold log_new_beidou_dnav_ephemeris logs_family
  simp only [List.mem_cons, List.mem_singleton, List.not_mem_nil, or_false]
  split_ifs <;> simp_all

/-- The calls of the handler: those of the receiver-type switch of the family when the headers
are written and the record is new for the internal store, none otherwise. -/
theorem msg_handler_telemetry_logs {σ : Type} (C : Config) (hw : Bool) (msg : Ephemeris_msg)
    (s : State σ) :
    (msg_handler_telemetry C hw msg s).2 ≠ [] ↔
      hw = true ∧ new_for_store s.d_internal_pvt_solver msg ∧ logs_family C msg := by
  cases msg with
  | gps e =>
    simp only [msg_handler_telemetry, msg_handler_gps_ephemeris, new_for_store, stored_record]
    cases hw <;>
      cases hl : s.d_internal_pvt_solver.gps_ephemeris_map.lookup (to_int32 e.i_satellite_PRN) <;>
      simp [Ephemeris_msg.reference, log_new_gps_ephemeris_ne_nil]
  | gps_cnav e =>
    simp only [msg_handler_telemetry, msg_handler_gps_cnav_ephemeris, new_for_store,
      stored_record]
    cases hw <;>
      cases hl : s.d_internal_pvt_solver.gps_cnav_ephemeris_map.lookup
        (to_int32 e.i_satellite_PRN) <;>
      simp [Ephemeris_msg.reference, log_new_gps_cnav_ephemeris_ne_nil]
  | galileo e =>
    simp only [msg_handler_telemetry, msg_handler_galileo_ephemeris, new_for_store,
      stored_record]
    cases hw <;>
      cases hl : s.d_internal_pvt_solver.galileo_ephemeris_map.lookup
        (to_int32 e.i_satellite_PRN) <;>
      simp [Ephemeris_msg.reference, log_new_galileo_ephemeris_ne_nil]
  | glonass_gnav e =>
    simp only [msg_handler_telemetry, msg_handler_glonass_gnav_ephemeris, new_for_store,
      stored_record]
    cases hw <;>
      cases hl : s.d_internal_pvt_solver.glonass_gnav_ephemeris_map.lookup
        (to_int32 e.i_satellite_PRN) <;>
      simp [Ephemeris_msg.reference, log_new_glonass_gnav_ephemeris_ne_nil]
  | beidou_dnav e =>
    simp only [msg_handler_telemetry, msg_handler_beidou_dnav_ephemeris, new_for_store,
      stored_record]
    cases hw <;>
      cases hl : s.d_internal_pvt_solver.beidou_dnav_ephemeris_map.lookup
        (to_int32 e.i_satellite_PRN) <;>
      simp [Ephemeris_msg.reference, log_new_beidou_dnav_ephemeris_ne_nil]

/-- After the handler the internal store, and the store behind `d_user_pvt_solver`, hold the
incoming record for its satellite. -/
theorem msg_handler_telemetry_store {σ : Type} (C : Config) (hw : Bool) (msg : Ephemeris_msg)
    (s : State σ) :
    stored_record (msg_handler_telemetry C hw msg s).1.d_internal_pvt_solver msg = some msg ∧
      stored_record (user_solver C (msg_handler_telemetry C hw msg s).1) msg = some msg := by
  cases msg with
  | gps e =>
    simp only [msg_handler_telemetry, msg_handler_gps_ephemeris, stored_record, user_solver]
    split_ifs <;> simp [lookup_map_assign]
  | gps_cnav e =>
    simp only [msg_handler_telemetry, msg_handler_gps_cnav_ephemeris, stored_record,
      user_solver]
    split_ifs <;> simp [lookup_map_assign]
  | galileo e =>
    simp only [msg_handler_telemetry, msg_handler_galileo_ephemeris, stored_record, user_solver]
    split_ifs <;> simp [lookup_map_assign]
  | glonass_gnav e =>
    simp only [msg_handler_telemetry, msg_handler_glonass_gnav_ephemeris, stored_record,
      user_solver]
    split_ifs <;> simp [lookup_map_assign]
  | beidou_dnav e =>
    simp only [msg_handler_telemetry, msg_handler_beidou_dnav_ephemeris, stored_record,
      user_solver]
    split_ifs <;> simp [lookup_map_assign]

/-- The handler keeps the internal store keyed by satellite id. -/
theorem msg_handler_telemetry_keyed {σ : Type} (C : Config) (hw : Bool) (msg : Ephemeris_msg)
    (s : State σ) (hk : store_keyed s.d_internal_pvt_solver) (hprn : msg.PRN < 4294967296) :
    store_keyed (msg_handler_telemetry C hw msg s).1.d_internal_pvt_solver := by
  obtain ⟨k1, k2, k3, k4, k5⟩ := hk
  cases msg with
  | gps e =>
    simp only [msg_handler_telemetry, msg_handler_gps_ephemeris, store_keyed]
    split_ifs <;> exact ⟨keyed_map_assign _ _ k1 e hprn, k2, k3, k4, k5⟩
  | gps_cnav e =>
    simp only [msg_handler_telemetry, msg_handler_gps_cnav_ephemeris, store_keyed]
    split_ifs <;> exact ⟨k1, k2, keyed_map_assign _ _ k3 e hprn, k4, k5⟩
  | galileo e =>
    simp only [msg_handler_telemetry, msg_handler_galileo_ephemeris, store_keyed]
    split_ifs <;> exact ⟨k1, keyed_map_assign _ _ k2 e hprn, k3, k4, k5⟩
  | glonass_gnav e =>
    simp only [msg_handler_telemetry, msg_handler_glonass_gnav_ephemeris, store_keyed]
    split_ifs <;> exact ⟨k1, k2, k3, keyed_map_assign _ _ k4 e hprn, k5⟩
  | beidou_dnav e =>
    simp only [msg_handler_telemetry, msg_handler_beidou_dnav_ephemeris, store_keyed]
    split_ifs <;> exact ⟨k1, k2, k3, k4, keyed_map_assign _ _ k5 e hprn⟩

/-! ## Claim on new and refreshed ephemeris records -/

/-- Claim C20 (as amended): for an incoming ephemeris record of any of the five families,
`msg_handler_telemetry` calls the navigation-log writer if and only if the headers are written,
the record is new for the internal store (no record for the satellite, or one whose
epoch-reference field differs) and the receiver type is one that the switch of the family
lists; a record whose epoch-reference field equals that of the stored record is a refresh and
causes no call; and in every case the internal store, and the store behind
`d_user_pvt_solver`, afterwards hold the incoming record for its satellite. -/
theorem msg_handler_telemetry_new_vs_refresh {σ : Type} (C : Config) (hw : Bool)
    (msg : Ephemeris_msg) (s : State σ) :
    ((msg_handler_telemetry C hw msg s).2 ≠ [] ↔
      hw = true ∧
      (stored_record s.d_internal_pvt_solver msg = none ∨
        ∃ r, stored_record s.d_internal_pvt_solver msg = some r ∧
          r.reference ≠ msg.reference) ∧
      logs_family C msg) ∧
    (∀ r, stored_record s.d_internal_pvt_solver msg = some r →
      r.reference = msg.reference → (msg_handler_telemetry C hw msg s).2 = []) ∧
    stored_record (msg_handler_telemetry C hw msg s).1.d_internal_pvt_solver msg = some msg ∧
    stored_record (user_solver C (msg_handler_telemetry C hw msg s).1) msg = some msg := by
  have hlogs := msg_handler_telemetry_logs C hw msg s
  obtain ⟨h1, h2⟩ := msg_handler_telemetry_store C hw msg s
  refine ⟨hlogs, ?_, h1, h2⟩
  intro r hr href
  by_contra hne
  obtain ⟨_, hnew, _⟩ := hlogs.1 hne
  rcases hnew with hnone | ⟨r', hr', hdiff⟩
  · rw [hr] at hnone
    cases hnone
  · rw [hr] at hr'
    cases hr'
    exact hdiff href

/-- Claim C20 as stated fails for receiver type 7 (GPS L1 C/A + GPS L2C): with the headers
written, a GPS ephemeris for a satellite without a stored record (PRN 5), and one whose `d_Toe`
differs from the stored one (PRN 3), cause no call of the navigation-log writer, while the
same records are logged for receiver type 1. -/
theorem gps_ephemeris_new_not_logged :
    stored_record (sample_state [] [] false).d_internal_pvt_solver
      (Ephemeris_msg.gps ⟨5, 100⟩) = none ∧
    (msg_handler_telemetry { sample_config false with d_type_of_rx := 7 } true
      (Ephemeris_msg.gps ⟨5, 100⟩) (sample_state [] [] false)).2 = [] ∧
    stored_record (sample_state [] [] false).d_internal_pvt_solver
      (Ephemeris_msg.gps ⟨3, 100⟩) = some (Ephemeris_msg.gps ⟨3, 0⟩) ∧
    (msg_handler_telemetry { sample_config false with d_type_of_rx := 7 } true
      (Ephemeris_msg.gps ⟨3, 100⟩) (sample_state [] [] false)).2 = [] ∧
    (msg_handler_telemetry (sample_config false) true
      (Ephemeris_msg.gps ⟨5, 100⟩) (sample_state [] [] false)).2 =
        [⟨Nav_file.navFile, [Nav_arg.gps [(5, ⟨5, 100⟩)]]⟩] := by
  refine ⟨by decide, by decide, by decide, by decide, by decide⟩

/-! ## Claims on the navigation-log write of a new GPS ephemeris -/

/-- The calls that the branch "GPS EPHEMERIS" issues for a new record when the headers are
written are those of its receiver-type switch. -/
theorem msg_handler_gps_ephemeris_new_logs {σ : Type} (C : Config) (gps_eph : Gps_Ephemeris)
    (s : State σ)
    (hnew : new_for_store s.d_internal_pvt_solver (Ephemeris_msg.gps gps_eph)) :
    (msg_handler_telemetry C true (Ephemeris_msg.gps gps_eph) s).2 =
      log_new_gps_ephemeris C gps_eph := by
  simp only [new_for_store, stored_record] at hnew
  simp only [msg_handler_telemetry, msg_handler_gps_ephemeris, if_true]
  cases hl : s.d_internal_pvt_solver.gps_ephemeris_map.lookup (to_int32 gps_eph.i_satellite_PRN) with
  | none => simp
  | some r =>
    rw [hl] at hnew
    rcases hnew with hn | ⟨r', hr, hne⟩
    · cases hn
    · simp only [Option.map_some', Option.some.injEq] at hr
      subst hr
      simp only [Ephemeris_msg.reference] at hne
      simp [hne]

/-- Claim C21: for a GPS legacy ephemeris that is new for the internal store, with the headers
written, every call of `log_rinex_nav` hands over the map `new_eph` holding exactly the
incoming record, for every receiver type and RINEX version except receiver type 26 with RINEX
version 2; there the single call writes to `navFile` the map `new_glo_eph`, which is empty, so
the record set handed to the writer does not contain the incoming record (the sibling case 29
hands over `new_eph`). -/
theorem gps_ephemeris_log_record_set {σ : Type} (C : Config) (gps_eph : Gps_Ephemeris)
    (s : State σ)
    (hnew : new_for_store s.d_internal_pvt_solver (Ephemeris_msg.gps gps_eph)) :
    (¬ (C.d_type_of_rx = 26 ∧ C.d_rinex_version = 2) →
      ∀ call ∈ (msg_handler_telemetry C true (Ephemeris_msg.gps gps_eph) s).2,
        Nav_arg.gps [(to_int32 gps_eph.i_satellite_PRN, gps_eph)] ∈ call.maps) ∧
    (C.d_type_of_rx = 26 ∧ C.d_rinex_version = 2 →
      (msg_handler_telemetry C true (Ephemeris_msg.gps gps_eph) s).2 =
        [⟨Nav_file.navFile, [Nav_arg.glo []]⟩]) := by
  rw [msg_handler_gps_ephemeris_new_logs C gps_eph s hnew]
  constructor
  · intro hex call hcall
    unfold log_new_gps_ephemeris at hcall
    simp only [map_assign] at hcall
    split_ifs at hcall <;> simp at hcall <;> first
      | (subst hcall; simp; done)
      | (rcases hcall with rfl | rfl <;> simp; done)
      | (exfalso; exact hex ⟨by assumption, by assumption⟩)
  · rintro ⟨h26, h2⟩
    unfold log_new_gps_ephemeris
    simp [h26, h2]

/-- Evaluation of `gps_ephemeris_log_record_set` at receiver type 26 with RINEX version 2: a
GPS ephemeris for PRN 5, new for the store, is logged by one call on `navFile` that carries
only the empty GLONASS map. -/
theorem gps_ephemeris_log_record_set_witness :
    (msg_handler_telemetry { sample_config false with d_type_of_rx := 26, d_rinex_version := 2 }
      true (Ephemeris_msg.gps ⟨5, 0⟩) (sample_state [] [] false)).2 =
      [⟨Nav_file.navFile, [Nav_arg.glo []]⟩] :=
  (gps_ephemeris_log_record_set
    { sample_config false with d_type_of_rx := 26, d_rinex_version := 2 } ⟨5, 0⟩
    (sample_state [] [] false) (Or.inl (by decide))).2 ⟨rfl, rfl⟩

/-! ## Claims on the oscillator controller -/

/-- The members after a run of the oscillator controller.  The correction is the clamped value
of `X * (Kp + Ki) - Xprev * Kp`; in estimator mode `X` is the updated estimator and `Xprev` the
estimator before the run, in direct mode `X` is the clock offset of the internal solver minus
the offset baseline and `Xprev` is the stored `d_pps_offset` minus the offset baseline, which
the run writes to `d_pps_prev_error` before using it.  The baselines are left alone. -/
theorem pps_controller_members {σ : Type} (C : Config) (ops : SolverOps σ) (e : Epoch σ) :
    (pps_controller C ops e).st.d_FREQU_correction =
        max (-0.074) (min 0.074
          (if C.d_PPS_estimator_selected = true then
            (e.st.d_estimator * 0.9 +
              5.5e-8 * (e.st.d_LO_external_frequ - e.st.d_LO_external_frequ_init) +
              0.1 * (ops.get_time_offset_s e.st.d_internal_pvt_solver.core -
                e.st.d_pps_init_offset)) * (C.d_PPS_Kp + C.d_PPS_Ki) -
              e.st.d_estimator * C.d_PPS_Kp
          else
            (ops.get_time_offset_s e.st.d_internal_pvt_solver.core - e.st.d_pps_init_offset) *
                (C.d_PPS_Kp + C.d_PPS_Ki) -
              (e.st.d_pps_offset - e.st.d_pps_init_offset) * C.d_PPS_Kp)) ∧
      (pps_controller C ops e).st.d_LO_external_frequ =
        e.st.d_LO_external_frequ - (pps_controller C ops e).st.d_FREQU_correction ∧
      (pps_controller C ops e).st.d_pps_prev_error =
        (if C.d_PPS_estimator_selected = true then e.st.d_pps_prev_error
          else e.st.d_pps_offset - e.st.d_pps_init_offset) ∧
      (pps_controller C ops e).st.d_pps_offset =
        ops.get_time_offset_s e.st.d_internal_pvt_solver.core ∧
      (pps_controller C ops e).st.d_pps_init_offset = e.st.d_pps_init_offset ∧
      (pps_controller C ops e).st.d_LO_external_frequ_init = e.st.d_LO_external_frequ_init ∧
      (pps_controller C ops e).st.d_gnss_observables_map_t0 = e.st.d_gnss_observables_map_t0 ∧
      (pps_controller C ops e).st.d_gnss_observables_map_t1 = e.st.d_gnss_observables_map_t1 := by
  have hclamp : ∀ x : ℚ, max (-0.074) (min 0.074 x) =
      if x > 0.074 then 0.074 else if x < -0.074 then -0.074 else x := by
    intro x
    split_ifs with h1 h2
    · rw [min_eq_left (le_of_lt h1)]; norm_num
    · rw [min_eq_right (by linarith), max_eq_left (le_of_lt h2)]
    · rw [min_eq_right (by linarith), max_eq_right (by linarith)]
  rw [hclamp]
  unfold pps_controller
  by_cases hest : C.d_PPS_estimator_selected = true
  · simp only [hest, if_true]
    split_ifs <;> refine ⟨?_, ?_, ?_, ?_, ?_, ?_, ?_, ?_⟩ <;> first
      | rfl
      | (exfalso; norm_num at *)
  · simp only [hest, if_false, Bool.false_eq_true]
    split_ifs <;> refine ⟨?_, ?_, ?_, ?_, ?_, ?_, ?_, ?_⟩ <;> first
      | rfl
      | (exfalso; norm_num at *)

/-- Claim C24: in both control modes, for every controller state and all gains, the frequency
correction left by a controller run lies between -0.074 Hz and 0.074 Hz, the new set-point is
the previous set-point minus that correction, and so the run moves the set-point by at most
0.074 Hz. -/
theorem pps_controller_correction_bounded {σ : Type} (C : Config) (ops : SolverOps σ)
    (e : Epoch σ) :
    -0.074 ≤ (pps_controller C ops e).st.d_FREQU_correction ∧
      (pps_controller C ops e).st.d_FREQU_correction ≤ 0.074 ∧
      (pps_controller C ops e).st.d_LO_external_frequ =
        e.st.d_LO_external_frequ - (pps_controller C ops e).st.d_FREQU_correction ∧
      |(pps_controller C ops e).st.d_LO_external_frequ - e.st.d_LO_external_frequ| ≤ 0.074 := by
  obtain ⟨h1, h2, _⟩ := pps_controller_members C ops e
  have hlo : (-0.074 : ℚ) ≤ (pps_controller C ops e).st.d_FREQU_correction := by
    rw [h1]; exact le_max_left _ _
  have hhi : (pps_controller C ops e).st.d_FREQU_correction ≤ 0.074 := by
    rw [h1]; exact max_le (by norm_num) (min_le_left _ _)
  refine ⟨hlo, hhi, h2, ?_⟩
  rw [h2, abs_le]
  constructor <;> linarith

theorem store_records_eq_iff {σ : Type} (a b : Rtklib_Solver σ) :
    store_records a = store_records b ↔
      a.gps_ephemeris_map = b.gps_ephemeris_map ∧
      a.galileo_ephemeris_map = b.galileo_ephemeris_map ∧
      a.gps_cnav_ephemeris_map = b.gps_cnav_ephemeris_map ∧
      a.glonass_gnav_ephemeris_map = b.glonass_gnav_ephemeris_map ∧
      a.beidou_dnav_ephemeris_map = b.beidou_dnav_ephemeris_map ∧
      a.gps_iono = b.gps_iono ∧ a.gps_utc_model = b.gps_utc_model ∧
      a.gps_cnav_iono = b.gps_cnav_iono ∧ a.gps_cnav_utc_model = b.gps_cnav_utc_model ∧
      a.gps_almanac_map = b.gps_almanac_map ∧ a.galileo_iono = b.galileo_iono ∧
      a.galileo_utc_model = b.galileo_utc_model ∧
      a.galileo_almanac_map = b.galileo_almanac_map ∧
      a.glonass_gnav_utc_model = b.glonass_gnav_utc_model ∧
      a.glonass_gnav_almanac = b.glonass_gnav_almanac ∧
      a.beidou_dnav_iono = b.beidou_dnav_iono ∧
      a.beidou_dnav_utc_model = b.beidou_dnav_utc_model ∧
      a.beidou_dnav_almanac_map = b.beidou_dnav_almanac_map := by
  simp only [store_records, Rtklib_Solver.mk.injEq, and_true]

theorem assign_both_records {σ : Type} (C : Config)
    (set : Rtklib_Solver σ → Rtklib_Solver σ) (hset : acts_on_records set) (s : State σ)
    (h : store_records (user_solver C s) = store_records s.d_internal_pvt_solver) :
    store_records (user_solver C (assign_both C set s)) =
      store_records (assign_both C set s).d_internal_pvt_solver := by
  unfold assign_both user_solver at *
  by_cases hen : C.d_enable_rx_clock_correction = true
  · simp only [hen, if_true] at h ⊢
    exact hset _ _ h
  · simp only [hen, if_false, Bool.false_eq_true] at h ⊢

theorem update_user_records {σ : Type} (C : Config)
    (set : Rtklib_Solver σ → Rtklib_Solver σ) (hset : acts_on_records set) (s : State σ)
    (h : store_records (user_solver C s) = store_records s.d_internal_pvt_solver) :
    store_records (user_solver C
        (update_user C set { s with d_internal_pvt_solver := set s.d_internal_pvt_solver })) =
      store_records (update_user C set
        { s with d_internal_pvt_solver := set s.d_internal_pvt_solver }).d_internal_pvt_solver := by
  unfold update_user user_solver at *
  by_cases hen : C.d_enable_rx_clock_correction = true
  · simp only [hen, if_true] at h ⊢
    exact hset _ _ h
  · simp only [hen, if_false, Bool.false_eq_true] at h ⊢

/-! ## The interpolation snapshots along an iteration -/

theorem read_channels_table {σ : Type} (C : Config) (inp : Nat → Gnss_Synchro)
    (chans : List Nat) :
    ∀ e e' : Epoch σ, read_channels C inp chans e = some e' →
      e'.st.d_mapStringValues = e.st.d_mapStringValues := by
  induction chans with
  | nil =>
    intro e e' h
    simp only [read_channels, Option.some.injEq] at h
    subst h
    rfl
  | cons i rest ih =>
    intro e e' h
    simp only [read_channels] at h
    split at h
    · rename_i e1 h1
      rw [ih e1 e' h]
      unfold read_channel at h1
      split_ifs at h1
      · cases h1; rfl
      · cases h1; rfl
      · split at h1
        · cases h1; rfl
        · cases h1
    · cases h

theorem read_pseudoranges_table {σ : Type} (C : Config) (inp : Nat → Gnss_Synchro)
    (s : State σ) (e0 : Epoch σ) (h : read_pseudoranges C inp s = some e0) :
    e0.st.d_mapStringValues = s.d_mapStringValues :=
  read_channels_table C inp _ _ _ h

/-- The accepted-offset branch and the snapshots: with correction enabled `t0` takes the old
`t1` and `t1` takes the Observable Set after the offset is applied; with correction disabled
both are left alone. -/
theorem offset_accepted_snapshots {σ : Type} (D : Consts) (C : Config) (off : ℚ)
    (e e' : Epoch σ) (h : offset_accepted D C off e = some e') :
    e'.st.d_gnss_observables_map_t0 =
        (if C.d_enable_rx_clock_correction = true then e.st.d_gnss_observables_map_t1
          else e.st.d_gnss_observables_map_t0) ∧
      e'.st.d_gnss_observables_map_t1 =
        (if C.d_enable_rx_clock_correction = true then
          (apply_rx_clock_offset D e.st.d_mapStringValues e.st.d_gnss_observables_map off).1
          else e.st.d_gnss_observables_map_t1) := by
  unfold offset_accepted at h
  by_cases hen : C.d_enable_rx_clock_correction = true
  · simp only [hen, if_true] at h ⊢
    split at h
    · cases h; exact ⟨rfl, rfl⟩
    · split at h
      · cases h
      · split at h
        · cases h
        · split_ifs at h
          · split at h
            · cases h
            · cases h; exact ⟨rfl, rfl⟩
          · cases h; exact ⟨rfl, rfl⟩
  · simp only [hen, if_false, Bool.false_eq_true] at h ⊢
    split at h
    · cases h
    · split at h
      · cases h
      · split at h
        · cases h
        · cases h; exact ⟨rfl, rfl⟩

/-- The internal solve and the snapshots: they change exactly in the accepted-offset branch with
correction enabled. -/
theorem internal_solve_snapshots {σ : Type} (D : Consts) (C : Config) (ops : SolverOps σ)
    (e e' : Epoch σ) (h : internal_solve D C ops e = some e') :
    (C.d_enable_rx_clock_correction = true ∧
        (ops.get_PVT e.st.d_internal_pvt_solver e.st.d_gnss_observables_map false).1 = true ∧
        ¬ offset_too_large C (ops.get_time_offset_s
          (ops.get_PVT e.st.d_internal_pvt_solver e.st.d_gnss_observables_map false).2) →
      e'.st.d_gnss_observables_map_t0 = e.st.d_gnss_observables_map_t1 ∧
      e'.st.d_gnss_observables_map_t1 =
        (apply_rx_clock_offset D e.st.d_mapStringValues e.st.d_gnss_observables_map
          (ops.get_time_offset_s
            (ops.get_PVT e.st.d_internal_pvt_solver e.st.d_gnss_observables_map false).2)).1) ∧
    (¬ (C.d_enable_rx_clock_correction = true ∧
        (ops.get_PVT e.st.d_internal_pvt_solver e.st.d_gnss_observables_map false).1 = true ∧
        ¬ offset_too_large C (ops.get_time_offset_s
          (ops.get_PVT e.st.d_internal_pvt_solver e.st.d_gnss_observables_map false).2)) →
      e'.st.d_gnss_observables_map_t0 = e.st.d_gnss_observables_map_t0 ∧
      e'.st.d_gnss_observables_map_t1 = e.st.d_gnss_observables_map_t1) := by
  by_cases hok : (ops.get_PVT e.st.d_internal_pvt_solver e.st.d_gnss_observables_map false).1 = true
  · by_cases hbig : offset_too_large C (ops.get_time_offset_s
        (ops.get_PVT e.st.d_internal_pvt_solver e.st.d_gnss_observables_map false).2)
    · rw [internal_solve_too_large D C ops e hok hbig] at h
      cases h
      exact ⟨fun hc => absurd hbig hc.2.2, fun _ => ⟨rfl, rfl⟩⟩
    · rw [internal_solve_accepted_call D C ops e hok hbig] at h
      obtain ⟨a, b⟩ := offset_accepted_snapshots D C _ _ _ h
      by_cases hen : C.d_enable_rx_clock_correction = true
      · rw [if_pos hen] at a b
        exact ⟨fun _ => ⟨a, b⟩, fun hc => absurd ⟨hen, hok, hbig⟩ hc⟩
      · rw [if_neg hen] at a b
        exact ⟨fun hc => absurd hc.1 hen, fun _ => ⟨a, b⟩⟩
  · rw [internal_solve_failed D C ops e (by simpa using hok)] at h
    cases h
    exact ⟨fun hc => absurd hc.2.1 hok, fun _ => ⟨rfl, rfl⟩⟩

theorem user_solve_snapshots {σ : Type} (C : Config) (ops : SolverOps σ) (e : Epoch σ) :
    (user_solve C ops e).st.d_gnss_observables_map_t0 = e.st.d_gnss_observables_map_t0 ∧
      (user_solve C ops e).st.d_gnss_observables_map_t1 = e.st.d_gnss_observables_map_t1 := by
  unfold user_solve set_user_core
  split_ifs <;> exact ⟨rfl, rfl⟩

theorem first_fix_snapshots {σ : Type} (C : Config) (ops : SolverOps σ) (e : Epoch σ) :
    (first_fix C ops e).st.d_gnss_observables_map_t0 = e.st.d_gnss_observables_map_t0 ∧
      (first_fix C ops e).st.d_gnss_observables_map_t1 = e.st.d_gnss_observables_map_t1 := by
  unfold first_fix
  split_ifs <;> exact ⟨rfl, rfl⟩

theorem track_log_st {σ : Type} (en : Bool) (rate : Nat) (c : Event) (e e' : Epoch σ)
    (h : track_log en rate c e = some e') : e'.st = e.st := by
  unfold track_log at h
  split_ifs at h
  · split at h
    · cases h
    · split_ifs at h <;> (cases h; rfl)
  · cases h; rfl

theorem pvt_valid_block_snapshots {σ : Type} (D : Consts) (C : Config) (ops : SolverOps σ)
    (e e' : Epoch σ) (h : pvt_valid_block D C ops e = some e') :
    e'.st.d_gnss_observables_map_t0 = e.st.d_gnss_observables_map_t0 ∧
      e'.st.d_gnss_observables_map_t1 = e.st.d_gnss_observables_map_t1 := by
  unfold pvt_valid_block at h
  split_ifs at h with hv
  · split at h
    · cases h
    · simp only at h
      split_ifs at h
      · cases h; exact ⟨rfl, rfl⟩
      · simp only [Option.bind_eq_some] at h
        obtain ⟨e4, h4, e5, h5, e6, h6, h7⟩ := h
        have s4 := track_log_st _ _ _ _ _ h4
        have s5 := track_log_st _ _ _ _ _ h5
        have s6 := track_log_st _ _ _ _ _ h6
        have s7 := track_log_st _ _ _ _ _ h7
        rw [s7, s6, s5, s4]
        exact first_fix_snapshots C ops _
  · cases h; exact ⟨rfl, rfl⟩

theorem display_block_snapshots {σ : Type} (C : Config) (ops : SolverOps σ) (e : Epoch σ) :
    (display_block C ops e).st.d_gnss_observables_map_t0 = e.st.d_gnss_observables_map_t0 ∧
      (display_block C ops e).st.d_gnss_observables_map_t1 = e.st.d_gnss_observables_map_t1 := by
  unfold display_block
  split_ifs
  · obtain ⟨_, _, _, _, _, _, a, b⟩ := pps_controller_members C ops e
    exact ⟨a, b⟩
  · exact ⟨rfl, rfl⟩
  · exact ⟨rfl, rfl⟩

/-- The snapshots after a completed iteration: with correction enabled, a non-empty Observable
Set, a successful internal solve and an offset within tolerance, `t0` is the old `t1` and `t1`
is the Observable Set after the offset is applied; in every other case both are as before. -/
theorem work_epoch_snapshots {σ : Type} (D : Consts) (C : Config) (ops : SolverOps σ)
    (inp : Nat → Gnss_Synchro) (s : State σ) (e : Epoch σ)
    (h : work_epoch D C ops inp s = some e) :
    (C.d_enable_rx_clock_correction = true ∧ observable_set C inp s ≠ [] ∧
        internal_solved C ops inp s = true ∧
        ¬ offset_too_large C (internal_offset C ops inp s) →
      e.st.d_gnss_observables_map_t0 = s.d_gnss_observables_map_t1 ∧
      e.st.d_gnss_observables_map_t1 =
        (apply_rx_clock_offset D s.d_mapStringValues (observable_set C inp s)
          (internal_offset C ops inp s)).1) ∧
    (¬ (C.d_enable_rx_clock_correction = true ∧ observable_set C inp s ≠ [] ∧
        internal_solved C ops inp s = true ∧
        ¬ offset_too_large C (internal_offset C ops inp s)) →
      e.st.d_gnss_observables_map_t0 = s.d_gnss_observables_map_t0 ∧
      e.st.d_gnss_observables_map_t1 = s.d_gnss_observables_map_t1) := by
  obtain ⟨e0, hread, hcase⟩ := work_epoch_cases D C ops inp s e h
  obtain ⟨_, _, _, r4, _, r6, r7, _, _⟩ := read_pseudoranges_view C inp s e0 hread
  have rt := read_pseudoranges_table C inp s e0 hread
  have hset : observable_set C inp s = e0.st.d_gnss_observables_map := by
    unfold observable_set
    rw [hread]
  unfold internal_solved internal_offset
  rw [hset, ← r4, ← r6, ← r7, ← rt]
  rcases hcase with ⟨hemp, he⟩ | ⟨_, e1, e2, h1, h2, he⟩
  · subst he
    exact ⟨fun hc => absurd hemp hc.2.1, fun _ => ⟨rfl, rfl⟩⟩
  · rename_i hne
    obtain ⟨i1, i2⟩ := internal_solve_snapshots D C ops e0 e1 h1
    obtain ⟨u1, u2⟩ := user_solve_snapshots C ops e1
    obtain ⟨p1, p2⟩ := pvt_valid_block_snapshots D C ops _ _ h2
    obtain ⟨d1, d2⟩ := display_block_snapshots C ops e2
    obtain ⟨m1, _⟩ := pvt_monitor_calls C ops (display_block C ops e2)
    have a0 : e.st.d_gnss_observables_map_t0 = e1.st.d_gnss_observables_map_t0 := by
      rw [he, m1, d1, p1, u1]
    have a1 : e.st.d_gnss_observables_map_t1 = e1.st.d_gnss_observables_map_t1 := by
      rw [he, m1, d2, p2, u2]
    rw [a0, a1]
    constructor
    · intro hc
      exact i1 ⟨hc.1, hc.2.2.1, hc.2.2.2⟩
    · intro hc
      exact i2 (fun hx => hc ⟨hx.1, hne, hx.2.1, hx.2.2⟩)

/-! ## The controller members along an iteration -/

/-- A completed iteration, seen from the context `e2` that enters the console-display block:
the members at the end are those left by that block, the locals and the solvers are those of
the end, and the controller members entering the block are those of the start of the
iteration, except that a first fix with `d_PPS_correction` set has put the clock offset of the
user solution in the offset baseline, zero in the previous error and in the estimator, and the
set-point in the frequency baseline. -/
theorem work_epoch_display_context {σ : Type} (D : Consts) (C : Config) (ops : SolverOps σ)
    (inp : Nat → Gnss_Synchro) (s : State σ) (e : Epoch σ)
    (h : work_epoch D C ops inp s = some e) :
    ∃ e2 : Epoch σ, e.st = (display_block C ops e2).st ∧ e2.fl = e.fl ∧
      e2.st.d_internal_pvt_solver = e.st.d_internal_pvt_solver ∧
      user_solver C e2.st = user_solver C e.st ∧
      controller_state e2.st =
        (if output_branch C ops e ∧ s.d_first_fix = true ∧ C.d_PPS_correction = true then
          [ops.get_time_offset_s (user_solver C e.st).core, 0, s.d_pps_offset, 0,
            s.d_estimator_prev, s.d_FREQU_correction, s.d_LO_external_frequ,
            s.d_LO_external_frequ]
        else controller_state s) := by
  obtain ⟨e0, hread, hcase⟩ := work_epoch_cases D C ops inp s e h
  obtain ⟨r1, r2, r3, _, _, _, _, _, _⟩ := read_pseudoranges_view C inp s e0 hread
  rcases hcase with ⟨_, he⟩ | ⟨_, e1, e2, h1, h2, he⟩
  · subst he
    have hnb : ¬ output_branch C ops e := by
      intro hb
      have := hb.1
      rw [r1] at this
      cases this
    have hnc : ¬ controller_runs C ops e := by
      intro hc
      have := hc.1.2
      rw [r1] at this
      cases this
    obtain ⟨_, _, _, _, _, d6⟩ := display_block_calls C ops e
    refine ⟨e, by rw [d6 hnc], rfl, rfl, rfl, ?_⟩
    rw [if_neg (fun hx => hnb hx.1)]
    exact r3
  · obtain ⟨v1, _, _, _, _⟩ := internal_solve_view D C ops e0 e1 h1
    obtain ⟨vu, _, _, _⟩ := user_solve_view C ops e1
    obtain ⟨_, p2, p3, p4, _, _⟩ := pvt_valid_block_locals D C ops _ _ h2
    obtain ⟨gy, gn⟩ := pvt_valid_block_gating D C ops _ _ h2
    obtain ⟨d1, _, d3, d4, _, _⟩ := display_block_calls C ops e2
    obtain ⟨m1, m2, _⟩ := pvt_monitor_calls C ops (display_block C ops e2)
    have hview : gating_view (user_solve C ops e1) = gating_view e0 := vu.trans v1
    simp only [gating_view, Prod.mk.injEq] at hview
    obtain ⟨_, w2, w3⟩ := hview
    rw [r2] at w2
    rw [r3] at w3
    have hfl : e.fl = e2.fl := by rw [he, m2, d1]
    have hu2 : user_solver C e2.st = user_solver C e.st := by
      rw [he, m1]
      exact (user_solver_congr C _ _ d3 d4).symm
    have husr : user_solver C e.st = user_solver C (user_solve C ops e1).st := by
      rw [← hu2]
      exact user_solver_congr C _ _ p2 p3
    have hbranch : output_branch C ops e ↔ output_branch C ops (user_solve C ops e1) := by
      unfold output_branch residual_exceeds
      rw [husr, hfl, p4]
    refine ⟨e2, by rw [he, m1], hfl.symm, by rw [he, m1, d3], hu2, ?_⟩
    simp only [controller_state, List.cons.injEq, and_true] at w3
    obtain ⟨c0, c1, c2, c3, c4, c5, c6, c7⟩ := w3
    by_cases hb : output_branch C ops (user_solve C ops e1)
    · rw [(gy hb).2.2.2]
      unfold first_fix_controller
      rw [w2, ← husr]
      by_cases hff : s.d_first_fix = true ∧ C.d_PPS_correction = true
      · rw [if_pos hff, if_pos ⟨hbranch.2 hb, hff⟩, c2, c4, c5, c6]
      · rw [if_neg hff, if_neg (fun hx => hff hx.2)]
        simp only [controller_state, c0, c1, c2, c3, c4, c5, c6, c7]
    · rw [if_neg (fun hx => hb (hbranch.1 hx.1))]
      have := (gn hb).1
      simp only [gating_view, Prod.mk.injEq] at this
      rw [this.2.2]
      simp only [controller_state, c0, c1, c2, c3, c4, c5, c6, c7]

/-- In a completed iteration whose controller runs, the members at the end are those left by
the controller run on the context that enters the console-display block. -/
theorem work_epoch_controller_run {σ : Type} (C : Config) (ops : SolverOps σ)
    (e e2 : Epoch σ) (hst : e.st = (display_block C ops e2).st) (hfl : e2.fl = e.fl)
    (hu : user_solver C e2.st = user_solver C e.st) (hrun : controller_runs C ops e) :
    e.st = (pps_controller C ops e2).st := by
  rw [hst]
  unfold display_block
  unfold controller_runs at hrun
  rw [← hu, ← hfl] at hrun
  rw [if_pos hrun.1]
  simp only [hrun.2, if_true]

/-- A controller run needs `flag_display_pvt`, which only the output branch raises: an
iteration whose controller runs took the output branch, so `d_first_fix` is `false` by then. -/
theorem controller_runs_output_branch {σ : Type} (D : Consts) (C : Config) (ops : SolverOps σ)
    (inp : Nat → Gnss_Synchro) (s : State σ) (e : Epoch σ)
    (h : work_epoch D C ops inp s = some e) (hrun : controller_runs C ops e) :
    output_branch C ops e ∧ e.st.d_first_fix = false := by
  obtain ⟨g1, g2, _⟩ := work_epoch_gating D C ops inp s e h
  have hb : output_branch C ops e := by
    by_contra hb
    rw [if_neg hb] at g1
    simp only [gating_flags, List.cons.injEq] at g1
    have := hrun.1.2
    rw [g1.1] at this
    cases this
  rw [if_pos hb] at g2
  exact ⟨hb, g2⟩

/-! ## The aligned time of an iteration with receiver-clock correction enabled -/

theorem offset_accepted_alignment {σ : Type} (D : Consts) (C : Config) (off : ℚ)
    (e e1 : Epoch σ) (hen : C.d_enable_rx_clock_correction = true)
    (k : Int) (f : Gnss_Synchro) (rest : ObsMap)
    (ht1 : e.st.d_gnss_observables_map_t1 = (k, f) :: rest) (ms : Nat)
    (hms : static_cast_uint32 (f.RX_time * 1000) = some ms)
    (hrate : C.d_output_rate_ms ≠ 0)
    (h : offset_accepted D C off e = some e1) :
    e1.fl.current_RX_time_ms = (ms + (20 - ms % 20)) % 4294967296 ∧
      e1.fl.flag_compute_pvt_output =
        (if ((ms + (20 - ms % 20)) % 4294967296) % C.d_output_rate_ms = 0 then true
          else e.fl.flag_compute_pvt_output) ∧
      (((ms + (20 - ms % 20)) % 4294967296) % C.d_output_rate_ms = 0 →
        e1.st.d_rx_time = (((ms + (20 - ms % 20)) % 4294967296 : Nat) : ℚ) / 1000) := by
  unfold offset_accepted at h
  simp only [if_pos hen, ht1, hms, uint32_mod, if_neg hrate] at h
  by_cases hdue : ((ms + (20 - ms % 20)) % 4294967296) % C.d_output_rate_ms = 0
  · simp only [hdue, if_true] at h ⊢
    split at h
    · cases h
    · cases h
      exact ⟨rfl, rfl, fun _ => rfl⟩
  · simp only [hdue, if_false] at h ⊢
    cases h
    exact ⟨rfl, rfl, fun hx => absurd hx (by simp)⟩

theorem user_solve_rx_time {σ : Type} (C : Config) (ops : SolverOps σ) (e : Epoch σ) :
    (user_solve C ops e).st.d_rx_time = e.st.d_rx_time ∧
      (user_solve C ops e).fl.flag_compute_pvt_output = e.fl.flag_compute_pvt_output ∧
      (user_solve C ops e).fl.current_RX_time_ms = e.fl.current_RX_time_ms := by
  unfold user_solve set_user_core
  split_ifs <;> exact ⟨rfl, rfl, rfl⟩

theorem first_fix_rx_time {σ : Type} (C : Config) (ops : SolverOps σ) (e : Epoch σ) :
    (first_fix C ops e).st.d_rx_time = e.st.d_rx_time := by
  unfold first_fix
  split_ifs <;> rfl

theorem pvt_valid_block_rx_time {σ : Type} (D : Consts) (C : Config) (ops : SolverOps σ)
    (e e' : Epoch σ) (h : pvt_valid_block D C ops e = some e') :
    e'.st.d_rx_time = e.st.d_rx_time := by
  unfold pvt_valid_block at h
  split_ifs at h with hv
  · split at h
    · cases h
    · simp only at h
      split_ifs at h
      · cases h; rfl
      · simp only [Option.bind_eq_some] at h
        obtain ⟨e4, h4, e5, h5, e6, h6, h7⟩ := h
        rw [track_log_st _ _ _ _ _ h7, track_log_st _ _ _ _ _ h6, track_log_st _ _ _ _ _ h5,
          track_log_st _ _ _ _ _ h4]
        exact first_fix_rx_time C ops _
  · cases h; rfl

theorem display_block_rx_time {σ : Type} (C : Config) (ops : SolverOps σ) (e : Epoch σ) :
    (display_block C ops e).st.d_rx_time = e.st.d_rx_time := by
  have hp : (pps_controller C ops e).st.d_rx_time = e.st.d_rx_time := by
    unfold pps_controller
    by_cases hest : C.d_PPS_estimator_selected = true
    · simp only [hest, if_true]
      split_ifs <;> rfl
    · simp only [hest, if_false, Bool.false_eq_true]
      split_ifs <;> rfl
  unfold display_block
  split_ifs
  · exact hp
  · rfl
  · rfl

/-- An iteration with correction enabled, an accepted offset and a previous snapshot whose
first entry has receiver time `f.RX_time`, with `ms` its value in milliseconds converted to
`uint32_t`: `current_RX_time_ms` is `ms + (20 - ms % 20)` in `uint32_t` arithmetic,
`flag_compute_pvt_output` is raised exactly when the output period divides it, and then
`d_rx_time` is that time in seconds. -/
theorem work_epoch_alignment {σ : Type} (D : Consts) (C : Config)
    (ops : SolverOps σ) (inp : Nat → Gnss_Synchro) (s : State σ)
    (hen : C.d_enable_rx_clock_correction = true)
    (hne : observable_set C inp s ≠ [])
    (hok : internal_solved C ops inp s = true)
    (hsmall : ¬ offset_too_large C (internal_offset C ops inp s))
    (hrate : C.d_output_rate_ms ≠ 0)
    (k : Int) (f : Gnss_Synchro) (rest : ObsMap)
    (ht1 : s.d_gnss_observables_map_t1 = (k, f) :: rest) (ms : Nat)
    (hms : static_cast_uint32 (f.RX_time * 1000) = some ms)
    (e : Epoch σ) (h : work_epoch D C ops inp s = some e) :
    e.fl.current_RX_time_ms = (ms + (20 - ms % 20)) % 4294967296 ∧
      (e.fl.flag_compute_pvt_output = true ↔
        ((ms + (20 - ms % 20)) % 4294967296) % C.d_output_rate_ms = 0) ∧
      (((ms + (20 - ms % 20)) % 4294967296) % C.d_output_rate_ms = 0 →
        e.st.d_rx_time = (((ms + (20 - ms % 20)) % 4294967296 : Nat) : ℚ) / 1000) := by
  obtain ⟨e0, hread, hcase⟩ := work_epoch_cases D C ops inp s e h
  obtain ⟨r1, _, _, r4, _, _, r7, _, _⟩ := read_pseudoranges_view C inp s e0 hread
  have hset : observable_set C inp s = e0.st.d_gnss_observables_map := by
    unfold observable_set
    rw [hread]
  unfold internal_solved at hok
  unfold internal_offset at hsmall
  rw [hset, ← r4] at hok hsmall
  rcases hcase with ⟨hemp, _⟩ | ⟨_, e1, e2, h1, h2, he⟩
  · rw [hset] at hne
    exact absurd hemp hne
  · rw [internal_solve_accepted_call D C ops e0 hok hsmall] at h1
    obtain ⟨c1, _, _, _, _, _, c7, _, _, _⟩ := after_internal_call_facts ops e0
    obtain ⟨a1, a2, a3⟩ := offset_accepted_alignment D C _ _ e1 hen k f rest
      (by rw [c7, r7]; exact ht1) ms hms hrate h1
    obtain ⟨u1, u2, u3⟩ := user_solve_rx_time C ops e1
    obtain ⟨_, _, _, _, p5, p6⟩ := pvt_valid_block_locals D C ops _ _ h2
    have p7 := pvt_valid_block_rx_time D C ops _ _ h2
    obtain ⟨d1, _, _, _, _, _⟩ := display_block_calls C ops e2
    have d7 := display_block_rx_time C ops e2
    obtain ⟨m1, m2, _⟩ := pvt_monitor_calls C ops (display_block C ops e2)
    have hfl : e.fl = e2.fl := by rw [he, m2, d1]
    have hrx : e.st.d_rx_time = e1.st.d_rx_time := by rw [he, m1, d7, p7, u1]
    rw [c1, r1] at a2
    refine ⟨by rw [hfl, p6, u3, a1], ?_, fun hd => by rw [hrx]; exact a3 hd⟩
    rw [hfl, p5, u2, a2]
    by_cases hd : ((ms + (20 - ms % 20)) % 4294967296) % C.d_output_rate_ms = 0
    · simp [hd]
    · simp [hd, Flags.init]

/-- The first entry of the Observable Set after `apply_rx_clock_offset`: same key, receiver
time moved by the offset. -/
theorem apply_rx_clock_offset_head (D : Consts) (tbl : List (String × StringValue_))
    (k : Int) (o : Gnss_Synchro) (rest : ObsMap) (d : ℚ) :
    ∃ f rest1, (apply_rx_clock_offset D tbl ((k, o) :: rest) d).1 = (k, f) :: rest1 ∧
      f.RX_time = o.RX_time - d := by
  rw [apply_rx_clock_offset_fst]
  exact ⟨_, _, rfl, (apply_rx_clock_offset_one_fields D d _ o).1⟩

theorem sample_t1_observable_set (rate : Nat) (t : ℚ) (script us : List (Bool × ℚ × Bool))
    (t1 : ObsMap) :
    observable_set { sample_config true with d_output_rate_ms := rate } (sample_input t)
        (sample_state_t1 script us t1) =
      (0, sample_input t 0) :: [(1, sample_input t 1), (2, sample_input t 2)] := by
  rw [observable_set_eq _ _ _ rfl]
  exact sample_ingest_map _ script (sample_solver script).core

theorem sample_t1_offset_small (rate : Nat) (t : ℚ) (us : List (Bool × ℚ × Bool))
    (t1 : ObsMap) :
    ¬ offset_too_large { sample_config true with d_output_rate_ms := rate }
      (internal_offset { sample_config true with d_output_rate_ms := rate } scripted_ops
        (sample_input t) (sample_state_t1 [(true, 1 / 5000000, true)] us t1)) := by
  show ¬ offset_too_large _ (1 / 5000000)
  unfold offset_too_large
  norm_num [sample_config, abs_of_pos]

theorem sample_cast_ms (T : Nat) (hT : T < 4294967296) (T0 : ℚ) (hT0 : T0 * 1000 = (T : ℚ)) :
    static_cast_uint32 ((sample_obs 3 "1C" 0 T0 20000000 0).RX_time * 1000) = some T := by
  have h : (sample_obs 3 "1C" 0 T0 20000000 0).RX_time * 1000 = (T : ℚ) := hT0
  rw [h]
  exact static_cast_uint32_natCast T hT

theorem sample_t1_channels (rate : Nat) (script us : List (Bool × ℚ × Bool)) (T0 : ℚ) :
    channels_in_range ({ sample_config true with d_output_rate_ms := rate } : Config).d_nchannels
      (sample_state_t1 script us
        [(0, sample_obs 3 "1C" 0 T0 20000000 0)]).d_gnss_observables_map_t1 := by
  intro p hp
  simp only [sample_state_t1, List.mem_singleton] at hp
  subst hp
  simp [sample_obs, sample_config]

/-- A sample epoch with correction enabled, output period `rate`, a previous snapshot holding
PRN 3 on channel 0 at receiver time `T0` (`T` milliseconds), input items at time `t` and an
internal solve that gives an offset of 2e-7 s: the epoch completes, `current_RX_time_ms` is
`T + (20 - T % 20)` in `uint32_t` arithmetic, `d_rx_time` is that time in seconds when the
output period divides it, `t0` is the previous snapshot and the first entry of `t1` has the
receiver time `t - 2e-7`. -/
theorem sample_enabled_epoch_at (rate : Nat) (hrate : rate ≠ 0) (T : Nat)
    (hT : T < 4294967296) (T0 : ℚ) (hT0 : T0 * 1000 = (T : ℚ)) (t : ℚ)
    (us : List (Bool × ℚ × Bool)) :
    ∃ e, work_epoch gnssConsts { sample_config true with d_output_rate_ms := rate }
        scripted_ops (sample_input t)
        (sample_state_t1 [(true, 1 / 5000000, true)] us
          [(0, sample_obs 3 "1C" 0 T0 20000000 0)]) = some e ∧
      e.fl.current_RX_time_ms = (T + (20 - T % 20)) % 4294967296 ∧
      (e.fl.flag_compute_pvt_output = true ↔ ((T + (20 - T % 20)) % 4294967296) % rate = 0) ∧
      (((T + (20 - T % 20)) % 4294967296) % rate = 0 →
        e.st.d_rx_time = (((T + (20 - T % 20)) % 4294967296 : Nat) : ℚ) / 1000) ∧
      e.st.d_gnss_observables_map_t0 = [(0, sample_obs 3 "1C" 0 T0 20000000 0)] ∧
      ∃ f1 rest1, e.st.d_gnss_observables_map_t1 = (0, f1) :: rest1 ∧
        f1.RX_time = t - 1 / 5000000 := by
  have hset : observable_set { sample_config true with d_output_rate_ms := rate }
      (sample_input t)
      (sample_state_t1 [(true, 1 / 5000000, true)] us
        [(0, sample_obs 3 "1C" 0 T0 20000000 0)]) =
      (0, sample_input t 0) :: [(1, sample_input t 1), (2, sample_input t 2)] := by
    rw [observable_set_eq _ _ _ rfl]
    exact sample_ingest_map _ [(true, 1 / 5000000, true)]
      (sample_solver [(true, 1 / 5000000, true)]).core
  have hne : observable_set { sample_config true with d_output_rate_ms := rate }
      (sample_input t)
      (sample_state_t1 [(true, 1 / 5000000, true)] us
        [(0, sample_obs 3 "1C" 0 T0 20000000 0)]) ≠ [] := by
    rw [hset]; exact List.cons_ne_nil _ _
  have hok : internal_solved { sample_config true with d_output_rate_ms := rate } scripted_ops
      (sample_input t)
      (sample_state_t1 [(true, 1 / 5000000, true)] us
        [(0, sample_obs 3 "1C" 0 T0 20000000 0)]) = true := rfl
  have hoff : internal_offset { sample_config true with d_output_rate_ms := rate }
      scripted_ops (sample_input t)
      (sample_state_t1 [(true, 1 / 5000000, true)] us
        [(0, sample_obs 3 "1C" 0 T0 20000000 0)]) = 1 / 5000000 := rfl
  have hsmall : ¬ offset_too_large { sample_config true with d_output_rate_ms := rate }
      (internal_offset { sample_config true with d_output_rate_ms := rate } scripted_ops
        (sample_input t)
        (sample_state_t1 [(true, 1 / 5000000, true)] us
          [(0, sample_obs 3 "1C" 0 T0 20000000 0)])) := by
    rw [hoff]
    unfold offset_too_large
    norm_num [sample_config, abs_of_pos]
  have hms : static_cast_uint32 ((sample_obs 3 "1C" 0 T0 20000000 0).RX_time * 1000) =
      some T := by
    have h : (sample_obs 3 "1C" 0 T0 20000000 0).RX_time * 1000 = (T : ℚ) := hT0
    rw [h]
    exact static_cast_uint32_natCast T hT
  obtain ⟨e, he⟩ := work_epoch_accepted_enabled_total gnssConsts
    { sample_config true with d_output_rate_ms := rate }
    scripted_ops (sample_input t)
    (sample_state_t1 [(true, 1 / 5000000, true)] us [(0, sample_obs 3 "1C" 0 T0 20000000 0)])
    rfl rfl rfl hne hok hsmall hrate
    (by simp [track_rates_ok, sample_config])
    (sample_input_channels true _)
    (by
      intro p hp
      simp only [sample_state_t1, List.mem_singleton] at hp
      subst hp
      simp [sample_obs, sample_config])
    (by
      intro k f rest h
      simp only [sample_state_t1, List.cons.injEq, Prod.mk.injEq] at h
      obtain ⟨⟨_, hf⟩, _⟩ := h
      subst hf
      exact ⟨_, hms⟩)
  obtain ⟨a1, a2, a3⟩ := work_epoch_alignment gnssConsts
    { sample_config true with d_output_rate_ms := rate } scripted_ops (sample_input t)
    (sample_state_t1 [(true, 1 / 5000000, true)] us [(0, sample_obs 3 "1C" 0 T0 20000000 0)])
    rfl hne hok hsmall hrate 0 (sample_obs 3 "1C" 0 T0 20000000 0) [] rfl T hms e he
  obtain ⟨s1, s2⟩ := (work_epoch_snapshots gnssConsts
    { sample_config true with d_output_rate_ms := rate } scripted_ops (sample_input t)
    (sample_state_t1 [(true, 1 / 5000000, true)] us [(0, sample_obs 3 "1C" 0 T0 20000000 0)])
    e he).1 ⟨rfl, hne, hok, hsmall⟩
  rw [hset, hoff] at s2
  obtain ⟨f1, rest1, hf1, hrx⟩ := apply_rx_clock_offset_head gnssConsts
    (sample_state_t1 [(true, 1 / 5000000, true)] us
      [(0, sample_obs 3 "1C" 0 T0 20000000 0)]).d_mapStringValues 0 (sample_input t 0)
    [(1, sample_input t 1), (2, sample_input t 2)] (1 / 5000000)
  refine ⟨e, he, a1, a2, a3, s1, f1, rest1, s2.trans hf1, ?_⟩
  rw [hrx]
  rfl

/-! ## Claims on the aligned target time -/

/-- Claim C28 as stated fails at the top of the 32-bit range: for a `t0` at 4294967.295 s the
millisecond value 4294967295 fits in 32 bits, `adjust_next_20ms` is 5 and the `uint32_t` sum
wraps to 4, which is neither a multiple of 20 nor greater than the millisecond time of `t0`. -/
theorem aligned_time_wraps_at_uint32_top :
    static_cast_uint32 ((sample_obs 3 "1C" 0 (4294967295 / 1000) 20000000 0).RX_time * 1000) =
        some 4294967295 ∧
      ∃ e, work_epoch gnssConsts { sample_config true with d_output_rate_ms := 1000 }
          scripted_ops (sample_input (4294967320 / 1000))
          (sample_state_t1 [(true, 1 / 5000000, true)] []
            [(0, sample_obs 3 "1C" 0 (4294967295 / 1000) 20000000 0)]) = some e ∧
        e.st.d_gnss_observables_map_t0 =
          [(0, sample_obs 3 "1C" 0 (4294967295 / 1000) 20000000 0)] ∧
        e.fl.current_RX_time_ms = 4 := by
  have hT0 : (4294967295 / 1000 : ℚ) * 1000 = ((4294967295 : Nat) : ℚ) := by norm_num
  constructor
  · have h : (sample_obs 3 "1C" 0 (4294967295 / 1000) 20000000 0).RX_time * 1000 =
        ((4294967295 : Nat) : ℚ) := hT0
    rw [h]
    exact static_cast_uint32_natCast 4294967295 (by norm_num)
  · obtain ⟨e, he, a1, _, _, s1, _⟩ := sample_enabled_epoch_at 1000 (by norm_num) 4294967295
      (by norm_num) (4294967295 / 1000) hT0 (4294967320 / 1000) []
    exact ⟨e, he, s1, a1⟩

/-- A value produced by `static_cast<uint32_t>` is below 2^32. -/
theorem static_cast_uint32_lt (x : ℚ) (ms : Nat) (h : static_cast_uint32 x = some ms) :
    ms < 4294967296 := by
  unfold static_cast_uint32 at h
  dsimp only at h
  generalize (if 0 ≤ x then ⌊x⌋ else ⌈x⌉) = t at h
  split_ifs at h with hr
  simp only [Option.some.injEq] at h
  have h1 : ((ms : Nat) : Int) < 4294967296 := by
    rw [← h, Int.toNat_of_nonneg hr.1]
    exact hr.2
  exact_mod_cast h1

/-- Arithmetic of the alignment below the last multiple of 20 under 2^32, which is
4294967280: the `uint32_t` sum `ms + (20 - ms % 20)` does not wrap and is the next multiple
of 20 strictly after `ms`. -/
theorem next_20ms_boundary (ms : Nat) (hfit : ms < 4294967280) :
    (ms + (20 - ms % 20)) % 4294967296 = ms + (20 - ms % 20) ∧
      20 ∣ ms + (20 - ms % 20) ∧ ms < ms + (20 - ms % 20) ∧
      ms + (20 - ms % 20) ≤ ms + 20 ∧ (ms % 20 = 0 → ms + (20 - ms % 20) = ms + 20) := by
  have hlt : ms % 20 < 20 := Nat.mod_lt _ (by norm_num)
  have hdiv : ms + (20 - ms % 20) = 20 * (ms / 20 + 1) := by
    have := Nat.div_add_mod ms 20
    omega
  refine ⟨Nat.mod_eq_of_lt (by omega), ?_, by omega, by omega, by omega⟩
  rw [hdiv]
  exact Dvd.intro _ rfl

/-- Arithmetic of the alignment from 4294967280 up to 2^32 - 1: the next multiple of 20 is
4294967300, which does not fit, and the `uint32_t` sum `ms + (20 - ms % 20)` is 4. -/
theorem next_20ms_wraps (ms : Nat) (h1 : 4294967280 ≤ ms) (h2 : ms < 4294967296) :
    (ms + (20 - ms % 20)) % 4294967296 = 4 := by
  obtain ⟨r, rfl⟩ := Nat.exists_eq_add_of_le h1
  have hr : r < 16 := by
    have h3 : 4294967280 + r < 4294967280 + 16 := h2
    exact Nat.lt_of_add_lt_add_left h3
  interval_cases r <;> norm_num

/-- Claim C28 (as amended): in an iteration with correction enabled and an accepted offset,
let `ms` be the `uint32_t` value of the receiver time of `t0` in milliseconds; it is below
2^32 and the iteration completes.  If `ms < 4294967280`, `current_RX_time_ms` is a multiple of
20 that is strictly greater than `ms` and at most `ms + 20` (exactly `ms + 20` when `ms` is on
a 20 ms boundary).  If `4294967280 <= ms`, the `uint32_t` sum `t0_int_ms + adjust_next_20ms`
wraps and `current_RX_time_ms` is 4, neither a multiple of 20 nor greater than `ms`.  In both
cases the interpolation branch is taken, raising `flag_compute_pvt_output`, exactly when the
output period divides `current_RX_time_ms`. -/
theorem work_epoch_aligned_target {σ : Type} (D : Consts) (C : Config)
    (ops : SolverOps σ) (inp : Nat → Gnss_Synchro) (s : State σ)
    (hlen : s.d_channel_initialized.length = C.d_nchannels)
    (hlen2 : s.d_initial_carrier_phase_offset_estimation_rads.length = C.d_nchannels)
    (hen : C.d_enable_rx_clock_correction = true)
    (hne : observable_set C inp s ≠ [])
    (hok : internal_solved C ops inp s = true)
    (hsmall : ¬ offset_too_large C (internal_offset C ops inp s))
    (hrate : C.d_output_rate_ms ≠ 0) (htr : track_rates_ok C)
    (hin : ∀ i, i < C.d_nchannels →
      0 ≤ (inp i).Channel_ID ∧ (inp i).Channel_ID < (C.d_nchannels : Int))
    (hch : channels_in_range C.d_nchannels s.d_gnss_observables_map_t1)
    (k : Int) (f : Gnss_Synchro) (rest : ObsMap)
    (ht1 : s.d_gnss_observables_map_t1 = (k, f) :: rest) (ms : Nat)
    (hms : static_cast_uint32 (f.RX_time * 1000) = some ms) :
    ms < 4294967296 ∧
    ∃ e, work_epoch D C ops inp s = some e ∧
      e.st.d_gnss_observables_map_t0 = (k, f) :: rest ∧
      (ms < 4294967280 →
        20 ∣ e.fl.current_RX_time_ms ∧ ms < e.fl.current_RX_time_ms ∧
        e.fl.current_RX_time_ms ≤ ms + 20 ∧
        (ms % 20 = 0 → e.fl.current_RX_time_ms = ms + 20)) ∧
      (4294967280 ≤ ms →
        e.fl.current_RX_time_ms = 4 ∧ ¬ 20 ∣ e.fl.current_RX_time_ms ∧
        ¬ ms < e.fl.current_RX_time_ms) ∧
      (e.fl.flag_compute_pvt_output = true ↔
        e.fl.current_RX_time_ms % C.d_output_rate_ms = 0) := by
  have hlt := static_cast_uint32_lt _ ms hms
  obtain ⟨e, he⟩ := work_epoch_accepted_enabled_total D C ops inp s hlen hlen2 hen hne hok
    hsmall hrate htr hin hch (by
      intro k' f' rest' h'
      rw [ht1] at h'
      simp only [List.cons.injEq, Prod.mk.injEq] at h'
      obtain ⟨⟨_, hf⟩, _⟩ := h'
      subst hf
      exact ⟨ms, hms⟩)
  obtain ⟨a1, a2, _⟩ := work_epoch_alignment D C ops inp s hen hne hok hsmall hrate k f rest
    ht1 ms hms e he
  obtain ⟨s1, _⟩ := (work_epoch_snapshots D C ops inp s e he).1 ⟨hen, hne, hok, hsmall⟩
  rw [← a1] at a2
  refine ⟨hlt, e, he, s1.trans ht1, ?_, ?_, a2⟩
  · intro hfit
    obtain ⟨n1, n2, n3, n4, n5⟩ := next_20ms_boundary ms hfit
    rw [n1] at a1
    rw [a1]
    exact ⟨n2, n3, n4, n5⟩
  · intro hwrap
    rw [next_20ms_wraps ms hwrap hlt] at a1
    rw [a1]
    exact ⟨rfl, by decide, by omega⟩

/-- Evaluation of `work_epoch_aligned_target`: a `t0` at 99.99 s (99990 ms) gives the aligned
time 100000 ms. -/
theorem work_epoch_aligned_target_witness :
    99990 < 4294967296 ∧
    ∃ e, work_epoch gnssConsts { sample_config true with d_output_rate_ms := 1000 }
        scripted_ops (sample_input (10001 / 100))
        (sample_state_t1 [(true, 1 / 5000000, true)] []
          [(0, sample_obs 3 "1C" 0 (9999 / 100) 20000000 0)]) = some e ∧
      e.st.d_gnss_observables_map_t0 = [(0, sample_obs 3 "1C" 0 (9999 / 100) 20000000 0)] ∧
      (99990 < 4294967280 →
        20 ∣ e.fl.current_RX_time_ms ∧ 99990 < e.fl.current_RX_time_ms ∧
        e.fl.current_RX_time_ms ≤ 99990 + 20 ∧
        (99990 % 20 = 0 → e.fl.current_RX_time_ms = 99990 + 20)) ∧
      (4294967280 ≤ 99990 →
        e.fl.current_RX_time_ms = 4 ∧ ¬ 20 ∣ e.fl.current_RX_time_ms ∧
        ¬ 99990 < e.fl.current_RX_time_ms) ∧
      (e.fl.flag_compute_pvt_output = true ↔ e.fl.current_RX_time_ms % 1000 = 0) :=
  work_epoch_aligned_target gnssConsts { sample_config true with d_output_rate_ms := 1000 }
    scripted_ops (sample_input (10001 / 100))
    (sample_state_t1 [(true, 1 / 5000000, true)] []
      [(0, sample_obs 3 "1C" 0 (9999 / 100) 20000000 0)])
    rfl rfl rfl
    (by rw [sample_t1_observable_set]; exact List.cons_ne_nil _ _)
    rfl (sample_t1_offset_small _ _ _ _) (by show (1000 : Nat) ≠ 0; norm_num)
    (by simp [track_rates_ok, sample_config])
    (sample_input_channels true _) (sample_t1_channels _ _ _ _)
    0 (sample_obs 3 "1C" 0 (9999 / 100) 20000000 0) [] rfl 99990
    (sample_cast_ms 99990 (by norm_num) _ (by norm_num))

theorem run_cons {σ : Type} (D : Consts) (C : Config) (ops : SolverOps σ) (c : Call)
    (cs : List Call) (b : Pvt_gs σ) (rs : List (Outcome σ))
    (h : run D C ops (c :: cs) b = some rs) :
    ∃ r rs1, call D C ops c b = some r ∧ run D C ops cs r.after = some rs1 ∧ rs = r :: rs1 := by
  simp only [run] at h
  split at h
  · cases h
  · rename_i r hr
    split at h
    · cases h
    · rename_i rs1 hrs
      cases h
      exact ⟨r, rs1, hr, hrs, rfl⟩

/-- A completed sequence of calls, cut at any point: the outcomes before the cut are those of a
sequence from the start, the outcomes after it those of a sequence from the block left at the
cut. -/
theorem run_append_split {σ : Type} (D : Consts) (C : Config) (ops : SolverOps σ)
    (calls : List Call) :
    ∀ (b : Pvt_gs σ) (pre post : List (Outcome σ)),
      run D C ops calls b = some (pre ++ post) →
      ∃ cs1 cs2, run D C ops cs1 b = some pre ∧
        run D C ops cs2 (block_after b pre) = some post := by
  induction calls with
  | nil =>
    intro b pre post h
    simp only [run, Option.some.injEq] at h
    have hp : pre = [] := (List.append_eq_nil.1 h.symm).1
    have hq : post = [] := (List.append_eq_nil.1 h.symm).2
    subst hp hq
    exact ⟨[], [], rfl, rfl⟩
  | cons c cs ih =>
    intro b pre post h
    obtain ⟨r, rs1, hr, hrs, heq⟩ := run_cons D C ops c cs b _ h
    cases pre with
    | nil =>
      exact ⟨[], c :: cs, rfl, h⟩
    | cons p pre1 =>
      simp only [List.cons_append, List.cons.injEq] at heq
      obtain ⟨hp, hrest⟩ := heq
      subst hp
      rw [← hrest] at hrs
      obtain ⟨cs1, cs2, h1, h2⟩ := ih p.after pre1 post hrs
      refine ⟨c :: cs1, cs2, ?_, h2⟩
      simp only [run, hr, h1]

/-- The outcome `r` that follows the outcomes `pre` in a completed sequence is the outcome of
one call on the block left by `pre`, and the outcomes after it are those of a sequence from
the block that `r` leaves. -/
theorem run_split {σ : Type} (D : Consts) (C : Config) (ops : SolverOps σ)
    (calls : List Call) (b : Pvt_gs σ) (pre post : List (Outcome σ)) (r : Outcome σ)
    (h : run D C ops calls b = some (pre ++ r :: post)) :
    ∃ cs1 c cs2, run D C ops cs1 b = some pre ∧
      call D C ops c (block_after b pre) = some r ∧
      run D C ops cs2 r.after = some post := by
  obtain ⟨cs1, cs2, h1, h2⟩ := run_append_split D C ops calls b pre (r :: post) h
  cases cs2 with
  | nil => simp [run] at h2
  | cons c cs =>
    obtain ⟨r', rs1, hr, hrs, heq⟩ := run_cons D C ops c cs _ _ h2
    simp only [List.cons.injEq] at heq
    obtain ⟨e1, e2⟩ := heq
    subst e1 e2
    exact ⟨cs1, c, cs, h1, hr, hrs⟩

/-- A property of the block that every call preserves holds after every call of a completed
sequence. -/
theorem run_invariant {σ : Type} (D : Consts) (C : Config) (ops : SolverOps σ)
    (P : Pvt_gs σ → Prop)
    (hstep : ∀ c b r, P b → call D C ops c b = some r → P r.after)
    (calls : List Call) :
    ∀ (b : Pvt_gs σ) (rs : List (Outcome σ)), P b → run D C ops calls b = some rs →
      P (block_after b rs) ∧ ∀ r ∈ rs, P r.after := by
  induction calls with
  | nil =>
    intro b rs hb h
    simp only [run, Option.some.injEq] at h
    subst h
    exact ⟨hb, by simp⟩
  | cons c cs ih =>
    intro b rs hb h
    obtain ⟨r, rs1, hr, hrs, heq⟩ := run_cons D C ops c cs b _ h
    subst heq
    have hr' := hstep c b r hb hr
    obtain ⟨i1, i2⟩ := ih r.after rs1 hr' hrs
    refine ⟨i1, ?_⟩
    intro x hx
    rcases List.mem_cons.1 hx with hx | hx
    · subst hx; exact hr'
    · exact i2 x hx

/-! ## What one call changes -/

/-- `msg_handler_telemetry` writes the two solver objects and no other member. -/
theorem msg_handler_telemetry_frame {σ : Type} (C : Config) (hw : Bool) (msg : Ephemeris_msg)
    (s : State σ) :
    ∃ i u, (msg_handler_telemetry C hw msg s).1 =
      { s with d_internal_pvt_solver := i, d_user_pvt_solver := u } := by
  cases msg <;>
    simp only [msg_handler_telemetry, msg_handler_gps_ephemeris, msg_handler_gps_cnav_ephemeris,
      msg_handler_galileo_ephemeris, msg_handler_glonass_gnav_ephemeris,
      msg_handler_beidou_dnav_ephemeris] <;>
    split_ifs <;> exact ⟨_, _, rfl⟩

theorem assign_both_frame {σ : Type} (C : Config) (set : Rtklib_Solver σ → Rtklib_Solver σ)
    (s : State σ) :
    ∃ i u, assign_both C set s = { s with d_internal_pvt_solver := i, d_user_pvt_solver := u } := by
  unfold assign_both
  split_ifs <;> exact ⟨_, _, rfl⟩

theorem msg_handler_telemetry_all_frame {σ : Type} (C : Config) (hw : Bool)
    (msg : Telemetry_msg) (s : State σ) :
    ∃ i u, (msg_handler_telemetry_all C hw msg s).1 =
      { s with d_internal_pvt_solver := i, d_user_pvt_solver := u } := by
  cases msg with
  | ephemeris m => exact msg_handler_telemetry_frame C hw m s
  | gps_cnav_utc_model r =>
    simp only [msg_handler_telemetry_all, update_user]
    split_ifs <;> exact ⟨_, _, rfl⟩
  | galileo_almanac_helper sv1 sv2 sv3 =>
    simp only [msg_handler_telemetry_all]
    have step : ∀ (a : Galileo_Almanac) (x : State σ),
        (∃ i u, x = { s with d_internal_pvt_solver := i, d_user_pvt_solver := u }) →
        ∃ i u, (if a.i_satellite_PRN ≠ 0 then assign_both C (assign_galileo_almanac a) x
          else x) = { s with d_internal_pvt_solver := i, d_user_pvt_solver := u } := by
      intro a x hx
      split_ifs
      · obtain ⟨i, u, h⟩ := assign_both_frame C (assign_galileo_almanac a) x
        obtain ⟨i0, u0, h0⟩ := hx
        rw [h, h0]
        exact ⟨_, _, rfl⟩
      · exact hx
    exact step sv3 _ (step sv2 _ (step sv1 s ⟨_, _, rfl⟩))
  | unknown => exact ⟨_, _, rfl⟩
  | _ =>
    simp only [msg_handler_telemetry_all]
    exact assign_both_frame C _ s

/-- The ephemeris branches call `log_rinex_nav` only under `if (d_rinex_header_written)`. -/
theorem msg_handler_telemetry_all_no_logs {σ : Type} (C : Config) (msg : Telemetry_msg)
    (s : State σ) : (msg_handler_telemetry_all C false msg s).2 = [] := by
  cases msg with
  | ephemeris m =>
    cases m <;>
      simp [msg_handler_telemetry_all, msg_handler_telemetry, msg_handler_gps_ephemeris,
        msg_handler_gps_cnav_ephemeris, msg_handler_galileo_ephemeris,
        msg_handler_glonass_gnav_ephemeris, msg_handler_beidou_dnav_ephemeris]
  | _ => rfl

/-- The outcome of a call that is not an iteration of `work`: no epoch context, the flag
`d_rinex_header_written` as before, and only the solver objects and `d_gnss_observables_map`
written. -/
theorem call_other {σ : Type} (D : Consts) (C : Config) (ops : SolverOps σ) (c : Call)
    (b : Pvt_gs σ) (r : Outcome σ) (h : call D C ops c b = some r)
    (hc : ∀ inp, c ≠ Call.work_epoch inp) :
    r.epoch = none ∧ r.after.d_rinex_header_written = b.d_rinex_header_written ∧
      ∃ i u m, r.after.st =
        { b.st with d_internal_pvt_solver := i, d_user_pvt_solver := u,
                    d_gnss_observables_map := m } := by
  cases c with
  | work_epoch inp => exact absurd rfl (hc inp)
  | msg_handler_telemetry msg =>
    obtain ⟨i, u, hf⟩ := msg_handler_telemetry_all_frame C b.d_rinex_header_written msg b.st
    simp only [call] at h
    split at h
    · cases h
      exact ⟨rfl, rfl, i, u, b.st.d_gnss_observables_map, hf⟩
    · cases h
    · cases h
      exact ⟨rfl, rfl, i, u, b.st.d_gnss_observables_map, hf⟩
  | clear_ephemeris =>
    obtain ⟨i, u, hf⟩ := assign_both_frame C clear_maps b.st
    simp only [call, Option.some.injEq] at h
    subst h
    exact ⟨rfl, rfl, i, u, b.st.d_gnss_observables_map, hf⟩
  | load_gnss_synchro_map_xml m =>
    simp only [call, Option.some.injEq] at h
    subst h
    exact ⟨rfl, rfl, _, _, m, rfl⟩

/-- The outcome of a call that is an iteration of `work`. -/
theorem call_work_epoch {σ : Type} (D : Consts) (C : Config) (ops : SolverOps σ)
    (inp : Nat → Gnss_Synchro) (b : Pvt_gs σ) (r : Outcome σ)
    (h : call D C ops (Call.work_epoch inp) b = some r) :
    ∃ e, work_epoch D C ops inp b.st = some e ∧ r.epoch = some e ∧ r.after.st = e.st ∧
      r.logs = [] ∧
      r.after.d_rinex_header_written =
        (if output_branch C ops e then
          rinex_header_block C (user_solver C e.st) b.d_rinex_header_written
        else b.d_rinex_header_written) := by
  simp only [call] at h
  split at h
  · cases h
  · rename_i e he
    cases h
    exact ⟨e, he, rfl, rfl, rfl, rfl⟩

theorem call_work_epoch_eq {σ : Type} (D : Consts) (C : Config) (ops : SolverOps σ)
    (inp : Nat → Gnss_Synchro) (b : Pvt_gs σ) (e : Epoch σ)
    (h : work_epoch D C ops inp b.st = some e) :
    ∃ r, call D C ops (Call.work_epoch inp) b = some r ∧ r.epoch = some e ∧
      r.after.st = e.st := by
  simp only [call, h]
  exact ⟨_, rfl, rfl, rfl⟩

theorem run_single {σ : Type} (D : Consts) (C : Config) (ops : SolverOps σ) (c : Call)
    (b : Pvt_gs σ) (r : Outcome σ) (h : call D C ops c b = some r) :
    run D C ops [c] b = some [r] := by
  simp only [run, h]

theorem call_cases {σ : Type} (D : Consts) (C : Config) (ops : SolverOps σ) (c : Call)
    (b : Pvt_gs σ) (r : Outcome σ) (h : call D C ops c b = some r) :
    (∃ inp e, work_epoch D C ops inp b.st = some e ∧ r.epoch = some e ∧ r.after.st = e.st ∧
      r.after.d_rinex_header_written =
        (if output_branch C ops e then
          rinex_header_block C (user_solver C e.st) b.d_rinex_header_written
        else b.d_rinex_header_written)) ∨
    (r.epoch = none ∧ r.after.d_rinex_header_written = b.d_rinex_header_written ∧
      ∃ i u m, r.after.st =
        { b.st with d_internal_pvt_solver := i, d_user_pvt_solver := u,
                    d_gnss_observables_map := m }) := by
  cases c with
  | work_epoch inp =>
    obtain ⟨e, h1, h2, h3, _, h5⟩ := call_work_epoch D C ops inp b r h
    exact Or.inl ⟨inp, e, h1, h2, h3, h5⟩
  | msg_handler_telemetry msg => exact Or.inr (call_other D C ops _ b r h (by intro _ hx; cases hx))
  | clear_ephemeris => exact Or.inr (call_other D C ops _ b r h (by intro _ hx; cases hx))
  | load_gnss_synchro_map_xml m =>
    exact Or.inr (call_other D C ops _ b r h (by intro _ hx; cases hx))

theorem track_logs_no_report (C : Config) (ms : Nat) :
    (track_logs C ms).count Event.send_sys_v_ttff_msg = 0 := by
  rw [List.count_eq_zero]
  intro hmem
  have := track_logs_block C ms _ hmem
  unfold track_logs at hmem
  simp only [List.mem_append] at hmem
  rcases hmem with ((hmem | hmem) | hmem) | hmem <;> split_ifs at hmem <;> simp at hmem

/-- The first-fix flag and the first-fix report in one call: an iteration of `work` that takes
the output branch clears the flag and, if the flag was set, sends the report once; every other
call leaves the flag alone and sends no report. -/
theorem call_first_fix {σ : Type} (D : Consts) (C : Config) (ops : SolverOps σ) (c : Call)
    (b : Pvt_gs σ) (r : Outcome σ) (h : call D C ops c b = some r) :
    r.after.st.d_first_fix = (if r.output_branch C ops then false else b.st.d_first_fix) ∧
      r.ev.count Event.send_sys_v_ttff_msg =
        (if r.output_branch C ops ∧ b.st.d_first_fix = true then 1 else 0) := by
  rcases call_cases D C ops c b r h with ⟨inp, e, he, hep, hst, _⟩ | ⟨hep, _, i, u, m, hst⟩
  · obtain ⟨_, g2, g3, _⟩ := work_epoch_gating D C ops inp b.st e he
    have hcount : e.ev.count Event.send_sys_v_ttff_msg =
        (calls_of Block.output e.ev).count Event.send_sys_v_ttff_msg := by
      unfold calls_of
      rw [List.count_filter]
      rfl
    simp only [Outcome.output_branch, Outcome.ev, hep, hst]
    refine ⟨g2, ?_⟩
    rw [hcount, g3]
    by_cases hb : output_branch C ops e
    · rw [if_pos hb, List.count_append, track_logs_no_report]
      by_cases hff : b.st.d_first_fix = true
      · rw [if_pos hff, if_pos ⟨hb, hff⟩]
        rfl
      · rw [if_neg hff, if_neg (fun hx => hff hx.2)]
        rfl
    · rw [if_neg hb, if_neg (fun hx => hb hx.1)]
      rfl
  · simp only [Outcome.output_branch, Outcome.ev, hep, hst]
    simp

theorem display_block_baselines {σ : Type} (C : Config) (ops : SolverOps σ) (e : Epoch σ) :
    (display_block C ops e).st.d_pps_init_offset = e.st.d_pps_init_offset ∧
      (display_block C ops e).st.d_LO_external_frequ_init = e.st.d_LO_external_frequ_init := by
  unfold display_block
  split_ifs
  · obtain ⟨_, _, _, _, a, b, _⟩ := pps_controller_members C ops e
    exact ⟨a, b⟩
  · exact ⟨rfl, rfl⟩
  · exact ⟨rfl, rfl⟩

/-- The baselines of the controller after a completed iteration: assigned when the iteration
takes the output branch with `d_first_fix` and `d_PPS_correction` set, to the clock offset of
the user solution and to the set-point at the start of the iteration; left alone otherwise. -/
theorem work_epoch_baselines {σ : Type} (D : Consts) (C : Config) (ops : SolverOps σ)
    (inp : Nat → Gnss_Synchro) (s : State σ) (e : Epoch σ)
    (h : work_epoch D C ops inp s = some e) :
    e.st.d_pps_init_offset =
        (if output_branch C ops e ∧ s.d_first_fix = true ∧ C.d_PPS_correction = true then
          ops.get_time_offset_s (user_solver C e.st).core else s.d_pps_init_offset) ∧
      e.st.d_LO_external_frequ_init =
        (if output_branch C ops e ∧ s.d_first_fix = true ∧ C.d_PPS_correction = true then
          s.d_LO_external_frequ else s.d_LO_external_frequ_init) := by
  obtain ⟨e2, hst, _, _, _, hcs⟩ := work_epoch_display_context D C ops inp s e h
  obtain ⟨d1, d2⟩ := display_block_baselines C ops e2
  have a1 : e.st.d_pps_init_offset = e2.st.d_pps_init_offset := by rw [hst, d1]
  have a2 : e.st.d_LO_external_frequ_init = e2.st.d_LO_external_frequ_init := by rw [hst, d2]
  rw [a1, a2]
  split_ifs at hcs ⊢ <;>
    simp only [controller_state, List.cons.injEq, and_true] at hcs <;>
    exact ⟨hcs.1, hcs.2.2.2.2.2.2.2⟩

/-- The baselines of the controller in one call. -/
theorem call_baselines {σ : Type} (D : Consts) (C : Config) (ops : SolverOps σ) (c : Call)
    (b : Pvt_gs σ) (r : Outcome σ) (h : call D C ops c b = some r) :
    r.after.st.d_pps_init_offset =
        (if r.output_branch C ops ∧ b.st.d_first_fix = true ∧ C.d_PPS_correction = true then
          ops.get_time_offset_s (user_solver C r.after.st).core else b.st.d_pps_init_offset) ∧
      r.after.st.d_LO_external_frequ_init =
        (if r.output_branch C ops ∧ b.st.d_first_fix = true ∧ C.d_PPS_correction = true then
          b.st.d_LO_external_frequ else b.st.d_LO_external_frequ_init) := by
  rcases call_cases D C ops c b r h with ⟨inp, e, he, hep, hst, _⟩ | ⟨hep, _, i, u, m, hst⟩
  · simp only [Outcome.output_branch, hep, hst]
    exact work_epoch_baselines D C ops inp b.st e he
  · simp only [Outcome.output_branch, hep, hst]
    simp

/-- A call that issues a `FREQ` command is an iteration of `work` whose controller runs; it
took the output branch, so it leaves `d_first_fix` cleared. -/
theorem call_controller {σ : Type} (D : Consts) (C : Config) (ops : SolverOps σ) (c : Call)
    (b : Pvt_gs σ) (r : Outcome σ) (h : call D C ops c b = some r)
    (hrun : calls_of Block.display r.ev ≠ []) :
    r.output_branch C ops ∧ r.after.st.d_first_fix = false := by
  rcases call_cases D C ops c b r h with ⟨inp, e, he, hep, hst, _⟩ | ⟨hep, _, i, u, m, hst⟩
  · simp only [Outcome.output_branch, Outcome.ev, hep, hst] at hrun ⊢
    obtain ⟨_, _, _, g4, _⟩ := work_epoch_gating D C ops inp b.st e he
    have hc : controller_runs C ops e := by
      by_contra hc
      rw [g4, if_neg hc] at hrun
      exact hrun rfl
    exact controller_runs_output_branch D C ops inp b.st e he hc
  · simp only [Outcome.ev, hep] at hrun
    exact absurd rfl hrun

/-- The first-fix flag after a completed sequence of calls: still set exactly when it was set
at the start and no call took the output branch. -/
theorem run_first_fix_flag {σ : Type} (D : Consts) (C : Config) (ops : SolverOps σ)
    (calls : List Call) :
    ∀ (b : Pvt_gs σ) (rs : List (Outcome σ)), run D C ops calls b = some rs →
      ((block_after b rs).st.d_first_fix = true ↔
        b.st.d_first_fix = true ∧ ∀ x ∈ rs, ¬ x.output_branch C ops) := by
  induction calls with
  | nil =>
    intro b rs h
    simp only [run, Option.some.injEq] at h
    subst h
    simp [block_after]
  | cons c cs ih =>
    intro b rs h
    obtain ⟨r, rs1, hr, hrs, heq⟩ := run_cons D C ops c cs b _ h
    subst heq
    obtain ⟨f1, _⟩ := call_first_fix D C ops c b r hr
    have hfold : block_after b (r :: rs1) = block_after r.after rs1 := rfl
    rw [hfold, ih r.after rs1 hrs, f1]
    by_cases hb : r.output_branch C ops
    · simp [hb]
    · simp [hb]

theorem run_first_fix_cleared {σ : Type} (D : Consts) (C : Config) (ops : SolverOps σ)
    (calls : List Call) (b : Pvt_gs σ) (rs : List (Outcome σ))
    (hb : b.st.d_first_fix = false) (h : run D C ops calls b = some rs) :
    (block_after b rs).st.d_first_fix = false ∧
      ∀ x ∈ rs, x.after.st.d_first_fix = false ∧ Event.send_sys_v_ttff_msg ∉ x.ev ∧
        x.after.st.d_pps_init_offset = b.st.d_pps_init_offset ∧
        x.after.st.d_LO_external_frequ_init = b.st.d_LO_external_frequ_init := by
  have hinv := run_invariant D C ops
    (fun y => y.st.d_first_fix = false ∧ y.st.d_pps_init_offset = b.st.d_pps_init_offset ∧
      y.st.d_LO_external_frequ_init = b.st.d_LO_external_frequ_init)
    (by
      intro c y r hy hc
      obtain ⟨f1, _⟩ := call_first_fix D C ops c y r hc
      obtain ⟨b1, b2⟩ := call_baselines D C ops c y r hc
      have hn : ¬ (r.output_branch C ops ∧ y.st.d_first_fix = true ∧
          C.d_PPS_correction = true) := by
        intro hx
        rw [hy.1] at hx
        cases hx.2.1
      rw [if_neg hn] at b1 b2
      refine ⟨?_, b1.trans hy.2.1, b2.trans hy.2.2⟩
      rw [f1]
      split_ifs
      · rfl
      · exact hy.1)
    calls b rs ⟨hb, rfl, rfl⟩ h
  refine ⟨hinv.1.1, ?_⟩
  intro x hx
  obtain ⟨p1, p2, hsplit⟩ := List.append_of_mem hx
  rw [hsplit] at h
  obtain ⟨cs1, c, cs2, h1, hc, _⟩ := run_split D C ops calls b p1 p2 x h
  have hbefore := (run_invariant D C ops (fun y => y.st.d_first_fix = false)
    (by
      intro c y r hy hc
      obtain ⟨f1, _⟩ := call_first_fix D C ops c y r hc
      rw [f1]
      split_ifs
      · rfl
      · exact hy)
    cs1 b p1 hb h1).1
  obtain ⟨_, f2⟩ := call_first_fix D C ops c _ x hc
  have hno : Event.send_sys_v_ttff_msg ∉ x.ev := by
    rw [← List.count_eq_zero, f2, if_neg]
    intro hx2
    rw [hbefore] at hx2
    cases hx2.2
  exact ⟨(hinv.2 x hx).1, hno, (hinv.2 x hx).2⟩

/-! ## Claim on the first-fix report -/

/-- Claim C23 (as amended): over every completed sequence of calls on the block, the first-fix
report is sent in a call exactly when `d_first_fix` was set at the start of the sequence, no
earlier call took the output branch, and the call is an iteration of `work` that takes the
output branch (`flag_pvt_valid` set and, with correction enabled, a residual offset of the
user solution of at most 1 microsecond), whatever the rate periods; it is sent at most once in
the call.  `d_first_fix` is still set after a call exactly when it was set at the start and
neither the call nor an earlier one took the output branch; once it is `false` it stays
`false` and no later call sends the report. -/
theorem run_first_fix_report {σ : Type} (D : Consts) (C : Config) (ops : SolverOps σ)
    (calls : List Call) (b : Pvt_gs σ) (pre post : List (Outcome σ)) (r : Outcome σ)
    (h : run D C ops calls b = some (pre ++ r :: post)) :
    (Event.send_sys_v_ttff_msg ∈ r.ev ↔
      b.st.d_first_fix = true ∧ (∀ x ∈ pre, ¬ x.output_branch C ops) ∧
        r.output_branch C ops) ∧
    r.ev.count Event.send_sys_v_ttff_msg ≤ 1 ∧
    (r.after.st.d_first_fix = true ↔
      b.st.d_first_fix = true ∧ (∀ x ∈ pre, ¬ x.output_branch C ops) ∧
        ¬ r.output_branch C ops) ∧
    (r.after.st.d_first_fix = false →
      ∀ x ∈ post, x.after.st.d_first_fix = false ∧ Event.send_sys_v_ttff_msg ∉ x.ev) := by
  obtain ⟨cs1, c, cs2, h1, hc, h2⟩ := run_split D C ops calls b pre post r h
  have hflag := run_first_fix_flag D C ops cs1 b pre h1
  obtain ⟨f1, f2⟩ := call_first_fix D C ops c _ r hc
  refine ⟨?_, ?_, ?_, ?_⟩
  · rw [← List.count_pos_iff, f2]
    by_cases hb : r.output_branch C ops ∧ (block_after b pre).st.d_first_fix = true
    · rw [if_pos hb]
      simp only [Nat.lt_one_iff, pos_of_gt, true_iff]
      exact ⟨(hflag.1 hb.2).1, (hflag.1 hb.2).2, hb.1⟩
    · rw [if_neg hb]
      simp only [lt_self_iff_false, false_iff]
      intro hx
      exact hb ⟨hx.2.2, hflag.2 ⟨hx.1, hx.2.1⟩⟩
  · rw [f2]
    split_ifs <;> omega
  · rw [f1]
    by_cases hb : r.output_branch C ops
    · rw [if_pos hb]
      simp [hb]
    · rw [if_neg hb, hflag]
      simp [hb]
  · intro hf x hx
    obtain ⟨_, hall⟩ := run_first_fix_cleared D C ops cs2 r.after post hf h2
    exact ⟨(hall x hx).1, (hall x hx).2.1⟩

/-- Evaluation of `run_first_fix_report`: with correction enabled and a user solution whose
residual offset is 2e-7 s, the sample iteration takes the output branch and sends the first-fix
report. -/
theorem run_first_fix_report_witness :
    ∃ r, run gnssConsts (sample_config true) scripted_ops
        [Call.work_epoch (sample_input (10001 / 100))]
        ⟨sample_state_t1 [(true, 1 / 5000000, true)] [(true, 1 / 5000000, true)] sample_t1, false⟩ = some [r] ∧
      Event.send_sys_v_ttff_msg ∈ r.ev := by
  obtain ⟨e, he, _, hv, _, hoff, _⟩ := sample_enabled_epoch (1 / 5000000)
  have hb : output_branch (sample_config true) scripted_ops e := by
    refine ⟨hv, ?_⟩
    intro hx
    have := hx.2
    rw [hoff] at this
    norm_num [abs_of_pos] at this
  obtain ⟨r, hcall, hep, _⟩ := call_work_epoch_eq gnssConsts (sample_config true) scripted_ops
    (sample_input (10001 / 100))
    ⟨sample_state_t1 [(true, 1 / 5000000, true)] [(true, 1 / 5000000, true)] sample_t1, false⟩
    e he
  have hrun := run_single _ _ _ _ _ _ hcall
  have hbr : r.output_branch (sample_config true) scripted_ops := by
    simp only [Outcome.output_branch, hep]
    exact hb
  exact ⟨r, hrun, (run_first_fix_report gnssConsts (sample_config true) scripted_ops _ _ [] []
    r hrun).1.2 ⟨rfl, by simp, hbr⟩⟩

/-- Claim C23 as stated fails: with receiver-clock correction enabled, the first iteration
whose user solve succeeds (`flag_compute_pvt_output` and `flag_pvt_valid` end `true`) sends no
first-fix report when the clock offset of the user solution is 1 ms, above the 1 microsecond
bound of the residual test, and `d_first_fix` stays `true`. -/
theorem run_first_fix_not_reported :
    ∃ r e, run gnssConsts (sample_config true) scripted_ops
        [Call.work_epoch (sample_input (10001 / 100))]
        ⟨sample_state_t1 [(true, 1 / 5000000, true)] [(true, 1 / 1000, true)] sample_t1, false⟩ = some [r] ∧
      r.epoch = some e ∧ e.fl.flag_compute_pvt_output = true ∧ e.fl.flag_pvt_valid = true ∧
      Event.get_PVT_user ∈ e.ev ∧
      Event.send_sys_v_ttff_msg ∉ r.ev ∧ r.after.st.d_first_fix = true := by
  obtain ⟨e, he, hc, hv, _, hoff, _⟩ := sample_enabled_epoch (1 / 1000)
  have hb : ¬ output_branch (sample_config true) scripted_ops e := by
    intro hb
    apply hb.2
    refine ⟨rfl, ?_⟩
    rw [hoff]
    norm_num [abs_of_pos]
  obtain ⟨r, hcall, hep, _⟩ := call_work_epoch_eq gnssConsts (sample_config true) scripted_ops
    (sample_input (10001 / 100))
    ⟨sample_state_t1 [(true, 1 / 5000000, true)] [(true, 1 / 1000, true)] sample_t1, false⟩
    e he
  obtain ⟨f1, f2⟩ := call_first_fix gnssConsts (sample_config true) scripted_ops _ _ _ hcall
  have hnb : ¬ r.output_branch (sample_config true) scripted_ops := by
    simp only [Outcome.output_branch, hep]
    exact hb
  rw [if_neg hnb] at f1
  rw [if_neg (fun hx => hnb hx.1)] at f2
  have huser : Event.get_PVT_user ∈ e.ev := by
    obtain ⟨e0, hread, hcase⟩ := work_epoch_cases gnssConsts (sample_config true) scripted_ops
      (sample_input (10001 / 100))
      (sample_state_t1 [(true, 1 / 5000000, true)] [(true, 1 / 1000, true)] sample_t1) e he
    obtain ⟨r1, _⟩ := read_pseudoranges_view _ _ _ e0 hread
    rcases hcase with ⟨_, hx⟩ | ⟨_, e1, e2, h1, h2, hx⟩
    · subst hx
      rw [r1] at hc
      cases hc
    · obtain ⟨_, _, _, _, p5, _⟩ := pvt_valid_block_locals _ _ _ _ _ h2
      obtain ⟨_, xp, hxp, _⟩ := pvt_valid_block_frame _ _ _ _ _ h2
      obtain ⟨d1, _, _, _, d5, _⟩ := display_block_calls (sample_config true) scripted_ops e2
      obtain ⟨_, m2, xm, hxm, _⟩ := pvt_monitor_calls (sample_config true) scripted_ops
        (display_block (sample_config true) scripted_ops e2)
      have hc1 : (user_solve (sample_config true) scripted_ops e1).fl.flag_compute_pvt_output =
          true := by
        rw [← p5, ← d1, ← m2, ← hx]
        exact hc
      have hc0 : e1.fl.flag_compute_pvt_output = true := by
        rw [(user_solve_rx_time (sample_config true) scripted_ops e1).2.1] at hc1
        exact hc1
      have hu : (user_solve (sample_config true) scripted_ops e1).ev =
          e1.ev ++ [Event.get_PVT_user] := by
        unfold user_solve
        rw [if_pos hc0]
      rw [hx, hxm, d5, hxp, hu]
      simp
  refine ⟨r, e, run_single _ _ _ _ _ _ hcall, hep, hc, hv, huser, ?_, f1⟩
  rw [← List.count_eq_zero]
  exact f2

/-! ## Claim on the baselines of the oscillator controller -/

/-- Claim C26: with `d_PPS_correction` set, in every completed sequence of calls on the block
(iterations of `work`, messages, `clear_ephemeris`, `load_gnss_synchro_map_xml`), the call in
which `d_first_fix` goes from `true` to `false`, an iteration of `work` that takes the output
branch, assigns `d_pps_init_offset` the clock offset of the user solution and
`d_LO_external_frequ_init` the set-point at the start of the iteration; once `d_first_fix` is
`false` no later call changes either baseline; and a call in which the controller runs (a
`FREQ` command is issued) leaves `d_first_fix` at `false`, so no correction is computed before
the flag has gone from `true` to `false`. -/
theorem run_baselines {σ : Type} (D : Consts) (C : Config) (ops : SolverOps σ)
    (calls : List Call) (b : Pvt_gs σ) (pre post : List (Outcome σ)) (r : Outcome σ)
    (hpps : C.d_PPS_correction = true)
    (h : run D C ops calls b = some (pre ++ r :: post)) :
    ((block_after b pre).st.d_first_fix = true → r.after.st.d_first_fix = false →
      r.output_branch C ops ∧
      r.after.st.d_pps_init_offset = ops.get_time_offset_s (user_solver C r.after.st).core ∧
      r.after.st.d_LO_external_frequ_init = (block_after b pre).st.d_LO_external_frequ) ∧
    (r.after.st.d_first_fix = false →
      ∀ x ∈ post, x.after.st.d_first_fix = false ∧
        x.after.st.d_pps_init_offset = r.after.st.d_pps_init_offset ∧
        x.after.st.d_LO_external_frequ_init = r.after.st.d_LO_external_frequ_init) ∧
    (calls_of Block.display r.ev ≠ [] → r.after.st.d_first_fix = false) := by
  obtain ⟨cs1, c, cs2, h1, hc, h2⟩ := run_split D C ops calls b pre post r h
  obtain ⟨f1, _⟩ := call_first_fix D C ops c _ r hc
  obtain ⟨b1, b2⟩ := call_baselines D C ops c _ r hc
  refine ⟨?_, ?_, ?_⟩
  · intro hff hafter
    have hb : r.output_branch C ops := by
      by_contra hb
      rw [if_neg hb, hff] at f1
      rw [f1] at hafter
      cases hafter
    rw [if_pos ⟨hb, hff, hpps⟩] at b1 b2
    exact ⟨hb, b1, b2⟩
  · intro hf x hx
    obtain ⟨_, hall⟩ := run_first_fix_cleared D C ops cs2 r.after post hf h2
    exact ⟨(hall x hx).1, (hall x hx).2.2⟩
  · intro hrun
    exact (call_controller D C ops c _ r hc hrun).2

/-- Evaluation of `run_baselines`: the sample iteration with oscillator control on takes the
first fix, and a message that follows leaves the baselines alone. -/
theorem run_baselines_witness :
    ∃ r x, run gnssConsts (sample_config_with 500 true 1 0) scripted_ops
        [Call.work_epoch (sample_input (10001 / 100)),
          Call.msg_handler_telemetry (Telemetry_msg.gps_iono ⟨[1]⟩)]
        ⟨sample_state_t1 [(true, 1 / 5000000, true)] [(true, 1 / 2000000, true)] sample_t1,
          false⟩ = some [r, x] ∧
      r.after.st.d_first_fix = false ∧ r.after.st.d_pps_init_offset = 1 / 2000000 ∧
      r.after.st.d_LO_external_frequ_init = 10000000 ∧
      x.after.st.d_pps_init_offset = r.after.st.d_pps_init_offset ∧
      x.after.st.d_LO_external_frequ_init = r.after.st.d_LO_external_frequ_init := by
  obtain ⟨e, he, _, hv, _, hoff, _⟩ := sample_enabled_epoch_with 500 true 1 0 (1 / 2000000)
  have hb : output_branch (sample_config_with 500 true 1 0) scripted_ops e := by
    refine ⟨hv, ?_⟩
    intro hx
    have := hx.2
    rw [hoff] at this
    norm_num [abs_of_pos] at this
  obtain ⟨r, hcall, hep, hst⟩ := call_work_epoch_eq gnssConsts (sample_config_with 500 true 1 0)
    scripted_ops (sample_input (10001 / 100))
    ⟨sample_state_t1 [(true, 1 / 5000000, true)] [(true, 1 / 2000000, true)] sample_t1, false⟩
    e he
  have hbr : r.output_branch (sample_config_with 500 true 1 0) scripted_ops := by
    simp only [Outcome.output_branch, hep]
    exact hb
  obtain ⟨f1, _⟩ := call_first_fix gnssConsts (sample_config_with 500 true 1 0) scripted_ops
    _ _ _ hcall
  rw [if_pos hbr] at f1
  have hx : ∃ x, call gnssConsts (sample_config_with 500 true 1 0) scripted_ops
      (Call.msg_handler_telemetry (Telemetry_msg.gps_iono ⟨[1]⟩)) r.after = some x :=
    ⟨_, rfl⟩
  obtain ⟨x, hxc⟩ := hx
  have hrun : run gnssConsts (sample_config_with 500 true 1 0) scripted_ops
      [Call.work_epoch (sample_input (10001 / 100)),
        Call.msg_handler_telemetry (Telemetry_msg.gps_iono ⟨[1]⟩)]
      ⟨sample_state_t1 [(true, 1 / 5000000, true)] [(true, 1 / 2000000, true)] sample_t1,
        false⟩ = some ([] ++ r :: [x]) := by
    simp only [run, hcall, hxc]
    rfl
  obtain ⟨t1, t2, _⟩ := run_baselines gnssConsts (sample_config_with 500 true 1 0)
    scripted_ops _ _ [] [x] r rfl hrun
  obtain ⟨_, u1, u2⟩ := t1 rfl f1
  obtain ⟨_, v1, v2⟩ := t2 f1 x (by simp)
  refine ⟨r, x, hrun, f1, ?_, u2, v1, v2⟩
  rw [u1, hst]
  exact hoff

/-! ## Claim on the interpolation snapshots -/

/-- The snapshots in one call with correction disabled: left alone. -/
theorem call_snapshots_disabled {σ : Type} (D : Consts) (C : Config) (ops : SolverOps σ)
    (hdis : C.d_enable_rx_clock_correction = false) (c : Call)
    (b : Pvt_gs σ) (r : Outcome σ) (h : call D C ops c b = some r) :
    r.after.st.d_gnss_observables_map_t0 = b.st.d_gnss_observables_map_t0 ∧
      r.after.st.d_gnss_observables_map_t1 = b.st.d_gnss_observables_map_t1 := by
  rcases call_cases D C ops c b r h with ⟨inp, e, he, _, hst, _⟩ | ⟨_, _, i, u, m, hst⟩
  · rw [hst]
    refine (work_epoch_snapshots D C ops inp b.st e he).2 ?_
    intro hx
    rw [hdis] at hx
    cases hx.1
  · rw [hst]
    exact ⟨rfl, rfl⟩

/-- Claim C27: a completed iteration of `work` changes the snapshots `t0` and `t1` only when
receiver-clock correction is enabled, the Observable Set is not empty, the internal solve
succeeds and the offset is within tolerance; then the new `t0` is the old `t1` and the new
`t1` is the Observable Set after `apply_rx_clock_offset` (before any interpolation).  In
every other iteration both are as before.  With correction disabled no call on the block
changes them, so snapshots that start empty stay empty over every sequence of calls. -/
theorem work_epoch_snapshot_update {σ : Type} (D : Consts) (C : Config) (ops : SolverOps σ)
    (inp : Nat → Gnss_Synchro) (s : State σ) (e : Epoch σ)
    (h : work_epoch D C ops inp s = some e) :
    (C.d_enable_rx_clock_correction = true ∧ observable_set C inp s ≠ [] ∧
        internal_solved C ops inp s = true ∧
        ¬ offset_too_large C (internal_offset C ops inp s) →
      e.st.d_gnss_observables_map_t0 = s.d_gnss_observables_map_t1 ∧
      e.st.d_gnss_observables_map_t1 =
        (apply_rx_clock_offset D s.d_mapStringValues (observable_set C inp s)
          (internal_offset C ops inp s)).1) ∧
    (¬ (C.d_enable_rx_clock_correction = true ∧ observable_set C inp s ≠ [] ∧
        internal_solved C ops inp s = true ∧
        ¬ offset_too_large C (internal_offset C ops inp s)) →
      e.st.d_gnss_observables_map_t0 = s.d_gnss_observables_map_t0 ∧
      e.st.d_gnss_observables_map_t1 = s.d_gnss_observables_map_t1) ∧
    (C.d_enable_rx_clock_correction = false →
      ∀ (calls : List Call) (b : Pvt_gs σ) (rs : List (Outcome σ)),
        b.st.d_gnss_observables_map_t0 = [] → b.st.d_gnss_observables_map_t1 = [] →
        run D C ops calls b = some rs →
        ∀ r ∈ rs, r.after.st.d_gnss_observables_map_t0 = [] ∧
          r.after.st.d_gnss_observables_map_t1 = []) := by
  obtain ⟨s1, s2⟩ := work_epoch_snapshots D C ops inp s e h
  refine ⟨s1, s2, ?_⟩
  intro hdis calls b rs h0 h1 hrun
  exact (run_invariant D C ops
    (fun y => y.st.d_gnss_observables_map_t0 = [] ∧ y.st.d_gnss_observables_map_t1 = [])
    (by
      intro c y r hy hc
      obtain ⟨a0, a1⟩ := call_snapshots_disabled D C ops hdis c y r hc
      exact ⟨a0.trans hy.1, a1.trans hy.2⟩)
    calls b rs ⟨h0, h1⟩ hrun).2

/-- Evaluation of `work_epoch_snapshot_update`: in the sample iteration with correction
enabled the previous snapshot moves to `t0` and the first entry of the new `t1` is the first
input item with its receiver time moved by the offset of 2e-7 s. -/
theorem work_epoch_snapshot_update_witness :
    ∃ e f1 rest1, work_epoch gnssConsts { sample_config true with d_output_rate_ms := 1000 }
        scripted_ops (sample_input (10001 / 100))
        (sample_state_t1 [(true, 1 / 5000000, true)] []
          [(0, sample_obs 3 "1C" 0 (9999 / 100) 20000000 0)]) = some e ∧
      e.st.d_gnss_observables_map_t0 = [(0, sample_obs 3 "1C" 0 (9999 / 100) 20000000 0)] ∧
      e.st.d_gnss_observables_map_t1 = (0, f1) :: rest1 ∧
      f1.RX_time = 10001 / 100 - 1 / 5000000 := by
  obtain ⟨e, he, _, _, _, _, _⟩ := sample_enabled_epoch_at 1000 (by norm_num) 99990
    (by norm_num) (9999 / 100) (by norm_num) (10001 / 100) []
  obtain ⟨s1, s2⟩ := (work_epoch_snapshot_update gnssConsts
    { sample_config true with d_output_rate_ms := 1000 } scripted_ops
    (sample_input (10001 / 100))
    (sample_state_t1 [(true, 1 / 5000000, true)] []
      [(0, sample_obs 3 "1C" 0 (9999 / 100) 20000000 0)]) e he).1
    ⟨rfl, by rw [sample_t1_observable_set]; exact List.cons_ne_nil _ _, rfl,
      sample_t1_offset_small _ _ _ _⟩
  rw [sample_t1_observable_set] at s2
  obtain ⟨f1, rest1, hf1, hrx⟩ := apply_rx_clock_offset_head gnssConsts
    (sample_state_t1 [(true, 1 / 5000000, true)] []
      [(0, sample_obs 3 "1C" 0 (9999 / 100) 20000000 0)]).d_mapStringValues 0
    (sample_input (10001 / 100) 0)
    [(1, sample_input (10001 / 100) 1), (2, sample_input (10001 / 100) 2)]
    (internal_offset { sample_config true with d_output_rate_ms := 1000 } scripted_ops
      (sample_input (10001 / 100))
      (sample_state_t1 [(true, 1 / 5000000, true)] []
        [(0, sample_obs 3 "1C" 0 (9999 / 100) 20000000 0)]))
  exact ⟨e, f1, rest1, he, s1, s2.trans hf1, hrx⟩

/-! ## Claim on the headers-written flag and the RINEX printer -/

/-- The flag `d_rinex_header_written` in one call: it can only be set, and only when
`d_rinex_output_enabled` is set. -/
theorem call_header_flag {σ : Type} (D : Consts) (C : Config) (ops : SolverOps σ) (c : Call)
    (b : Pvt_gs σ) (r : Outcome σ) (h : call D C ops c b = some r) :
    (b.d_rinex_header_written = true → r.after.d_rinex_header_written = true) ∧
      (r.after.d_rinex_header_written = true →
        b.d_rinex_header_written = true ∨ C.d_rinex_output_enabled = true) := by
  rcases call_cases D C ops c b r h with ⟨inp, e, _, _, _, hw⟩ | ⟨_, hw, _⟩
  · rw [hw]
    unfold rinex_header_block
    constructor
    · intro hb
      rw [hb]
      split_ifs <;> rfl
    · intro ha
      split_ifs at ha with h1 h2 h3 h4
      · exact Or.inr h2
      · exact Or.inl ha
      · exact Or.inl ha
      · exact Or.inl ha
      · exact Or.inl ha
  · rw [hw]
    exact ⟨id, Or.inl⟩

/-- With the flag implying that the printer exists, `msg_handler_telemetry` completes on every
message: it calls `log_rinex_nav` only with the flag set. -/
theorem call_telemetry_total {σ : Type} (D : Consts) (C : Config) (ops : SolverOps σ)
    (msg : Telemetry_msg) (b : Pvt_gs σ)
    (hinv : b.d_rinex_header_written = true → C.d_rinex_output_enabled = true) :
    ∃ r, call D C ops (Call.msg_handler_telemetry msg) b = some r ∧
      (r.logs ≠ [] → (d_rp C).isSome = true) := by
  have hl : (msg_handler_telemetry_all C b.d_rinex_header_written msg b.st).2 ≠ [] →
      d_rp C = some () := by
    intro hne
    cases hw : b.d_rinex_header_written with
    | false =>
      rw [hw, msg_handler_telemetry_all_no_logs] at hne
      exact absurd rfl hne
    | true =>
      unfold d_rp
      rw [if_pos (hinv hw)]
  simp only [call]
  generalize msg_handler_telemetry_all C b.d_rinex_header_written msg b.st = res at hl
  obtain ⟨st, logs⟩ := res
  cases logs with
  | nil =>
    cases hrp : d_rp C <;> exact ⟨_, rfl, fun hx => absurd rfl hx⟩
  | cons l ls =>
    rw [hl (List.cons_ne_nil _ _)]
    exact ⟨_, rfl, fun _ => rfl⟩

/-- Claim C30: starting from the block as constructed (`d_rinex_header_written` is `false`, and
`d_rp` holds a printer exactly when `d_rinex_output_enabled` is set), after every call of a
completed sequence of calls a set flag `d_rinex_header_written` implies that
`d_rinex_output_enabled` is set and that `d_rp` holds a printer; a set flag stays set in every
later call; and in the starting block and after every call `msg_handler_telemetry` completes on
every message, its calls of `log_rinex_nav` being made with a printer in `d_rp`. -/
theorem run_header_written {σ : Type} (D : Consts) (C : Config) (ops : SolverOps σ)
    (calls : List Call) (b : Pvt_gs σ) (rs : List (Outcome σ))
    (h0 : b.d_rinex_header_written = false) (h : run D C ops calls b = some rs) :
    (∀ r ∈ rs, r.after.d_rinex_header_written = true →
      C.d_rinex_output_enabled = true ∧ (d_rp C).isSome = true) ∧
    (∀ pre r post, rs = pre ++ r :: post → r.after.d_rinex_header_written = true →
      ∀ x ∈ post, x.after.d_rinex_header_written = true) ∧
    (∀ msg, ∃ x, call D C ops (Call.msg_handler_telemetry msg) b = some x ∧
      (x.logs ≠ [] → (d_rp C).isSome = true)) ∧
    (∀ r ∈ rs, ∀ msg, ∃ x, call D C ops (Call.msg_handler_telemetry msg) r.after = some x ∧
      (x.logs ≠ [] → (d_rp C).isSome = true)) := by
  have hinv := (run_invariant D C ops
    (fun y => y.d_rinex_header_written = true → C.d_rinex_output_enabled = true)
    (by
      intro c y r hy hc hr
      rcases (call_header_flag D C ops c y r hc).2 hr with hx | hx
      · exact hy hx
      · exact hx)
    calls b rs (by intro hx; rw [h0] at hx; cases hx) h).2
  refine ⟨?_, ?_, ?_, ?_⟩
  · intro r hr hw
    have hen := hinv r hr hw
    refine ⟨hen, ?_⟩
    unfold d_rp
    rw [if_pos hen]
    rfl
  · intro pre r post hsplit hw x hx
    rw [hsplit] at h
    obtain ⟨_, _, cs2, _, _, h2⟩ := run_split D C ops calls b pre post r h
    exact (run_invariant D C ops (fun y => y.d_rinex_header_written = true)
      (fun c y r hy hc => (call_header_flag D C ops c y r hc).1 hy) cs2 r.after post hw h2).2
      x hx
  · intro msg
    exact call_telemetry_total D C ops msg b (by intro hx; rw [h0] at hx; cases hx)
  · intro r hr msg
    exact call_telemetry_total D C ops msg r.after (hinv r hr)

/-- Evaluation of `run_header_written`: with RINEX output enabled, receiver type 1 and
correction disabled, the sample iteration at 100.02 s takes the output branch and writes the
headers; a GPS ephemeris for PRN 5, new for the store, is then logged through the printer. -/
theorem run_header_written_witness :
    ∃ r x, run gnssConsts sample_config_rinex
        scripted_ops [Call.work_epoch (sample_input (10002 / 100))]
        ⟨sample_state [(true, 1 / 5000000, true)] [] false, false⟩ = some [r] ∧
      r.after.d_rinex_header_written = true ∧
      call gnssConsts sample_config_rinex scripted_ops
        (Call.msg_handler_telemetry (Telemetry_msg.ephemeris (Ephemeris_msg.gps ⟨5, 0⟩)))
        r.after = some x ∧
      x.logs ≠ [] ∧
      (d_rp sample_config_rinex).isSome = true := by
  have hset : observable_set sample_config_rinex
      (sample_input (10002 / 100)) (sample_state [(true, 1 / 5000000, true)] [] false) =
      (0, sample_input (10002 / 100) 0) ::
        [(1, sample_input (10002 / 100) 1), (2, sample_input (10002 / 100) 2)] := by
    rw [observable_set_eq _ _ _ rfl]
    exact sample_ingest_map _ [(true, 1 / 5000000, true)]
      (sample_solver [(true, 1 / 5000000, true)]).core
  have hms : static_cast_uint32 ((sample_input (10002 / 100) 0).RX_time * 1000) =
      some 100020 := by
    have h : (sample_input (10002 / 100) 0).RX_time * 1000 = ((100020 : Nat) : ℚ) := by
      norm_num [sample_input, sample_obs]
    rw [h]
    exact static_cast_uint32_natCast 100020 (by norm_num)
  obtain ⟨e, he, _, _, _, _, _, _, h7, h8⟩ := work_epoch_accepted_disabled gnssConsts
    sample_config_rinex scripted_ops
    (sample_input (10002 / 100)) (sample_state [(true, 1 / 5000000, true)] [] false)
    rfl rfl rfl rfl
    (by
      show ¬ offset_too_large _ (1 / 5000000)
      unfold offset_too_large
      norm_num [sample_config_rinex, sample_config, abs_of_pos])
    (by show (1000 : Nat) ≠ 0; norm_num)
    (by simp [track_rates_ok, sample_config_rinex, sample_config])
    (sample_input_channels false _) 0 (sample_input (10002 / 100) 0) _ hset 100020 hms
  have hnd : ¬ ((100020 : Nat) %
      sample_config_rinex.d_output_rate_ms = 0) := by
    show ¬ ((100020 : Nat) % 1000 = 0)
    norm_num
  rw [if_neg hnd] at h7 h8
  have hb : output_branch sample_config_rinex
      scripted_ops e := by
    refine ⟨h7, ?_⟩
    intro hx
    cases hx.1
  obtain ⟨r, hcall, hep, hst⟩ := call_work_epoch_eq gnssConsts
    sample_config_rinex scripted_ops
    (sample_input (10002 / 100)) ⟨sample_state [(true, 1 / 5000000, true)] [] false, false⟩
    e he
  obtain ⟨e', he', hep', _, _, hw⟩ := call_work_epoch gnssConsts
    sample_config_rinex scripted_ops
    (sample_input (10002 / 100)) ⟨sample_state [(true, 1 / 5000000, true)] [] false, false⟩
    r hcall
  have hee : e' = e := by
    rw [he] at he'
    cases he'
    rfl
  subst hee
  have hflag : r.after.d_rinex_header_written = true := by
    rw [hw, if_pos hb]
    have hu : user_solver sample_config_rinex e'.st = _ := h8
    rw [hu]
    rfl
  have hrun := run_single _ _ _ _ _ _ hcall
  obtain ⟨t1, _, _, t4⟩ := run_header_written gnssConsts
    sample_config_rinex scripted_ops _ _ _ rfl hrun
  obtain ⟨x, hx, _⟩ := t4 r (by simp)
    (Telemetry_msg.ephemeris (Ephemeris_msg.gps ⟨5, 0⟩))
  refine ⟨r, x, hrun, hflag, hx, ?_, (t1 r (by simp) hflag).2⟩
  have hnew : new_for_store r.after.st.d_internal_pvt_solver (Ephemeris_msg.gps ⟨5, 0⟩) := by
    rw [hst, h8]
    exact Or.inl rfl
  have hl : (msg_handler_telemetry_all sample_config_rinex true
      (Telemetry_msg.ephemeris (Ephemeris_msg.gps ⟨5, 0⟩)) r.after.st).2 =
      [⟨Nav_file.navFile, [Nav_arg.gps [(5, ⟨5, 0⟩)]]⟩] := by
    simp only [msg_handler_telemetry_all]
    rw [msg_handler_gps_ephemeris_new_logs _ _ _ hnew]
    rfl
  have hrp : d_rp sample_config_rinex = some () := rfl
  simp only [call, hflag, hl, hrp, Option.some.injEq] at hx
  rw [← hx]
  exact List.cons_ne_nil _ _

/-! ## Claim on the correction before clamping -/

theorem pps_controller_estimator {σ : Type} (C : Config) (ops : SolverOps σ) (e : Epoch σ) :
    (pps_controller C ops e).st.d_estimator =
        (if C.d_PPS_estimator_selected = true then
          e.st.d_estimator * 0.9 +
            5.5e-8 * (e.st.d_LO_external_frequ - e.st.d_LO_external_frequ_init) +
            0.1 * (ops.get_time_offset_s e.st.d_internal_pvt_solver.core -
              e.st.d_pps_init_offset)
        else e.st.d_estimator) ∧
      (pps_controller C ops e).st.d_estimator_prev =
        (if C.d_PPS_estimator_selected = true then e.st.d_estimator
          else e.st.d_estimator_prev) := by
  unfold pps_controller
  by_cases hest : C.d_PPS_estimator_selected = true
  · simp only [hest, if_true]
    split_ifs <;> exact ⟨rfl, rfl⟩
  · simp only [hest, if_false, Bool.false_eq_true]
    split_ifs <;> exact ⟨rfl, rfl⟩

/-- With correction enabled the internal solver is left, at the end of an iteration with a
non-empty Observable Set, in the state produced by the internal solve. -/
theorem work_epoch_internal_core {σ : Type} (D : Consts) (C : Config) (ops : SolverOps σ)
    (inp : Nat → Gnss_Synchro) (s : State σ) (e : Epoch σ)
    (hen : C.d_enable_rx_clock_correction = true) (hne : observable_set C inp s ≠ [])
    (h : work_epoch D C ops inp s = some e) :
    e.st.d_internal_pvt_solver.core =
      (ops.get_PVT s.d_internal_pvt_solver (observable_set C inp s) false).2 := by
  obtain ⟨e0, hread, hcase⟩ := work_epoch_cases D C ops inp s e h
  obtain ⟨_, _, _, r4, _⟩ := read_pseudoranges_view C inp s e0 hread
  have hset : observable_set C inp s = e0.st.d_gnss_observables_map := by
    unfold observable_set
    rw [hread]
  rw [hset, ← r4]
  rcases hcase with ⟨hemp, _⟩ | ⟨_, e1, e2, h1, h2, he⟩
  · rw [hset] at hne
    exact absurd hemp hne
  · obtain ⟨_, p2, _⟩ := pvt_valid_block_locals D C ops _ _ h2
    obtain ⟨_, _, d3, _⟩ := display_block_calls C ops e2
    obtain ⟨m1, _⟩ := pvt_monitor_calls C ops (display_block C ops e2)
    have hu : (user_solve C ops e1).st.d_internal_pvt_solver = e1.st.d_internal_pvt_solver := by
      unfold user_solve set_user_core
      split_ifs <;> rfl
    rw [he, m1, d3, p2, hu]
    by_cases hok :
        (ops.get_PVT e0.st.d_internal_pvt_solver e0.st.d_gnss_observables_map false).1 = true
    · by_cases hbig : offset_too_large C (ops.get_time_offset_s
          (ops.get_PVT e0.st.d_internal_pvt_solver e0.st.d_gnss_observables_map false).2)
      · rw [internal_solve_too_large D C ops e0 hok hbig] at h1
        cases h1
        rfl
      · rw [internal_solve_accepted_call D C ops e0 hok hbig] at h1
        obtain ⟨a1, _⟩ := offset_accepted_solvers D C _ _ _ h1
        rw [a1]
        rfl
    · rw [internal_solve_failed D C ops e0 (by simpa using hok)] at h1
      cases h1
      rfl

/-- Claim C25: in a completed iteration whose controller runs, let `base` and `fbase` be the
baselines in force (those taken in this iteration when it is the first fix, the stored ones
otherwise), `Eold` the estimator entering the run (zero at the first fix) and `off` the clock
offset of the internal solver.  The correction is the clamped value of
`X * (Kp + Ki) - Xprev * Kp`.  In estimator mode `X` is the updated estimator
`0.9 * Eold + 5.5e-8 * (f_current - fbase) + 0.1 * (off - base)` and `Xprev = Eold`.  In direct
mode `X = off - base` and `Xprev` is `d_pps_offset - base` with `d_pps_offset` as the iteration
finds it: the offset read by the previous controller run, so `Xprev` is the error of that run;
before the first run `d_pps_offset` has never been assigned, and the zero that the first-fix
block stores in `d_pps_prev_error` is overwritten by `d_pps_offset - base` before it is used,
so on the first run after the first fix `Xprev` is not 0. -/
theorem work_epoch_controller_correction {σ : Type} (D : Consts) (C : Config)
    (ops : SolverOps σ) (inp : Nat → Gnss_Synchro) (s : State σ) (e : Epoch σ)
    (h : work_epoch D C ops inp s = some e) (hrun : controller_runs C ops e) :
    e.st.d_pps_init_offset =
        (if s.d_first_fix = true then ops.get_time_offset_s (user_solver C e.st).core
          else s.d_pps_init_offset) ∧
      e.st.d_LO_external_frequ_init =
        (if s.d_first_fix = true then s.d_LO_external_frequ
          else s.d_LO_external_frequ_init) ∧
      e.st.d_pps_offset = ops.get_time_offset_s e.st.d_internal_pvt_solver.core ∧
      (C.d_PPS_estimator_selected = true →
        e.st.d_estimator_prev = (if s.d_first_fix = true then 0 else s.d_estimator) ∧
        e.st.d_estimator =
          e.st.d_estimator_prev * 0.9 +
            5.5e-8 * (s.d_LO_external_frequ - e.st.d_LO_external_frequ_init) +
            0.1 * (e.st.d_pps_offset - e.st.d_pps_init_offset) ∧
        e.st.d_FREQU_correction = max (-0.074) (min 0.074
          (e.st.d_estimator * (C.d_PPS_Kp + C.d_PPS_Ki) -
            e.st.d_estimator_prev * C.d_PPS_Kp))) ∧
      (C.d_PPS_estimator_selected = false →
        e.st.d_pps_prev_error = s.d_pps_offset - e.st.d_pps_init_offset ∧
        e.st.d_FREQU_correction = max (-0.074) (min 0.074
          ((e.st.d_pps_offset - e.st.d_pps_init_offset) * (C.d_PPS_Kp + C.d_PPS_Ki) -
            (s.d_pps_offset - e.st.d_pps_init_offset) * C.d_PPS_Kp))) := by
  obtain ⟨hb, _⟩ := controller_runs_output_branch D C ops inp s e h hrun
  obtain ⟨e2, hst, hfl, hint, hu, hcs⟩ := work_epoch_display_context D C ops inp s e h
  have hrun2 := work_epoch_controller_run C ops e e2 hst hfl hu hrun
  obtain ⟨m1, _, m3, m4, m5, m6, _, _⟩ := pps_controller_members C ops e2
  obtain ⟨n1, n2⟩ := pps_controller_estimator C ops e2
  rw [← hrun2] at m1 m3 m4 m5 m6 n1 n2
  have hcs2 : controller_state e2.st =
      (if s.d_first_fix = true then
        [ops.get_time_offset_s (user_solver C e.st).core, 0, s.d_pps_offset, 0,
          s.d_estimator_prev, s.d_FREQU_correction, s.d_LO_external_frequ,
          s.d_LO_external_frequ]
      else controller_state s) := by
    rw [hcs]
    by_cases hff : s.d_first_fix = true
    · rw [if_pos ⟨hb, hff, hrun.2⟩, if_pos hff]
    · rw [if_neg (fun hx => hff hx.2.1), if_neg hff]
  have hfields : e2.st.d_pps_init_offset =
        (if s.d_first_fix = true then ops.get_time_offset_s (user_solver C e.st).core
          else s.d_pps_init_offset) ∧
      e2.st.d_pps_offset = s.d_pps_offset ∧
      e2.st.d_estimator = (if s.d_first_fix = true then 0 else s.d_estimator) ∧
      e2.st.d_LO_external_frequ = s.d_LO_external_frequ ∧
      e2.st.d_LO_external_frequ_init =
        (if s.d_first_fix = true then s.d_LO_external_frequ
          else s.d_LO_external_frequ_init) := by
    split_ifs at hcs2 ⊢ <;>
      simp only [controller_state, List.cons.injEq, and_true] at hcs2 <;>
      exact ⟨hcs2.1, hcs2.2.2.1, hcs2.2.2.2.1, hcs2.2.2.2.2.2.2.1, hcs2.2.2.2.2.2.2.2⟩
  obtain ⟨q1, q2, q3, q4, q5⟩ := hfields
  have hoff : e.st.d_pps_offset = ops.get_time_offset_s e.st.d_internal_pvt_solver.core := by
    rw [m4, hint]
  have hinit : e.st.d_pps_init_offset = e2.st.d_pps_init_offset := m5
  have hfinit : e.st.d_LO_external_frequ_init = e2.st.d_LO_external_frequ_init := m6
  refine ⟨hinit.trans q1, hfinit.trans q5, hoff, ?_, ?_⟩
  · intro hest
    rw [if_pos hest] at m1 n1 n2
    refine ⟨n2.trans q3, ?_, ?_⟩
    · rw [n1, n2, hfinit, hinit, m4, ← q4]
    · rw [m1, n1, n2]
  · intro hdir
    rw [if_neg (by rw [hdir]; simp)] at m1 m3
    refine ⟨?_, ?_⟩
    · rw [m3, hinit, ← q2]
    · rw [m1, m4, hinit, ← q2]

/-- Evaluation of `work_epoch_controller_correction` on the first controller run after the
first fix, in direct mode with `Kp = 1`, `Ki = 0`: the user solution gives the offset baseline
5e-7 s, the internal solver the offset 2e-7 s, and `d_pps_offset` is 0 before the run.  The
previous error used by the run is `0 - 5e-7`, not 0, and the correction is 2e-7 Hz instead of
the `-3e-7` Hz that a previous error of 0 would give. -/
theorem work_epoch_controller_correction_witness :
    ∃ e, work_epoch gnssConsts (sample_config_with 500 true 1 0) scripted_ops
        (sample_input (10001 / 100))
        (sample_state_t1 [(true, 1 / 5000000, true)] [(true, 1 / 2000000, true)] sample_t1) =
          some e ∧
      (sample_state_t1 [(true, 1 / 5000000, true)] [(true, 1 / 2000000, true)]
        sample_t1).d_first_fix = true ∧
      (sample_config_with 500 true 1 0).d_PPS_estimator_selected = false ∧
      e.st.d_pps_init_offset = 1 / 2000000 ∧
      e.st.d_pps_offset = 1 / 5000000 ∧
      e.st.d_pps_prev_error = -(1 / 2000000) ∧
      e.st.d_FREQU_correction = 1 / 5000000 := by
  obtain ⟨e, he, _, hv, hms, hoff, hpos⟩ :=
    sample_enabled_epoch_with 500 true 1 0 (1 / 2000000)
  have hb : output_branch (sample_config_with 500 true 1 0) scripted_ops e := by
    refine ⟨hv, ?_⟩
    intro hx
    have := hx.2
    rw [hoff] at this
    norm_num [abs_of_pos] at this
  obtain ⟨g1, _⟩ := work_epoch_gating gnssConsts (sample_config_with 500 true 1 0)
    scripted_ops _ _ e he
  rw [if_pos hb, hms] at g1
  simp only [gating_flags, gating_due, List.cons.injEq] at g1
  have hrun : controller_runs (sample_config_with 500 true 1 0) scripted_ops e :=
    ⟨⟨hpos, g1.1.trans rfl⟩, rfl⟩
  have hne : observable_set (sample_config_with 500 true 1 0) (sample_input (10001 / 100))
      (sample_state_t1 [(true, 1 / 5000000, true)] [(true, 1 / 2000000, true)] sample_t1) ≠
      [] := by
    have hset : observable_set (sample_config_with 500 true 1 0) (sample_input (10001 / 100))
        (sample_state_t1 [(true, 1 / 5000000, true)] [(true, 1 / 2000000, true)] sample_t1) =
        (0, sample_input (10001 / 100) 0) ::
          [(1, sample_input (10001 / 100) 1), (2, sample_input (10001 / 100) 2)] := by
      rw [observable_set_eq _ _ _ rfl]
      exact sample_ingest_map _ [(true, 1 / 5000000, true)]
        (sample_solver [(true, 1 / 5000000, true)]).core
    rw [hset]
    exact List.cons_ne_nil _ _
  have hcore := work_epoch_internal_core gnssConsts (sample_config_with 500 true 1 0)
    scripted_ops _ _ e rfl hne he
  have hint : scripted_ops.get_time_offset_s e.st.d_internal_pvt_solver.core = 1 / 5000000 := by
    rw [hcore]
    rfl
  obtain ⟨c1, _, c3, _, c5⟩ := work_epoch_controller_correction gnssConsts
    (sample_config_with 500 true 1 0) scripted_ops _ _ e he hrun
  obtain ⟨c6, c7⟩ := c5 rfl
  have hinit : e.st.d_pps_init_offset = 1 / 2000000 := by
    have hff : (sample_state_t1 [(true, 1 / 5000000, true)] [(true, 1 / 2000000, true)]
        sample_t1).d_first_fix = true := rfl
    rw [c1, if_pos hff, hoff]
  have hpo : e.st.d_pps_offset = 1 / 5000000 := c3.trans hint
  refine ⟨e, he, rfl, rfl, hinit, hpo, ?_, ?_⟩
  · rw [c6, hinit]
    show (0 : ℚ) - 1 / 2000000 = -(1 / 2000000)
    norm_num
  · rw [c7, hpo, hinit]
    show max (-0.074 : ℚ) (min 0.074
      ((1 / 5000000 - 1 / 2000000) * (1 + 0) - (0 - 1 / 2000000) * 1)) = 1 / 5000000
    rw [min_eq_right (by norm_num), max_eq_right (by norm_num)]
    norm_num

/-! ## Claim on the records of the two stores -/

theorem msg_handler_telemetry_assign {σ : Type} (C : Config) (hw : Bool) (msg : Ephemeris_msg)
    (s : State σ) :
    ∃ set : Rtklib_Solver σ → Rtklib_Solver σ, acts_on_records set ∧
      (msg_handler_telemetry C hw msg s).1 = assign_both C set s := by
  cases msg with
  | gps m =>
    refine ⟨fun sol => { sol with
      gps_ephemeris_map := map_assign sol.gps_ephemeris_map (to_int32 m.i_satellite_PRN) m },
      ?_, rfl⟩
    intro a b hab
    rw [store_records_eq_iff] at hab ⊢
    simp only [hab, and_self]
  | gps_cnav m =>
    refine ⟨fun sol => { sol with
      gps_cnav_ephemeris_map := map_assign sol.gps_cnav_ephemeris_map (to_int32 m.i_satellite_PRN) m },
      ?_, rfl⟩
    intro a b hab
    rw [store_records_eq_iff] at hab ⊢
    simp only [hab, and_self]
  | galileo m =>
    refine ⟨fun sol => { sol with
      galileo_ephemeris_map := map_assign sol.galileo_ephemeris_map (to_int32 m.i_satellite_PRN) m },
      ?_, rfl⟩
    intro a b hab
    rw [store_records_eq_iff] at hab ⊢
    simp only [hab, and_self]
  | glonass_gnav m =>
    refine ⟨fun sol => { sol with
      glonass_gnav_ephemeris_map := map_assign sol.glonass_gnav_ephemeris_map (to_int32 m.i_satellite_PRN) m },
      ?_, rfl⟩
    intro a b hab
    rw [store_records_eq_iff] at hab ⊢
    simp only [hab, and_self]
  | beidou_dnav m =>
    refine ⟨fun sol => { sol with
      beidou_dnav_ephemeris_map := map_assign sol.beidou_dnav_ephemeris_map (to_int32 m.i_satellite_PRN) m },
      ?_, rfl⟩
    intro a b hab
    rw [store_records_eq_iff] at hab ⊢
    simp only [hab, and_self]

theorem msg_handler_telemetry_all_records {σ : Type} (C : Config) (hw : Bool)
    (msg : Telemetry_msg) (s : State σ)
    (h : store_records (user_solver C s) = store_records s.d_internal_pvt_solver) :
    store_records (user_solver C (msg_handler_telemetry_all C hw msg s).1) =
      store_records (msg_handler_telemetry_all C hw msg s).1.d_internal_pvt_solver := by
  have hfield : ∀ set : Rtklib_Solver σ → Rtklib_Solver σ, acts_on_records set →
      ∀ x : State σ,
        store_records (user_solver C x) = store_records x.d_internal_pvt_solver →
        store_records (user_solver C (assign_both C set x)) =
          store_records (assign_both C set x).d_internal_pvt_solver :=
    fun set hset x hx => assign_both_records C set hset x hx
  have hgal : ∀ a : Galileo_Almanac, acts_on_records (assign_galileo_almanac (σ := σ) a) := by
    intro a x y hxy
    rw [store_records_eq_iff] at hxy ⊢
    simp only [assign_galileo_almanac, hxy, and_self]
  cases msg with
  | ephemeris m =>
    obtain ⟨set, hset, heq⟩ := msg_handler_telemetry_assign C hw m s
    simp only [msg_handler_telemetry_all]
    rw [heq]
    exact hfield set hset s h
  | gps_cnav_utc_model r =>
    simp only [msg_handler_telemetry_all]
    apply update_user_records C _ _ s h
    intro x y hxy
    rw [store_records_eq_iff] at hxy ⊢
    simp only [hxy, and_self]
  | galileo_almanac_helper sv1 sv2 sv3 =>
    simp only [msg_handler_telemetry_all]
    have step : ∀ (a : Galileo_Almanac) (x : State σ),
        store_records (user_solver C x) = store_records x.d_internal_pvt_solver →
        store_records (user_solver C
          (if a.i_satellite_PRN ≠ 0 then assign_both C (assign_galileo_almanac a) x else x)) =
        store_records
          (if a.i_satellite_PRN ≠ 0 then assign_both C (assign_galileo_almanac a) x
            else x).d_internal_pvt_solver := by
      intro a x hx
      split_ifs
      · exact hfield _ (hgal a) x hx
      · exact hx
    exact step sv3 _ (step sv2 _ (step sv1 s h))
  | galileo_almanac a =>
    simp only [msg_handler_telemetry_all]
    exact hfield _ (hgal a) s h
  | unknown => exact h
  | gps_almanac a =>
    simp only [msg_handler_telemetry_all]
    apply hfield _ _ s h
    intro x y hxy
    rw [store_records_eq_iff] at hxy ⊢
    simp only [assign_gps_almanac, hxy, and_self]
  | beidou_dnav_almanac a =>
    simp only [msg_handler_telemetry_all]
    apply hfield _ _ s h
    intro x y hxy
    rw [store_records_eq_iff] at hxy ⊢
    simp only [assign_beidou_dnav_almanac, hxy, and_self]
  | _ =>
    simp only [msg_handler_telemetry_all]
    apply hfield _ _ s h
    intro x y hxy
    rw [store_records_eq_iff] at hxy ⊢
    simp only [hxy, and_self]

/-- Claim C22: if the records of the store behind `d_user_pvt_solver` equal those of the
internal store before `msg_handler_telemetry` handles a message of any kind, or before
`clear_ephemeris`, they are equal after it, whether the two pointers designate one object
(correction disabled) or two (correction enabled). -/
theorem store_records_preserved {σ : Type} (C : Config) (d_rinex_header_written : Bool)
    (msg : Telemetry_msg) (s : State σ)
    (h : store_records (user_solver C s) = store_records s.d_internal_pvt_solver) :
    store_records
        (user_solver C (msg_handler_telemetry_all C d_rinex_header_written msg s).1) =
      store_records
        (msg_handler_telemetry_all C d_rinex_header_written msg s).1.d_internal_pvt_solver ∧
    store_records (user_solver C (clear_ephemeris C s)) =
      store_records (clear_ephemeris C s).d_internal_pvt_solver := by
  refine ⟨msg_handler_telemetry_all_records C d_rinex_header_written msg s h, ?_⟩
  apply assign_both_records C clear_maps _ s h
  intro x y hxy
  rw [store_records_eq_iff] at hxy ⊢
  simp only [clear_maps, hxy, and_self]

/-- Evaluation of `store_records_preserved`: two independent stores with the same three GPS
ephemerides, a GPS CNAV UTC model message and `clear_ephemeris`. -/
theorem store_records_preserved_witness :
    store_records (user_solver (sample_config true)
        (msg_handler_telemetry_all (sample_config true) false
          (Telemetry_msg.gps_cnav_utc_model ⟨[1, 2]⟩)
          (sample_state [(true, 0, true)] [] false)).1) =
      store_records (msg_handler_telemetry_all (sample_config true) false
        (Telemetry_msg.gps_cnav_utc_model ⟨[1, 2]⟩)
        (sample_state [(true, 0, true)] [] false)).1.d_internal_pvt_solver ∧
    store_records (user_solver (sample_config true)
        (clear_ephemeris (sample_config true) (sample_state [(true, 0, true)] [] false))) =
      store_records (clear_ephemeris (sample_config true)
        (sample_state [(true, 0, true)] [] false)).d_internal_pvt_solver :=
  store_records_preserved (sample_config true) false (Telemetry_msg.gps_cnav_utc_model ⟨[1, 2]⟩)
    (sample_state [(true, 0, true)] [] false) rfl

/-! ## Claim on signal codes that are not registered -/

end rtklib_pvt_gs
